import Mathlib

/-!
# DRAMsim3 thermal calculator

A shallow embedding of `src/thermal.cc` (class `ThermalCalculator`) and proofs of
properties of the geometry model, the power-map accumulator and the epoch state machine.

Conventions of the embedding.

* C `double` values are rationals (`ℚ`).  The exact embedding does not round; the rounded
  embedding (the definitions with the suffix `_fl`) applies a rounding function after every
  floating-point operation, and `roundToDouble` is the IEEE 754 binary64 rounding.  A
  quotient by zero is 0 in the exact embedding, where the program gets an infinity or a
  NaN; the rounded `determineXY` represents that case by `none`.
* C `int` values are integers (`Int`) with truncating division (`Int.tdiv`, `Int.tmod`).
  The `uint32_t` refresh counters and the `uint32_t` copies of channel and rank are natural
  numbers reduced modulo `2^32`.
* `std::vector` is `List`.  Indexing a vector outside its bounds is undefined behaviour in
  C++; the embedding reads a default value there and drops such a write, and every theorem
  that depends on an access being inside the vector says so in its hypotheses.
* The heat-diffusion solver and the constants of `thermal.h` are parameters.  The remap
  function `GetPhyAddress` is a field of the calculator state; `SetPhyAddressMapping`
  computes it from the specification string.  Strings are lists of characters, and the
  string helpers `StringSplit` and `std::stoi` are parameters (`StringOps`).
* The packed integer of the remap lambda is a natural number below `2^64`.  A shift by a
  negative amount or by 64 or more is undefined behaviour in C++; the embedding shifts by
  the amount clamped at 0 and drops the bits from `2^64` on.
* The `while` loop of `calculate_time_step` runs on fuel and returns `none` when the fuel
  runs out; the steady-state solver of `CalcFinalT` is a function parameter.
-/

namespace DRAMsim3

/-! ## Machine integers and vectors -/

/-- Conversion of a C `int` to `uint32_t`: the value modulo `2^32`. -/
def toU32 (n : Int) : Nat := (n % 4294967296).toNat

/-- Conversion of an unsigned 32-bit value to `int` (two's complement). -/
def toI32 (u : Nat) : Int :=
  if u % 4294967296 < 2147483648 then ((u % 4294967296 : Nat) : Int)
  else ((u % 4294967296 : Nat) : Int) - 4294967296

/-- Read `v[i]` for a C `int` index; `d` outside the vector. -/
def vget {α : Type} (v : List α) (i : Int) (d : α) : α :=
  if 0 ≤ i then v.getD i.toNat d else d

/-- The statement `v[i] = f(v[i])` for a C `int` index; dropped outside the vector. -/
def vmodify {α : Type} (v : List α) (i : Int) (f : α → α) : List α :=
  if 0 ≤ i then v.modify f i.toNat else v

/-- The statement `m[c][i] += e` on a vector of vectors of doubles. -/
def addAt (m : List (List ℚ)) (c i : Int) (e : ℚ) : List (List ℚ) :=
  vmodify m c (fun row => vmodify row i (fun v => v + e))

/-- The values `0, 1, ..., n-1` taken by the variable of `for (k = 0; k < n; k++)`. -/
def upto (n : Int) : List Int := (List.range n.toNat).map Int.ofNat

/-! ## Addresses, commands, configuration -/

/-- The six integer fields of an address (`common.h`). -/
structure Address where
  channel_ : Int
  rank_ : Int
  bankgroup_ : Int
  bank_ : Int
  row_ : Int
  column_ : Int
deriving DecidableEq, Repr

/-- Command kinds (`common.h`). -/
inductive CommandType where
  | READ
  | READ_PRECHARGE
  | WRITE
  | WRITE_PRECHARGE
  | ACTIVATE
  | PRECHARGE
  | REFRESH_BANK
  | REFRESH
  | SREF_ENTER
  | SREF_EXIT
deriving DecidableEq, Repr

/-- A command: a kind and an address. -/
structure Command where
  cmd_type_ : CommandType
  addr_ : Address
deriving DecidableEq, Repr

/-- Modelled from the spec: `Command::IsRefresh` of `common.h`, true for the two refresh kinds. -/
def Command.IsRefresh (cmd : Command) : Bool :=
  cmd.cmd_type_ = CommandType.REFRESH || cmd.cmd_type_ = CommandType.REFRESH_BANK

/-- Accessor `Command::Channel`. -/
def Command.Channel (cmd : Command) : Int := cmd.addr_.channel_
/-- Accessor `Command::Rank`. -/
def Command.Rank (cmd : Command) : Int := cmd.addr_.rank_
/-- Accessor `Command::Bankgroup`. -/
def Command.Bankgroup (cmd : Command) : Int := cmd.addr_.bankgroup_
/-- Accessor `Command::Bank`. -/
def Command.Bank (cmd : Command) : Int := cmd.addr_.bank_
/-- Accessor `Command::Row`. -/
def Command.Row (cmd : Command) : Int := cmd.addr_.row_
/-- Accessor `Command::Column`. -/
def Command.Column (cmd : Command) : Int := cmd.addr_.column_

/-- The members of `Config` read by the thermal calculator.  `IsHMC` and `IsHBM` are the
results of the two protocol predicates; `power_epoch_period` is a non-negative count of
clock cycles; `loc_mapping` is the remap specification string, empty by default; `tCK` is
the clock period in nanoseconds. -/
structure Config where
  IsHMC : Bool
  IsHBM : Bool
  channels : Int
  ranks : Int
  banks : Int
  bankgroups : Int
  banks_per_group : Int
  rows : Int
  num_dies : Int
  devices_per_rank : Int
  device_width : Int
  BL : Int
  numXgrids : Int
  numYgrids : Int
  matX : Int
  matY : Int
  RowTile : Int
  TileRowNum : Int
  bank_asr : ℚ
  bank_order : Int
  bank_layer_order : Int
  numRowRefresh : Int
  power_epoch_period : Nat
  act_energy_inc : ℚ
  read_energy_inc : ℚ
  write_energy_inc : ℚ
  ref_energy_inc : ℚ
  refb_energy_inc : ℚ
  output_level : Int
  Tamb0 : ℚ
  loc_mapping : List Char := []
  tCK : ℚ := 1

/-- Cumulative background energies of the `Statistics` collaborator, indexed
`[channel][rank]`. -/
structure Statistics where
  sref_energy : List (List ℚ)
  pre_stb_energy : List (List ℚ)
  act_stb_energy : List (List ℚ)
  pre_pd_energy : List (List ℚ)

/-- Modelled from the spec: `Statistics::Stats2DCumuSum`, the single cross-system sum of the
cumulative values of one statistic. -/
def Stats2DCumuSum (st : List (List ℚ)) : ℚ := (st.map List.sum).sum

/-- The entry `stat[jch][jrk].cumulative_value`. -/
def cumulative_value (st : List (List ℚ)) (jch jrk : Int) : ℚ := vget (vget st jch []) jrk 0

/-- What the calculator takes from outside `thermal.cc`: the constants `num_dummy` and `T0`
of `thermal.h` and the two solver entry points used before the end of the run.  The solver
arguments that are fixed at construction (chip size, grid extents, conductance and
capacitance lists, epoch time, iteration count, ambient temperature) are part of the
black box. -/
structure ThermalEnv where
  num_dummy : Int
  T0 : ℚ
  transient_thermal_solver : List (List (List ℚ)) → List ℚ → List ℚ
  initialize_Temperature : Int → Int → Int → ℚ → List ℚ

/-! ## Chip geometry -/

/-- The expression `(x*xd >= y*yd) ? (x*xd/y/yd) : (y*yd/x/xd)` of `determineXY`. -/
def determineXY_asr (xd yd : ℚ) (x y : Int) : ℚ :=
  if (x : ℚ) * xd ≥ (y : ℚ) * yd then (x : ℚ) * xd / (y : ℚ) / yd
  else (y : ℚ) * yd / (x : ℚ) / xd

/-- One iteration of the loop of `determineXY` for the candidate `y`, on the pair
`(x_re, asr_re)`. -/
def determineXY_step (xd yd : ℚ) (total_grids_ : Int) (st : Int × ℚ) (y : Int) : Int × ℚ :=
  let x := total_grids_.tdiv y
  if x * y = total_grids_ then
    let asr := determineXY_asr xd yd x y
    if asr < st.2 then (total_grids_.tdiv y, asr) else st
  else st

/-- The loop of `determineXY` over `y = 1, ..., total_grids_`, from `(x_re, asr_re)`. -/
def determineXY_loop (xd yd : ℚ) (total_grids_ : Int) (st : Int × ℚ) (ys : List Int) :
    Int × ℚ :=
  ys.foldl (determineXY_step xd yd total_grids_) st

/-- The function `ThermalCalculator::determineXY`. -/
def determineXY (xd yd : ℚ) (total_grids_ : Int) : Int :=
  (determineXY_loop xd yd total_grids_ (1, 1000)
    ((upto total_grids_).map (fun k => k + 1))).1

/-- The grid layout computed at the head of the constructor. -/
structure Geometry where
  bank_x : Int
  bank_y : Int
  vault_x : Int
  vault_y : Int
  dimX : Int
  dimY : Int
  numP : Int
  num_case : Int
deriving DecidableEq, Repr

/-- Lines 27 to 64 of the constructor.  The planar branch assigns neither `vault_x` nor
`vault_y`; `vx0` and `vy0` are the indeterminate values those members then hold. -/
def ThermalCalculator_geometry (cfg : Config) (vx0 vy0 : Int) : Geometry :=
  if cfg.IsHMC then
    let numP := cfg.num_dies
    let bank_x : Int := 1
    let bank_y : Int := 2
    let xd : ℚ := (bank_x : ℚ) * cfg.bank_asr
    let yd : ℚ := (bank_y : ℚ) * 1
    let vault_x := determineXY xd yd cfg.channels
    let vault_y := cfg.channels.tdiv vault_x
    { bank_x := bank_x, bank_y := bank_y, vault_x := vault_x, vault_y := vault_y,
      dimX := vault_x * bank_x * cfg.numXgrids,
      dimY := vault_y * bank_y * cfg.numYgrids,
      numP := numP, num_case := 1 }
  else if cfg.IsHBM then
    let numP := cfg.num_dies
    let bank_x : Int := 8
    let bank_y : Int := 2
    let vault_x : Int := 1
    let vault_y : Int := 2
    { bank_x := bank_x, bank_y := bank_y, vault_x := vault_x, vault_y := vault_y,
      dimX := vault_x * bank_x * cfg.numXgrids,
      dimY := vault_y * bank_y * cfg.numYgrids,
      numP := numP, num_case := 1 }
  else
    let bank_x := determineXY cfg.bank_asr 1 cfg.banks
    let bank_y := cfg.banks.tdiv bank_x
    { bank_x := bank_x, bank_y := bank_y, vault_x := vx0, vault_y := vy0,
      dimX := bank_x * cfg.numXgrids,
      dimY := bank_y * cfg.numYgrids,
      numP := 1, num_case := cfg.ranks * cfg.channels }

/-! ## The calculator state -/

/-- One data row `-,-,-,-,<maxT - T0>,<case>` of the per-epoch summary file. -/
structure EpochRow where
  temperature : ℚ
  case_id : Int

/-- One data row of the full per-epoch dump written by `PrintCSV_trans`. -/
structure TransRow where
  id : Int
  x : Int
  y : Int
  z : Int
  power : ℚ
  temperature : ℚ
  epoch : Nat

/-- The members of `ThermalCalculator` that `UpdatePower` reads or writes.  The two files
hold their data rows (the header row written at construction is not represented);
`GetPhyAddress` is the function value installed by `SetPhyAddressMapping`. -/
structure ThermalCalculator extends Geometry where
  Tamb : ℚ
  GetPhyAddress : Address → Address
  accu_Pmap : List (List ℚ)
  cur_Pmap : List (List ℚ)
  T_size : Int
  T_trans : List (List ℚ)
  sref_energy_prev : List ℚ
  pre_stb_energy_prev : List ℚ
  act_stb_energy_prev : List ℚ
  pre_pd_energy_prev : List ℚ
  refresh_count : List (List Nat)
  sample_id : Nat
  save_clk : Nat
  epoch_max_temp_file_csv_ : List EpochRow
  epoch_temperature_file_csv_ : List TransRow

/-- The value `vector<vector<double>>(n, vector<double>(m, 0))`. -/
def zeroMap (n m : Int) : List (List ℚ) := List.replicate n.toNat (List.replicate m.toNat 0)

/-- The constructor, for the members of the state above: the geometry, the two zero power
maps, the initial temperature field of every case (`InitialParameters`), the zero
previous-sample energies and the zero refresh-progress table.  `phy` is the remap function
that `SetPhyAddressMapping` installs. -/
def ThermalCalculator.init (cfg : Config) (env : ThermalEnv) (phy : Address → Address)
    (vx0 vy0 : Int) : ThermalCalculator :=
  let g := ThermalCalculator_geometry cfg vx0 vy0
  let Tamb := cfg.Tamb0 + env.T0
  let T_size := (g.numP * 3 + 1) * (g.dimX + env.num_dummy) * (g.dimY + env.num_dummy)
  let T := env.initialize_Temperature g.numP (g.dimX + env.num_dummy)
    (g.dimY + env.num_dummy) Tamb
  { toGeometry := g
    Tamb := Tamb
    GetPhyAddress := phy
    accu_Pmap := zeroMap g.num_case (g.numP * g.dimX * g.dimY)
    cur_Pmap := zeroMap g.num_case (g.numP * g.dimX * g.dimY)
    T_size := T_size
    T_trans := (upto g.num_case).map (fun _ => (upto T_size).map (fun i => vget T i 0))
    sref_energy_prev := List.replicate g.num_case.toNat 0
    pre_stb_energy_prev := List.replicate g.num_case.toNat 0
    act_stb_energy_prev := List.replicate g.num_case.toNat 0
    pre_pd_energy_prev := List.replicate g.num_case.toNat 0
    refresh_count :=
      List.replicate (cfg.channels * cfg.ranks).toNat (List.replicate cfg.banks.toNat 0)
    sample_id := 0
    save_clk := 0
    epoch_max_temp_file_csv_ := []
    epoch_temperature_file_csv_ := [] }

/-! ## Address-to-grid mapper -/

/-- The function `ThermalCalculator::MapToVault`. -/
def MapToVault (cfg : Config) (tc : ThermalCalculator) (cmd : Command) : Int × Int :=
  let vault_id := cmd.Channel
  if cfg.IsHMC then
    let vault_factor := if cfg.bank_order = 0 then tc.vault_x else tc.vault_y
    let vault_id_x := vault_id.tdiv vault_factor
    let vault_id_y := vault_id.tmod vault_factor
    if cfg.bank_order = 0 then (vault_id_y, vault_id_x) else (vault_id_x, vault_id_y)
  else if cfg.IsHBM then
    (0, vault_id.tmod 2)
  else (0, 0)

/-- The function `ThermalCalculator::MapToBank`. -/
def MapToBank (cfg : Config) (tc : ThermalCalculator) (cmd : Command) : Int × Int :=
  let bank_id :=
    if cfg.bankgroups > 1 ∧ cmd.IsRefresh = false then
      cmd.Bank + cmd.Bankgroup * cfg.banks_per_group
    else cmd.Bank
  let bank_factor := if cfg.bank_order = 0 then tc.bank_x else tc.bank_y
  if cfg.IsHMC then
    let num_bank_per_layer := cfg.banks.tdiv cfg.num_dies
    let bank_same_layer := bank_id.tmod num_bank_per_layer
    let bank_id_x := bank_same_layer.tdiv bank_factor
    let bank_id_y := bank_same_layer.tmod bank_factor
    if cfg.bank_order = 0 then (bank_id_y, bank_id_x) else (bank_id_x, bank_id_y)
  else if cfg.IsHBM then
    let bank_group_id := bank_id.tdiv cfg.banks_per_group
    let sub_bank_id := bank_id.tmod cfg.banks_per_group
    (bank_group_id * 2 + sub_bank_id.tdiv 2, sub_bank_id.tmod 2)
  else if cfg.bankgroups > 1 then
    let bank_group_id := bank_id.tdiv cfg.banks_per_group
    let sub_bank_id := bank_id.tmod cfg.banks_per_group
    let bank_id_x := sub_bank_id.tdiv 2
    let bank_id_y := sub_bank_id.tmod 2
    let p : Int × Int :=
      if cfg.bank_order = 0 then (bank_id_y, bank_id_x) else (bank_id_x, bank_id_y)
    if tc.bank_x ≤ tc.bank_y then (p.1, p.2 + bank_group_id * 2)
    else (p.1 + bank_group_id * 2, p.2)
  else
    let bank_id_x := bank_id.tdiv bank_factor
    let bank_id_y := bank_id.tmod bank_factor
    if cfg.bank_order = 0 then (bank_id_y, bank_id_x) else (bank_id_x, bank_id_y)

/-- The function `ThermalCalculator::MapToZ`. -/
def MapToZ (cfg : Config) (tc : ThermalCalculator) (cmd : Command) : Int :=
  if cfg.IsHMC then
    let bank_id := cmd.Bank
    let num_bank_per_layer := cfg.banks.tdiv cfg.num_dies
    if cfg.bank_layer_order = 0 then bank_id.tdiv num_bank_per_layer
    else tc.numP - bank_id.tdiv num_bank_per_layer - 1
  else if cfg.IsHBM then cmd.Channel.tdiv 2
  else 0

/-- The function `ThermalCalculator::MapToXY`: the two vectors `x` and `y`, one entry per
column of the burst and per lane of the device width. -/
def MapToXY (cfg : Config) (tc : ThermalCalculator) (cmd : Command)
    (vault_id_x vault_id_y bank_id_x bank_id_y : Int) : List Int × List Int :=
  let row_id := cmd.Row
  let col_tile_id := row_id.tdiv cfg.TileRowNum
  let grid_id_x := (row_id.tdiv cfg.matX).tdiv cfg.RowTile
  let cells : List (Int × Int) :=
    (upto cfg.BL).flatMap (fun i =>
      let temp_addr : Address := { cmd.addr_ with column_ := cmd.addr_.column_ + i }
      let phy_loc := tc.GetPhyAddress temp_addr
      let bank_x_offset := tc.bank_x * cfg.numXgrids
      let bank_y_offset := tc.bank_y * cfg.numYgrids
      (upto cfg.device_width).map (fun j =>
        let col_id := phy_loc.column_ * cfg.device_width + j
        let grid_id_y :=
          col_id.tdiv cfg.matY + col_tile_id * (cfg.numYgrids.tdiv cfg.RowTile)
        let temp_x := vault_id_x * bank_x_offset + bank_id_x * cfg.numXgrids + grid_id_x
        let temp_y := vault_id_y * bank_y_offset + bank_id_y * cfg.numYgrids + grid_id_y
        (temp_x, temp_y)))
  (cells.map Prod.fst, cells.map Prod.snd)

/-- The grid-cell indices `z_offset + y[i] * dimX + x[i]` visited by the loop of
`LocationMappingANDaddEnergy`, in order. -/
def LocationMapping (cfg : Config) (tc : ThermalCalculator) (cmd : Command) : List Int :=
  let vault_coord := MapToVault cfg tc cmd
  let bank_coord := MapToBank cfg tc cmd
  let xy := MapToXY cfg tc cmd vault_coord.1 vault_coord.2 bank_coord.1 bank_coord.2
  let z := MapToZ cfg tc cmd
  let z_offset := z * tc.dimX * tc.dimY
  (List.zip xy.1 xy.2).map (fun p => z_offset + p.2 * tc.dimX + p.1)

/-- The pair of statements `accu_Pmap[c][idx] += e; cur_Pmap[c][idx] += e`. -/
def addBoth (tc : ThermalCalculator) (c idx : Int) (e : ℚ) : ThermalCalculator :=
  { tc with accu_Pmap := addAt tc.accu_Pmap c idx e, cur_Pmap := addAt tc.cur_Pmap c idx e }

/-- The function `ThermalCalculator::LocationMappingANDaddEnergy`. -/
def LocationMappingANDaddEnergy (cfg : Config) (tc : ThermalCalculator) (cmd : Command)
    (caseID_ : Int) (add_energy : ℚ) : ThermalCalculator :=
  let energy := add_energy / (cfg.device_width : ℚ)
  (LocationMapping cfg tc cmd).foldl (fun t idx => addBoth t caseID_ idx energy) tc

/-- The grid-cell indices visited by the loop of `LocationMappingANDaddEnergy_RF` for the
bank `bank0` and the row `row0`, in order. -/
def LocationMapping_RF (cfg : Config) (tc : ThermalCalculator) (cmd : Command)
    (bank0 row0 : Int) : List Int :=
  let new_addr := tc.GetPhyAddress { cmd.addr_ with row_ := row0, bank_ := bank0 }
  let new_cmd : Command := { cmd_type_ := cmd.cmd_type_, addr_ := new_addr }
  let vault_coord := MapToVault cfg tc new_cmd
  let bank_coord := MapToBank cfg tc new_cmd
  let z := MapToZ cfg tc new_cmd
  let row_id := new_addr.row_
  let col_id : Int := 0
  let col_tile_id := row_id.tdiv cfg.TileRowNum
  let grid_id_x := (row_id.tdiv cfg.matX).tdiv cfg.RowTile
  let grid_id_y := col_id.tdiv cfg.matY + col_tile_id * (cfg.numYgrids.tdiv cfg.RowTile)
  let x := vault_coord.1 * (tc.bank_x * cfg.numXgrids) + bank_coord.1 * cfg.numXgrids
    + grid_id_x
  let y := vault_coord.2 * (tc.bank_y * cfg.numYgrids) + bank_coord.2 * cfg.numYgrids
    + grid_id_y
  let z_offset := z * (tc.dimX * tc.dimY)
  (upto cfg.numYgrids).map (fun i => z_offset + (y + i) * tc.dimX + x)

/-- The function `ThermalCalculator::LocationMappingANDaddEnergy_RF`. -/
def LocationMappingANDaddEnergy_RF (cfg : Config) (tc : ThermalCalculator) (cmd : Command)
    (bank0 row0 : Int) (caseID_ : Int) (add_energy : ℚ) : ThermalCalculator :=
  (LocationMapping_RF cfg tc cmd bank0 row0).foldl
    (fun t idx => addBoth t caseID_ idx add_energy) tc

/-! ## Thermal solver orchestration for the transient solve -/

/-- The statement `powerM[a][b][c] = v`. -/
def setPowerM (powerM : List (List (List ℚ))) (a b c : Int) (v : ℚ) : List (List (List ℚ)) :=
  vmodify powerM a (fun p => vmodify p b (fun q => vmodify q c (fun _ => v)))

/-- The function `ThermalCalculator::InitPowerM`: the zero-filled padded array, then the
fill loops over `i`, `j` and `l`. -/
def InitPowerM (cfg : Config) (env : ThermalEnv) (tc : ThermalCalculator) (case_id : Int)
    (clk : Nat) : List (List (List ℚ)) :=
  let zero : List (List (List ℚ)) :=
    List.replicate (tc.dimX + env.num_dummy).toNat
      (List.replicate (tc.dimY + env.num_dummy).toNat (List.replicate tc.numP.toNat 0))
  let div : ℚ := if clk = 0 then (cfg.power_epoch_period : ℚ) else (clk : ℚ)
  let power_map := if clk = 0 then tc.cur_Pmap else tc.accu_Pmap
  (upto tc.dimX).foldl (fun pm i =>
    (upto tc.dimY).foldl (fun pm j =>
      (upto tc.numP).foldl (fun pm l =>
        setPowerM pm (i + env.num_dummy.tdiv 2) (j + env.num_dummy.tdiv 2) l
          (vget (vget power_map case_id []) (l * (tc.dimX * tc.dimY) + j * tc.dimX + i) 0
            / div)) pm) pm) zero

/-- The function `ThermalCalculator::CalcTransT`. -/
def CalcTransT (cfg : Config) (env : ThermalEnv) (tc : ThermalCalculator) (case_id : Int) :
    ThermalCalculator :=
  let powerM := InitPowerM cfg env tc case_id 0
  { tc with
    T_trans := vmodify tc.T_trans case_id (fun T => env.transient_thermal_solver powerM T) }

/-- The function `ThermalCalculator::GetMaxT`. -/
def GetMaxT (tc : ThermalCalculator) (T_ : List (List ℚ)) (case_id : Int) : ℚ :=
  (upto tc.T_size).foldl (fun maxT i =>
    if vget (vget T_ case_id []) i 0 > maxT then vget (vget T_ case_id []) i 0 else maxT) 0

/-- The rows written by `ThermalCalculator::PrintCSV_trans`, in order. -/
def PrintCSV_trans (env : ThermalEnv) (tc : ThermalCalculator) (P_ : List (List ℚ))
    (T_ : List (List ℚ)) (id : Int) (scale : Nat) : List TransRow :=
  let nd := env.num_dummy
  (upto tc.numP).flatMap (fun l =>
    ((upto (tc.dimY + nd)).filter
        (fun j => !(decide (j < nd.tdiv 2) || decide (j ≥ tc.dimY + nd.tdiv 2)))).flatMap
      (fun j =>
        ((upto (tc.dimX + nd)).filter
            (fun i => !(decide (i < nd.tdiv 2) || decide (i ≥ tc.dimX + nd.tdiv 2)))).map
          (fun i =>
            { id := id, x := i - nd.tdiv 2, y := j - nd.tdiv 2, z := l,
              power := vget (vget P_ id [])
                (l * (tc.dimX * tc.dimY) + (j - nd.tdiv 2) * tc.dimX + (i - nd.tdiv 2)) 0
                / (scale : ℚ),
              temperature := vget (vget T_ id [])
                ((l * 3 + 1) * ((tc.dimX + nd) * (tc.dimY + nd)) + j * (tc.dimX + nd) + i) 0
                - env.T0,
              epoch := tc.sample_id })))

/-- One iteration of the loop of `PrintTransPT`, for the case `ir`. -/
def PrintTransPT_case (cfg : Config) (env : ThermalEnv) (tc : ThermalCalculator) (ir : Int) :
    ThermalCalculator :=
  let tc1 := CalcTransT cfg env tc ir
  let maxT := GetMaxT tc1 tc1.T_trans ir
  let tc2 : ThermalCalculator :=
    { tc1 with epoch_max_temp_file_csv_ :=
        tc1.epoch_max_temp_file_csv_ ++ [{ temperature := maxT - env.T0, case_id := ir }] }
  if cfg.output_level ≥ 2 then
    { tc2 with epoch_temperature_file_csv_ :=
        tc2.epoch_temperature_file_csv_ ++
          PrintCSV_trans env tc2 tc2.cur_Pmap tc2.T_trans ir cfg.power_epoch_period }
  else tc2

/-- The function `ThermalCalculator::PrintTransPT`. -/
def PrintTransPT (cfg : Config) (env : ThermalEnv) (tc : ThermalCalculator) :
    ThermalCalculator :=
  (upto tc.num_case).foldl (PrintTransPT_case cfg env) tc

/-! ## Power-map accumulator -/

/-- The thermal case id and the device scale chosen at the head of `UpdatePower`. -/
def UpdatePower_case (cfg : Config) (cmd : Command) : Int × ℚ :=
  let rank := toU32 cmd.Rank
  let channel := toU32 cmd.Channel
  if cfg.IsHMC || cfg.IsHBM then (0, 1)
  else (toI32 (channel * toU32 cfg.ranks + rank), (cfg.devices_per_rank : ℚ))

/-- The index `channel * config_.ranks + rank` into the refresh-progress table. -/
def refresh_index (cfg : Config) (cmd : Command) : Nat :=
  (toU32 cmd.Channel * toU32 cfg.ranks + toU32 cmd.Rank) % 4294967296

/-- The value `row_s = refresh_count[..][ib] * config_.numRowRefresh` for a counter value. -/
def refresh_row_s (cfg : Config) (count : Nat) : Int :=
  toI32 (count * toU32 cfg.numRowRefresh)

/-- The rows `ir = row_s, ..., row_s + numRowRefresh - 1` of the inner refresh loop. -/
def refresh_rows (cfg : Config) (count : Nat) : List Int :=
  (upto cfg.numRowRefresh).map (fun k => refresh_row_s cfg count + k)

/-- The counter after `refresh_count[..][ib]++` and the reset to zero when the counter
times `numRowRefresh` equals `rows`. -/
def refresh_count_next (cfg : Config) (count : Nat) : Nat :=
  let c := (count + 1) % 4294967296
  if (c * toU32 cfg.numRowRefresh) % 4294967296 = toU32 cfg.rows then 0 else c

/-- The refresh of one bank `ib`: read the cursor, advance it, deposit `e` for every row of
the slice (the body shared by the `REFRESH` loop and the `REFRESH_BANK` branch). -/
def UpdatePower_refresh_bank (cfg : Config) (cmd : Command) (case_id : Int) (e : ℚ)
    (tc : ThermalCalculator) (ib : Int) : ThermalCalculator :=
  let count := vget (tc.refresh_count.getD (refresh_index cfg cmd) []) ib 0
  let tc1 : ThermalCalculator :=
    { tc with
      refresh_count :=
        (tc.refresh_count.modify (fun row => vmodify row ib (refresh_count_next cfg))
          (refresh_index cfg cmd)) }
  (refresh_rows cfg count).foldl
    (fun t ir => LocationMappingANDaddEnergy_RF cfg t cmd ib ir case_id e) tc1

/-- The energy switch of `UpdatePower` for non-refresh commands. -/
def UpdatePower_energy (cfg : Config) (t : CommandType) : ℚ :=
  match t with
  | CommandType.ACTIVATE => cfg.act_energy_inc
  | CommandType.READ => cfg.read_energy_inc
  | CommandType.READ_PRECHARGE => cfg.read_energy_inc
  | CommandType.WRITE => cfg.write_energy_inc
  | CommandType.WRITE_PRECHARGE => cfg.write_energy_inc
  | _ => 0

/-- Lines 404 to 475 of `UpdatePower`: everything before the epoch test. -/
def UpdatePower_deposit (cfg : Config) (tc : ThermalCalculator) (cmd : Command) (clk : Nat) :
    ThermalCalculator :=
  let case_id := (UpdatePower_case cfg cmd).1
  let device_scale := (UpdatePower_case cfg cmd).2
  let tc0 : ThermalCalculator := { tc with save_clk := clk }
  if cmd.cmd_type_ = CommandType.REFRESH then
    let energy := cfg.ref_energy_inc / (cfg.numRowRefresh : ℚ) / (cfg.banks : ℚ)
      / (cfg.numYgrids : ℚ)
    (upto cfg.banks).foldl
      (UpdatePower_refresh_bank cfg cmd case_id (energy / 1000 / device_scale)) tc0
  else if cmd.cmd_type_ = CommandType.REFRESH_BANK then
    let energy := cfg.refb_energy_inc / (cfg.numRowRefresh : ℚ) / (cfg.numYgrids : ℚ)
    UpdatePower_refresh_bank cfg cmd case_id (energy / 1000 / device_scale) tc0 cmd.Bank
  else
    let energy := UpdatePower_energy cfg cmd.cmd_type_
    if energy > 0 then
      LocationMappingANDaddEnergy cfg tc0 cmd case_id
        (energy / (cfg.BL : ℚ) / 1000 / device_scale)
    else tc0

/-- The loop `for (i = 0; i < dimX * dimY * numP; i++) cur_Pmap[c][i] += e`. -/
def addBackground (tc : ThermalCalculator) (c : Int) (e : ℚ) : ThermalCalculator :=
  (upto (tc.dimX * tc.dimY * tc.numP)).foldl
    (fun t i => { t with cur_Pmap := addAt t.cur_Pmap c i e }) tc

/-- The statement `v[i] = a` on a vector of doubles. -/
def vset (v : List ℚ) (i : Int) (a : ℚ) : List ℚ := vmodify v i (fun _ => a)

/-- Lines 487 to 518 of `UpdatePower`: the background energy added to `cur_Pmap`. -/
def UpdatePower_background (cfg : Config) (stats_ : Statistics) (tc : ThermalCalculator)
    (device_scale : ℚ) : ThermalCalculator :=
  if cfg.IsHMC || cfg.IsHBM then
    let pre_stb_sum := Stats2DCumuSum stats_.pre_stb_energy
    let act_stb_sum := Stats2DCumuSum stats_.act_stb_energy
    let pre_pd_sum := Stats2DCumuSum stats_.pre_pd_energy
    let sref_sum := Stats2DCumuSum stats_.sref_energy
    let extra_energy := (sref_sum + pre_stb_sum + act_stb_sum + pre_pd_sum
      - vget tc.sref_energy_prev 0 0 - vget tc.pre_stb_energy_prev 0 0
      - vget tc.act_stb_energy_prev 0 0 - vget tc.pre_pd_energy_prev 0 0)
      / ((tc.dimX * tc.dimY * tc.numP : Int) : ℚ)
    let tc1 : ThermalCalculator :=
      { tc with
        sref_energy_prev := vset tc.sref_energy_prev 0 sref_sum
        pre_stb_energy_prev := vset tc.pre_stb_energy_prev 0 pre_stb_sum
        act_stb_energy_prev := vset tc.act_stb_energy_prev 0 act_stb_sum
        pre_pd_energy_prev := vset tc.pre_pd_energy_prev 0 pre_pd_sum }
    (upto tc1.num_case).foldl
      (fun t j => addBackground t j (extra_energy / 1000 / device_scale)) tc1
  else
    (upto cfg.channels).foldl (fun t jch =>
      (upto cfg.ranks).foldl (fun t jrk =>
        let case_id := jch * cfg.ranks + jrk
        let extra_energy :=
          (cumulative_value stats_.sref_energy jch jrk
            + cumulative_value stats_.pre_stb_energy jch jrk
            + cumulative_value stats_.act_stb_energy jch jrk
            + cumulative_value stats_.pre_pd_energy jch jrk
            - vget t.sref_energy_prev case_id 0 - vget t.pre_stb_energy_prev case_id 0
            - vget t.act_stb_energy_prev case_id 0 - vget t.pre_pd_energy_prev case_id 0)
          / ((t.dimX * t.dimY * t.numP : Int) : ℚ)
        let t1 : ThermalCalculator :=
          { t with
            sref_energy_prev :=
              vset t.sref_energy_prev case_id (cumulative_value stats_.sref_energy jch jrk)
            pre_stb_energy_prev :=
              vset t.pre_stb_energy_prev case_id
                (cumulative_value stats_.pre_stb_energy jch jrk)
            act_stb_energy_prev :=
              vset t.act_stb_energy_prev case_id
                (cumulative_value stats_.act_stb_energy jch jrk)
            pre_pd_energy_prev :=
              vset t.pre_pd_energy_prev case_id
                (cumulative_value stats_.pre_pd_energy jch jrk) }
        addBackground t1 case_id (extra_energy / 1000 / device_scale)) t) tc

/-- The epoch test `clk > (sample_id + 1) * config_.power_epoch_period`. -/
def epochCrossed (cfg : Config) (tc : ThermalCalculator) (clk : Nat) : Bool :=
  decide (clk > (tc.sample_id + 1) * cfg.power_epoch_period)

/-- Lines 481 to 532 of `UpdatePower`: on an epoch crossing, the background energy, the
transient solve and report, the reset of `cur_Pmap` and the increment of `sample_id`. -/
def UpdatePower_epoch (cfg : Config) (env : ThermalEnv) (stats_ : Statistics)
    (tc : ThermalCalculator) (device_scale : ℚ) (clk : Nat) : ThermalCalculator :=
  if epochCrossed cfg tc clk then
    let tc1 := UpdatePower_background cfg stats_ tc device_scale
    let tc2 := PrintTransPT cfg env tc1
    { tc2 with
      cur_Pmap := zeroMap tc2.num_case (tc2.numP * tc2.dimX * tc2.dimY)
      sample_id := tc2.sample_id + 1 }
  else tc

/-- The function `ThermalCalculator::UpdatePower`.  `stats_` is the content of the
statistics collaborator at the time of the call. -/
def UpdatePower (cfg : Config) (env : ThermalEnv) (stats_ : Statistics)
    (tc : ThermalCalculator) (cmd : Command) (clk : Nat) : ThermalCalculator :=
  UpdatePower_epoch cfg env stats_ (UpdatePower_deposit cfg tc cmd clk)
    (UpdatePower_case cfg cmd).2 clk

/-- One call of a run: the command, the clock and the statistics at that time. -/
structure Call where
  cmd : Command
  clk : Nat
  stats_ : Statistics

/-- The state after a sequence of `UpdatePower` calls. -/
def run (cfg : Config) (env : ThermalEnv) (tc : ThermalCalculator) (calls : List Call) :
    ThermalCalculator :=
  calls.foldl (fun t c => UpdatePower cfg env c.stats_ t c.cmd c.clk) tc

/-! ## Vocabulary of the statements -/

/-- The entry `m[c][i]` of a power map. -/
def cell (m : List (List ℚ)) (c i : Int) : ℚ := vget (vget m c []) i 0

/-- The sum over all cells of `m[c]`. -/
def caseSum (m : List (List ℚ)) (c : Int) : ℚ := (vget m c []).sum

/-- The access `m[c][i]` is inside the vectors. -/
def inMap (m : List (List ℚ)) (c i : Int) : Prop :=
  0 ≤ c ∧ 0 ≤ i ∧ i.toNat < (m.getD c.toNat []).length

instance (m : List (List ℚ)) (c i : Int) : Decidable (inMap m c i) := by
  unfold inMap
  infer_instance

/-- The row lengths of a power map. -/
def shape (m : List (List ℚ)) : List Nat := m.map List.length

/-- A sequence of statements `m[c][i] += e`, each given as `(c, i, e)`. -/
def applyDeposits (m : List (List ℚ)) (ds : List (Int × Int × ℚ)) : List (List ℚ) :=
  ds.foldl (fun m d => addAt m d.1 d.2.1 d.2.2) m

/-- The state `tc2` is `tc` after the deposits `ds` into both power maps; the remaining
members, except the refresh-progress table and `save_clk`, are unchanged. -/
def IsDeposit (tc tc2 : ThermalCalculator) (ds : List (Int × Int × ℚ)) : Prop :=
  tc2.accu_Pmap = applyDeposits tc.accu_Pmap ds ∧
  tc2.cur_Pmap = applyDeposits tc.cur_Pmap ds ∧
  tc2.toGeometry = tc.toGeometry ∧
  tc2.GetPhyAddress = tc.GetPhyAddress ∧
  tc2.sample_id = tc.sample_id ∧
  tc2.T_size = tc.T_size ∧
  tc2.T_trans = tc.T_trans ∧
  tc2.epoch_max_temp_file_csv_ = tc.epoch_max_temp_file_csv_ ∧
  tc2.epoch_temperature_file_csv_ = tc.epoch_temperature_file_csv_

/-- The effect of one `UpdatePower` call on the refresh-progress table. -/
def refresh_table_step (cfg : Config) (cmd : Command) (rc : List (List Nat)) :
    List (List Nat) :=
  if cmd.cmd_type_ = CommandType.REFRESH then
    (upto cfg.banks).foldl
      (fun rc ib => rc.modify (fun row => vmodify row ib (refresh_count_next cfg))
        (refresh_index cfg cmd)) rc
  else if cmd.cmd_type_ = CommandType.REFRESH_BANK then
    rc.modify (fun row => vmodify row cmd.Bank (refresh_count_next cfg)) (refresh_index cfg cmd)
  else rc

/-- A run that also records the snapshot of `accu_Pmap` taken at the end of the most recent
call that crossed an epoch boundary. -/
def runSnap (cfg : Config) (env : ThermalEnv) (st : ThermalCalculator × List (List ℚ))
    (calls : List Call) : ThermalCalculator × List (List ℚ) :=
  calls.foldl (fun p c =>
    let t1 := UpdatePower cfg env c.stats_ p.1 c.cmd c.clk
    (t1, if epochCrossed cfg (UpdatePower_deposit cfg p.1 c.cmd c.clk) c.clk
      then t1.accu_Pmap else p.2)) st

/-- The per-cell energy of a deposit made by a call with the command `cmd`, with the
loop bounds that let the deposit happen. -/
def DepositEnergy (cfg : Config) (cmd : Command) (e : ℚ) : Prop :=
  (cmd.cmd_type_ = CommandType.REFRESH ∧ 0 < cfg.numRowRefresh ∧ 0 < cfg.banks ∧
    0 < cfg.numYgrids ∧
    e = cfg.ref_energy_inc / (cfg.numRowRefresh : ℚ) / (cfg.banks : ℚ) / (cfg.numYgrids : ℚ)
      / 1000 / (UpdatePower_case cfg cmd).2) ∨
  (cmd.cmd_type_ = CommandType.REFRESH_BANK ∧ 0 < cfg.numRowRefresh ∧ 0 < cfg.numYgrids ∧
    e = cfg.refb_energy_inc / (cfg.numRowRefresh : ℚ) / (cfg.numYgrids : ℚ)
      / 1000 / (UpdatePower_case cfg cmd).2) ∨
  (cmd.IsRefresh = false ∧ 0 < UpdatePower_energy cfg cmd.cmd_type_ ∧ 0 < cfg.BL ∧
    0 < cfg.device_width ∧
    e = UpdatePower_energy cfg cmd.cmd_type_ / (cfg.BL : ℚ) / 1000 / (UpdatePower_case cfg cmd).2
      / (cfg.device_width : ℚ))

/-- The members that the epoch handling of `UpdatePower` leaves unchanged before it
resets `cur_Pmap` and increments `sample_id`. -/
def EpochFrame (tc t : ThermalCalculator) : Prop :=
  t.toGeometry = tc.toGeometry ∧ t.GetPhyAddress = tc.GetPhyAddress ∧
  t.accu_Pmap = tc.accu_Pmap ∧ t.refresh_count = tc.refresh_count ∧
  t.sample_id = tc.sample_id ∧ t.save_clk = tc.save_clk ∧ t.T_size = tc.T_size

/-- The aspect-ratio distortion `max(x*ar, y) / min(x*ar, y)` of a factor pair. -/
def distortion (ar : ℚ) (x y : Int) : ℚ :=
  max ((x : ℚ) * ar) (y : ℚ) / min ((x : ℚ) * ar) (y : ℚ)

/-! ## A concrete configuration

The end-to-end scenario of the specification: a planar device with 1 channel, 1 rank and
8 banks, bank aspect ratio 1 and an epoch of 1000 cycles.  A bank has 16 rows and 16 bit
lines, cut into 2 x 2 grid cells. -/

/-- The scenario configuration. -/
def scenarioConfig : Config :=
  { IsHMC := false, IsHBM := false, channels := 1, ranks := 1, banks := 8, bankgroups := 1,
    banks_per_group := 8, rows := 16, num_dies := 1, devices_per_rank := 8, device_width := 4,
    BL := 2, numXgrids := 2, numYgrids := 2, matX := 8, matY := 8, RowTile := 1,
    TileRowNum := 16, bank_asr := 1, bank_order := 1, bank_layer_order := 0,
    numRowRefresh := 4, power_epoch_period := 1000, act_energy_inc := 3,
    read_energy_inc := 2, write_energy_inc := 2, ref_energy_inc := 16, refb_energy_inc := 4,
    output_level := 0, Tamb0 := 40 }

/-- A solver stand-in that returns the previous temperature field. -/
def scenarioEnv : ThermalEnv :=
  { num_dummy := 2, T0 := 273,
    transient_thermal_solver := fun _ T => T,
    initialize_Temperature := fun _ _ _ Tamb => [Tamb] }

/-- The state the constructor builds for the scenario (a 4 x 2 bank layout, an 8 x 4 grid),
written out. -/
def scenarioState : ThermalCalculator :=
  { bank_x := 4, bank_y := 2, vault_x := 0, vault_y := 0, dimX := 8, dimY := 4, numP := 1,
    num_case := 1, Tamb := 313, GetPhyAddress := fun a => a,
    accu_Pmap := zeroMap 1 32, cur_Pmap := zeroMap 1 32, T_size := 240,
    T_trans := [(upto 240).map (fun i => vget [(313 : ℚ)] i 0)],
    sref_energy_prev := [0], pre_stb_energy_prev := [0], act_stb_energy_prev := [0],
    pre_pd_energy_prev := [0], refresh_count := [[0, 0, 0, 0, 0, 0, 0, 0]],
    sample_id := 0, save_clk := 0, epoch_max_temp_file_csv_ := [],
    epoch_temperature_file_csv_ := [] }

/-- Statistics with no recorded background energy. -/
def emptyStats : Statistics :=
  { sref_energy := [], pre_stb_energy := [], act_stb_energy := [], pre_pd_energy := [] }

/-- An `ACTIVATE` command of the scenario addressed to a bank. -/
def activateBank (b : Int) : Command :=
  { cmd_type_ := CommandType.ACTIVATE,
    addr_ := { channel_ := 0, rank_ := 0, bankgroup_ := 0, bank_ := b, row_ := 0, column_ := 0 } }

/-- The calls of the scenario at the clocks `0, 1, ..., n-1`: call `k` is an `ACTIVATE` to
bank `k mod 8`. -/
def scenarioCalls (n : Nat) : List Call :=
  (List.range n).map (fun k =>
    { cmd := activateBank (Int.ofNat (k % 8)), clk := k, stats_ := emptyStats })

/-- The state built by the constructor for the scenario, with no address remapping. -/
def scenarioInit : ThermalCalculator :=
  ThermalCalculator.init scenarioConfig scenarioEnv (fun a => a) 0 0

/-- A call of the scenario at clock 1001, the first clock beyond the epoch length. -/
def scenarioLast : Call := { cmd := activateBank 1, clk := 1001, stats_ := emptyStats }

/-- A 3D-stacked configuration with 16 vaults and 16 banks per vault on 4 dies, that is
4 banks per layer. -/
def stackedConfig : Config :=
  { scenarioConfig with IsHMC := true, channels := 16, banks := 16, num_dies := 4 }

/-- The number of `REFRESH` calls of a run that are addressed to the channel and rank of
`cmd`. -/
def refreshCalls (cfg : Config) (cmd : Command) (calls : List Call) : Nat :=
  (calls.filter (fun c => decide (c.cmd.cmd_type_ = CommandType.REFRESH ∧
    refresh_index cfg c.cmd = refresh_index cfg cmd))).length

/-- The refresh cursor of bank `ib` in the table row of the channel and rank of `cmd`. -/
def refresh_cursor (cfg : Config) (tc : ThermalCalculator) (cmd : Command) (ib : Int) : Nat :=
  vget (tc.refresh_count.getD (refresh_index cfg cmd) []) ib 0

/-- The deposits of a refresh of the banks `bs`, bank after bank and row after row, when
bank `ib` is refreshed from the cursor value `counts ib`. -/
def refreshDeposits (cfg : Config) (tc : ThermalCalculator) (cmd : Command) (c : Int) (e : ℚ)
    (counts : Int → Nat) (bs : List Int) : List (Int × Int × ℚ) :=
  bs.flatMap (fun ib =>
    (refresh_rows cfg (counts ib)).flatMap (fun ir =>
      (LocationMapping_RF cfg tc cmd ib ir).map (fun idx => (c, idx, e))))

/-- The table row `idx` exists, has one cursor per bank, and every cursor equals `c`. -/
def CursorRow (cfg : Config) (idx : Nat) (T : List (List Nat)) (c : Nat) : Prop :=
  idx < T.length ∧ (T.getD idx []).length = cfg.banks.toNat ∧
  ∀ i : Nat, i < cfg.banks.toNat → (T.getD idx []).getD i 0 = c

/-- The start row `(k mod (rows / numRowRefresh)) * numRowRefresh` of the slice refreshed
by the `k`-th `REFRESH` (counted from 0) to a channel and rank. -/
def refresh_start (cfg : Config) (k : Nat) : Int :=
  ((k % (cfg.rows / cfg.numRowRefresh).toNat : Nat) : Int) * cfg.numRowRefresh

/-- A `REFRESH` command of the scenario. -/
def refreshAll : Command :=
  { cmd_type_ := CommandType.REFRESH,
    addr_ := { channel_ := 0, rank_ := 0, bankgroup_ := 0, bank_ := 0, row_ := 0, column_ := 0 } }

/-- A call that issues `refreshAll` at clock 0. -/
def refreshCall : Call := { cmd := refreshAll, clk := 0, stats_ := emptyStats }

/-- The scenario with 10 rows per bank: `numRowRefresh = 4` does not divide `rows`. -/
def oddRowsConfig : Config := { scenarioConfig with rows := 10 }

/-- The grid cells written by a refresh of the banks `bs`, bank after bank and row after
row, when bank `ib` is refreshed from the cursor value `counts ib`: one entry per bank, per
row of the slice and per cell of `LocationMappingANDaddEnergy_RF`. -/
def refreshCells (cfg : Config) (tc : ThermalCalculator) (cmd : Command)
    (counts : Int → Nat) (bs : List Int) : List Int :=
  bs.flatMap (fun ib =>
    (refresh_rows cfg (counts ib)).flatMap (fun ir => LocationMapping_RF cfg tc cmd ib ir))

/-- A `REFRESH_BANK` command of the scenario addressed to a bank. -/
def refreshBank (b : Int) : Command :=
  { cmd_type_ := CommandType.REFRESH_BANK,
    addr_ := { channel_ := 0, rank_ := 0, bankgroup_ := 0, bank_ := b, row_ := 0, column_ := 0 } }

/-- A call that issues `refreshBank 0` at clock 0. -/
def refreshBankCall : Call := { cmd := refreshBank 0, clk := 0, stats_ := emptyStats }

/-- The scenario with 2 channels of 2 ranks: four thermal cases. -/
def fourCaseConfig : Config := { scenarioConfig with channels := 2, ranks := 2 }

/-- An `ACTIVATE` command addressed to a channel and a rank. -/
def activateAt (ch rk : Int) : Command :=
  { cmd_type_ := CommandType.ACTIVATE,
    addr_ := { channel_ := ch, rank_ := rk, bankgroup_ := 0, bank_ := 0, row_ := 0,
               column_ := 0 } }

/-- A `PRECHARGE` command of the scenario. -/
def prechargeCmd : Command :=
  { cmd_type_ := CommandType.PRECHARGE,
    addr_ := { channel_ := 0, rank_ := 0, bankgroup_ := 0, bank_ := 3, row_ := 0, column_ := 0 } }

/-- A command of the 3D-stacked configuration addressed to a bank of channel 0. -/
def stackedBank (b : Int) : Command :=
  { cmd_type_ := CommandType.READ,
    addr_ := { channel_ := 0, rank_ := 0, bankgroup_ := 0, bank_ := b, row_ := 0, column_ := 0 } }

/-! ## Physical address remapper -/

/-- Conversion of a C `int` to `uint64_t`: the value modulo `2^64`. -/
def toU64 (n : Int) : Nat := (n % 2 ^ 64).toNat

/-- Modelled from the spec: `GetBitInPos` of `common.cc`, the bit of `bits` at position
`pos`, bit 0 being the least significant. -/
def GetBitInPos (bits : Nat) (pos : Int) : Nat := (bits / 2 ^ pos.toNat) % 2

/-- Modelled from the spec: `ModuloWidth` of `common.cc`, the `bit_width` bits of `addr`
that start at bit `pos`, returned as an `int`. -/
def ModuloWidth (addr : Nat) (bit_width pos : Nat) : Int :=
  toI32 ((addr / 2 ^ pos) % 2 ^ bit_width)

/-- The inner loop of the `GetPhyAddress` lambda for one field: bit `field_width - j - 1`
of the field value is or-ed into `new_hex` at the position `mapped_pos[i][j]`. -/
def GetPhyAddress_field (origin : Int) (positions : List Int) (new_hex : Nat) : Nat :=
  (List.range positions.length).foldl (fun (hex : Nat) (j : Nat) =>
    let this_bit := GetBitInPos (toU64 origin) (Int.ofNat positions.length - Int.ofNat j - 1)
    let new_bit := (this_bit <<< (positions.getD j 0).toNat) % 2 ^ 64
    hex ||| new_bit) new_hex

/-- The first loop of the `GetPhyAddress` lambda: the packed integer `new_hex`. -/
def GetPhyAddress_new_hex (mapped_pos : List (List Int)) (addr : Address) : Nat :=
  let origin_pos : List Int :=
    [addr.channel_, addr.rank_, addr.bankgroup_, addr.bank_, addr.row_, addr.column_]
  (List.range mapped_pos.length).foldl (fun (hex : Nat) (i : Nat) =>
    GetPhyAddress_field (origin_pos.getD i 0) (mapped_pos.getD i []) hex) 0

/-- The second loop of the `GetPhyAddress` lambda: the array `new_pos`, filled from the
last field to the first, starting at bit `column_offset = 3`. -/
def GetPhyAddress_new_pos (mapped_pos : List (List Int)) (new_hex : Nat) : List Int :=
  ((List.range mapped_pos.length).reverse.foldl (fun (st : Nat × List Int) i =>
    (st.1 + (mapped_pos.getD i []).length,
      st.2.set i (ModuloWidth new_hex (mapped_pos.getD i []).length st.1)))
    (3, [0, 0, 0, 0, 0, 0])).2

/-- The lambda that `SetPhyAddressMapping` installs for a non-empty specification. -/
def GetPhyAddress_lambda (mapped_pos : List (List Int)) (addr : Address) : Address :=
  let new_pos := GetPhyAddress_new_pos mapped_pos (GetPhyAddress_new_hex mapped_pos addr)
  { channel_ := new_pos.getD 0 0, rank_ := new_pos.getD 1 0, bankgroup_ := new_pos.getD 2 0,
    bank_ := new_pos.getD 3 0, row_ := new_pos.getD 4 0, column_ := new_pos.getD 5 0 }

/-- The two ways `SetPhyAddressMapping` can end without installing a mapping: the call of
`exit(1)` and an exception thrown by `std::stoi`. -/
inductive SetupError where
  | fatal_exit
  | stoi_exception
deriving DecidableEq, Repr

/-- The string functions that `SetPhyAddressMapping` takes from outside `thermal.cc`:
`StringSplit` of `common.cc` and `std::stoi` (`none` when it throws). -/
structure StringOps where
  StringSplit : List Char → Char → List (List Char)
  stoi : List Char → Option Int

/-- The index returned by `std::string::find` for a character, `none` for `npos`. -/
def findChar (c : Char) : List Char → Option Nat
  | [] => none
  | x :: xs => if x = c then some 0 else (findChar c xs).map (fun k => k + 1)

/-- The positions pushed for one non-empty token: a single index, or all the indices from
`start_pos` to `end_pos`, downwards when `start_pos > end_pos`. -/
def SetPhyAddressMapping_token (ops : StringOps) (tok : List Char) :
    Except SetupError (List Int) :=
  match findChar ':' tok with
  | none =>
    match ops.stoi tok with
    | none => Except.error SetupError.stoi_exception
    | some pos => Except.ok [pos]
  | some colon_pos =>
    match ops.stoi (tok.take colon_pos) with
    | none => Except.error SetupError.stoi_exception
    | some start_pos =>
      match ops.stoi (tok.drop (colon_pos + 1)) with
      | none => Except.error SetupError.stoi_exception
      | some end_pos =>
        Except.ok
          (if start_pos > end_pos then
            (List.range (start_pos - end_pos + 1).toNat).map (fun t => start_pos - Int.ofNat t)
          else
            (List.range (end_pos - start_pos + 1).toNat).map (fun t => start_pos + Int.ofNat t))

/-- The loop over the tokens `bit_pos` of one field: the list `mapped_pos[i]`. -/
def SetPhyAddressMapping_field (ops : StringOps) :
    List (List Char) → Except SetupError (List Int)
  | [] => Except.ok []
  | tok :: rest =>
    if tok.isEmpty then SetPhyAddressMapping_field ops rest
    else
      match SetPhyAddressMapping_token ops tok with
      | Except.error e => Except.error e
      | Except.ok l =>
        match SetPhyAddressMapping_field ops rest with
        | Except.error e => Except.error e
        | Except.ok r => Except.ok (l ++ r)

/-- The loop over the fields `bit_fields`: the vector `mapped_pos`. -/
def SetPhyAddressMapping_fields (ops : StringOps) :
    List (List Char) → Except SetupError (List (List Int))
  | [] => Except.ok []
  | field :: rest =>
    match SetPhyAddressMapping_field ops (ops.StringSplit field '-') with
    | Except.error e => Except.error e
    | Except.ok l =>
      match SetPhyAddressMapping_fields ops rest with
      | Except.error e => Except.error e
      | Except.ok r => Except.ok (l :: r)

/-- The function `ThermalCalculator::SetPhyAddressMapping`: the value it assigns to
`GetPhyAddress`, or the way it fails. -/
def SetPhyAddressMapping (ops : StringOps) (loc_mapping : List Char) :
    Except SetupError (Address → Address) :=
  if loc_mapping.isEmpty then Except.ok (fun addr => addr)
  else
    let bit_fields := ops.StringSplit loc_mapping ','
    if bit_fields.length ≠ 6 then Except.error SetupError.fatal_exit
    else
      match SetPhyAddressMapping_fields ops bit_fields with
      | Except.error e => Except.error e
      | Except.ok mapped_pos => Except.ok (GetPhyAddress_lambda mapped_pos)

/-- The constructor with its call of `SetPhyAddressMapping` on `config_.loc_mapping`. -/
def ThermalCalculator.construct (ops : StringOps) (cfg : Config) (env : ThermalEnv)
    (vx0 vy0 : Int) : Except SetupError ThermalCalculator :=
  match SetPhyAddressMapping ops cfg.loc_mapping with
  | Except.error e => Except.error e
  | Except.ok phy => Except.ok (ThermalCalculator.init cfg env phy vx0 vy0)

/-! ## Vocabulary of the remapper statements -/

/-- Modelled from the spec: `StringSplit` of `common.cc`, the items that the delimiter
separates, in order, empty items included. -/
def splitChars (delim : Char) : List Char → List (List Char)
  | [] => [[]]
  | c :: cs =>
    if c = delim then [] :: splitChars delim cs
    else
      match splitChars delim cs with
      | [] => [[c]]
      | h :: t => (c :: h) :: t

/-- The value of a decimal digit. -/
def digitValue (c : Char) : Option Nat :=
  if 48 ≤ c.toNat ∧ c.toNat ≤ 57 then some (c.toNat - 48) else none

/-- The value of a string of decimal digits, read from the left. -/
def digitsValue : List Char → Nat → Option Nat
  | [], acc => some acc
  | c :: cs, acc =>
    match digitValue c with
    | none => none
    | some d => digitsValue cs (10 * acc + d)

/-- The result of `std::stoi` on a non-empty string of decimal digits.  On every other
string this instance reports a failed conversion. -/
def decimalValue (s : List Char) : Option Int :=
  if s.isEmpty then none else (digitsValue s 0).map Int.ofNat

/-- The string functions used in the examples. -/
def plainOps : StringOps := { StringSplit := fun s d => splitChars d s, stoi := decimalValue }

/-- The six field values of an address in the order `ch, ra, bg, ba, ro, co`. -/
def Address.fields (a : Address) : List Int :=
  [a.channel_, a.rank_, a.bankgroup_, a.bank_, a.row_, a.column_]

/-- The indices `a, a+1, ...`, `n` of them. -/
def countUp (a : Int) : Nat → List Int
  | 0 => []
  | n + 1 => a :: countUp (a + 1) n

/-- The indices `a, a-1, ...`, `n` of them. -/
def countDown (a : Int) : Nat → List Int
  | 0 => []
  | n + 1 => a :: countDown (a - 1) n

/-- The inclusive run between two indices: `a, a+1, ..., b` when `a ≤ b` and
`a, a-1, ..., b` when `a > b`. -/
def inclusiveRun (a b : Int) : List Int :=
  if a ≤ b then countUp a (b - a + 1).toNat else countDown a (a - b + 1).toNat

/-- The indices that a token stands for: the index itself for a token without a colon, the
inclusive run for a token `a:b`. -/
def tokenPositions (ops : StringOps) (tok : List Char) : List Int :=
  match findChar ':' tok with
  | none => [(ops.stoi tok).getD 0]
  | some c => inclusiveRun ((ops.stoi (tok.take c)).getD 0) ((ops.stoi (tok.drop (c + 1))).getD 0)

/-- The in-order concatenation of the indices of the non-empty dash-separated tokens of a
field. -/
def fieldPositions (ops : StringOps) (field : List Char) : List Int :=
  ((ops.StringSplit field '-').filter (fun tok => !tok.isEmpty)).flatMap (tokenPositions ops)

/-- A well-formed token: each of its one or two numbers converts. -/
def TokenOK (ops : StringOps) (tok : List Char) : Prop :=
  match findChar ':' tok with
  | none => (ops.stoi tok).isSome = true
  | some c => (ops.stoi (tok.take c)).isSome = true ∧ (ops.stoi (tok.drop (c + 1))).isSome = true

/-- A well-formed field: all its non-empty tokens are well formed. -/
def FieldOK (ops : StringOps) (field : List Char) : Prop :=
  ∀ tok ∈ ops.StringSplit field '-', tok ≠ [] → TokenOK ops tok

instance (ops : StringOps) (tok : List Char) : Decidable (TokenOK ops tok) := by
  unfold TokenOK; cases findChar ':' tok <;> exact inferInstance

instance (ops : StringOps) (field : List Char) : Decidable (FieldOK ops field) := by
  unfold FieldOK; exact inferInstance

/-- An address of the example configuration: bank 5, row 9, column 2. -/
def sampleAddress : Address :=
  { channel_ := 0, rank_ := 0, bankgroup_ := 1, bank_ := 5, row_ := 9, column_ := 2 }

/-- An address that is zero in every field except the row. -/
def rowOnly (row : Int) : Address :=
  { channel_ := 0, rank_ := 0, bankgroup_ := 0, bank_ := 0, row_ := row, column_ := 0 }

/-- The cells that a mapper working on the remapped command visits: for every column of the
burst the address is remapped first, and `MapToVault`, `MapToBank`, `MapToZ` and the row and
column computation of `MapToXY` are applied to the remapped address. -/
def LocationMapping_postRemap (cfg : Config) (tc : ThermalCalculator) (cmd : Command) :
    List Int :=
  (upto cfg.BL).flatMap (fun i =>
    let phy_loc := tc.GetPhyAddress { cmd.addr_ with column_ := cmd.addr_.column_ + i }
    let new_cmd : Command := { cmd_type_ := cmd.cmd_type_, addr_ := phy_loc }
    let vault_coord := MapToVault cfg tc new_cmd
    let bank_coord := MapToBank cfg tc new_cmd
    let z := MapToZ cfg tc new_cmd
    let row_id := phy_loc.row_
    let col_tile_id := row_id.tdiv cfg.TileRowNum
    let grid_id_x := (row_id.tdiv cfg.matX).tdiv cfg.RowTile
    (upto cfg.device_width).map (fun j =>
      let col_id := phy_loc.column_ * cfg.device_width + j
      let grid_id_y := col_id.tdiv cfg.matY + col_tile_id * (cfg.numYgrids.tdiv cfg.RowTile)
      let temp_x := vault_coord.1 * (tc.bank_x * cfg.numXgrids) + bank_coord.1 * cfg.numXgrids
        + grid_id_x
      let temp_y := vault_coord.2 * (tc.bank_y * cfg.numYgrids) + bank_coord.2 * cfg.numYgrids
        + grid_id_y
      z * tc.dimX * tc.dimY + temp_y * tc.dimX + temp_x))

/-- The scenario with the remap specification `14,13,12,7:5,11:8,4:3`: the three bank bits
go to bits 7..5, the four row bits to bits 11..8, the two column bits stay at bits 4..3 and
the channel, rank and bank-group bits stay at bits 14, 13 and 12. -/
def remapConfig : Config :=
  { scenarioConfig with loc_mapping := "14,13,12,7:5,11:8,4:3".toList }

/-- The position lists of the specification of `remapConfig`. -/
def remapPositions : List (List Int) :=
  [[14], [13], [12], [7, 6, 5], [11, 10, 9, 8], [4, 3]]

/-- The state the constructor builds for `remapConfig`. -/
def remapState : ThermalCalculator :=
  { scenarioState with GetPhyAddress := GetPhyAddress_lambda remapPositions }

/-- The value of `pos` when the second loop of the lambda reaches field `i`: 3 plus the
widths of the later fields. -/
def fieldOffset (mapped_pos : List (List Int)) (i : Nat) : Nat :=
  3 + ((mapped_pos.drop (i + 1)).map List.length).sum

/-- The addresses whose every field value fits the width of its position list: field `i`
lies in `[0, 2 ^ width i)`. -/
def FitsWidths (mapped_pos : List (List Int)) (a : Address) : Prop :=
  ∀ i, i < 6 → 0 ≤ a.fields.getD i 0 ∧ a.fields.getD i 0 < 2 ^ (mapped_pos.getD i []).length

instance (mapped_pos : List (List Int)) (a : Address) : Decidable (FitsWidths mapped_pos a) := by
  unfold FitsWidths; exact inferInstance

/-- The addresses whose every field value, read as a signed `int`, is below
`2 ^ width i`. -/
def BelowWidths (mapped_pos : List (List Int)) (a : Address) : Prop :=
  ∀ i, i < 6 → a.fields.getD i 0 < 2 ^ (mapped_pos.getD i []).length

instance (mapped_pos : List (List Int)) (a : Address) : Decidable (BelowWidths mapped_pos a) := by
  unfold BelowWidths; exact inferInstance

/-- The six position lists together enumerate each of the bit positions
`3, 4, ..., 3 + N - 1` exactly once, `N` being the number of listed positions. -/
def EnumeratesPositions (mapped_pos : List (List Int)) : Prop :=
  List.Perm mapped_pos.flatten ((List.range' 3 mapped_pos.flatten.length).map Int.ofNat)

/-- The number of set bits of a field value, seen as the 64-bit integer that the lambda
reads. -/
def bitCount (v : Int) : Nat := (List.range 64).countP (fun k => (toU64 v).testBit k)

/-- The number of set bits of the six fields of an address. -/
def Address.setBitCount (a : Address) : Nat := (a.fields.map bitCount).sum

/-- The position lists of the specification `42,41,40,39,6:38,5:3`: a row list of 33
positions. -/
def wideRowPositions : List (List Int) := [[42], [41], [40], [39], countUp 6 33, [5, 4, 3]]

/-- The position lists of the specification `8,7,6,5,4,3`: one bit for every field. -/
def oneBitPositions : List (List Int) := [[8], [7], [6], [5], [4], [3]]

/-- An address that is zero in every field except the column. -/
def columnOnly (column : Int) : Address :=
  { channel_ := 0, rank_ := 0, bankgroup_ := 0, bank_ := 0, row_ := 0, column_ := column }

/-- An address of the remap scenario: bank 5, row 9, column 2. -/
def remapSample : Address :=
  { channel_ := 0, rank_ := 0, bankgroup_ := 0, bank_ := 5, row_ := 9, column_ := 2 }

/-! ## Time step of the transient solver -/

/-- The conversion `(int)d` of a double: truncation towards zero. -/
def truncToInt (d : ℚ) : Int := if 0 ≤ d then ⌊d⌋ else ⌈d⌉

/-- The first loop of `calculate_time_step`: the maximum stable step `dt`, from the
conductance list `Midx` and the capacitance list `Cap` of the solver library.  In the
source a quotient `c / g` with `g = 0` is an IEEE infinity or NaN; such an entry is outside
the embedding. -/
def calculate_time_step_dt (env : ThermalEnv) (tc : ThermalCalculator)
    (Midx : List (List ℚ)) (MidxSize : Int) (Cap : List ℚ) : ℚ :=
  let layer_dim := (tc.dimX + env.num_dummy) * (tc.dimY + env.num_dummy)
  (upto MidxSize).foldl (fun dt j =>
    let idx0 := truncToInt (vget (vget Midx j []) 0 0 + 1 / 100)
    let idx1 := truncToInt (vget (vget Midx j []) 1 0 + 1 / 100)
    let idxC := idx0.tdiv layer_dim
    if idx0 = idx1 then
      let g := vget (vget Midx j []) 2 0
      let c := vget Cap idxC 0
      if c / g < dt then c / g else dt
    else dt) 100

/-- The loop `while (power_epoch_time / time_iter >= dt) time_iter++`, cut off after `fuel`
evaluations of its test: `none` when the loop has not ended by then. -/
def calculate_time_step_loop (power_epoch_time dt : ℚ) : Nat → Int → Option Int
  | 0, _ => none
  | fuel + 1, time_iter =>
    if power_epoch_time / (time_iter : ℚ) ≥ dt then
      calculate_time_step_loop power_epoch_time dt fuel (time_iter + 1)
    else some time_iter

/-- The epoch time `config_.power_epoch_period * config_.tCK * 1e-9` in seconds. -/
def power_epoch_time (cfg : Config) : ℚ :=
  (cfg.power_epoch_period : ℚ) * cfg.tCK * (1 / 1000000000)

/-- The function `ThermalCalculator::calculate_time_step`, for the member `time_iter`; the
loop starts from `time_iter0 = 10`. -/
def calculate_time_step (cfg : Config) (env : ThermalEnv) (tc : ThermalCalculator)
    (Midx : List (List ℚ)) (MidxSize : Int) (Cap : List ℚ) (fuel : Nat) : Option Int :=
  calculate_time_step_loop (power_epoch_time cfg)
    (calculate_time_step_dt env tc Midx MidxSize Cap) fuel 10

/-! ## Final solve and final dump -/

/-- The function `ThermalCalculator::CalcFinalT`: the field assigned to `T_final[case_id]`.
The steady-state solver is a parameter; its arguments that are fixed at construction are
part of the black box. -/
def CalcFinalT (cfg : Config) (env : ThermalEnv)
    (steady_thermal_solver : List (List (List ℚ)) → List ℚ) (tc : ThermalCalculator)
    (case_id : Int) (clk : Nat) : List ℚ :=
  steady_thermal_solver (InitPowerM cfg env tc case_id clk)

/-- One data row `id,x,y,z,power,temperature` of the final dump file. -/
structure FinalRow where
  id : Int
  x : Int
  y : Int
  z : Int
  power : ℚ
  temperature : ℚ

/-- The rows written by `ThermalCalculator::PrintCSV_final`, in order. -/
def PrintCSV_final (env : ThermalEnv) (tc : ThermalCalculator) (P_ : List (List ℚ))
    (T_ : List (List ℚ)) (id : Int) (scale : Nat) : List FinalRow :=
  let nd := env.num_dummy
  (upto tc.numP).flatMap (fun l =>
    ((upto (tc.dimY + nd)).filter
        (fun j => !(decide (j < nd.tdiv 2) || decide (j ≥ tc.dimY + nd.tdiv 2)))).flatMap
      (fun j =>
        ((upto (tc.dimX + nd)).filter
            (fun i => !(decide (i < nd.tdiv 2) || decide (i ≥ tc.dimX + nd.tdiv 2)))).map
          (fun i =>
            { id := id, x := i - nd.tdiv 2, y := j - nd.tdiv 2, z := l,
              power := vget (vget P_ id [])
                (l * (tc.dimX * tc.dimY) + (j - nd.tdiv 2) * tc.dimX + (i - nd.tdiv 2)) 0
                / (scale : ℚ),
              temperature := vget (vget T_ id [])
                ((l * 3 + 1) * ((tc.dimX + nd) * (tc.dimY + nd)) + j * (tc.dimX + nd) + i)
                0 })))

/-- The loop `for (i = 0; i < dimX * dimY * numP; i++) accu_Pmap[c][i] += e`. -/
def addBackground_accu (tc : ThermalCalculator) (c : Int) (e : ℚ) : ThermalCalculator :=
  (upto (tc.dimX * tc.dimY * tc.numP)).foldl
    (fun t i => { t with accu_Pmap := addAt t.accu_Pmap c i e }) tc

/-- The first part of `PrintFinalPT`: the whole background energy added to `accu_Pmap`. -/
def PrintFinalPT_background (cfg : Config) (stats_ : Statistics) (tc : ThermalCalculator) :
    ThermalCalculator :=
  let device_scale : ℚ := if cfg.IsHMC || cfg.IsHBM then 1 else (cfg.devices_per_rank : ℚ)
  if cfg.IsHMC || cfg.IsHBM then
    let extra_energy := (Stats2DCumuSum stats_.act_stb_energy
      + Stats2DCumuSum stats_.pre_stb_energy + Stats2DCumuSum stats_.sref_energy
      + Stats2DCumuSum stats_.pre_pd_energy) / ((tc.dimX * tc.dimY * tc.numP : Int) : ℚ)
    (upto tc.num_case).foldl
      (fun t j => addBackground_accu t j (extra_energy / 1000 / device_scale)) tc
  else
    (upto cfg.channels).foldl (fun t jch =>
      (upto cfg.ranks).foldl (fun t jrk =>
        let case_id := jch * cfg.ranks + jrk
        let extra_energy :=
          (cumulative_value stats_.sref_energy jch jrk
            + cumulative_value stats_.pre_stb_energy jch jrk
            + cumulative_value stats_.act_stb_energy jch jrk
            + cumulative_value stats_.pre_pd_energy jch jrk)
          / ((t.dimX * t.dimY * t.numP : Int) : ℚ)
        addBackground_accu t case_id (extra_energy / 1000 / device_scale)) t) tc

/-- What `PrintFinalPT` produces: the lifetime map with the background energy, the final
temperature fields and the data rows of the final dump file. -/
structure FinalReport where
  accu_Pmap : List (List ℚ)
  T_final : List (List ℚ)
  final_temperature_file_csv_ : List FinalRow

/-- One iteration of the last loop of `PrintFinalPT`, for the case `ir`: the final solve and
the rows of the case appended to the final dump file.  `tc1` is the state after the
background energy has been added. -/
def PrintFinalPT_case (cfg : Config) (env : ThermalEnv)
    (steady_thermal_solver : List (List (List ℚ)) → List ℚ) (tc1 : ThermalCalculator)
    (clk : Nat) (r : FinalReport) (ir : Int) : FinalReport :=
  let T_final :=
    vmodify r.T_final ir (fun _ => CalcFinalT cfg env steady_thermal_solver tc1 ir clk)
  { r with
    T_final := T_final
    final_temperature_file_csv_ := r.final_temperature_file_csv_ ++
      PrintCSV_final env tc1 tc1.accu_Pmap T_final ir clk }

/-- The function `ThermalCalculator::PrintFinalPT`. -/
def PrintFinalPT (cfg : Config) (env : ThermalEnv)
    (steady_thermal_solver : List (List (List ℚ)) → List ℚ) (stats_ : Statistics)
    (tc : ThermalCalculator) (clk : Nat) : FinalReport :=
  let tc1 := PrintFinalPT_background cfg stats_ tc
  (upto tc1.num_case).foldl (PrintFinalPT_case cfg env steady_thermal_solver tc1 clk)
    { accu_Pmap := tc1.accu_Pmap, T_final := List.replicate tc1.num_case.toNat [],
      final_temperature_file_csv_ := [] }

/-! ## Bank-position dump -/

/-- One data row `vault_id,bank_id,start_x,end_x,start_y,end_y,z` of the bank-position
file. -/
structure BankRow where
  vault_id : Int
  bank_id : Int
  start_x : Int
  end_x : Int
  start_y : Int
  end_y : Int
  z : Int
deriving DecidableEq, Repr

/-- The four assignments to `start_x`, `end_x`, `start_y`, `end_y` and the output statement
of the stacked branches of `PrintCSV_bank`. -/
def PrintCSV_bank_stacked (cfg : Config) (tc : ThermalCalculator)
    (vault_id bank_id vault_id_x vault_id_y bank_id_x bank_id_y z : Int) : BankRow :=
  { vault_id := vault_id, bank_id := bank_id,
    start_x := vault_id_x * (tc.bank_x * cfg.numXgrids) + bank_id_x * cfg.numXgrids,
    end_x := vault_id_x * (tc.bank_x * cfg.numXgrids) + (bank_id_x + 1) * cfg.numXgrids - 1,
    start_y := vault_id_y * (tc.bank_y * cfg.numYgrids) + bank_id_y * cfg.numYgrids,
    end_y := vault_id_y * (tc.bank_y * cfg.numYgrids) + (bank_id_y + 1) * cfg.numYgrids - 1,
    z := z }

/-- The four assignments and the output statement of the planar branches of
`PrintCSV_bank`; the vault column is the constant 0. -/
def PrintCSV_bank_planar (cfg : Config) (bank_id bank_id_x bank_id_y : Int) : BankRow :=
  { vault_id := 0, bank_id := bank_id,
    start_x := bank_id_x * cfg.numXgrids,
    end_x := (bank_id_x + 1) * cfg.numXgrids - 1,
    start_y := bank_id_y * cfg.numYgrids,
    end_y := (bank_id_y + 1) * cfg.numYgrids - 1,
    z := 0 }

/-- The wide-I/O-stacked loop of `PrintCSV_bank`, the same under both tests of
`bank_order`. -/
def PrintCSV_bank_hbm (cfg : Config) (tc : ThermalCalculator) : List BankRow :=
  (upto cfg.channels).flatMap (fun vault_id =>
    let z := vault_id.tdiv 2
    let vault_id_y := vault_id.tmod 2
    let vault_id_x : Int := 0
    (upto cfg.banks).map (fun bank_id =>
      let bank_group_id := bank_id.tdiv cfg.banks_per_group
      let sub_bank_id := bank_id.tmod cfg.banks_per_group
      let bank_id_x := bank_group_id * 2 + sub_bank_id.tdiv 2
      let bank_id_y := sub_bank_id.tmod 2
      PrintCSV_bank_stacked cfg tc vault_id bank_id vault_id_x vault_id_y bank_id_x bank_id_y
        z))

/-- The data rows written by `ThermalCalculator::PrintCSV_bank`, in order. -/
def PrintCSV_bank (cfg : Config) (tc : ThermalCalculator) : List BankRow :=
  if cfg.bank_order = 1 then
    if cfg.IsHMC || cfg.IsHBM then
      if cfg.IsHMC then
        (upto cfg.channels).flatMap (fun vault_id =>
          let vault_id_x := vault_id.tdiv tc.vault_y
          let vault_id_y := vault_id.tmod tc.vault_y
          let num_bank_per_layer := cfg.banks.tdiv cfg.num_dies
          (upto cfg.banks).map (fun bank_id =>
            let z :=
              if cfg.bank_layer_order = 0 then bank_id.tdiv num_bank_per_layer
              else tc.numP - bank_id.tdiv num_bank_per_layer - 1
            let bank_same_layer := bank_id.tmod num_bank_per_layer
            let bank_id_x := bank_same_layer.tdiv tc.bank_y
            let bank_id_y := bank_same_layer.tmod tc.bank_y
            PrintCSV_bank_stacked cfg tc vault_id bank_id vault_id_x vault_id_y bank_id_x
              bank_id_y z))
      else PrintCSV_bank_hbm cfg tc
    else
      (upto cfg.banks).map (fun bank_id =>
        if cfg.bankgroups > 1 then
          let bank_group_id := bank_id.tdiv cfg.banks_per_group
          let sub_bank_id := bank_id.tmod cfg.banks_per_group
          let bank_id_x := sub_bank_id.tdiv 2
          let bank_id_y := sub_bank_id.tmod 2
          if tc.bank_x ≤ tc.bank_y then
            PrintCSV_bank_planar cfg bank_id bank_id_x (bank_id_y + bank_group_id * 2)
          else PrintCSV_bank_planar cfg bank_id (bank_id_x + bank_group_id * 2) bank_id_y
        else
          PrintCSV_bank_planar cfg bank_id (bank_id.tdiv tc.bank_y) (bank_id.tmod tc.bank_y))
  else
    if cfg.IsHMC || cfg.IsHBM then
      if cfg.IsHMC then
        (upto cfg.channels).flatMap (fun vault_id =>
          let vault_id_y := vault_id.tdiv tc.vault_x
          let vault_id_x := vault_id.tmod tc.vault_x
          let num_bank_per_layer := cfg.banks.tdiv cfg.num_dies
          (upto cfg.banks).map (fun bank_id =>
            let z :=
              if cfg.bank_layer_order = 0 then bank_id.tdiv num_bank_per_layer
              else tc.numP - bank_id.tdiv num_bank_per_layer - 1
            let bank_same_layer := bank_id.tmod num_bank_per_layer
            let bank_id_y := bank_same_layer.tdiv tc.bank_x
            let bank_id_x := bank_same_layer.tmod tc.bank_x
            PrintCSV_bank_stacked cfg tc vault_id bank_id vault_id_x vault_id_y bank_id_x
              bank_id_y z))
      else PrintCSV_bank_hbm cfg tc
    else
      (upto cfg.banks).map (fun bank_id =>
        if cfg.bankgroups > 1 then
          let bank_group_id := bank_id.tdiv cfg.banks_per_group
          let sub_bank_id := bank_id.tmod cfg.banks_per_group
          let bank_id_y := sub_bank_id.tdiv 2
          let bank_id_x := sub_bank_id.tmod 2
          if tc.bank_x ≤ tc.bank_y then
            PrintCSV_bank_planar cfg bank_id bank_id_x (bank_id_y + bank_group_id * 2)
          else PrintCSV_bank_planar cfg bank_id (bank_id_x + bank_group_id * 2) bank_id_y
        else
          PrintCSV_bank_planar cfg bank_id (bank_id.tmod tc.bank_x) (bank_id.tdiv tc.bank_x))

/-- The row of the bank-position file for a vault and a bank, when there is one. -/
def PrintCSV_bank_find (cfg : Config) (tc : ThermalCalculator) (vault_id bank_id : Int) :
    Option BankRow :=
  (PrintCSV_bank cfg tc).find? (fun r => decide (r.vault_id = vault_id ∧ r.bank_id = bank_id))

/-! ## Commands of the mapper statements -/

/-- The command `cmd` readdressed to the channel `c`. -/
def channelCommand (cmd : Command) (c : Int) : Command :=
  { cmd with addr_ := { cmd.addr_ with channel_ := c } }

/-- The command `cmd` readdressed to the bank group `g` and the bank `b`. -/
def bankCommand (cmd : Command) (g b : Int) : Command :=
  { cmd with addr_ := { cmd.addr_ with bankgroup_ := g, bank_ := b } }

/-- The scenario with two bank groups of four banks. -/
def groupedConfig : Config := { scenarioConfig with bankgroups := 2, banks_per_group := 4 }

/-- A `READ` command of the scenario addressed to a bank group and a bank of the group. -/
def readBank (g b : Int) : Command :=
  { cmd_type_ := CommandType.READ,
    addr_ := { channel_ := 0, rank_ := 0, bankgroup_ := g, bank_ := b, row_ := 0, column_ := 0 } }

/-- The scenario with 4 bank groups of 4 banks. -/
def sixteenBanks : Config :=
  { scenarioConfig with banks := 16, bankgroups := 4, banks_per_group := 4 }

/-- A wide-I/O-stacked configuration with 8 channels and 4 bank groups of 4 banks. -/
def wideConfig : Config := { sixteenBanks with IsHBM := true, channels := 8, num_dies := 4 }

/-- The scenario state with a temperature field of a single sample per case. -/
def oneSampleState : ThermalCalculator := { scenarioState with T_size := 1 }

/-- A temperature field with the single sample -1. -/
def coldField : List (List ℚ) := [[-1]]

/-- A temperature field with the single sample 300. -/
def warmField : List (List ℚ) := [[300]]

/-- The row of the final dump for the non-guard cell `(x, y, l)`: the power
`P_[id][l*dimX*dimY + y*dimX + x] / scale` and the temperature sample at the index
`(3l+1)*(dimX+num_dummy)*(dimY+num_dummy) + (y + num_dummy/2)*(dimX+num_dummy)
+ (x + num_dummy/2)`. -/
def finalRow (env : ThermalEnv) (tc : ThermalCalculator) (P_ : List (List ℚ))
    (T_ : List (List ℚ)) (id : Int) (scale : Nat) (x y l : Int) : FinalRow :=
  { id := id, x := x, y := y, z := l,
    power := cell P_ id (l * (tc.dimX * tc.dimY) + y * tc.dimX + x) / (scale : ℚ),
    temperature := cell T_ id
      ((3 * l + 1) * ((tc.dimX + env.num_dummy) * (tc.dimY + env.num_dummy))
        + (y + env.num_dummy.tdiv 2) * (tc.dimX + env.num_dummy)
        + (x + env.num_dummy.tdiv 2)) }

/-- The index of the temperature sample of the non-guard cell `(x, y, l)`. -/
def sampleIndex (env : ThermalEnv) (tc : ThermalCalculator) (x y l : Int) : Int :=
  (3 * l + 1) * ((tc.dimX + env.num_dummy) * (tc.dimY + env.num_dummy))
    + (y + env.num_dummy.tdiv 2) * (tc.dimX + env.num_dummy) + (x + env.num_dummy.tdiv 2)

/-- The entry `powerM[a][b][c]` of a padded power array. -/
def powerAt (powerM : List (List (List ℚ))) (a b c : Int) : ℚ :=
  vget (vget (vget powerM a []) b []) c 0

/-- The access `powerM[a][b][c]` is inside the array. -/
def inBox (powerM : List (List (List ℚ))) (a b c : Int) : Prop :=
  0 ≤ a ∧ a.toNat < powerM.length ∧ 0 ≤ b ∧ b.toNat < (vget powerM a []).length ∧
  0 ≤ c ∧ c.toNat < (vget (vget powerM a []) b []).length

instance (powerM : List (List (List ℚ))) (a b c : Int) : Decidable (inBox powerM a b c) := by
  unfold inBox
  infer_instance

/-- The extents of a padded power array: the length of every innermost vector. -/
def boxShape (powerM : List (List (List ℚ))) : List (List Nat) :=
  powerM.map (fun p => p.map List.length)

/-- The power map and the divisor that `InitPowerM` uses: the current map and the epoch
length when `clk` is 0, the lifetime map and `clk` otherwise. -/
def InitPowerM_source (cfg : Config) (tc : ThermalCalculator) (clk : Nat) :
    List (List ℚ) × ℚ :=
  if clk = 0 then (tc.cur_Pmap, (cfg.power_epoch_period : ℚ)) else (tc.accu_Pmap, (clk : ℚ))

/-- The scenario state with 5 in cell 0 of the lifetime map and 1000 in cell 0 of the
current map. -/
def mixedState : ThermalCalculator :=
  { scenarioState with
    accu_Pmap := addAt scenarioState.accu_Pmap 0 0 5
    cur_Pmap := addAt scenarioState.cur_Pmap 0 0 1000 }

/-! ## Vocabulary of the background-energy statements -/

/-- The sum of the four cumulative background energies of a channel and rank. -/
def cumSum (stats_ : Statistics) (jch jrk : Int) : ℚ :=
  cumulative_value stats_.sref_energy jch jrk + cumulative_value stats_.pre_stb_energy jch jrk
    + cumulative_value stats_.act_stb_energy jch jrk
    + cumulative_value stats_.pre_pd_energy jch jrk

/-- The sum of the four stored previous-sample energies of a case. -/
def prevSum (tc : ThermalCalculator) (c : Int) : ℚ :=
  vget tc.sref_energy_prev c 0 + vget tc.pre_stb_energy_prev c 0
    + vget tc.act_stb_energy_prev c 0 + vget tc.pre_pd_energy_prev c 0

/-- The body of the inner loop of the planar branch of the background energy, for the
channel `jch` and the rank `jrk`. -/
def UpdatePower_background_step (cfg : Config) (stats_ : Statistics) (device_scale : ℚ)
    (t : ThermalCalculator) (jch jrk : Int) : ThermalCalculator :=
  let case_id := jch * cfg.ranks + jrk
  let extra_energy :=
    (cumulative_value stats_.sref_energy jch jrk
      + cumulative_value stats_.pre_stb_energy jch jrk
      + cumulative_value stats_.act_stb_energy jch jrk
      + cumulative_value stats_.pre_pd_energy jch jrk
      - vget t.sref_energy_prev case_id 0 - vget t.pre_stb_energy_prev case_id 0
      - vget t.act_stb_energy_prev case_id 0 - vget t.pre_pd_energy_prev case_id 0)
    / ((t.dimX * t.dimY * t.numP : Int) : ℚ)
  let t1 : ThermalCalculator :=
    { t with
      sref_energy_prev :=
        vset t.sref_energy_prev case_id (cumulative_value stats_.sref_energy jch jrk)
      pre_stb_energy_prev :=
        vset t.pre_stb_energy_prev case_id
          (cumulative_value stats_.pre_stb_energy jch jrk)
      act_stb_energy_prev :=
        vset t.act_stb_energy_prev case_id
          (cumulative_value stats_.act_stb_energy jch jrk)
      pre_pd_energy_prev :=
        vset t.pre_pd_energy_prev case_id
          (cumulative_value stats_.pre_pd_energy jch jrk) }
  addBackground t1 case_id (extra_energy / 1000 / device_scale)

/-- The four stored previous-sample energies of a case, in the order self-refresh,
precharge standby, active standby, precharge power-down. -/
def prevAt (tc : ThermalCalculator) (c : Int) : ℚ × ℚ × ℚ × ℚ :=
  (vget tc.sref_energy_prev c 0, vget tc.pre_stb_energy_prev c 0,
    vget tc.act_stb_energy_prev c 0, vget tc.pre_pd_energy_prev c 0)

/-- The four cumulative background energies of a channel and rank, in the same order. -/
def cumAt (stats_ : Statistics) (jch jrk : Int) : ℚ × ℚ × ℚ × ℚ :=
  (cumulative_value stats_.sref_energy jch jrk, cumulative_value stats_.pre_stb_energy jch jrk,
    cumulative_value stats_.act_stb_energy jch jrk,
    cumulative_value stats_.pre_pd_energy jch jrk)

/-- The four previous-sample vectors. -/
def prevVectors (tc : ThermalCalculator) : List ℚ × List ℚ × List ℚ × List ℚ :=
  (tc.sref_energy_prev, tc.pre_stb_energy_prev, tc.act_stb_energy_prev,
    tc.pre_pd_energy_prev)

/-- The lengths of the four previous-sample vectors. -/
def prevLengths (tc : ThermalCalculator) : Nat × Nat × Nat × Nat :=
  (tc.sref_energy_prev.length, tc.pre_stb_energy_prev.length,
    tc.act_stb_energy_prev.length, tc.pre_pd_energy_prev.length)

/-- The case `c` has an entry in each of the four previous-sample vectors. -/
def prevInRange (tc : ThermalCalculator) (c : Int) : Prop :=
  0 ≤ c ∧ c.toNat < (prevLengths tc).1 ∧ c.toNat < (prevLengths tc).2.1 ∧
    c.toNat < (prevLengths tc).2.2.1 ∧ c.toNat < (prevLengths tc).2.2.2

/-- The per-cell background energy of the case of channel `jch` and rank `jrk`. -/
def backgroundCell (cfg : Config) (stats_ : Statistics) (device_scale : ℚ)
    (tc : ThermalCalculator) (jch jrk : Int) : ℚ :=
  (cumSum stats_ jch jrk - prevSum tc (jch * cfg.ranks + jrk))
    / ((tc.dimX * tc.dimY * tc.numP : Int) : ℚ) / 1000 / device_scale

/-- The state on which the planar background energy acts as intended: one case per
(channel, rank) pair, a current map of the shape the constructor gives it, and one entry
per case in each previous-sample vector. -/
def BackgroundReady (cfg : Config) (tc : ThermalCalculator) : Prop :=
  tc.num_case = cfg.ranks * cfg.channels ∧
  shape tc.cur_Pmap = shape (zeroMap tc.num_case (tc.numP * tc.dimX * tc.dimY)) ∧
  prevLengths tc
    = (tc.num_case.toNat, tc.num_case.toNat, tc.num_case.toNat, tc.num_case.toNat)

/-- The state after the deposit of a call and the background energy of an epoch crossing:
the state whose current map `PrintTransPT` hands to the transient solver. -/
def backgroundState (cfg : Config) (stats_ : Statistics) (tc : ThermalCalculator)
    (cmd : Command) (clk : Nat) : ThermalCalculator :=
  UpdatePower_background cfg stats_ (UpdatePower_deposit cfg tc cmd clk)
    (UpdatePower_case cfg cmd).2

/-- The planar background loop over a list of (channel, rank) pairs. -/
def UpdatePower_background_loop (cfg : Config) (stats_ : Statistics) (device_scale : ℚ)
    (ps : List (Int × Int)) (t : ThermalCalculator) : ThermalCalculator :=
  ps.foldl (fun t p => UpdatePower_background_step cfg stats_ device_scale t p.1 p.2) t

/-- The (channel, rank) pairs in the order of the planar background loop. -/
def channelRanks (cfg : Config) : List (Int × Int) :=
  (upto cfg.channels).flatMap (fun jch => (upto cfg.ranks).map (fun jrk => (jch, jrk)))

/-- The background energy that a call folds into the case of channel `jch` and rank `jrk`:
the increase of the cumulative sum since the previous sample when the call crosses an epoch
boundary, nothing otherwise. -/
def foldedBackground (cfg : Config) (tc : ThermalCalculator) (c : Call) (jch jrk : Int) : ℚ :=
  if epochCrossed cfg tc c.clk then cumSum c.stats_ jch jrk - prevSum tc (jch * cfg.ranks + jrk)
  else 0

/-- The background energy folded into a case over a run of calls. -/
def foldedTotal (cfg : Config) (env : ThermalEnv) (jch jrk : Int) :
    ThermalCalculator → List Call → ℚ
  | _, [] => 0
  | tc, c :: rest =>
    foldedBackground cfg tc c jch jrk
      + foldedTotal cfg env jch jrk (UpdatePower cfg env c.stats_ tc c.cmd c.clk) rest

/-- Statistics of the scenario with the cumulative background energies 1, 2, 3 and 4 for
channel 0 and rank 0. -/
def busyStats : Statistics :=
  { sref_energy := [[1]], pre_stb_energy := [[2]], act_stb_energy := [[3]],
    pre_pd_energy := [[4]] }

/-! ## Vocabulary of the bank-position statements -/

/-- The start corner and the layer that the mapper gives the bank of a command:
`vault_id_x*bank_x*numXgrids + bank_id_x*numXgrids`,
`vault_id_y*bank_y*numYgrids + bank_id_y*numYgrids` and `MapToZ`, with the vault and bank
coordinates of `MapToVault` and `MapToBank`. -/
def mapperStart (cfg : Config) (tc : ThermalCalculator) (cmd : Command) : Int × Int × Int :=
  ((MapToVault cfg tc cmd).1 * tc.bank_x * cfg.numXgrids
      + (MapToBank cfg tc cmd).1 * cfg.numXgrids,
    (MapToVault cfg tc cmd).2 * tc.bank_y * cfg.numYgrids
      + (MapToBank cfg tc cmd).2 * cfg.numYgrids,
    MapToZ cfg tc cmd)

/-- The start corner and the layer of a row of the bank-position file. -/
def dumpStart (r : BankRow) : Int × Int × Int := (r.start_x, r.start_y, r.z)

/-- The scenario with the placement-priority flag set to 2. -/
def flagTwoConfig : Config := { scenarioConfig with bank_order := 2 }

/-- A 3D-stacked configuration with 16 vaults, 4 dies and 2 bank groups of 4 banks. -/
def stackedGroups : Config :=
  { stackedConfig with banks := 8, bankgroups := 2, banks_per_group := 4 }

/-- The state the constructor builds for `stackedGroups`. -/
def stackedGroupsInit : ThermalCalculator :=
  ThermalCalculator.init stackedGroups scenarioEnv (fun a => a) 0 0

/-- The pairs `(x, y)` of the loop of `LocationMappingANDaddEnergy_RF` for the bank `bank0`
and the row `row0`, in order: `x` is fixed and `y` is incremented `numYgrids` times. -/
def LocationMapping_RF_cells (cfg : Config) (tc : ThermalCalculator) (cmd : Command)
    (bank0 row0 : Int) : List (Int × Int) :=
  let new_addr := tc.GetPhyAddress { cmd.addr_ with row_ := row0, bank_ := bank0 }
  let new_cmd : Command := { cmd_type_ := cmd.cmd_type_, addr_ := new_addr }
  let vault_coord := MapToVault cfg tc new_cmd
  let bank_coord := MapToBank cfg tc new_cmd
  let row_id := new_addr.row_
  let col_id : Int := 0
  let col_tile_id := row_id.tdiv cfg.TileRowNum
  let grid_id_x := (row_id.tdiv cfg.matX).tdiv cfg.RowTile
  let grid_id_y := col_id.tdiv cfg.matY + col_tile_id * (cfg.numYgrids.tdiv cfg.RowTile)
  let x := vault_coord.1 * (tc.bank_x * cfg.numXgrids) + bank_coord.1 * cfg.numXgrids
    + grid_id_x
  let y := vault_coord.2 * (tc.bank_y * cfg.numYgrids) + bank_coord.2 * cfg.numYgrids
    + grid_id_y
  (upto cfg.numYgrids).map (fun i => (x, y + i))

/-- The scenario with the 16 rows of a bank folded into 2 column tiles of 8 rows: one grid
cell along x and 4 along y. -/
def tiledConfig : Config :=
  { scenarioConfig with numXgrids := 1, numYgrids := 4, RowTile := 2, TileRowNum := 8 }

/-- The state the constructor builds for `tiledConfig` (a 4 x 2 bank layout, a 4 x 8 grid),
written out. -/
def tiledState : ThermalCalculator := { scenarioState with dimX := 4, dimY := 8 }

/-! ## Vocabulary of the planar placement statements -/

/-- The grid cell `(x, y)` lies in the rectangle of a row of the bank-position file. -/
def BankRow.covers (r : BankRow) (x y : Int) : Prop :=
  r.start_x ≤ x ∧ x ≤ r.end_x ∧ r.start_y ≤ y ∧ y ≤ r.end_y

/-- The grid rectangle of the bank of a command in a planar topology: the four assignments
of the planar branch of `PrintCSV_bank` applied to the bank coordinates of `MapToBank`, that
is `bank_id_x*numXgrids .. (bank_id_x+1)*numXgrids - 1` by
`bank_id_y*numYgrids .. (bank_id_y+1)*numYgrids - 1`. -/
def planarRectangle (cfg : Config) (tc : ThermalCalculator) (cmd : Command) : BankRow :=
  PrintCSV_bank_planar cfg cmd.Bank (MapToBank cfg tc cmd).1 (MapToBank cfg tc cmd).2

/-- The state the constructor builds for `sixteenBanks` (a 4 x 4 bank layout, an 8 x 8
grid), written out. -/
def sixteenState : ThermalCalculator :=
  { bank_x := 4, bank_y := 4, vault_x := 0, vault_y := 0, dimX := 8, dimY := 8, numP := 1,
    num_case := 1, Tamb := 313, GetPhyAddress := fun a => a,
    accu_Pmap := zeroMap 1 64, cur_Pmap := zeroMap 1 64, T_size := 400,
    T_trans := [(upto 400).map (fun i => vget [(313 : ℚ)] i 0)],
    sref_energy_prev := [0], pre_stb_energy_prev := [0], act_stb_energy_prev := [0],
    pre_pd_energy_prev := [0],
    refresh_count := [[0, 0, 0, 0, 0, 0, 0, 0, 0, 0, 0, 0, 0, 0, 0, 0]],
    sample_id := 0, save_clk := 0, epoch_max_temp_file_csv_ := [],
    epoch_temperature_file_csv_ := [] }

/-! ## Vocabulary of the cell-range statements -/

/-- The row-derived sub-grid index `grid_id_x = row_id / matX / RowTile` of `MapToXY`. -/
def MapToXY_grid_id_x (cfg : Config) (cmd : Command) : Int :=
  (cmd.Row.tdiv cfg.matX).tdiv cfg.RowTile

/-- The column-derived sub-grid index
`grid_id_y = col_id / matY + col_tile_id * (numYgrids / RowTile)` of `MapToXY` for the
column `i` of the burst and the lane `j` of the device width. -/
def MapToXY_grid_id_y (cfg : Config) (tc : ThermalCalculator) (cmd : Command) (i j : Int) :
    Int :=
  let temp_addr : Address := { cmd.addr_ with column_ := cmd.addr_.column_ + i }
  let phy_loc := tc.GetPhyAddress temp_addr
  let col_id := phy_loc.column_ * cfg.device_width + j
  col_id.tdiv cfg.matY + (cmd.Row.tdiv cfg.TileRowNum) * (cfg.numYgrids.tdiv cfg.RowTile)

/-! ## Vocabulary of the refresh-table statements -/

/-- The cursor `refresh_count[k][ib]` of a refresh-progress table. -/
def cursorAt (T : List (List Nat)) (k : Nat) (ib : Int) : Nat := vget (T.getD k []) ib 0

/-- The access `refresh_count[k][ib]` is inside the table. -/
def cursorInTable (T : List (List Nat)) (k : Nat) (ib : Int) : Prop :=
  k < T.length ∧ 0 ≤ ib ∧ ib.toNat < (T.getD k []).length

instance (T : List (List Nat)) (k : Nat) (ib : Int) : Decidable (cursorInTable T k ib) := by
  unfold cursorInTable
  infer_instance

/-! ## Vocabulary of the low-bit statement -/

/-- The value `this_bit` of the `GetPhyAddress` lambda for entry `j` of field `i`: bit
`field_width - j - 1` of the field value. -/
def GetPhyAddress_this_bit (mapped_pos : List (List Int)) (addr : Address) (i j : Nat) : Nat :=
  GetBitInPos (toU64 (addr.fields.getD i 0))
    (Int.ofNat (mapped_pos.getD i []).length - Int.ofNat j - 1)

/-- The two addresses agree on every source bit that the lambda reads and whose configured
destination position is not 0, 1 or 2. -/
def AgreeOffLowBits (mapped_pos : List (List Int)) (a b : Address) : Prop :=
  ∀ i, i < 6 → ∀ j, j < (mapped_pos.getD i []).length →
    (mapped_pos.getD i []).getD j 0 ≠ 0 → (mapped_pos.getD i []).getD j 0 ≠ 1 →
    (mapped_pos.getD i []).getD j 0 ≠ 2 →
    GetPhyAddress_this_bit mapped_pos a i j = GetPhyAddress_this_bit mapped_pos b i j

instance (mapped_pos : List (List Int)) (a b : Address) :
    Decidable (AgreeOffLowBits mapped_pos a b) := by
  unfold AgreeOffLowBits
  infer_instance

/-- The position lists of the specification `14,13,12,11:10,9:6,5:0`: the three low bits
of the column go to the positions 2, 1 and 0. -/
def lowColumnPositions : List (List Int) :=
  [[14], [13], [12], [11, 10], [9, 8, 7, 6], [5, 4, 3, 2, 1, 0]]

/-! ## Double-precision arithmetic

The rounded embedding.  The definitions with the suffix `_fl` repeat the power-map path of
`UpdatePower`, the transient report and `determineXY` with a rounding function `fl` applied
to the result of every floating-point operation of the source, in the order in which the
source evaluates them.  With `fl = roundToDouble` they compute what the program computes in
IEEE 754 binary64 arithmetic as long as no value leaves the normal range; with `fl` the
identity they are the exact definitions above.  Conversions of `int` values to `double` are
exact and are not rounded. -/

/-- The number of binary digits of a natural number (0 for 0), by halving on fuel. -/
def bitLength : Nat → Nat → Nat
  | 0, _ => 0
  | fuel + 1, n => if n = 0 then 0 else bitLength fuel (n / 2) + 1

/-- The binary64 value nearest to a rational, ties to the even significand: the rational is
scaled by a power of two `2^e` into `[2^52, 2^53)`, rounded to an integer, and scaled back.
The exponent is not bounded: overflow and subnormal numbers are not represented. -/
def roundToDouble (q : ℚ) : ℚ :=
  if q = 0 then 0 else
    let n : Nat := q.num.natAbs
    let d : Nat := q.den
    let e0 : Int := (bitLength 4096 n : Int) - (bitLength 4096 d : Int) - 52
    let N (e : Int) : Nat := if e < 0 then n * 2 ^ (-e).toNat else n
    let D (e : Int) : Nat := if e < 0 then d else d * 2 ^ e.toNat
    let e : Int :=
      if N e0 < 2 ^ 52 * D e0 then e0 - 1
      else if 2 ^ 53 * D e0 ≤ N e0 then e0 + 1 else e0
    let r : Nat := N e / D e
    let rem : Nat := N e % D e
    let r2 : Nat :=
      if 2 * rem > D e ∨ (2 * rem = D e ∧ r % 2 = 1) then r + 1 else r
    let m : Int := if q.num < 0 then -(r2 : Int) else (r2 : Int)
    if e < 0 then mkRat m (2 ^ (-e).toNat) else ((m * 2 ^ e.toNat : Int) : ℚ)

/-- The expression `(x*xd >= y*yd) ? (x*xd/y/yd) : (y*yd/x/xd)` of `determineXY` with every
product and quotient rounded.  A division by zero gives `none`: the numerator is then
non-negative, so the program gets `+inf` or a NaN, which is below no value. -/
def determineXY_asr_fl (fl : ℚ → ℚ) (xd yd : ℚ) (x y : Int) : Option ℚ :=
  if fl ((x : ℚ) * xd) ≥ fl ((y : ℚ) * yd) then
    if (y : ℚ) = 0 ∨ yd = 0 then none
    else some (fl (fl (fl ((x : ℚ) * xd) / (y : ℚ)) / yd))
  else
    if (x : ℚ) = 0 ∨ xd = 0 then none
    else some (fl (fl (fl ((y : ℚ) * yd) / (x : ℚ)) / xd))

/-- One iteration of the loop of `determineXY` in rounded arithmetic. -/
def determineXY_step_fl (fl : ℚ → ℚ) (xd yd : ℚ) (total_grids_ : Int) (st : Int × ℚ)
    (y : Int) : Int × ℚ :=
  let x := total_grids_.tdiv y
  if x * y = total_grids_ then
    match determineXY_asr_fl fl xd yd x y with
    | some asr => if asr < st.2 then (total_grids_.tdiv y, asr) else st
    | none => st
  else st

/-- The function `ThermalCalculator::determineXY` in rounded arithmetic. -/
def determineXY_fl (fl : ℚ → ℚ) (xd yd : ℚ) (total_grids_ : Int) : Int :=
  (((upto total_grids_).map (fun k => k + 1)).foldl
    (determineXY_step_fl fl xd yd total_grids_) (1, 1000)).1

/-- The statement `m[c][i] += e` with the sum rounded. -/
def addAt_fl (fl : ℚ → ℚ) (m : List (List ℚ)) (c i : Int) (e : ℚ) : List (List ℚ) :=
  vmodify m c (fun row => vmodify row i (fun v => fl (v + e)))

/-- The pair of statements `accu_Pmap[c][idx] += e; cur_Pmap[c][idx] += e` in rounded
arithmetic. -/
def addBoth_fl (fl : ℚ → ℚ) (tc : ThermalCalculator) (c idx : Int) (e : ℚ) :
    ThermalCalculator :=
  { tc with
    accu_Pmap := addAt_fl fl tc.accu_Pmap c idx e
    cur_Pmap := addAt_fl fl tc.cur_Pmap c idx e }

/-- The function `ThermalCalculator::LocationMappingANDaddEnergy` in rounded arithmetic. -/
def LocationMappingANDaddEnergy_fl (fl : ℚ → ℚ) (cfg : Config) (tc : ThermalCalculator)
    (cmd : Command) (caseID_ : Int) (add_energy : ℚ) : ThermalCalculator :=
  let energy := fl (add_energy / (cfg.device_width : ℚ))
  (LocationMapping cfg tc cmd).foldl (fun t idx => addBoth_fl fl t caseID_ idx energy) tc

/-- The function `ThermalCalculator::LocationMappingANDaddEnergy_RF` in rounded
arithmetic. -/
def LocationMappingANDaddEnergy_RF_fl (fl : ℚ → ℚ) (cfg : Config) (tc : ThermalCalculator)
    (cmd : Command) (bank0 row0 : Int) (caseID_ : Int) (add_energy : ℚ) :
    ThermalCalculator :=
  (LocationMapping_RF cfg tc cmd bank0 row0).foldl
    (fun t idx => addBoth_fl fl t caseID_ idx add_energy) tc

/-- The function `ThermalCalculator::InitPowerM` with the quotient `power / div` rounded. -/
def InitPowerM_fl (fl : ℚ → ℚ) (cfg : Config) (env : ThermalEnv) (tc : ThermalCalculator)
    (case_id : Int) (clk : Nat) : List (List (List ℚ)) :=
  let zero : List (List (List ℚ)) :=
    List.replicate (tc.dimX + env.num_dummy).toNat
      (List.replicate (tc.dimY + env.num_dummy).toNat (List.replicate tc.numP.toNat 0))
  let div : ℚ := if clk = 0 then (cfg.power_epoch_period : ℚ) else (clk : ℚ)
  let power_map := if clk = 0 then tc.cur_Pmap else tc.accu_Pmap
  (upto tc.dimX).foldl (fun pm i =>
    (upto tc.dimY).foldl (fun pm j =>
      (upto tc.numP).foldl (fun pm l =>
        setPowerM pm (i + env.num_dummy.tdiv 2) (j + env.num_dummy.tdiv 2) l
          (fl (vget (vget power_map case_id []) (l * (tc.dimX * tc.dimY) + j * tc.dimX + i) 0
            / div))) pm) pm) zero

/-- The function `ThermalCalculator::CalcTransT` in rounded arithmetic. -/
def CalcTransT_fl (fl : ℚ → ℚ) (cfg : Config) (env : ThermalEnv) (tc : ThermalCalculator)
    (case_id : Int) : ThermalCalculator :=
  let powerM := InitPowerM_fl fl cfg env tc case_id 0
  { tc with
    T_trans := vmodify tc.T_trans case_id (fun T => env.transient_thermal_solver powerM T) }

/-- The rows written by `ThermalCalculator::PrintCSV_trans` with the power quotient and the
temperature difference rounded. -/
def PrintCSV_trans_fl (fl : ℚ → ℚ) (env : ThermalEnv) (tc : ThermalCalculator)
    (P_ : List (List ℚ)) (T_ : List (List ℚ)) (id : Int) (scale : Nat) : List TransRow :=
  let nd := env.num_dummy
  (upto tc.numP).flatMap (fun l =>
    ((upto (tc.dimY + nd)).filter
        (fun j => !(decide (j < nd.tdiv 2) || decide (j ≥ tc.dimY + nd.tdiv 2)))).flatMap
      (fun j =>
        ((upto (tc.dimX + nd)).filter
            (fun i => !(decide (i < nd.tdiv 2) || decide (i ≥ tc.dimX + nd.tdiv 2)))).map
          (fun i =>
            { id := id, x := i - nd.tdiv 2, y := j - nd.tdiv 2, z := l,
              power := fl (vget (vget P_ id [])
                (l * (tc.dimX * tc.dimY) + (j - nd.tdiv 2) * tc.dimX + (i - nd.tdiv 2)) 0
                / (scale : ℚ)),
              temperature := fl (vget (vget T_ id [])
                ((l * 3 + 1) * ((tc.dimX + nd) * (tc.dimY + nd)) + j * (tc.dimX + nd) + i) 0
                - env.T0),
              epoch := tc.sample_id })))

/-- One iteration of the loop of `PrintTransPT` in rounded arithmetic. -/
def PrintTransPT_case_fl (fl : ℚ → ℚ) (cfg : Config) (env : ThermalEnv)
    (tc : ThermalCalculator) (ir : Int) : ThermalCalculator :=
  let tc1 := CalcTransT_fl fl cfg env tc ir
  let maxT := GetMaxT tc1 tc1.T_trans ir
  let tc2 : ThermalCalculator :=
    { tc1 with epoch_max_temp_file_csv_ :=
        tc1.epoch_max_temp_file_csv_ ++ [{ temperature := fl (maxT - env.T0), case_id := ir }] }
  if cfg.output_level ≥ 2 then
    { tc2 with epoch_temperature_file_csv_ :=
        tc2.epoch_temperature_file_csv_ ++
          PrintCSV_trans_fl fl env tc2 tc2.cur_Pmap tc2.T_trans ir cfg.power_epoch_period }
  else tc2

/-- The function `ThermalCalculator::PrintTransPT` in rounded arithmetic. -/
def PrintTransPT_fl (fl : ℚ → ℚ) (cfg : Config) (env : ThermalEnv) (tc : ThermalCalculator) :
    ThermalCalculator :=
  (upto tc.num_case).foldl (PrintTransPT_case_fl fl cfg env) tc

/-- The refresh of one bank `ib` in rounded arithmetic. -/
def UpdatePower_refresh_bank_fl (fl : ℚ → ℚ) (cfg : Config) (cmd : Command) (case_id : Int)
    (e : ℚ) (tc : ThermalCalculator) (ib : Int) : ThermalCalculator :=
  let count := vget (tc.refresh_count.getD (refresh_index cfg cmd) []) ib 0
  let tc1 : ThermalCalculator :=
    { tc with
      refresh_count :=
        (tc.refresh_count.modify (fun row => vmodify row ib (refresh_count_next cfg))
          (refresh_index cfg cmd)) }
  (refresh_rows cfg count).foldl
    (fun t ir => LocationMappingANDaddEnergy_RF_fl fl cfg t cmd ib ir case_id e) tc1

/-- Lines 404 to 475 of `UpdatePower` with every quotient rounded: `energy` is divided by
`numRowRefresh`, `banks` and `numYgrids` (or by `BL`), then by `1000.0`, then by
`device_scale`. -/
def UpdatePower_deposit_fl (fl : ℚ → ℚ) (cfg : Config) (tc : ThermalCalculator)
    (cmd : Command) (clk : Nat) : ThermalCalculator :=
  let case_id := (UpdatePower_case cfg cmd).1
  let device_scale := (UpdatePower_case cfg cmd).2
  let tc0 : ThermalCalculator := { tc with save_clk := clk }
  if cmd.cmd_type_ = CommandType.REFRESH then
    let energy := fl (fl (fl (cfg.ref_energy_inc / (cfg.numRowRefresh : ℚ)) / (cfg.banks : ℚ))
      / (cfg.numYgrids : ℚ))
    (upto cfg.banks).foldl
      (UpdatePower_refresh_bank_fl fl cfg cmd case_id (fl (fl (energy / 1000) / device_scale)))
      tc0
  else if cmd.cmd_type_ = CommandType.REFRESH_BANK then
    let energy := fl (fl (cfg.refb_energy_inc / (cfg.numRowRefresh : ℚ))
      / (cfg.numYgrids : ℚ))
    UpdatePower_refresh_bank_fl fl cfg cmd case_id (fl (fl (energy / 1000) / device_scale))
      tc0 cmd.Bank
  else
    let energy := UpdatePower_energy cfg cmd.cmd_type_
    if energy > 0 then
      LocationMappingANDaddEnergy_fl fl cfg tc0 cmd case_id
        (fl (fl (fl (energy / (cfg.BL : ℚ)) / 1000) / device_scale))
    else tc0

/-- The loop `for (i = 0; i < dimX * dimY * numP; i++) cur_Pmap[c][i] += e` with the sums
rounded. -/
def addBackground_fl (fl : ℚ → ℚ) (tc : ThermalCalculator) (c : Int) (e : ℚ) :
    ThermalCalculator :=
  (upto (tc.dimX * tc.dimY * tc.numP)).foldl
    (fun t i => { t with cur_Pmap := addAt_fl fl t.cur_Pmap c i e }) tc

/-- Modelled from the spec: `Statistics::Stats2DCumuSum` with every partial sum rounded. -/
def Stats2DCumuSum_fl (fl : ℚ → ℚ) (st : List (List ℚ)) : ℚ :=
  (st.map (fun row => row.foldr (fun v a => fl (v + a)) 0)).foldr (fun v a => fl (v + a)) 0

/-- The expression `a + b + c + d - p - q - r - s` of the background energy, evaluated from
left to right with every partial result rounded. -/
def extraEnergy_fl (fl : ℚ → ℚ) (a b c d p q r s : ℚ) : ℚ :=
  fl (fl (fl (fl (fl (fl (fl (a + b) + c) + d) - p) - q) - r) - s)

/-- Lines 487 to 518 of `UpdatePower` in rounded arithmetic: the sum of the four cumulative
energies minus the four previous values, the division by `dimX * dimY * numP`, and for
every cell the divisions by `1000` and `device_scale` and the rounded sum. -/
def UpdatePower_background_fl (fl : ℚ → ℚ) (cfg : Config) (stats_ : Statistics)
    (tc : ThermalCalculator) (device_scale : ℚ) : ThermalCalculator :=
  if cfg.IsHMC || cfg.IsHBM then
    let pre_stb_sum := Stats2DCumuSum_fl fl stats_.pre_stb_energy
    let act_stb_sum := Stats2DCumuSum_fl fl stats_.act_stb_energy
    let pre_pd_sum := Stats2DCumuSum_fl fl stats_.pre_pd_energy
    let sref_sum := Stats2DCumuSum_fl fl stats_.sref_energy
    let extra_energy := fl (extraEnergy_fl fl sref_sum pre_stb_sum act_stb_sum pre_pd_sum
        (vget tc.sref_energy_prev 0 0) (vget tc.pre_stb_energy_prev 0 0)
        (vget tc.act_stb_energy_prev 0 0) (vget tc.pre_pd_energy_prev 0 0)
      / ((tc.dimX * tc.dimY * tc.numP : Int) : ℚ))
    let tc1 : ThermalCalculator :=
      { tc with
        sref_energy_prev := vset tc.sref_energy_prev 0 sref_sum
        pre_stb_energy_prev := vset tc.pre_stb_energy_prev 0 pre_stb_sum
        act_stb_energy_prev := vset tc.act_stb_energy_prev 0 act_stb_sum
        pre_pd_energy_prev := vset tc.pre_pd_energy_prev 0 pre_pd_sum }
    (upto tc1.num_case).foldl
      (fun t j => addBackground_fl fl t j (fl (fl (extra_energy / 1000) / device_scale))) tc1
  else
    (upto cfg.channels).foldl (fun t jch =>
      (upto cfg.ranks).foldl (fun t jrk =>
        let case_id := jch * cfg.ranks + jrk
        let extra_energy :=
          fl (extraEnergy_fl fl (cumulative_value stats_.sref_energy jch jrk)
              (cumulative_value stats_.pre_stb_energy jch jrk)
              (cumulative_value stats_.act_stb_energy jch jrk)
              (cumulative_value stats_.pre_pd_energy jch jrk)
              (vget t.sref_energy_prev case_id 0) (vget t.pre_stb_energy_prev case_id 0)
              (vget t.act_stb_energy_prev case_id 0) (vget t.pre_pd_energy_prev case_id 0)
            / ((t.dimX * t.dimY * t.numP : Int) : ℚ))
        let t1 : ThermalCalculator :=
          { t with
            sref_energy_prev :=
              vset t.sref_energy_prev case_id (cumulative_value stats_.sref_energy jch jrk)
            pre_stb_energy_prev :=
              vset t.pre_stb_energy_prev case_id
                (cumulative_value stats_.pre_stb_energy jch jrk)
            act_stb_energy_prev :=
              vset t.act_stb_energy_prev case_id
                (cumulative_value stats_.act_stb_energy jch jrk)
            pre_pd_energy_prev :=
              vset t.pre_pd_energy_prev case_id
                (cumulative_value stats_.pre_pd_energy jch jrk) }
        addBackground_fl fl t1 case_id (fl (fl (extra_energy / 1000) / device_scale))) t) tc

/-- Lines 481 to 532 of `UpdatePower` in rounded arithmetic. -/
def UpdatePower_epoch_fl (fl : ℚ → ℚ) (cfg : Config) (env : ThermalEnv) (stats_ : Statistics)
    (tc : ThermalCalculator) (device_scale : ℚ) (clk : Nat) : ThermalCalculator :=
  if epochCrossed cfg tc clk then
    let tc1 := UpdatePower_background_fl fl cfg stats_ tc device_scale
    let tc2 := PrintTransPT_fl fl cfg env tc1
    { tc2 with
      cur_Pmap := zeroMap tc2.num_case (tc2.numP * tc2.dimX * tc2.dimY)
      sample_id := tc2.sample_id + 1 }
  else tc

/-- The function `ThermalCalculator::UpdatePower` in rounded arithmetic. -/
def UpdatePower_fl (fl : ℚ → ℚ) (cfg : Config) (env : ThermalEnv) (stats_ : Statistics)
    (tc : ThermalCalculator) (cmd : Command) (clk : Nat) : ThermalCalculator :=
  UpdatePower_epoch_fl fl cfg env stats_ (UpdatePower_deposit_fl fl cfg tc cmd clk)
    (UpdatePower_case cfg cmd).2 clk

/-- The state after a sequence of `UpdatePower` calls in rounded arithmetic. -/
def run_fl (fl : ℚ → ℚ) (cfg : Config) (env : ThermalEnv) (tc : ThermalCalculator)
    (calls : List Call) : ThermalCalculator :=
  calls.foldl (fun t c => UpdatePower_fl fl cfg env c.stats_ t c.cmd c.clk) tc

/-- A run in rounded arithmetic that also records the snapshot of `accu_Pmap` taken at the
end of the most recent call that crossed an epoch boundary. -/
def runSnap_fl (fl : ℚ → ℚ) (cfg : Config) (env : ThermalEnv)
    (st : ThermalCalculator × List (List ℚ)) (calls : List Call) :
    ThermalCalculator × List (List ℚ) :=
  calls.foldl (fun p c =>
    let t1 := UpdatePower_fl fl cfg env c.stats_ p.1 c.cmd c.clk
    (t1, if epochCrossed cfg (UpdatePower_deposit_fl fl cfg p.1 c.cmd c.clk) c.clk
      then t1.accu_Pmap else p.2)) st

/-- The state after the deposit of a call and the background energy of an epoch crossing, in
rounded arithmetic. -/
def backgroundState_fl (fl : ℚ → ℚ) (cfg : Config) (stats_ : Statistics)
    (tc : ThermalCalculator) (cmd : Command) (clk : Nat) : ThermalCalculator :=
  UpdatePower_background_fl fl cfg stats_ (UpdatePower_deposit_fl fl cfg tc cmd clk)
    (UpdatePower_case cfg cmd).2

/-- Statistics of the scenario with the four cumulative background energies of channel 0
and rank 0 all zero. -/
def zeroStats : Statistics :=
  { sref_energy := [[0]], pre_stb_energy := [[0]], act_stb_energy := [[0]],
    pre_pd_energy := [[0]] }

/-- The three calls of the rounding example: an `ACTIVATE` to bank 0 at the clocks 0, 1001
and 1002, with no background energy; the second one crosses the first epoch boundary. -/
def roundingCalls : List Call :=
  [{ cmd := activateBank 0, clk := 0, stats_ := zeroStats },
   { cmd := activateBank 0, clk := 1001, stats_ := zeroStats },
   { cmd := activateBank 0, clk := 1002, stats_ := zeroStats }]
/-- The scenario with 1009 banks (a prime number). -/
def primeBanksConfig : Config := { scenarioConfig with banks := 1009, banks_per_group := 1009 }

/-! ## Vectors: reading and updating -/

theorem sum_modify_add (l : List ℚ) (n : Nat) (e : ℚ) :
    (l.modify (fun v => v + e) n).sum = l.sum + if n < l.length then e else 0 := by
  induction l generalizing n with
  | nil => simp
  | cons a t ih =>
    cases n with
    | zero => simp; ring
    | succ k =>
      simp only [List.modify_succ_cons, List.sum_cons, ih, List.length_cons,
        Nat.add_lt_add_iff_right]
      ring

theorem getD_modify {α : Type} (l : List α) (f : α → α) (n k : Nat) (d : α) :
    (l.modify f n).getD k d = if k = n ∧ n < l.length then f (l.getD k d) else l.getD k d := by
  induction l generalizing n k with
  | nil => simp
  | cons a t ih =>
    cases n with
    | zero => cases k <;> simp
    | succ n =>
      cases k with
      | zero => simp
      | succ k => simpa [List.getD_eq_getElem?_getD] using ih n k

theorem shape_addAt (m : List (List ℚ)) (c i : Int) (e : ℚ) :
    shape (addAt m c i e) = shape m := by
  unfold shape addAt vmodify
  split
  · apply List.ext_getElem?
    intro k
    simp only [List.getElem?_map, List.getElem?_modify]
    cases hk : m[k]? with
    | none => simp
    | some row =>
      by_cases h : c.toNat = k
      · simp only [h, if_true, Option.map_some']
        split <;> simp
      · simp [h]
  · rfl

theorem inMap_iff_shape (m m2 : List (List ℚ)) (h : shape m = shape m2) (c i : Int) :
    inMap m c i ↔ inMap m2 c i := by
  have hl : ∀ k, (m.getD k []).length = (m2.getD k []).length := by
    intro k
    have h1 : (shape m).getD k 0 = (shape m2).getD k 0 := by rw [h]
    unfold shape at h1
    simp only [List.getD_eq_getElem?_getD, List.getElem?_map] at h1 ⊢
    cases h3 : m[k]? <;> cases h4 : m2[k]? <;> simp_all
  unfold inMap
  rw [hl]

theorem cell_addAt (m : List (List ℚ)) (c i : Int) (e : ℚ) (c2 i2 : Int) :
    cell (addAt m c i e) c2 i2
      = cell m c2 i2 + if c2 = c ∧ i2 = i ∧ inMap m c i then e else 0 := by
  unfold cell addAt vmodify vget inMap
  by_cases hc : 0 ≤ c
  · by_cases hc2 : 0 ≤ c2
    · by_cases hi : 0 ≤ i
      · by_cases hi2 : 0 ≤ i2
        · simp only [hc, hc2, hi, hi2, if_true, true_and, getD_modify]
          by_cases e1 : c2 = c
          · subst e1
            by_cases hlen : c2.toNat < m.length
            · simp only [hlen, and_self, if_true, true_and, getD_modify]
              by_cases e2 : i2 = i
              · subst e2
                simp only [true_and]
                split <;> simp
              · have : i2.toNat ≠ i.toNat := by omega
                simp [e2, this]
            · have h0 : m[c2.toNat]? = none := List.getElem?_eq_none (by omega)
              simp [hlen, h0]
          · have : c2.toNat ≠ c.toNat := by omega
            simp [e1, this]
        · simp only [hc, hc2, hi, hi2, if_true, if_false]
          have : ¬ (i2 = i) := by omega
          simp [this]
      · simp only [hc, hc2, hi, if_true, if_false, false_and, and_false, add_zero,
          getD_modify]
        split <;> simp
    · simp only [hc, hc2, if_true, if_false]
      have : ¬ (c2 = c) := by omega
      simp [this]
  · simp [hc]

theorem caseSum_addAt (m : List (List ℚ)) (c i : Int) (e : ℚ) (c2 : Int) :
    caseSum (addAt m c i e) c2 = caseSum m c2 + if c2 = c ∧ inMap m c i then e else 0 := by
  unfold caseSum addAt vmodify vget inMap
  by_cases hc : 0 ≤ c
  · by_cases hc2 : 0 ≤ c2
    · simp only [hc, hc2, if_true, true_and, getD_modify]
      by_cases e1 : c2 = c
      · subst e1
        by_cases hlen : c2.toNat < m.length
        · simp only [hlen, and_self, if_true, true_and]
          by_cases hi : 0 ≤ i
          · simp [hi, sum_modify_add]
          · simp [hi]
        · have h0 : m[c2.toNat]? = none := List.getElem?_eq_none (by omega)
          simp [hlen, h0]
      · have : c2.toNat ≠ c.toNat := by omega
        simp [e1, this]
    · simp only [hc, hc2, if_true, if_false]
      have : ¬ (c2 = c) := by omega
      simp [this]
  · simp [hc]

/-! ## Deposits -/

theorem foldl_inv {σ α : Type} (P : σ → Prop) (f : σ → α → σ) (l : List α) (s : σ)
    (h0 : P s) (hstep : ∀ t x, x ∈ l → P t → P (f t x)) : P (l.foldl f s) := by
  induction l generalizing s with
  | nil => exact h0
  | cons a t ih =>
    simp only [List.foldl_cons]
    apply ih
    · exact hstep s a (List.mem_cons_self a t) h0
    · intro u x hx hu
      exact hstep u x (List.mem_cons_of_mem a hx) hu

theorem applyDeposits_append (m : List (List ℚ)) (d1 d2 : List (Int × Int × ℚ)) :
    applyDeposits m (d1 ++ d2) = applyDeposits (applyDeposits m d1) d2 := by
  simp [applyDeposits, List.foldl_append]

theorem shape_applyDeposits (m : List (List ℚ)) (ds : List (Int × Int × ℚ)) :
    shape (applyDeposits m ds) = shape m := by
  induction ds generalizing m with
  | nil => rfl
  | cons d t ih =>
    simp only [applyDeposits, List.foldl_cons] at ih ⊢
    rw [ih, shape_addAt]

theorem isDeposit_nil (tc : ThermalCalculator) : IsDeposit tc tc [] := by
  simp [IsDeposit, applyDeposits]

theorem isDeposit_append {a b c : ThermalCalculator} {d1 d2 : List (Int × Int × ℚ)}
    (h1 : IsDeposit a b d1) (h2 : IsDeposit b c d2) : IsDeposit a c (d1 ++ d2) := by
  obtain ⟨a1, a2, a3, a4, a5, a6, a7, a8, a9⟩ := h1
  obtain ⟨b1, b2, b3, b4, b5, b6, b7, b8, b9⟩ := h2
  refine ⟨?_, ?_, ?_, ?_, ?_, ?_, ?_, ?_, ?_⟩
  · rw [applyDeposits_append, ← a1, b1]
  · rw [applyDeposits_append, ← a2, b2]
  · rw [b3, a3]
  · rw [b4, a4]
  · rw [b5, a5]
  · rw [b6, a6]
  · rw [b7, a7]
  · rw [b8, a8]
  · rw [b9, a9]

theorem addBoth_fold (c : Int) (e : ℚ) (l : List Int) (tc : ThermalCalculator) :
    l.foldl (fun t idx => addBoth t c idx e) tc
      = { tc with
          accu_Pmap := applyDeposits tc.accu_Pmap (l.map (fun idx => (c, idx, e)))
          cur_Pmap := applyDeposits tc.cur_Pmap (l.map (fun idx => (c, idx, e))) } := by
  induction l generalizing tc with
  | nil => rfl
  | cons a t ih =>
    simp only [List.foldl_cons, List.map_cons]
    rw [ih]
    rfl

theorem LocationMappingANDaddEnergy_eq (cfg : Config) (tc : ThermalCalculator) (cmd : Command)
    (c : Int) (e : ℚ) :
    LocationMappingANDaddEnergy cfg tc cmd c e
      = { tc with
          accu_Pmap := applyDeposits tc.accu_Pmap
            ((LocationMapping cfg tc cmd).map (fun idx => (c, idx, e / (cfg.device_width : ℚ))))
          cur_Pmap := applyDeposits tc.cur_Pmap
            ((LocationMapping cfg tc cmd).map
              (fun idx => (c, idx, e / (cfg.device_width : ℚ)))) } := by
  unfold LocationMappingANDaddEnergy
  exact addBoth_fold c _ _ tc

theorem LocationMappingANDaddEnergy_RF_eq (cfg : Config) (tc : ThermalCalculator)
    (cmd : Command) (bank0 row0 c : Int) (e : ℚ) :
    LocationMappingANDaddEnergy_RF cfg tc cmd bank0 row0 c e
      = { tc with
          accu_Pmap := applyDeposits tc.accu_Pmap
            ((LocationMapping_RF cfg tc cmd bank0 row0).map (fun idx => (c, idx, e)))
          cur_Pmap := applyDeposits tc.cur_Pmap
            ((LocationMapping_RF cfg tc cmd bank0 row0).map (fun idx => (c, idx, e))) } := by
  unfold LocationMappingANDaddEnergy_RF
  exact addBoth_fold c _ _ tc

theorem length_upto (n : Int) : (upto n).length = n.toNat := by
  unfold upto
  rw [List.length_map, List.length_range]

theorem length_flatMap_map {α β γ : Type} (l1 : List α) (l2 : List β) (g : α → β → γ) :
    (l1.flatMap (fun i => l2.map (g i))).length = l1.length * l2.length := by
  induction l1 with
  | nil => simp
  | cons a t ih =>
    simp only [List.flatMap_cons, List.length_append, List.length_map, ih, List.length_cons]
    ring

theorem length_LocationMapping (cfg : Config) (tc : ThermalCalculator) (cmd : Command) :
    (LocationMapping cfg tc cmd).length = cfg.BL.toNat * cfg.device_width.toNat := by
  simp only [LocationMapping, MapToXY, List.length_map, List.length_zip, min_self]
  rw [length_flatMap_map, length_upto, length_upto]

theorem caseSum_applyDeposits_const (m : List (List ℚ)) (c : Int) (e : ℚ) (l : List Int)
    (h : ∀ idx ∈ l, inMap m c idx) :
    caseSum (applyDeposits m (l.map (fun idx => (c, idx, e)))) c
      = caseSum m c + (l.length : ℚ) * e := by
  induction l generalizing m with
  | nil => simp [applyDeposits]
  | cons a t ih =>
    simp only [applyDeposits, List.map_cons, List.foldl_cons] at ih ⊢
    rw [ih]
    · rw [caseSum_addAt]
      have ha : inMap m c a := h a (List.mem_cons_self a t)
      simp only [ha, and_self, if_true, List.length_cons]
      push_cast
      ring
    · intro idx hidx
      exact (inMap_iff_shape _ _ (shape_addAt m c a e) c idx).mpr
        (h idx (List.mem_cons_of_mem a hidx))

theorem toNat_cast_rat (n : Int) (h : 0 ≤ n) : ((n.toNat : ℕ) : ℚ) = (n : ℚ) := by
  rw [← Int.cast_natCast, Int.toNat_of_nonneg h]

/-! ## The rounded embedding with the identity as rounding function -/

theorem addAt_fl_id (m : List (List ℚ)) (c i : Int) (e : ℚ) :
    addAt_fl (fun q => q) m c i e = addAt m c i e := rfl

theorem UpdatePower_deposit_fl_id (cfg : Config) (tc : ThermalCalculator) (cmd : Command)
    (clk : Nat) :
    UpdatePower_deposit_fl (fun q => q) cfg tc cmd clk = UpdatePower_deposit cfg tc cmd clk :=
  rfl

theorem UpdatePower_background_fl_id (cfg : Config) (stats_ : Statistics)
    (tc : ThermalCalculator) (device_scale : ℚ) :
    UpdatePower_background_fl (fun q => q) cfg stats_ tc device_scale
      = UpdatePower_background cfg stats_ tc device_scale := rfl

theorem PrintTransPT_fl_id (cfg : Config) (env : ThermalEnv) (tc : ThermalCalculator) :
    PrintTransPT_fl (fun q => q) cfg env tc = PrintTransPT cfg env tc := rfl

theorem UpdatePower_fl_id (cfg : Config) (env : ThermalEnv) (stats_ : Statistics)
    (tc : ThermalCalculator) (cmd : Command) (clk : Nat) :
    UpdatePower_fl (fun q => q) cfg env stats_ tc cmd clk
      = UpdatePower cfg env stats_ tc cmd clk := rfl

theorem run_fl_id (cfg : Config) (env : ThermalEnv) (tc : ThermalCalculator)
    (calls : List Call) :
    run_fl (fun q => q) cfg env tc calls = run cfg env tc calls := rfl

theorem runSnap_fl_id (cfg : Config) (env : ThermalEnv)
    (st : ThermalCalculator × List (List ℚ)) (calls : List Call) :
    runSnap_fl (fun q => q) cfg env st calls = runSnap cfg env st calls := rfl

theorem backgroundState_fl_id (cfg : Config) (stats_ : Statistics)
    (tc : ThermalCalculator) (cmd : Command) (clk : Nat) :
    backgroundState_fl (fun q => q) cfg stats_ tc cmd clk
      = backgroundState cfg stats_ tc cmd clk := rfl

/-! ## C1: energy conservation -/

theorem UpdatePower_deposit_command (cfg : Config) (tc : ThermalCalculator) (cmd : Command)
    (clk : Nat) (hr : cmd.IsRefresh = false) (hE : 0 < UpdatePower_energy cfg cmd.cmd_type_) :
    UpdatePower_deposit cfg tc cmd clk
      = LocationMappingANDaddEnergy cfg { tc with save_clk := clk } cmd
          (UpdatePower_case cfg cmd).1
          (UpdatePower_energy cfg cmd.cmd_type_ / (cfg.BL : ℚ) / 1000
            / (UpdatePower_case cfg cmd).2) := by
  unfold UpdatePower_deposit
  simp only [Command.IsRefresh, Bool.or_eq_false_iff, decide_eq_false_iff_not] at hr
  simp [hr.1, hr.2, hE]

/-- C1. Energy conservation: for a non-refresh command of kind ACTIVATE, READ,
READ_PRECHARGE, WRITE or WRITE_PRECHARGE whose configured increment `E` is positive, with
burst length and device width at least 1 and every touched cell inside both maps, the
deposit part of one `UpdatePower` call raises the sum over all cells of `accu_Pmap[case_id]`,
and likewise of `cur_Pmap[case_id]`, by exactly `E / 1000 / device_scale`, whatever the
burst length and the device width are. -/
theorem C1_energy_conservation (cfg : Config) (tc : ThermalCalculator) (cmd : Command)
    (clk : Nat)
    (hk : cmd.cmd_type_ = CommandType.ACTIVATE ∨ cmd.cmd_type_ = CommandType.READ ∨
      cmd.cmd_type_ = CommandType.READ_PRECHARGE ∨ cmd.cmd_type_ = CommandType.WRITE ∨
      cmd.cmd_type_ = CommandType.WRITE_PRECHARGE)
    (hE : 0 < UpdatePower_energy cfg cmd.cmd_type_)
    (hBL : 1 ≤ cfg.BL) (hW : 1 ≤ cfg.device_width)
    (hin : ∀ idx ∈ LocationMapping cfg tc cmd,
      inMap tc.accu_Pmap (UpdatePower_case cfg cmd).1 idx ∧
      inMap tc.cur_Pmap (UpdatePower_case cfg cmd).1 idx) :
    caseSum (UpdatePower_deposit cfg tc cmd clk).accu_Pmap (UpdatePower_case cfg cmd).1
        = caseSum tc.accu_Pmap (UpdatePower_case cfg cmd).1
          + UpdatePower_energy cfg cmd.cmd_type_ / 1000 / (UpdatePower_case cfg cmd).2 ∧
    caseSum (UpdatePower_deposit cfg tc cmd clk).cur_Pmap (UpdatePower_case cfg cmd).1
        = caseSum tc.cur_Pmap (UpdatePower_case cfg cmd).1
          + UpdatePower_energy cfg cmd.cmd_type_ / 1000 / (UpdatePower_case cfg cmd).2 := by
  have hr : cmd.IsRefresh = false := by
    unfold Command.IsRefresh
    rcases hk with h | h | h | h | h <;> rw [h] <;> rfl
  have hL : (LocationMapping cfg { tc with save_clk := clk } cmd) = LocationMapping cfg tc cmd :=
    rfl
  have hlen : (((LocationMapping cfg tc cmd).length : ℕ) : ℚ)
      = (cfg.BL : ℚ) * (cfg.device_width : ℚ) := by
    rw [length_LocationMapping]
    push_cast
    rw [toNat_cast_rat _ (by omega), toNat_cast_rat _ (by omega)]
  have hBLq : (cfg.BL : ℚ) ≠ 0 := by
    have : (1 : ℚ) ≤ (cfg.BL : ℚ) := by exact_mod_cast hBL
    linarith
  have hWq : (cfg.device_width : ℚ) ≠ 0 := by
    have : (1 : ℚ) ≤ (cfg.device_width : ℚ) := by exact_mod_cast hW
    linarith
  have key : ∀ E s : ℚ, (cfg.BL : ℚ) * (cfg.device_width : ℚ)
      * (E / (cfg.BL : ℚ) / 1000 / s / (cfg.device_width : ℚ)) = E / 1000 / s := by
    intro E s
    have h1 : (cfg.BL : ℚ) * (cfg.device_width : ℚ)
        * (E / (cfg.BL : ℚ) / 1000 / s / (cfg.device_width : ℚ))
        = (E / 1000 / s) * ((cfg.BL : ℚ) * (cfg.BL : ℚ)⁻¹)
          * ((cfg.device_width : ℚ) * (cfg.device_width : ℚ)⁻¹) := by ring
    rw [h1, mul_inv_cancel₀ hBLq, mul_inv_cancel₀ hWq]
    ring
  rw [UpdatePower_deposit_command cfg tc cmd clk hr hE, LocationMappingANDaddEnergy_eq, hL]
  constructor
  · show caseSum (applyDeposits tc.accu_Pmap _) _ = _
    rw [caseSum_applyDeposits_const _ _ _ _ (fun idx h => (hin idx h).1), hlen, key]
  · show caseSum (applyDeposits tc.cur_Pmap _) _ = _
    rw [caseSum_applyDeposits_const _ _ _ _ (fun idx h => (hin idx h).2), hlen, key]

/-- C1 at the scenario: an `ACTIVATE` to bank 5 adds `3 / 1000 / 8` to each map. -/
theorem C1_energy_conservation_witness :
    caseSum (UpdatePower_deposit scenarioConfig scenarioState (activateBank 5) 7).accu_Pmap 0
        = caseSum scenarioState.accu_Pmap 0 + 3 / 1000 / 8 ∧
    caseSum (UpdatePower_deposit scenarioConfig scenarioState (activateBank 5) 7).cur_Pmap 0
        = caseSum scenarioState.cur_Pmap 0 + 3 / 1000 / 8 := by
  have h := C1_energy_conservation scenarioConfig scenarioState (activateBank 5) 7
    (Or.inl rfl) (by norm_num [UpdatePower_energy, activateBank, scenarioConfig])
    (by decide) (by decide) (by decide)
  have hc : (UpdatePower_case scenarioConfig (activateBank 5)).1 = 0 := by decide
  have hs : (UpdatePower_case scenarioConfig (activateBank 5)).2 = 8 := by
    norm_num [UpdatePower_case, scenarioConfig]
  have he : UpdatePower_energy scenarioConfig (activateBank 5).cmd_type_ = 3 := rfl
  rw [hc, hs, he] at h
  exact h

/-! ## The deposit part of a call -/

theorem mem_upto (n k : Int) : k ∈ upto n ↔ 0 ≤ k ∧ k < n := by
  unfold upto
  simp only [List.mem_map, List.mem_range]
  constructor
  · rintro ⟨a, ha, rfl⟩
    have : (Int.ofNat a) = (a : Int) := rfl
    omega
  · rintro ⟨h0, h1⟩
    refine ⟨k.toNat, by omega, ?_⟩
    have : (Int.ofNat k.toNat) = (k.toNat : Int) := rfl
    omega

theorem LocationMapping_RF_congr (cfg : Config) (t1 t2 : ThermalCalculator) (cmd : Command)
    (b r : Int) (hg : t1.toGeometry = t2.toGeometry)
    (hp : t1.GetPhyAddress = t2.GetPhyAddress) :
    LocationMapping_RF cfg t1 cmd b r = LocationMapping_RF cfg t2 cmd b r := by
  cases t1
  cases t2
  simp only at hg hp
  subst hg
  subst hp
  rfl

theorem LocationMappingANDaddEnergy_RF_isDeposit (cfg : Config) (tc : ThermalCalculator)
    (cmd : Command) (b r c : Int) (e : ℚ) :
    IsDeposit tc (LocationMappingANDaddEnergy_RF cfg tc cmd b r c e)
      ((LocationMapping_RF cfg tc cmd b r).map (fun idx => (c, idx, e))) := by
  rw [LocationMappingANDaddEnergy_RF_eq]
  simp [IsDeposit]

theorem LocationMappingANDaddEnergy_RF_refresh_count (cfg : Config) (tc : ThermalCalculator)
    (cmd : Command) (b r c : Int) (e : ℚ) :
    (LocationMappingANDaddEnergy_RF cfg tc cmd b r c e).refresh_count = tc.refresh_count ∧
    (LocationMappingANDaddEnergy_RF cfg tc cmd b r c e).save_clk = tc.save_clk := by
  rw [LocationMappingANDaddEnergy_RF_eq]
  exact ⟨rfl, rfl⟩

theorem UpdatePower_refresh_bank_isDeposit (cfg : Config) (cmd : Command) (c : Int) (e : ℚ)
    (tc : ThermalCalculator) (ib : Int) :
    ∃ ds, IsDeposit tc (UpdatePower_refresh_bank cfg cmd c e tc ib) ds ∧
      ∀ d ∈ ds, d.1 = c ∧ d.2.2 = e ∧ 0 < cfg.numRowRefresh ∧ 0 < cfg.numYgrids := by
  unfold UpdatePower_refresh_bank
  apply foldl_inv (fun t => ∃ ds, IsDeposit tc t ds ∧
      ∀ d ∈ ds, d.1 = c ∧ d.2.2 = e ∧ 0 < cfg.numRowRefresh ∧ 0 < cfg.numYgrids)
  · exact ⟨[], by simp [IsDeposit, applyDeposits], by simp⟩
  · rintro t ir hir ⟨ds, hds, hq⟩
    refine ⟨ds ++ _, isDeposit_append hds (LocationMappingANDaddEnergy_RF_isDeposit cfg t cmd ib ir c e), ?_⟩
    intro d hd
    rcases List.mem_append.mp hd with h | h
    · exact hq d h
    · obtain ⟨idx, hidx, rfl⟩ := List.mem_map.mp h
      refine ⟨rfl, rfl, ?_, ?_⟩
      · unfold refresh_rows at hir
        obtain ⟨k, hk, -⟩ := List.mem_map.mp hir
        have := (mem_upto _ _).mp hk
        omega
      · unfold LocationMapping_RF at hidx
        obtain ⟨k, hk, -⟩ := List.mem_map.mp hidx
        have := (mem_upto _ _).mp hk
        omega

theorem UpdatePower_refresh_bank_refresh_count (cfg : Config) (cmd : Command) (c : Int)
    (e : ℚ) (tc : ThermalCalculator) (ib : Int) :
    (UpdatePower_refresh_bank cfg cmd c e tc ib).refresh_count
        = tc.refresh_count.modify (fun row => vmodify row ib (refresh_count_next cfg))
            (refresh_index cfg cmd) ∧
    (UpdatePower_refresh_bank cfg cmd c e tc ib).save_clk = tc.save_clk := by
  unfold UpdatePower_refresh_bank
  refine foldl_inv (fun (t : ThermalCalculator) => t.refresh_count
      = tc.refresh_count.modify (fun row => vmodify row ib (refresh_count_next cfg))
          (refresh_index cfg cmd) ∧ t.save_clk = tc.save_clk) _ _ _ ⟨rfl, rfl⟩ ?_
  rintro t ir - ⟨h1, h2⟩
  have h := LocationMappingANDaddEnergy_RF_refresh_count cfg t cmd ib ir c e
  exact ⟨h.1.trans h1, h.2.trans h2⟩

theorem UpdatePower_deposit_isDeposit (cfg : Config) (tc : ThermalCalculator) (cmd : Command)
    (clk : Nat) :
    ∃ ds, IsDeposit tc (UpdatePower_deposit cfg tc cmd clk) ds ∧
      ∀ d ∈ ds, d.1 = (UpdatePower_case cfg cmd).1 ∧ DepositEnergy cfg cmd d.2.2 := by
  have h0 : IsDeposit tc { tc with save_clk := clk } [] := by simp [IsDeposit, applyDeposits]
  unfold UpdatePower_deposit
  by_cases h1 : cmd.cmd_type_ = CommandType.REFRESH
  · simp only [h1, if_true]
    apply foldl_inv (fun t => ∃ ds, IsDeposit tc t ds ∧
      ∀ d ∈ ds, d.1 = (UpdatePower_case cfg cmd).1 ∧ DepositEnergy cfg cmd d.2.2)
    · exact ⟨[], h0, by simp⟩
    · rintro t ib hib ⟨ds, hds, hq⟩
      obtain ⟨ds2, hds2, hq2⟩ := UpdatePower_refresh_bank_isDeposit cfg cmd
        (UpdatePower_case cfg cmd).1
        (cfg.ref_energy_inc / (cfg.numRowRefresh : ℚ) / (cfg.banks : ℚ) / (cfg.numYgrids : ℚ)
          / 1000 / (UpdatePower_case cfg cmd).2) t ib
      refine ⟨ds ++ ds2, isDeposit_append hds hds2, ?_⟩
      intro d hd
      rcases List.mem_append.mp hd with h | h
      · exact hq d h
      · obtain ⟨a1, a2, a3, a4⟩ := hq2 d h
        have := (mem_upto _ _).mp hib
        exact ⟨a1, Or.inl ⟨h1, a3, by omega, a4, a2⟩⟩
  · by_cases h2 : cmd.cmd_type_ = CommandType.REFRESH_BANK
    · simp only [h1, h2, if_true, if_false]
      obtain ⟨ds2, hds2, hq2⟩ := UpdatePower_refresh_bank_isDeposit cfg cmd
        (UpdatePower_case cfg cmd).1
        (cfg.refb_energy_inc / (cfg.numRowRefresh : ℚ) / (cfg.numYgrids : ℚ)
          / 1000 / (UpdatePower_case cfg cmd).2) { tc with save_clk := clk } cmd.Bank
      refine ⟨[] ++ ds2, isDeposit_append h0 hds2, ?_⟩
      intro d hd
      obtain ⟨a1, a2, a3, a4⟩ := hq2 d (by simpa using hd)
      exact ⟨a1, Or.inr (Or.inl ⟨h2, a3, a4, a2⟩)⟩
    · simp only [h1, h2, if_false]
      have hr : cmd.IsRefresh = false := by simp [Command.IsRefresh, h1, h2]
      by_cases hE : UpdatePower_energy cfg cmd.cmd_type_ > 0
      · simp only [hE, if_true]
        rw [LocationMappingANDaddEnergy_eq]
        refine ⟨_, ⟨rfl, rfl, rfl, rfl, rfl, rfl, rfl, rfl, rfl⟩, ?_⟩
        intro d hd
        obtain ⟨idx, hidx, rfl⟩ := List.mem_map.mp hd
        have hpos : 0 < (LocationMapping cfg tc cmd).length :=
          List.length_pos_of_mem hidx
        rw [length_LocationMapping] at hpos
        have hb : 0 < cfg.BL.toNat := Nat.pos_of_mul_pos_right hpos
        have hw : 0 < cfg.device_width.toNat := Nat.pos_of_mul_pos_left hpos
        exact ⟨rfl, Or.inr (Or.inr ⟨hr, hE, by omega, by omega, rfl⟩)⟩
      · simp only [hE, if_false]
        exact ⟨[], h0, by simp⟩

theorem UpdatePower_deposit_refresh_count (cfg : Config) (tc : ThermalCalculator)
    (cmd : Command) (clk : Nat) :
    (UpdatePower_deposit cfg tc cmd clk).refresh_count
        = refresh_table_step cfg cmd tc.refresh_count ∧
    (UpdatePower_deposit cfg tc cmd clk).save_clk = clk := by
  unfold UpdatePower_deposit refresh_table_step
  by_cases h1 : cmd.cmd_type_ = CommandType.REFRESH
  · simp only [h1, if_true]
    have hgen : ∀ (l : List Int) (t : ThermalCalculator),
        (l.foldl (UpdatePower_refresh_bank cfg cmd (UpdatePower_case cfg cmd).1
          (cfg.ref_energy_inc / (cfg.numRowRefresh : ℚ) / (cfg.banks : ℚ)
            / (cfg.numYgrids : ℚ) / 1000 / (UpdatePower_case cfg cmd).2)) t).refresh_count
          = l.foldl (fun rc ib => rc.modify
              (fun row => vmodify row ib (refresh_count_next cfg)) (refresh_index cfg cmd))
              t.refresh_count ∧
        (l.foldl (UpdatePower_refresh_bank cfg cmd (UpdatePower_case cfg cmd).1
          (cfg.ref_energy_inc / (cfg.numRowRefresh : ℚ) / (cfg.banks : ℚ)
            / (cfg.numYgrids : ℚ) / 1000 / (UpdatePower_case cfg cmd).2)) t).save_clk
          = t.save_clk := by
      intro l
      induction l with
      | nil => intro t; exact ⟨rfl, rfl⟩
      | cons a r ih =>
        intro t
        simp only [List.foldl_cons]
        have h := UpdatePower_refresh_bank_refresh_count cfg cmd (UpdatePower_case cfg cmd).1
          (cfg.ref_energy_inc / (cfg.numRowRefresh : ℚ) / (cfg.banks : ℚ)
            / (cfg.numYgrids : ℚ) / 1000 / (UpdatePower_case cfg cmd).2) t a
        rw [(ih _).1, (ih _).2, h.1, h.2]
        exact ⟨rfl, rfl⟩
    exact hgen _ _
  · by_cases h2 : cmd.cmd_type_ = CommandType.REFRESH_BANK
    · simp only [h1, h2, if_true, if_false]
      exact UpdatePower_refresh_bank_refresh_count cfg cmd _ _ _ _
    · simp only [h1, h2, if_false]
      by_cases hE : UpdatePower_energy cfg cmd.cmd_type_ > 0
      · rw [if_pos hE, LocationMappingANDaddEnergy_eq]
        exact ⟨rfl, rfl⟩
      · rw [if_neg hE]
        exact ⟨rfl, rfl⟩

/-! ## The epoch part of a call -/

theorem epochFrame_same (tc : ThermalCalculator) : EpochFrame tc tc :=
  ⟨rfl, rfl, rfl, rfl, rfl, rfl, rfl⟩

theorem epochFrame_chain {a b c : ThermalCalculator} (h1 : EpochFrame a b)
    (h2 : EpochFrame b c) : EpochFrame a c := by
  obtain ⟨a1, a2, a3, a4, a5, a6, a7⟩ := h1
  obtain ⟨b1, b2, b3, b4, b5, b6, b7⟩ := h2
  exact ⟨b1.trans a1, b2.trans a2, b3.trans a3, b4.trans a4, b5.trans a5, b6.trans a6,
    b7.trans a7⟩

theorem addBackground_frame (tc : ThermalCalculator) (c : Int) (e : ℚ) :
    EpochFrame tc (addBackground tc c e) ∧
    (addBackground tc c e).epoch_max_temp_file_csv_ = tc.epoch_max_temp_file_csv_ := by
  unfold addBackground
  refine foldl_inv (fun (t : ThermalCalculator) => EpochFrame tc t ∧
    t.epoch_max_temp_file_csv_ = tc.epoch_max_temp_file_csv_) _ _ _
    ⟨epochFrame_same tc, rfl⟩ ?_
  rintro t i - ⟨h, hf⟩
  exact ⟨epochFrame_chain h ⟨rfl, rfl, rfl, rfl, rfl, rfl, rfl⟩, hf⟩

theorem UpdatePower_background_frame (cfg : Config) (stats_ : Statistics)
    (tc : ThermalCalculator) (device_scale : ℚ) :
    EpochFrame tc (UpdatePower_background cfg stats_ tc device_scale) ∧
    (UpdatePower_background cfg stats_ tc device_scale).epoch_max_temp_file_csv_
      = tc.epoch_max_temp_file_csv_ := by
  unfold UpdatePower_background
  split
  · refine foldl_inv (fun (t : ThermalCalculator) => EpochFrame tc t ∧
      t.epoch_max_temp_file_csv_ = tc.epoch_max_temp_file_csv_) _ _ _
      ⟨⟨rfl, rfl, rfl, rfl, rfl, rfl, rfl⟩, rfl⟩ ?_
    rintro t j - ⟨h, hf⟩
    have h2 := addBackground_frame t j
      ((Stats2DCumuSum stats_.sref_energy + Stats2DCumuSum stats_.pre_stb_energy
        + Stats2DCumuSum stats_.act_stb_energy + Stats2DCumuSum stats_.pre_pd_energy
        - vget tc.sref_energy_prev 0 0 - vget tc.pre_stb_energy_prev 0 0
        - vget tc.act_stb_energy_prev 0 0 - vget tc.pre_pd_energy_prev 0 0)
        / ((tc.dimX * tc.dimY * tc.numP : Int) : ℚ) / 1000 / device_scale)
    exact ⟨epochFrame_chain h h2.1, h2.2.trans hf⟩
  · refine foldl_inv (fun (t : ThermalCalculator) => EpochFrame tc t ∧
      t.epoch_max_temp_file_csv_ = tc.epoch_max_temp_file_csv_) _ _ _
      ⟨epochFrame_same tc, rfl⟩ ?_
    rintro t jch - ht
    refine foldl_inv (fun (u : ThermalCalculator) => EpochFrame tc u ∧
      u.epoch_max_temp_file_csv_ = tc.epoch_max_temp_file_csv_) _ _ _ ht ?_
    rintro u jrk - ⟨h, hf⟩
    have h2 := addBackground_frame
      { u with
        sref_energy_prev := vset u.sref_energy_prev (jch * cfg.ranks + jrk)
          (cumulative_value stats_.sref_energy jch jrk)
        pre_stb_energy_prev := vset u.pre_stb_energy_prev (jch * cfg.ranks + jrk)
          (cumulative_value stats_.pre_stb_energy jch jrk)
        act_stb_energy_prev := vset u.act_stb_energy_prev (jch * cfg.ranks + jrk)
          (cumulative_value stats_.act_stb_energy jch jrk)
        pre_pd_energy_prev := vset u.pre_pd_energy_prev (jch * cfg.ranks + jrk)
          (cumulative_value stats_.pre_pd_energy jch jrk) }
      (jch * cfg.ranks + jrk)
      ((cumulative_value stats_.sref_energy jch jrk
        + cumulative_value stats_.pre_stb_energy jch jrk
        + cumulative_value stats_.act_stb_energy jch jrk
        + cumulative_value stats_.pre_pd_energy jch jrk
        - vget u.sref_energy_prev (jch * cfg.ranks + jrk) 0
        - vget u.pre_stb_energy_prev (jch * cfg.ranks + jrk) 0
        - vget u.act_stb_energy_prev (jch * cfg.ranks + jrk) 0
        - vget u.pre_pd_energy_prev (jch * cfg.ranks + jrk) 0)
        / ((u.dimX * u.dimY * u.numP : Int) : ℚ) / 1000 / device_scale)
    exact ⟨epochFrame_chain h h2.1, h2.2.trans hf⟩

theorem PrintTransPT_case_frame (cfg : Config) (env : ThermalEnv) (tc : ThermalCalculator)
    (ir : Int) :
    EpochFrame tc (PrintTransPT_case cfg env tc ir) ∧
    (PrintTransPT_case cfg env tc ir).epoch_max_temp_file_csv_.map EpochRow.case_id
      = tc.epoch_max_temp_file_csv_.map EpochRow.case_id ++ [ir] := by
  unfold PrintTransPT_case CalcTransT
  split
  · exact ⟨⟨rfl, rfl, rfl, rfl, rfl, rfl, rfl⟩, by simp⟩
  · exact ⟨⟨rfl, rfl, rfl, rfl, rfl, rfl, rfl⟩, by simp⟩

theorem PrintTransPT_fold_frame (cfg : Config) (env : ThermalEnv) (l : List Int)
    (tc : ThermalCalculator) :
    EpochFrame tc (l.foldl (PrintTransPT_case cfg env) tc) ∧
    (l.foldl (PrintTransPT_case cfg env) tc).epoch_max_temp_file_csv_.map EpochRow.case_id
      = tc.epoch_max_temp_file_csv_.map EpochRow.case_id ++ l := by
  induction l generalizing tc with
  | nil => exact ⟨epochFrame_same tc, by simp⟩
  | cons a r ih =>
    simp only [List.foldl_cons]
    have h1 := PrintTransPT_case_frame cfg env tc a
    have h2 := ih (PrintTransPT_case cfg env tc a)
    refine ⟨epochFrame_chain h1.1 h2.1, ?_⟩
    rw [h2.2, h1.2]
    simp

theorem PrintTransPT_frame (cfg : Config) (env : ThermalEnv) (tc : ThermalCalculator) :
    EpochFrame tc (PrintTransPT cfg env tc) ∧
    (PrintTransPT cfg env tc).epoch_max_temp_file_csv_.map EpochRow.case_id
      = tc.epoch_max_temp_file_csv_.map EpochRow.case_id ++ upto tc.num_case :=
  PrintTransPT_fold_frame cfg env _ tc

/-- The effect of the epoch part of `UpdatePower` on the members that matter to the
caller. -/
theorem UpdatePower_epoch_spec (cfg : Config) (env : ThermalEnv) (stats_ : Statistics)
    (tc : ThermalCalculator) (device_scale : ℚ) (clk : Nat) :
    (UpdatePower_epoch cfg env stats_ tc device_scale clk).toGeometry = tc.toGeometry ∧
    (UpdatePower_epoch cfg env stats_ tc device_scale clk).GetPhyAddress = tc.GetPhyAddress ∧
    (UpdatePower_epoch cfg env stats_ tc device_scale clk).accu_Pmap = tc.accu_Pmap ∧
    (UpdatePower_epoch cfg env stats_ tc device_scale clk).refresh_count = tc.refresh_count ∧
    (UpdatePower_epoch cfg env stats_ tc device_scale clk).save_clk = tc.save_clk ∧
    (UpdatePower_epoch cfg env stats_ tc device_scale clk).sample_id
      = (if epochCrossed cfg tc clk then tc.sample_id + 1 else tc.sample_id) ∧
    (UpdatePower_epoch cfg env stats_ tc device_scale clk).cur_Pmap
      = (if epochCrossed cfg tc clk then zeroMap tc.num_case (tc.numP * tc.dimX * tc.dimY)
          else tc.cur_Pmap) ∧
    (UpdatePower_epoch cfg env stats_ tc device_scale clk).epoch_max_temp_file_csv_.map
        EpochRow.case_id
      = tc.epoch_max_temp_file_csv_.map EpochRow.case_id
          ++ (if epochCrossed cfg tc clk then upto tc.num_case else []) := by
  unfold UpdatePower_epoch
  by_cases hc : epochCrossed cfg tc clk = true
  · simp only [hc, if_true]
    have h1 := UpdatePower_background_frame cfg stats_ tc device_scale
    have h2 := PrintTransPT_frame cfg env (UpdatePower_background cfg stats_ tc device_scale)
    obtain ⟨g, p, a, r, sid, sc, -⟩ := epochFrame_chain h1.1 h2.1
    have hg : ∀ t : ThermalCalculator, t.toGeometry = tc.toGeometry →
        t.num_case = tc.num_case ∧ t.numP = tc.numP ∧ t.dimX = tc.dimX ∧ t.dimY = tc.dimY := by
      intro t ht
      have e1 : t.num_case = t.toGeometry.num_case := rfl
      have e2 : t.numP = t.toGeometry.numP := rfl
      have e3 : t.dimX = t.toGeometry.dimX := rfl
      have e4 : t.dimY = t.toGeometry.dimY := rfl
      rw [e1, e2, e3, e4, ht]
      exact ⟨rfl, rfl, rfl, rfl⟩
    obtain ⟨g1, g2, g3, g4⟩ := hg _ g
    refine ⟨g, p, a, r, sc, ?_, ?_, ?_⟩
    · show (PrintTransPT cfg env _).sample_id + 1 = _
      rw [sid]
    · show zeroMap (PrintTransPT cfg env _).num_case _ = _
      rw [g1, g2, g3, g4]
    · show List.map EpochRow.case_id (PrintTransPT cfg env _).epoch_max_temp_file_csv_ = _
      rw [h2.2, h1.2, (hg _ h1.1.1).1]
  · simp only [hc, if_false, Bool.false_eq_true]
    simp

/-! ## One call -/

theorem geometry_fields (t tc : ThermalCalculator) (h : t.toGeometry = tc.toGeometry) :
    t.num_case = tc.num_case ∧ t.numP = tc.numP ∧ t.dimX = tc.dimX ∧ t.dimY = tc.dimY := by
  have e1 : t.num_case = t.toGeometry.num_case := rfl
  have e2 : t.numP = t.toGeometry.numP := rfl
  have e3 : t.dimX = t.toGeometry.dimX := rfl
  have e4 : t.dimY = t.toGeometry.dimY := rfl
  rw [e1, e2, e3, e4, h]
  exact ⟨rfl, rfl, rfl, rfl⟩

theorem epochCrossed_deposit (cfg : Config) (tc : ThermalCalculator) (cmd : Command)
    (clk : Nat) :
    epochCrossed cfg (UpdatePower_deposit cfg tc cmd clk) clk = epochCrossed cfg tc clk := by
  obtain ⟨ds, hd, -⟩ := UpdatePower_deposit_isDeposit cfg tc cmd clk
  unfold epochCrossed
  rw [hd.2.2.2.2.1]

/-- The effect of one `UpdatePower` call, in terms of its deposit part. -/
theorem UpdatePower_spec (cfg : Config) (env : ThermalEnv) (stats_ : Statistics)
    (tc : ThermalCalculator) (cmd : Command) (clk : Nat) :
    (UpdatePower cfg env stats_ tc cmd clk).toGeometry = tc.toGeometry ∧
    (UpdatePower cfg env stats_ tc cmd clk).GetPhyAddress = tc.GetPhyAddress ∧
    (UpdatePower cfg env stats_ tc cmd clk).accu_Pmap
      = (UpdatePower_deposit cfg tc cmd clk).accu_Pmap ∧
    (UpdatePower cfg env stats_ tc cmd clk).refresh_count
      = refresh_table_step cfg cmd tc.refresh_count ∧
    (UpdatePower cfg env stats_ tc cmd clk).save_clk = clk ∧
    (UpdatePower cfg env stats_ tc cmd clk).sample_id
      = (if epochCrossed cfg tc clk then tc.sample_id + 1 else tc.sample_id) ∧
    (UpdatePower cfg env stats_ tc cmd clk).cur_Pmap
      = (if epochCrossed cfg tc clk then zeroMap tc.num_case (tc.numP * tc.dimX * tc.dimY)
          else (UpdatePower_deposit cfg tc cmd clk).cur_Pmap) ∧
    (UpdatePower cfg env stats_ tc cmd clk).epoch_max_temp_file_csv_.map EpochRow.case_id
      = tc.epoch_max_temp_file_csv_.map EpochRow.case_id
          ++ (if epochCrossed cfg tc clk then upto tc.num_case else []) := by
  obtain ⟨ds, hd, -⟩ := UpdatePower_deposit_isDeposit cfg tc cmd clk
  obtain ⟨-, -, dg, dp, dsid, -, -, dfile, -⟩ := hd
  have hrc := UpdatePower_deposit_refresh_count cfg tc cmd clk
  have he := UpdatePower_epoch_spec cfg env stats_ (UpdatePower_deposit cfg tc cmd clk)
    (UpdatePower_case cfg cmd).2 clk
  rw [epochCrossed_deposit] at he
  obtain ⟨e1, e2, e3, e4, e5, e6, e7, e8⟩ := he
  obtain ⟨g1, g2, g3, g4⟩ := geometry_fields _ _ dg
  unfold UpdatePower
  refine ⟨e1.trans dg, e2.trans dp, e3, e4.trans hrc.1, e5.trans hrc.2, ?_, ?_, ?_⟩
  · rw [e6, dsid]
  · rw [e7, g1, g2, g3, g4]
  · rw [e8, dfile, g1]

/-! ## C3: the epoch state machine -/

/-- C3. Epoch state machine: after `UpdatePower(cmd, clk)` the counter `sample_id` is
`sample_id + 1` if `clk > (sample_id + 1) * power_epoch_period` and is unchanged otherwise;
hence it never decreases and grows by at most one per call. -/
theorem C3_epoch_state_machine (cfg : Config) (env : ThermalEnv) (stats_ : Statistics)
    (tc : ThermalCalculator) (cmd : Command) (clk : Nat) :
    (UpdatePower cfg env stats_ tc cmd clk).sample_id
        = (if clk > (tc.sample_id + 1) * cfg.power_epoch_period then tc.sample_id + 1
            else tc.sample_id) ∧
    tc.sample_id ≤ (UpdatePower cfg env stats_ tc cmd clk).sample_id ∧
    (UpdatePower cfg env stats_ tc cmd clk).sample_id ≤ tc.sample_id + 1 := by
  have h := (UpdatePower_spec cfg env stats_ tc cmd clk).2.2.2.2.2.1
  unfold epochCrossed at h
  simp only [decide_eq_true_eq] at h
  rw [h]
  refine ⟨rfl, ?_, ?_⟩ <;> split <;> omega

/-! ## C4: reset of the current map, monotonicity of the cumulative map -/

theorem cell_applyDeposits_mono (m : List (List ℚ)) (ds : List (Int × Int × ℚ))
    (h : ∀ d ∈ ds, 0 ≤ d.2.2) (c i : Int) : cell m c i ≤ cell (applyDeposits m ds) c i := by
  induction ds generalizing m with
  | nil => exact le_refl _
  | cons d t ih =>
    simp only [applyDeposits, List.foldl_cons] at ih ⊢
    refine le_trans ?_ (ih _ (fun x hx => h x (List.mem_cons_of_mem d hx)))
    rw [cell_addAt]
    have hd := h d (List.mem_cons_self d t)
    split <;> linarith

theorem device_scale_nonneg (cfg : Config) (cmd : Command) (h : 0 ≤ cfg.devices_per_rank) :
    0 ≤ (UpdatePower_case cfg cmd).2 := by
  unfold UpdatePower_case
  split
  · norm_num
  · show (0 : ℚ) ≤ (cfg.devices_per_rank : ℚ)
    exact_mod_cast h

theorem DepositEnergy_nonneg (cfg : Config) (cmd : Command) (e : ℚ)
    (hs : 0 ≤ cfg.devices_per_rank) (hr : 0 ≤ cfg.ref_energy_inc)
    (hb : 0 ≤ cfg.refb_energy_inc) (h : DepositEnergy cfg cmd e) : 0 ≤ e := by
  have hscale := device_scale_nonneg cfg cmd hs
  rcases h with ⟨-, h1, h2, h3, rfl⟩ | ⟨-, h1, h3, rfl⟩ | ⟨-, hE, h1, h2, rfl⟩
  · have q1 : (0 : ℚ) ≤ (cfg.numRowRefresh : ℚ) := by exact_mod_cast h1.le
    have q2 : (0 : ℚ) ≤ (cfg.banks : ℚ) := by exact_mod_cast h2.le
    have q3 : (0 : ℚ) ≤ (cfg.numYgrids : ℚ) := by exact_mod_cast h3.le
    exact div_nonneg (div_nonneg (div_nonneg (div_nonneg (div_nonneg hr q1) q2) q3)
      (by norm_num)) hscale
  · have q1 : (0 : ℚ) ≤ (cfg.numRowRefresh : ℚ) := by exact_mod_cast h1.le
    have q3 : (0 : ℚ) ≤ (cfg.numYgrids : ℚ) := by exact_mod_cast h3.le
    exact div_nonneg (div_nonneg (div_nonneg (div_nonneg hb q1) q3) (by norm_num)) hscale
  · have q1 : (0 : ℚ) ≤ (cfg.BL : ℚ) := by exact_mod_cast h1.le
    have q2 : (0 : ℚ) ≤ (cfg.device_width : ℚ) := by exact_mod_cast h2.le
    exact div_nonneg (div_nonneg (div_nonneg (div_nonneg hE.le q1) (by norm_num)) hscale) q2

/-- C4. Whenever an `UpdatePower` call crosses an epoch boundary, on return `cur_Pmap` is
the all-zero map of `num_case` rows of `numP * dimX * dimY` cells.  `accu_Pmap` is never
reset: the epoch handling leaves it exactly as the deposits left it, and no call lowers
any of its cells when the refresh energy increments are non-negative (a command increment
is deposited only when it is positive) and the device count used as the scale is
non-negative. -/
theorem C4_cur_reset_accu_kept (cfg : Config) (env : ThermalEnv) (stats_ : Statistics)
    (tc : ThermalCalculator) (cmd : Command) (clk : Nat) :
    (clk > (tc.sample_id + 1) * cfg.power_epoch_period →
      (UpdatePower cfg env stats_ tc cmd clk).cur_Pmap
        = List.replicate tc.num_case.toNat
            (List.replicate (tc.numP * tc.dimX * tc.dimY).toNat 0)) ∧
    (UpdatePower cfg env stats_ tc cmd clk).accu_Pmap
      = (UpdatePower_deposit cfg tc cmd clk).accu_Pmap ∧
    (0 ≤ cfg.devices_per_rank → 0 ≤ cfg.ref_energy_inc → 0 ≤ cfg.refb_energy_inc →
      ∀ c i, cell tc.accu_Pmap c i
        ≤ cell (UpdatePower cfg env stats_ tc cmd clk).accu_Pmap c i) := by
  obtain ⟨-, -, ha, -, -, -, hc, -⟩ := UpdatePower_spec cfg env stats_ tc cmd clk
  refine ⟨?_, ha, ?_⟩
  · intro hx
    have : epochCrossed cfg tc clk = true := by
      unfold epochCrossed
      exact decide_eq_true hx
    rw [hc, this]
    rfl
  · intro hs hr hb c i
    obtain ⟨ds, hd, hq⟩ := UpdatePower_deposit_isDeposit cfg tc cmd clk
    rw [ha, hd.1]
    exact cell_applyDeposits_mono _ _
      (fun d hdm => DepositEnergy_nonneg cfg cmd _ hs hr hb (hq d hdm).2) c i

/-- C4 at the scenario: a call at clock 1001 crosses the first epoch boundary. -/
theorem C4_cur_reset_accu_kept_witness :
    (UpdatePower scenarioConfig scenarioEnv emptyStats scenarioState (activateBank 0)
        1001).cur_Pmap = List.replicate 1 (List.replicate 32 0) ∧
    ∀ c i, cell scenarioState.accu_Pmap c i
      ≤ cell (UpdatePower scenarioConfig scenarioEnv emptyStats scenarioState (activateBank 0)
          1001).accu_Pmap c i :=
  ⟨(C4_cur_reset_accu_kept scenarioConfig scenarioEnv emptyStats scenarioState
      (activateBank 0) 1001).1 (by decide),
   (C4_cur_reset_accu_kept scenarioConfig scenarioEnv emptyStats scenarioState
      (activateBank 0) 1001).2.2 (by decide)
      (by norm_num [scenarioConfig]) (by norm_num [scenarioConfig])⟩

/-! ## C2: the current map holds the energy added since the last reset -/

theorem cell_applyDeposits_diff (a b : List (List ℚ)) (ds : List (Int × Int × ℚ))
    (h : shape a = shape b) (c i : Int) :
    cell (applyDeposits a ds) c i - cell a c i = cell (applyDeposits b ds) c i - cell b c i := by
  induction ds generalizing a b with
  | nil => simp [applyDeposits]
  | cons d t ih =>
    simp only [applyDeposits, List.foldl_cons] at ih ⊢
    have h2 : shape (addAt a d.1 d.2.1 d.2.2) = shape (addAt b d.1 d.2.1 d.2.2) := by
      rw [shape_addAt, shape_addAt, h]
    have h3 := ih _ _ h2
    have ha := cell_addAt a d.1 d.2.1 d.2.2 c i
    have hb := cell_addAt b d.1 d.2.1 d.2.2 c i
    have hin : inMap a d.1 d.2.1 ↔ inMap b d.1 d.2.1 := inMap_iff_shape a b h _ _
    simp only [hin] at ha
    linarith

theorem cell_zeroMap (n m c i : Int) : cell (zeroMap n m) c i = 0 := by
  unfold cell vget zeroMap
  by_cases hc : 0 ≤ c
  · simp only [hc, if_true]
    by_cases hn : c.toNat < n.toNat
    · have h1 : (List.replicate n.toNat (List.replicate m.toNat (0 : ℚ))).getD c.toNat []
          = List.replicate m.toNat 0 := by
        simp [List.getD_eq_getElem?_getD, List.getElem?_replicate, hn]
      rw [h1]
      split
      · simp only [List.getD_eq_getElem?_getD, List.getElem?_replicate]
        split <;> simp
      · rfl
    · have h1 : (List.replicate n.toNat (List.replicate m.toNat (0 : ℚ))).getD c.toNat []
          = [] := by
        simp [List.getD_eq_getElem?_getD, List.getElem?_replicate, hn]
      rw [h1]
      split <;> simp
  · simp [hc]

/-- The invariant of a run: both maps keep the shape the constructor gave them and the
current map is the cumulative map minus the snapshot. -/
theorem runSnap_invariant (cfg : Config) (env : ThermalEnv) (calls : List Call)
    (st : ThermalCalculator × List (List ℚ))
    (h1 : shape st.1.accu_Pmap
      = shape (zeroMap st.1.num_case (st.1.numP * st.1.dimX * st.1.dimY)))
    (h2 : shape st.1.cur_Pmap = shape st.1.accu_Pmap)
    (h3 : ∀ c i, cell st.1.cur_Pmap c i = cell st.1.accu_Pmap c i - cell st.2 c i) :
    (runSnap cfg env st calls).1 = run cfg env st.1 calls ∧
    ∀ c i, cell (runSnap cfg env st calls).1.cur_Pmap c i
      = cell (runSnap cfg env st calls).1.accu_Pmap c i
        - cell (runSnap cfg env st calls).2 c i := by
  induction calls generalizing st with
  | nil => exact ⟨rfl, h3⟩
  | cons a r ih =>
    simp only [runSnap, run, List.foldl_cons] at ih ⊢
    obtain ⟨ds, hd, -⟩ := UpdatePower_deposit_isDeposit cfg st.1 a.cmd a.clk
    obtain ⟨da, dc, -⟩ := hd
    obtain ⟨ug, -, ua, -, -, -, uc, -⟩ := UpdatePower_spec cfg env a.stats_ st.1 a.cmd a.clk
    obtain ⟨g1, g2, g3, g4⟩ := geometry_fields _ _ ug
    have sa : shape (UpdatePower cfg env a.stats_ st.1 a.cmd a.clk).accu_Pmap
        = shape st.1.accu_Pmap := by
      rw [ua, da, shape_applyDeposits]
    rw [epochCrossed_deposit]
    apply ih
    · show shape (UpdatePower cfg env a.stats_ st.1 a.cmd a.clk).accu_Pmap = _
      rw [sa, h1, g1, g2, g3, g4]
    · show shape (UpdatePower cfg env a.stats_ st.1 a.cmd a.clk).cur_Pmap
        = shape (UpdatePower cfg env a.stats_ st.1 a.cmd a.clk).accu_Pmap
      rw [sa, uc]
      split
      · exact h1.symm
      · rw [dc, shape_applyDeposits, h2]
    · intro c i
      show cell (UpdatePower cfg env a.stats_ st.1 a.cmd a.clk).cur_Pmap c i
        = cell (UpdatePower cfg env a.stats_ st.1 a.cmd a.clk).accu_Pmap c i
          - cell (if epochCrossed cfg st.1 a.clk = true
              then (UpdatePower cfg env a.stats_ st.1 a.cmd a.clk).accu_Pmap else st.2) c i
      rw [uc]
      split
      · rw [cell_zeroMap]
        ring
      · rw [ua, da, dc]
        have := cell_applyDeposits_diff st.1.cur_Pmap st.1.accu_Pmap ds h2 c i
        have := h3 c i
        linarith

/-- C2 (as amended). In exact rational arithmetic every command deposit goes identically
into both maps: after every sequence of `UpdatePower` calls from the state built by the
constructor, and for every case and cell, `cur_Pmap[case][cell]` equals
`accu_Pmap[case][cell]` minus the value that entry of `accu_Pmap` had at the end of the most
recent call that crossed an epoch boundary (before the first such call the snapshot is the
all-zero map of the constructor). -/
theorem C2_cur_is_energy_since_reset (cfg : Config) (env : ThermalEnv)
    (phy : Address → Address) (vx0 vy0 : Int) (calls : List Call) (c i : Int) :
    (runSnap cfg env (ThermalCalculator.init cfg env phy vx0 vy0,
        (ThermalCalculator.init cfg env phy vx0 vy0).accu_Pmap) calls).1
      = run cfg env (ThermalCalculator.init cfg env phy vx0 vy0) calls ∧
    cell (run cfg env (ThermalCalculator.init cfg env phy vx0 vy0) calls).cur_Pmap c i
      = cell (run cfg env (ThermalCalculator.init cfg env phy vx0 vy0) calls).accu_Pmap c i
        - cell (runSnap cfg env (ThermalCalculator.init cfg env phy vx0 vy0,
            (ThermalCalculator.init cfg env phy vx0 vy0).accu_Pmap) calls).2 c i := by
  have h := runSnap_invariant cfg env calls
    (ThermalCalculator.init cfg env phy vx0 vy0,
      (ThermalCalculator.init cfg env phy vx0 vy0).accu_Pmap) rfl rfl
    (by
      intro c i
      show cell (zeroMap _ _) c i = cell (zeroMap _ _) c i - cell (zeroMap _ _) c i
      simp only [cell_zeroMap, sub_zero])
  refine ⟨h.1, ?_⟩
  rw [← h.1]
  exact h.2 c i

/-- C2 as stated fails in double precision.  In the scenario three `ACTIVATE` commands go
to bank 0 at the clocks 0, 1001 and 1002; the second call crosses the first epoch boundary,
so the snapshot is the cumulative map after two calls and the current map holds the
deposits of the third call only.  Every deposit adds the same double to cell 0 of both
maps, eight times per call; the current map sums eight of them from zero, the cumulative
map sums them on top of the sixteen earlier ones, and the two sums round differently:
`cur` is `6917529027641081 / 2^64` while `accu - snapshot` is `3458764513820543 / 2^63`,
also after rounding the difference. -/
theorem C2_counterexample :
    (run_fl roundToDouble scenarioConfig scenarioEnv scenarioInit roundingCalls).sample_id = 1 ∧
    (run_fl roundToDouble scenarioConfig scenarioEnv scenarioInit
      (roundingCalls.take 2)).sample_id = 1 ∧
    (run_fl roundToDouble scenarioConfig scenarioEnv scenarioInit
      (roundingCalls.take 1)).sample_id = 0 ∧
    cell (runSnap_fl roundToDouble scenarioConfig scenarioEnv
        (scenarioInit, scenarioInit.accu_Pmap) roundingCalls).2 0 0
      = cell (run_fl roundToDouble scenarioConfig scenarioEnv scenarioInit
          (roundingCalls.take 2)).accu_Pmap 0 0 ∧
    cell (run_fl roundToDouble scenarioConfig scenarioEnv scenarioInit
        roundingCalls).cur_Pmap 0 0 = 6917529027641081 / 18446744073709551616 ∧
    cell (run_fl roundToDouble scenarioConfig scenarioEnv scenarioInit
        roundingCalls).accu_Pmap 0 0
      - cell (runSnap_fl roundToDouble scenarioConfig scenarioEnv
          (scenarioInit, scenarioInit.accu_Pmap) roundingCalls).2 0 0
      = 3458764513820543 / 9223372036854775808 ∧
    cell (run_fl roundToDouble scenarioConfig scenarioEnv scenarioInit
        roundingCalls).cur_Pmap 0 0
      ≠ cell (run_fl roundToDouble scenarioConfig scenarioEnv scenarioInit
          roundingCalls).accu_Pmap 0 0
        - cell (runSnap_fl roundToDouble scenarioConfig scenarioEnv
            (scenarioInit, scenarioInit.accu_Pmap) roundingCalls).2 0 0 ∧
    cell (run_fl roundToDouble scenarioConfig scenarioEnv scenarioInit
        roundingCalls).cur_Pmap 0 0
      ≠ roundToDouble
        (cell (run_fl roundToDouble scenarioConfig scenarioEnv scenarioInit
            roundingCalls).accu_Pmap 0 0
          - cell (runSnap_fl roundToDouble scenarioConfig scenarioEnv
              (scenarioInit, scenarioInit.accu_Pmap) roundingCalls).2 0 0) := by
  decide!

/-! ## C5: the end-to-end epoch scenario -/

theorem run_append (cfg : Config) (env : ThermalEnv) (tc : ThermalCalculator)
    (l1 l2 : List Call) :
    run cfg env tc (l1 ++ l2) = run cfg env (run cfg env tc l1) l2 := by
  simp [run, List.foldl_append]

/-- While no call has a clock beyond the first epoch boundary, no solve fires. -/
theorem run_before_epoch (cfg : Config) (env : ThermalEnv) (calls : List Call)
    (tc : ThermalCalculator)
    (h : ∀ c ∈ calls, c.clk ≤ (tc.sample_id + 1) * cfg.power_epoch_period) :
    (run cfg env tc calls).sample_id = tc.sample_id ∧
    (run cfg env tc calls).toGeometry = tc.toGeometry ∧
    (run cfg env tc calls).epoch_max_temp_file_csv_.map EpochRow.case_id
      = tc.epoch_max_temp_file_csv_.map EpochRow.case_id := by
  induction calls generalizing tc with
  | nil => exact ⟨rfl, rfl, rfl⟩
  | cons a r ih =>
    simp only [run, List.foldl_cons] at ih ⊢
    obtain ⟨ug, -, -, -, -, us, -, uf⟩ := UpdatePower_spec cfg env a.stats_ tc a.cmd a.clk
    have hn : epochCrossed cfg tc a.clk = false := by
      unfold epochCrossed
      have := h a (List.mem_cons_self a r)
      exact decide_eq_false (by omega)
    rw [hn] at us uf
    simp only [Bool.false_eq_true, if_false, List.append_nil] at us uf
    have h2 := ih (UpdatePower cfg env a.stats_ tc a.cmd a.clk)
      (by
        intro c hc
        rw [us]
        exact h c (List.mem_cons_of_mem a hc))
    exact ⟨h2.1.trans us, h2.2.1.trans ug, h2.2.2.trans uf⟩

theorem addBackground_T_trans (tc : ThermalCalculator) (c : Int) (e : ℚ) :
    (addBackground tc c e).T_trans = tc.T_trans := by
  unfold addBackground
  exact foldl_inv (fun (t : ThermalCalculator) => t.T_trans = tc.T_trans) _ _ _ rfl
    (fun t i _ ht => ht)

theorem UpdatePower_background_T_trans (cfg : Config) (stats_ : Statistics)
    (tc : ThermalCalculator) (device_scale : ℚ) :
    (UpdatePower_background cfg stats_ tc device_scale).T_trans = tc.T_trans := by
  unfold UpdatePower_background
  split
  · refine foldl_inv (fun (t : ThermalCalculator) => t.T_trans = tc.T_trans) _ _ _ rfl ?_
    intro t j _ ht
    exact (addBackground_T_trans t j _).trans ht
  · refine foldl_inv (fun (t : ThermalCalculator) => t.T_trans = tc.T_trans) _ _ _ rfl ?_
    intro t jch _ ht
    refine foldl_inv (fun (u : ThermalCalculator) => u.T_trans = tc.T_trans) _ _ _ ht ?_
    intro u jrk _ hu
    exact (addBackground_T_trans _ _ _).trans hu

theorem PrintTransPT_case_T_trans (cfg : Config) (env : ThermalEnv) (tc : ThermalCalculator)
    (ir : Int) :
    (PrintTransPT_case cfg env tc ir).T_trans
      = vmodify tc.T_trans ir (env.transient_thermal_solver (InitPowerM cfg env tc ir 0)) := by
  unfold PrintTransPT_case CalcTransT
  split <;> rfl

theorem init_planar_single (cfg : Config) (env : ThermalEnv) (phy : Address → Address)
    (vx0 vy0 : Int) (hmc : cfg.IsHMC = false) (hbm : cfg.IsHBM = false)
    (hch : cfg.channels = 1) (hrk : cfg.ranks = 1) :
    (ThermalCalculator.init cfg env phy vx0 vy0).num_case = 1 := by
  show (ThermalCalculator_geometry cfg vx0 vy0).num_case = 1
  unfold ThermalCalculator_geometry
  simp [hmc, hbm, hch, hrk]

/-- C5 (as amended). End-to-end epoch scenario: in a planar configuration with 1 channel and
1 rank (any bank count and epoch length, so also 8 banks and 1000 cycles), after any
`UpdatePower` calls whose clocks do not exceed the epoch length (clock 1000 included) no
transient solve has fired: `sample_id = 0` and the summary file has no row.  The first call
whose clock is greater than the epoch length runs the transient solver once, for case 0,
appends exactly one summary row (for case 0) and leaves `sample_id = 1`. -/
theorem C5_first_epoch (cfg : Config) (env : ThermalEnv) (phy : Address → Address)
    (vx0 vy0 : Int) (calls : List Call) (last : Call)
    (hmc : cfg.IsHMC = false) (hbm : cfg.IsHBM = false)
    (hch : cfg.channels = 1) (hrk : cfg.ranks = 1)
    (hcalls : ∀ c ∈ calls, c.clk ≤ cfg.power_epoch_period)
    (hlast : last.clk > cfg.power_epoch_period) :
    (run cfg env (ThermalCalculator.init cfg env phy vx0 vy0) calls).sample_id = 0 ∧
    (run cfg env (ThermalCalculator.init cfg env phy vx0 vy0) calls).epoch_max_temp_file_csv_
      = [] ∧
    (run cfg env (ThermalCalculator.init cfg env phy vx0 vy0) (calls ++ [last])).sample_id = 1 ∧
    (run cfg env (ThermalCalculator.init cfg env phy vx0 vy0)
      (calls ++ [last])).epoch_max_temp_file_csv_.map EpochRow.case_id = [0] ∧
    (run cfg env (ThermalCalculator.init cfg env phy vx0 vy0) (calls ++ [last])).T_trans
      = vmodify (run cfg env (ThermalCalculator.init cfg env phy vx0 vy0) calls).T_trans 0
          (env.transient_thermal_solver
            (InitPowerM cfg env
              (UpdatePower_background cfg last.stats_
                (UpdatePower_deposit cfg
                  (run cfg env (ThermalCalculator.init cfg env phy vx0 vy0) calls)
                  last.cmd last.clk)
                (UpdatePower_case cfg last.cmd).2) 0 0)) := by
  have hb := run_before_epoch cfg env calls (ThermalCalculator.init cfg env phy vx0 vy0)
    (by
      intro c hc
      show c.clk ≤ (0 + 1) * cfg.power_epoch_period
      have := hcalls c hc
      omega)
  obtain ⟨b1, b2, b3⟩ := hb
  have b1 : (run cfg env (ThermalCalculator.init cfg env phy vx0 vy0) calls).sample_id = 0 := b1
  have b3 : (run cfg env (ThermalCalculator.init cfg env phy vx0 vy0)
      calls).epoch_max_temp_file_csv_ = [] := by
    have : (ThermalCalculator.init cfg env phy vx0 vy0).epoch_max_temp_file_csv_ = [] := rfl
    rw [this] at b3
    simpa using b3
  have hnc : (run cfg env (ThermalCalculator.init cfg env phy vx0 vy0) calls).num_case = 1 := by
    rw [(geometry_fields _ _ b2).1]
    exact init_planar_single cfg env phy vx0 vy0 hmc hbm hch hrk
  have hx : epochCrossed cfg (run cfg env (ThermalCalculator.init cfg env phy vx0 vy0) calls)
      last.clk = true := by
    unfold epochCrossed
    rw [b1]
    exact decide_eq_true (by omega)
  obtain ⟨-, -, -, -, -, us, -, uf⟩ := UpdatePower_spec cfg env last.stats_
    (run cfg env (ThermalCalculator.init cfg env phy vx0 vy0) calls) last.cmd last.clk
  rw [hx] at us uf
  simp only [if_true] at us uf
  have hrun : run cfg env (ThermalCalculator.init cfg env phy vx0 vy0) (calls ++ [last])
      = UpdatePower cfg env last.stats_
          (run cfg env (ThermalCalculator.init cfg env phy vx0 vy0) calls) last.cmd last.clk := by
    rw [run_append]
    rfl
  refine ⟨b1, b3, ?_, ?_, ?_⟩
  · rw [hrun, us, b1]
  · rw [hrun, uf, b3, hnc]
    rfl
  · rw [hrun]
    obtain ⟨ds, hd, -⟩ := UpdatePower_deposit_isDeposit cfg
      (run cfg env (ThermalCalculator.init cfg env phy vx0 vy0) calls) last.cmd last.clk
    have hbg := UpdatePower_background_frame cfg last.stats_
      (UpdatePower_deposit cfg (run cfg env (ThermalCalculator.init cfg env phy vx0 vy0) calls)
        last.cmd last.clk) (UpdatePower_case cfg last.cmd).2
    have hnc2 : (UpdatePower_background cfg last.stats_
        (UpdatePower_deposit cfg (run cfg env (ThermalCalculator.init cfg env phy vx0 vy0) calls)
          last.cmd last.clk) (UpdatePower_case cfg last.cmd).2).num_case = 1 := by
      rw [(geometry_fields _ _ hbg.1.1).1, (geometry_fields _ _ hd.2.2.1).1, hnc]
    have hx2 : epochCrossed cfg (UpdatePower_deposit cfg
        (run cfg env (ThermalCalculator.init cfg env phy vx0 vy0) calls) last.cmd last.clk)
        last.clk = true := by
      rw [epochCrossed_deposit]
      exact hx
    unfold UpdatePower UpdatePower_epoch
    simp only [hx2, if_true]
    show (PrintTransPT cfg env _).T_trans = _
    unfold PrintTransPT
    rw [hnc2]
    show (PrintTransPT_case cfg env _ 0).T_trans = _
    rw [PrintTransPT_case_T_trans, UpdatePower_background_T_trans, hd.2.2.2.2.2.2.1]

theorem scenarioCalls_clk (n : Nat) (c : Call) (h : c ∈ scenarioCalls n) : c.clk < n := by
  unfold scenarioCalls at h
  obtain ⟨k, hk, rfl⟩ := List.mem_map.mp h
  exact List.mem_range.mp hk

/-- C5 at the scenario: calls at the clocks 0 to 1000, then a call at clock 1001. -/
theorem C5_first_epoch_witness :
    (run scenarioConfig scenarioEnv scenarioInit (scenarioCalls 1001)).sample_id = 0 ∧
    (run scenarioConfig scenarioEnv scenarioInit
      (scenarioCalls 1001 ++ [scenarioLast])).sample_id = 1 ∧
    (run scenarioConfig scenarioEnv scenarioInit
      (scenarioCalls 1001 ++ [scenarioLast])).epoch_max_temp_file_csv_.map EpochRow.case_id
      = [0] :=
  have h := C5_first_epoch scenarioConfig scenarioEnv (fun a => a) 0 0 (scenarioCalls 1001)
    scenarioLast rfl rfl rfl rfl
    (fun c hc => Nat.le_of_lt_succ (scenarioCalls_clk 1001 c hc)) (by decide)
  ⟨h.1, h.2.2.1, h.2.2.2.1⟩

/-- C5 as stated fails: after the calls at the clocks 0 to 999 and the call at clock 1000
(an `ACTIVATE` to bank `k mod 8` at clock `k`), `sample_id` is still 0, not 1, and no
summary row has been written, because the epoch test `clk > (sample_id + 1) * period` is
strict. -/
theorem C5_counterexample :
    (run scenarioConfig scenarioEnv scenarioInit (scenarioCalls 1001)).sample_id = 0 ∧
    (run scenarioConfig scenarioEnv scenarioInit (scenarioCalls 1001)).sample_id ≠ 1 ∧
    (run scenarioConfig scenarioEnv scenarioInit
      (scenarioCalls 1001)).epoch_max_temp_file_csv_.map EpochRow.case_id = [] := by
  have h := run_before_epoch scenarioConfig scenarioEnv (scenarioCalls 1001) scenarioInit
    (by
      intro c hc
      have := scenarioCalls_clk 1001 c hc
      show c.clk ≤ (0 + 1) * 1000
      omega)
  have h0 : scenarioInit.sample_id = 0 := rfl
  have h1 : scenarioInit.epoch_max_temp_file_csv_ = [] := rfl
  rw [h0] at h
  rw [h1] at h
  refine ⟨h.1, ?_, h.2.2⟩
  rw [h.1]
  decide

/-! ## The factorisation chosen by `determineXY` -/

theorem determineXY_asr_eq_distortion (ar : ℚ) (x y : Int) :
    determineXY_asr ar 1 x y = distortion ar x y := by
  unfold determineXY_asr distortion
  by_cases h : (x : ℚ) * ar ≥ (y : ℚ) * 1
  · rw [if_pos h]
    rw [mul_one] at h
    rw [max_eq_left h, min_eq_right h, div_one]
  · rw [if_neg h]
    rw [mul_one] at h
    push_neg at h
    rw [max_eq_right h.le, min_eq_left h.le, mul_one, div_div]

/-- The state of the loop of `determineXY` after the candidates `y = 1, ..., k`. -/
theorem determineXY_loop_succ (xd yd : ℚ) (n : Int) (k : Nat) :
    determineXY_loop xd yd n (1, 1000)
        (((List.range (k + 1)).map Int.ofNat).map (fun j => j + 1))
      = determineXY_step xd yd n
          (determineXY_loop xd yd n (1, 1000)
            (((List.range k).map Int.ofNat).map (fun j => j + 1)))
          ((k : Int) + 1) := by
  unfold determineXY_loop
  rw [List.range_succ, List.map_append, List.map_append, List.foldl_append]
  rfl

/-- The loop invariant of `determineXY`: the kept pair is the first best candidate among
those seen, or nothing has been kept yet. -/
theorem determineXY_loop_inv (xd yd : ℚ) (n : Int) (k : Nat) :
    (∀ y : Int, 1 ≤ y → y ≤ k → n.tdiv y * y = n →
      (determineXY_loop xd yd n (1, 1000)
        (((List.range k).map Int.ofNat).map (fun j => j + 1))).2
        ≤ determineXY_asr xd yd (n.tdiv y) y) ∧
    (determineXY_loop xd yd n (1, 1000)
        (((List.range k).map Int.ofNat).map (fun j => j + 1))).2 ≤ 1000 ∧
    (determineXY_loop xd yd n (1, 1000)
        (((List.range k).map Int.ofNat).map (fun j => j + 1)) = (1, 1000) ∨
      ∃ y0 : Int, 1 ≤ y0 ∧ y0 ≤ k ∧ n.tdiv y0 * y0 = n ∧
        determineXY_loop xd yd n (1, 1000)
          (((List.range k).map Int.ofNat).map (fun j => j + 1))
          = (n.tdiv y0, determineXY_asr xd yd (n.tdiv y0) y0) ∧
        determineXY_asr xd yd (n.tdiv y0) y0 < 1000 ∧
        ∀ y : Int, 1 ≤ y → y < y0 → n.tdiv y * y = n →
          determineXY_asr xd yd (n.tdiv y0) y0 < determineXY_asr xd yd (n.tdiv y) y) := by
  induction k with
  | zero =>
    refine ⟨?_, ?_, Or.inl rfl⟩
    · intro y h1 h2
      simp only [Nat.cast_zero] at h2
      omega
    · show (1000 : ℚ) ≤ 1000
      exact le_refl _
  | succ k ih =>
    rw [determineXY_loop_succ]
    generalize determineXY_loop xd yd n (1, 1000)
      (((List.range k).map Int.ofNat).map (fun j => j + 1)) = st at ih ⊢
    obtain ⟨i1, i2, i3⟩ := ih
    unfold determineXY_step
    by_cases hdiv : n.tdiv ((k : Int) + 1) * ((k : Int) + 1) = n
    · simp only [hdiv, if_true]
      by_cases hlt : determineXY_asr xd yd (n.tdiv ((k : Int) + 1)) ((k : Int) + 1) < st.2
      · simp only [hlt, if_true]
        refine ⟨?_, ?_, Or.inr ⟨(k : Int) + 1, by omega, by push_cast; omega, hdiv, rfl, ?_, ?_⟩⟩
        · intro y h1 h2 h3
          by_cases hy : y ≤ k
          · exact le_trans hlt.le (i1 y h1 hy h3)
          · have : y = (k : Int) + 1 := by push_cast at h2; omega
            rw [this]
        · exact le_trans hlt.le i2
        · exact lt_of_lt_of_le hlt i2
        · intro y h1 h2 h3
          exact lt_of_lt_of_le hlt (i1 y h1 (by omega) h3)
      · simp only [hlt, if_false]
        push_neg at hlt
        refine ⟨?_, i2, ?_⟩
        · intro y h1 h2 h3
          by_cases hy : y ≤ k
          · exact i1 y h1 hy h3
          · have : y = (k : Int) + 1 := by push_cast at h2; omega
            rw [this]
            exact hlt
        · rcases i3 with h | ⟨y0, a1, a2, a3, a4, a5, a6⟩
          · exact Or.inl h
          · exact Or.inr ⟨y0, a1, by push_cast; omega, a3, a4, a5, a6⟩
    · simp only [hdiv, if_false]
      refine ⟨?_, i2, ?_⟩
      · intro y h1 h2 h3
        by_cases hy : y ≤ k
        · exact i1 y h1 hy h3
        · have : y = (k : Int) + 1 := by push_cast at h2; omega
          rw [this] at h3
          exact absurd h3 hdiv
      · rcases i3 with h | ⟨y0, a1, a2, a3, a4, a5, a6⟩
        · exact Or.inl h
        · exact Or.inr ⟨y0, a1, by push_cast; omega, a3, a4, a5, a6⟩

/-- What `determineXY` returns: 1 when every factor pair has a ratio of at least 1000, and
otherwise the first factor pair, in ascending `y`, whose ratio is least. -/
theorem determineXY_char (xd yd : ℚ) (n : Int) (hn : 0 ≤ n) :
    (determineXY xd yd n = 1 ∧
      ∀ y : Int, 1 ≤ y → y ≤ n → n.tdiv y * y = n → 1000 ≤ determineXY_asr xd yd (n.tdiv y) y) ∨
    ∃ y0 : Int, 1 ≤ y0 ∧ y0 ≤ n ∧ n.tdiv y0 * y0 = n ∧ determineXY xd yd n = n.tdiv y0 ∧
      determineXY_asr xd yd (n.tdiv y0) y0 < 1000 ∧
      (∀ y : Int, 1 ≤ y → y ≤ n → n.tdiv y * y = n →
        determineXY_asr xd yd (n.tdiv y0) y0 ≤ determineXY_asr xd yd (n.tdiv y) y) ∧
      ∀ y : Int, 1 ≤ y → y < y0 → n.tdiv y * y = n →
        determineXY_asr xd yd (n.tdiv y0) y0 < determineXY_asr xd yd (n.tdiv y) y := by
  have hk : ((n.toNat : Nat) : Int) = n := Int.toNat_of_nonneg hn
  obtain ⟨i1, i2, i3⟩ := determineXY_loop_inv xd yd n n.toNat
  rw [hk] at i1 i3
  unfold determineXY upto
  rcases i3 with h | ⟨y0, a1, a2, a3, a4, a5, a6⟩
  · left
    rw [h] at i1
    rw [h]
    exact ⟨rfl, i1⟩
  · right
    rw [a4] at i1
    rw [a4]
    exact ⟨y0, a1, a2, a3, rfl, a5, i1, a6⟩

theorem factor_pair_tdiv (x y n : Int) (hx : 1 ≤ x) (hy : 1 ≤ y) (h : x * y = n) :
    y ≤ n ∧ n.tdiv y = x ∧ n.tdiv y * y = n ∧ n.tdiv x = y := by
  have h1 : n.tdiv y = x := by
    rw [← h]
    exact Int.mul_tdiv_cancel x (by omega)
  have h2 : n.tdiv x = y := by
    rw [← h]
    exact Int.mul_tdiv_cancel_left y (by omega)
  refine ⟨?_, h1, ?_, h2⟩
  · rw [← h]
    nlinarith
  · rw [h1, h]

theorem tdiv_factor_pos (n y : Int) (hn : 1 ≤ n) (hy : 1 ≤ y) (h : n.tdiv y * y = n) :
    1 ≤ n.tdiv y := by
  by_contra hc
  have : n.tdiv y * y ≤ 0 := by nlinarith
  omega

/-- The minimising factor pair found by `determineXY` for the denominators `(ar, 1)` when
some factor pair has a distortion below 1000. -/
theorem determineXY_minimiser (n : Int) (ar : ℚ) (hn : 1 ≤ n)
    (hex : ∃ x y : Int, 1 ≤ x ∧ 1 ≤ y ∧ x * y = n ∧ distortion ar x y < 1000) :
    1 ≤ determineXY ar 1 n ∧ 1 ≤ n.tdiv (determineXY ar 1 n) ∧
    determineXY ar 1 n * n.tdiv (determineXY ar 1 n) = n ∧
    distortion ar (determineXY ar 1 n) (n.tdiv (determineXY ar 1 n)) < 1000 ∧
    (∀ x y : Int, 1 ≤ x → 1 ≤ y → x * y = n →
      distortion ar (determineXY ar 1 n) (n.tdiv (determineXY ar 1 n)) ≤ distortion ar x y) ∧
    (∀ x y : Int, 1 ≤ x → 1 ≤ y → x * y = n → y < n.tdiv (determineXY ar 1 n) →
      distortion ar (determineXY ar 1 n) (n.tdiv (determineXY ar 1 n)) < distortion ar x y) := by
  rcases determineXY_char ar 1 n (by omega) with ⟨-, hall⟩ | ⟨y0, a1, a2, a3, a4, a5, a6, a7⟩
  · obtain ⟨x, y, hx, hy, hxy, hd⟩ := hex
    obtain ⟨f1, f2, f3, -⟩ := factor_pair_tdiv x y n hx hy hxy
    have := hall y hy f1 f3
    rw [f2, determineXY_asr_eq_distortion] at this
    linarith
  · have hx0 : 1 ≤ n.tdiv y0 := tdiv_factor_pos n y0 hn a1 a3
    obtain ⟨-, -, -, f4⟩ := factor_pair_tdiv (n.tdiv y0) y0 n hx0 a1 a3
    rw [a4, f4]
    rw [determineXY_asr_eq_distortion] at a5
    refine ⟨hx0, a1, a3, a5, ?_, ?_⟩
    · intro x y hx hy hxy
      obtain ⟨f1, f2, f3, -⟩ := factor_pair_tdiv x y n hx hy hxy
      have := a6 y hy f1 f3
      rw [f2, determineXY_asr_eq_distortion, determineXY_asr_eq_distortion] at this
      exact this
    · intro x y hx hy hxy hlt
      obtain ⟨f1, f2, f3, -⟩ := factor_pair_tdiv x y n hx hy hxy
      have := a7 y hy hlt f3
      rw [f2, determineXY_asr_eq_distortion, determineXY_asr_eq_distortion] at this
      exact this

theorem upto_8 : (upto 8).map (fun k => k + 1) = [1, 2, 3, 4, 5, 6, 7, 8] := by decide

theorem determineXY_8_ratio_1 : determineXY 1 1 8 = 4 := by
  unfold determineXY
  rw [upto_8]
  simp only [determineXY_loop, List.foldl, determineXY_step, determineXY_asr]
  norm_num [Int.tdiv]

/-! ## C6: `determineXY` minimises the distortion -/

/-- In exact rational arithmetic, when some factor pair of `n` has a distortion below 1000,
`determineXY` returns the first minimiser met while `y` ascends from 1: every factor pair
with a smaller `y` has a strictly larger distortion, so among the factor pairs of minimal
distortion the returned one has the largest `x`.  For 8 banks and aspect ratio 1 the planar
layout is `bank_x = 4`, `bank_y = 2`. -/
theorem determineXY_first_minimiser (n : Int) (ar : ℚ) (hn : 1 ≤ n) :
    ((∃ x y : Int, 1 ≤ x ∧ 1 ≤ y ∧ x * y = n ∧ distortion ar x y < 1000) →
      (∀ x y : Int, 1 ≤ x → 1 ≤ y → x * y = n → y < n.tdiv (determineXY ar 1 n) →
        distortion ar (determineXY ar 1 n) (n.tdiv (determineXY ar 1 n))
          < distortion ar x y) ∧
      (∀ x y : Int, 1 ≤ x → 1 ≤ y → x * y = n →
        (∀ x2 y2 : Int, 1 ≤ x2 → 1 ≤ y2 → x2 * y2 = n →
          distortion ar x y ≤ distortion ar x2 y2) →
        x ≤ determineXY ar 1 n)) ∧
    (∀ (cfg : Config) (vx0 vy0 : Int), cfg.IsHMC = false → cfg.IsHBM = false →
      cfg.banks = 8 → cfg.bank_asr = 1 →
      (ThermalCalculator_geometry cfg vx0 vy0).bank_x = 4 ∧
      (ThermalCalculator_geometry cfg vx0 vy0).bank_y = 2) := by
  constructor
  · intro hex
    obtain ⟨h1, h2, h3, -, -, h6⟩ := determineXY_minimiser n ar hn hex
    refine ⟨h6, ?_⟩
    intro x y hx hy hxy hmin
    by_contra hgt
    push_neg at hgt
    have hylt : y < n.tdiv (determineXY ar 1 n) := by
      by_contra hge
      push_neg at hge
      have : determineXY ar 1 n * n.tdiv (determineXY ar 1 n) < x * y := by nlinarith
      omega
    have hs := h6 x y hx hy hxy hylt
    have hm := hmin _ _ h1 h2 h3
    linarith
  · intro cfg vx0 vy0 hmc hbm hb ha
    unfold ThermalCalculator_geometry
    rw [if_neg (by simp [hmc]), if_neg (by simp [hbm]), hb, ha, determineXY_8_ratio_1]
    exact ⟨rfl, rfl⟩

/-- At 8 banks and ratio 1 the pairs `(4, 2)` and `(2, 4)` tie at distortion 2 and the
result is the one with the larger `x`. -/
theorem determineXY_first_minimiser_at_8 :
    (∀ x y : Int, 1 ≤ x → 1 ≤ y → x * y = 8 → y < (8 : Int).tdiv (determineXY 1 1 8) →
      distortion 1 (determineXY 1 1 8) ((8 : Int).tdiv (determineXY 1 1 8))
        < distortion 1 x y) ∧
    (∀ x y : Int, 1 ≤ x → 1 ≤ y → x * y = 8 →
      (∀ x2 y2 : Int, 1 ≤ x2 → 1 ≤ y2 → x2 * y2 = 8 →
        distortion 1 x y ≤ distortion 1 x2 y2) →
      x ≤ determineXY 1 1 8) :=
  (determineXY_first_minimiser 8 1 (by decide)).1
    ⟨4, 2, by decide, by decide, by decide, by norm_num [distortion]⟩

theorem factor_pairs_1009 (x y : Int) (hx : 1 ≤ x) (h : x * y = 1009) :
    (x = 1 ∧ y = 1009) ∨ (x = 1009 ∧ y = 1) := by
  have hp : Nat.Prime 1009 := by norm_num
  have hd : x.natAbs ∣ 1009 := by
    refine ⟨y.natAbs, ?_⟩
    have := congrArg Int.natAbs h
    rw [Int.natAbs_mul] at this
    exact this.symm
  rcases (Nat.dvd_prime hp).mp hd with h1 | h1
  · have : x = 1 := by omega
    subst this
    left
    exact ⟨rfl, by omega⟩
  · have : x = 1009 := by omega
    subst this
    right
    exact ⟨rfl, by omega⟩

theorem determineXY_105_ratio_7 : determineXY 7 1 105 = 5 := by decide!

/-- C7 at its failing inputs.  For 1009 banks (a prime) and aspect ratio 1 the two factor
pairs `(1009, 1)` and `(1, 1009)` both attain the minimal distortion 1009, which is not
below the initial running minimum 1000: no candidate is kept and the constructor builds
`bank_x = 1`, `bank_y = 1009`, the minimiser with the smallest `x`, in exact and in double
arithmetic.  For 105 banks and aspect ratio 7 the pairs `(5, 21)` and `(3, 35)` tie at the
minimal distortion `5/3` and `(5, 21)` is met first, but in double arithmetic `35/21` rounds
above `35/3/7` and `determineXY` returns 3. -/
theorem C7_tie_break_fails :
    (ThermalCalculator_geometry primeBanksConfig 0 0).bank_x = 1 ∧
    (ThermalCalculator_geometry primeBanksConfig 0 0).bank_y = 1009 ∧
    determineXY_fl roundToDouble 1 1 1009 = 1 ∧
    distortion 1 1009 1 = distortion 1 1 1009 ∧
    (∀ x y : Int, 1 ≤ x → 1 ≤ y → x * y = 1009 → distortion 1 1009 1 ≤ distortion 1 x y) ∧
    determineXY_fl roundToDouble 7 1 105 = 3 ∧
    distortion 7 5 21 = distortion 7 3 35 ∧
    (∀ x y : Int, 1 ≤ x → 1 ≤ y → x * y = 105 → distortion 7 5 21 ≤ distortion 7 x y) := by
  have hd1 : distortion 1 1009 1 = 1009 := by norm_num [distortion]
  have hd2 : distortion 1 1 1009 = 1009 := by norm_num [distortion]
  have hall : ∀ x y : Int, 1 ≤ x → 1 ≤ y → x * y = 1009 → distortion 1 x y = 1009 := by
    intro x y hx hy h
    rcases factor_pairs_1009 x y hx h with ⟨rfl, rfl⟩ | ⟨rfl, rfl⟩
    · exact hd2
    · exact hd1
  refine ⟨by decide!, by decide!, by decide!, by rw [hd1, hd2], ?_, by decide!, by decide!, ?_⟩
  · intro x y hx hy h
    rw [hd1, hall x y hx hy h]
  · intro x y hx hy h
    have hm := (determineXY_minimiser 105 7 (by decide)
      ⟨5, 21, by decide, by decide, by decide, by decide!⟩).2.2.2.2.1 x y hx hy h
    rw [determineXY_105_ratio_7] at hm
    exact hm

/-! ## C8: the geometry built by the constructor -/

/-- The value returned by `determineXY` is a positive divisor of a positive count. -/
theorem determineXY_pos_dvd (xd yd : ℚ) (n : Int) (hn : 1 ≤ n) :
    1 ≤ determineXY xd yd n ∧ 1 ≤ n.tdiv (determineXY xd yd n) ∧
    determineXY xd yd n * n.tdiv (determineXY xd yd n) = n := by
  rcases determineXY_char xd yd n (by omega) with ⟨h, -⟩ | ⟨y0, a1, a2, a3, a4, -, -, -⟩
  · rw [h, Int.tdiv_one]
    exact ⟨le_refl _, hn, by omega⟩
  · have hx0 : 1 ≤ n.tdiv y0 := tdiv_factor_pos n y0 hn a1 a3
    obtain ⟨-, -, -, f4⟩ := factor_pair_tdiv (n.tdiv y0) y0 n hx0 a1 a3
    rw [a4, f4]
    exact ⟨hx0, a1, a3⟩

theorem geometry_positive (cfg : Config) (vx0 vy0 : Int) (h1 : 1 ≤ cfg.channels)
    (h2 : 1 ≤ cfg.ranks) (h3 : 1 ≤ cfg.banks) (h4 : 1 ≤ cfg.num_dies)
    (h5 : 1 ≤ cfg.numXgrids) (h6 : 1 ≤ cfg.numYgrids) :
    1 ≤ (ThermalCalculator_geometry cfg vx0 vy0).numP ∧
    1 ≤ (ThermalCalculator_geometry cfg vx0 vy0).dimX ∧
    1 ≤ (ThermalCalculator_geometry cfg vx0 vy0).dimY ∧
    1 ≤ (ThermalCalculator_geometry cfg vx0 vy0).num_case := by
  unfold ThermalCalculator_geometry
  by_cases hmc : cfg.IsHMC = true
  · rw [if_pos hmc]
    obtain ⟨p1, p2, -⟩ := determineXY_pos_dvd (((1 : Int) : ℚ) * cfg.bank_asr)
      (((2 : Int) : ℚ) * 1) cfg.channels h1
    refine ⟨h4, ?_, ?_, le_refl _⟩
    · show 1 ≤ determineXY _ _ cfg.channels * 1 * cfg.numXgrids
      nlinarith
    · show 1 ≤ cfg.channels.tdiv (determineXY _ _ cfg.channels) * 2 * cfg.numYgrids
      nlinarith
  · rw [if_neg hmc]
    by_cases hbm : cfg.IsHBM = true
    · rw [if_pos hbm]
      refine ⟨h4, ?_, ?_, le_refl _⟩
      · show 1 ≤ (1 : Int) * 8 * cfg.numXgrids
        omega
      · show 1 ≤ (2 : Int) * 2 * cfg.numYgrids
        omega
    · rw [if_neg hbm]
      obtain ⟨p1, p2, -⟩ := determineXY_pos_dvd cfg.bank_asr 1 cfg.banks h3
      refine ⟨le_refl _, ?_, ?_, ?_⟩
      · show 1 ≤ determineXY cfg.bank_asr 1 cfg.banks * cfg.numXgrids
        nlinarith
      · show 1 ≤ cfg.banks.tdiv (determineXY cfg.bank_asr 1 cfg.banks) * cfg.numYgrids
        nlinarith
      · show 1 ≤ cfg.ranks * cfg.channels
        nlinarith

/-- C8 (as amended). For every configuration with positive counts the geometry built by
the constructor satisfies: in a planar topology `bank_x * bank_y = banks`; in the
3D-stacked topology `vault_x * vault_y = channels` and the bank layout is the fixed 1 x 2;
in the wide-I/O-stacked topology the bank layout is the fixed 8 x 2 and the vault layout the
fixed 1 x 2; and in every topology both power maps have `num_case` rows of exactly
`dimX * dimY * numP` cells. -/
theorem C8_geometry_invariant (cfg : Config) (env : ThermalEnv) (phy : Address → Address)
    (vx0 vy0 : Int) (h1 : 1 ≤ cfg.channels) (h2 : 1 ≤ cfg.ranks) (h3 : 1 ≤ cfg.banks)
    (h4 : 1 ≤ cfg.num_dies) (h5 : 1 ≤ cfg.numXgrids) (h6 : 1 ≤ cfg.numYgrids) :
    (cfg.IsHMC = false → cfg.IsHBM = false →
      (ThermalCalculator.init cfg env phy vx0 vy0).bank_x
        * (ThermalCalculator.init cfg env phy vx0 vy0).bank_y = cfg.banks) ∧
    (cfg.IsHMC = true →
      (ThermalCalculator.init cfg env phy vx0 vy0).vault_x
        * (ThermalCalculator.init cfg env phy vx0 vy0).vault_y = cfg.channels ∧
      (ThermalCalculator.init cfg env phy vx0 vy0).bank_x = 1 ∧
      (ThermalCalculator.init cfg env phy vx0 vy0).bank_y = 2) ∧
    (cfg.IsHMC = false → cfg.IsHBM = true →
      (ThermalCalculator.init cfg env phy vx0 vy0).bank_x = 8 ∧
      (ThermalCalculator.init cfg env phy vx0 vy0).bank_y = 2 ∧
      (ThermalCalculator.init cfg env phy vx0 vy0).vault_x = 1 ∧
      (ThermalCalculator.init cfg env phy vx0 vy0).vault_y = 2) ∧
    ((ThermalCalculator.init cfg env phy vx0 vy0).accu_Pmap.length : Int)
      = (ThermalCalculator.init cfg env phy vx0 vy0).num_case ∧
    ((ThermalCalculator.init cfg env phy vx0 vy0).cur_Pmap.length : Int)
      = (ThermalCalculator.init cfg env phy vx0 vy0).num_case ∧
    (∀ row ∈ (ThermalCalculator.init cfg env phy vx0 vy0).accu_Pmap,
      (row.length : Int) = (ThermalCalculator.init cfg env phy vx0 vy0).dimX
        * (ThermalCalculator.init cfg env phy vx0 vy0).dimY
        * (ThermalCalculator.init cfg env phy vx0 vy0).numP) ∧
    (∀ row ∈ (ThermalCalculator.init cfg env phy vx0 vy0).cur_Pmap,
      (row.length : Int) = (ThermalCalculator.init cfg env phy vx0 vy0).dimX
        * (ThermalCalculator.init cfg env phy vx0 vy0).dimY
        * (ThermalCalculator.init cfg env phy vx0 vy0).numP) := by
  obtain ⟨g1, g2, g3, g4⟩ := geometry_positive cfg vx0 vy0 h1 h2 h3 h4 h5 h6
  have hrow : ∀ row ∈ zeroMap (ThermalCalculator_geometry cfg vx0 vy0).num_case
      ((ThermalCalculator_geometry cfg vx0 vy0).numP
        * (ThermalCalculator_geometry cfg vx0 vy0).dimX
        * (ThermalCalculator_geometry cfg vx0 vy0).dimY),
      (row.length : Int) = (ThermalCalculator_geometry cfg vx0 vy0).dimX
        * (ThermalCalculator_geometry cfg vx0 vy0).dimY
        * (ThermalCalculator_geometry cfg vx0 vy0).numP := by
    intro row hrow
    unfold zeroMap at hrow
    rw [(List.mem_replicate.mp hrow).2, List.length_replicate, Int.toNat_of_nonneg]
    · ring
    · have : 0 ≤ (ThermalCalculator_geometry cfg vx0 vy0).numP
          * (ThermalCalculator_geometry cfg vx0 vy0).dimX := by nlinarith
      nlinarith
  have hlen : ((zeroMap (ThermalCalculator_geometry cfg vx0 vy0).num_case
      ((ThermalCalculator_geometry cfg vx0 vy0).numP
        * (ThermalCalculator_geometry cfg vx0 vy0).dimX
        * (ThermalCalculator_geometry cfg vx0 vy0).dimY)).length : Int)
      = (ThermalCalculator_geometry cfg vx0 vy0).num_case := by
    unfold zeroMap
    rw [List.length_replicate, Int.toNat_of_nonneg (by omega)]
  refine ⟨?_, ?_, ?_, hlen, hlen, hrow, hrow⟩
  · intro hmc hbm
    show (ThermalCalculator_geometry cfg vx0 vy0).bank_x
      * (ThermalCalculator_geometry cfg vx0 vy0).bank_y = cfg.banks
    unfold ThermalCalculator_geometry
    rw [if_neg (by simp [hmc]), if_neg (by simp [hbm])]
    exact (determineXY_pos_dvd cfg.bank_asr 1 cfg.banks h3).2.2
  · intro hmc
    show (ThermalCalculator_geometry cfg vx0 vy0).vault_x
      * (ThermalCalculator_geometry cfg vx0 vy0).vault_y = cfg.channels ∧
      (ThermalCalculator_geometry cfg vx0 vy0).bank_x = 1 ∧
      (ThermalCalculator_geometry cfg vx0 vy0).bank_y = 2
    unfold ThermalCalculator_geometry
    rw [if_pos hmc]
    exact ⟨(determineXY_pos_dvd _ _ cfg.channels h1).2.2, rfl, rfl⟩
  · intro hmc hbm
    show (ThermalCalculator_geometry cfg vx0 vy0).bank_x = 8 ∧
      (ThermalCalculator_geometry cfg vx0 vy0).bank_y = 2 ∧
      (ThermalCalculator_geometry cfg vx0 vy0).vault_x = 1 ∧
      (ThermalCalculator_geometry cfg vx0 vy0).vault_y = 2
    unfold ThermalCalculator_geometry
    rw [if_neg (by simp [hmc]), if_pos hbm]
    exact ⟨rfl, rfl, rfl, rfl⟩

/-- C8 at the scenario: 8 banks in a planar topology. -/
theorem C8_geometry_invariant_witness :
    scenarioInit.bank_x * scenarioInit.bank_y = 8 ∧
    (scenarioInit.accu_Pmap.length : Int) = scenarioInit.num_case :=
  have h := C8_geometry_invariant scenarioConfig scenarioEnv (fun a => a) 0 0
    (by decide) (by decide) (by decide) (by decide) (by decide) (by decide)
  ⟨h.1 rfl rfl, h.2.2.2.1⟩

/-- C8 as stated fails in the 3D-stacked topology with 16 banks on 4 dies: all counts are
positive, the bank count per layer is `16 / 4 = 4`, and the constructor fixes the bank
layout at 1 x 2. -/
theorem C8_counterexample :
    (1 ≤ stackedConfig.channels ∧ 1 ≤ stackedConfig.ranks ∧ 1 ≤ stackedConfig.banks ∧
      1 ≤ stackedConfig.num_dies ∧ 1 ≤ stackedConfig.numXgrids ∧
      1 ≤ stackedConfig.numYgrids) ∧
    stackedConfig.IsHMC = true ∧
    (ThermalCalculator_geometry stackedConfig 0 0).bank_x
      * (ThermalCalculator_geometry stackedConfig 0 0).bank_y = 2 ∧
    stackedConfig.banks.tdiv stackedConfig.num_dies = 4 ∧
    (ThermalCalculator_geometry stackedConfig 0 0).bank_x
      * (ThermalCalculator_geometry stackedConfig 0 0).bank_y
      ≠ stackedConfig.banks.tdiv stackedConfig.num_dies := by
  have hg : (ThermalCalculator_geometry stackedConfig 0 0).bank_x
      * (ThermalCalculator_geometry stackedConfig 0 0).bank_y = 2 := by
    unfold ThermalCalculator_geometry
    rw [if_pos (show stackedConfig.IsHMC = true from rfl)]
    rfl
  refine ⟨by decide, rfl, hg, by decide, ?_⟩
  rw [hg]
  decide

/-! ## The refresh-progress table -/

theorem vmodify_getD {α : Type} (r : List α) (j : Int) (f : α → α) (i : Nat) (d : α) :
    (vmodify r j f).getD i d
      = if 0 ≤ j ∧ i = j.toNat ∧ i < r.length then f (r.getD i d) else r.getD i d := by
  unfold vmodify
  by_cases hj : 0 ≤ j
  · simp only [hj, if_true, true_and, getD_modify]
    by_cases h : i = j.toNat
    · subst h
      simp
    · simp [h]
  · simp [hj]

theorem vmodify_length {α : Type} (r : List α) (j : Int) (f : α → α) :
    (vmodify r j f).length = r.length := by
  unfold vmodify
  split
  · exact List.length_modify f _ r
  · rfl

theorem nodup_upto (n : Int) : (upto n).Nodup := by
  unfold upto
  exact (List.nodup_range _).map (fun a b h => Int.ofNat.inj h)

/-- The entry `i` of a row after the loop `for ib in bs: row[ib] = f(row[ib])`. -/
theorem fold_vmodify_getD {α : Type} (f : α → α) (bs : List Int) (hnd : bs.Nodup)
    (row : List α) (i : Nat) (d : α) :
    (bs.foldl (fun r j => vmodify r j f) row).getD i d
        = (if (i : Int) ∈ bs ∧ i < row.length then f (row.getD i d) else row.getD i d) ∧
    (bs.foldl (fun r j => vmodify r j f) row).length = row.length := by
  induction bs generalizing row with
  | nil => simp
  | cons a t ih =>
    simp only [List.foldl_cons]
    obtain ⟨hat, ht⟩ := List.nodup_cons.mp hnd
    obtain ⟨h1, h2⟩ := ih ht (vmodify row a f)
    rw [h1, h2, vmodify_length, vmodify_getD]
    refine ⟨?_, rfl⟩
    by_cases hit : (i : Int) ∈ t
    · have hne : ¬ ((i : Int) = a) := fun h => hat (h ▸ hit)
      have hne2 : ¬ (0 ≤ a ∧ i = a.toNat ∧ i < row.length) := by
        rintro ⟨h0, h3, -⟩
        exact hne (by omega)
      simp [hit, hne, hne2]
    · by_cases hia : (i : Int) = a
      · have h0 : 0 ≤ a := by omega
        have h3 : i = a.toNat := by omega
        have h4 : (0 ≤ a ∧ i = a.toNat ∧ i < row.length) ↔ i < row.length := by
          constructor
          · exact fun h => h.2.2
          · exact fun h => ⟨h0, h3, h⟩
        simp only [hit, hat, false_and, if_false, List.mem_cons, hia, true_or, true_and, h4]
      · have hne2 : ¬ (0 ≤ a ∧ i = a.toNat ∧ i < row.length) := by
          rintro ⟨h0, h3, -⟩
          exact hia (by omega)
        simp [hit, hia, hne2]

/-- The table row `k` after a loop that modifies the table row `idx` once per bank. -/
theorem fold_modify_row (g : Int → List Nat → List Nat) (idx : Nat) (bs : List Int)
    (T : List (List Nat)) (k : Nat) :
    ((bs.foldl (fun rc ib => rc.modify (g ib) idx) T).getD k []
        = if k = idx ∧ idx < T.length then bs.foldl (fun r ib => g ib r) (T.getD k [])
          else T.getD k []) ∧
    (bs.foldl (fun rc ib => rc.modify (g ib) idx) T).length = T.length := by
  induction bs generalizing T with
  | nil => simp
  | cons a t ih =>
    simp only [List.foldl_cons]
    obtain ⟨h1, h2⟩ := ih (T.modify (g a) idx)
    rw [h1, h2, List.length_modify, getD_modify]
    refine ⟨?_, rfl⟩
    by_cases h : k = idx ∧ idx < T.length
    · simp [h]
    · simp [h]

theorem toU32_of_nat (r : Nat) (h : r < 4294967296) : toU32 (r : Int) = r := by
  unfold toU32
  omega

theorem toI32_of_small (u : Nat) (h : u < 2147483648) : toI32 u = (u : Int) := by
  unfold toI32
  have h1 : u % 4294967296 = u := Nat.mod_eq_of_lt (by omega)
  rw [h1, if_pos h]

/-- The cursor arithmetic when `numRowRefresh = r` divides `rows = m * r`: a counter below
`m` advances modulo `m`, and the start row is the counter times `r`. -/
theorem refresh_count_next_mod (cfg : Config) (r m c : Nat) (hr : 1 ≤ r)
    (h1 : cfg.numRowRefresh = (r : Int)) (h2 : cfg.rows = ((m * r : Nat) : Int))
    (hmax : m * r < 2147483648) (hc : c < m) :
    refresh_count_next cfg c = (c + 1) % m ∧ refresh_row_s cfg c = ((c * r : Nat) : Int) := by
  have hrm : r ≤ m * r := Nat.le_mul_of_pos_left r (by omega)
  have hcr : (c + 1) * r ≤ m * r := Nat.mul_le_mul_right r (by omega)
  have hcr2 : c * r ≤ (c + 1) * r := Nat.mul_le_mul_right r (by omega)
  have e1 : toU32 cfg.numRowRefresh = r := by
    rw [h1]
    exact toU32_of_nat r (by omega)
  have e2 : toU32 cfg.rows = m * r := by
    rw [h2]
    exact toU32_of_nat _ (by omega)
  have hc1 : c + 1 < 4294967296 := by
    have : c + 1 ≤ (c + 1) * r := Nat.le_mul_of_pos_right _ (by omega)
    omega
  constructor
  · unfold refresh_count_next
    simp only [e1, e2]
    rw [Nat.mod_eq_of_lt hc1, Nat.mod_eq_of_lt (by omega : (c + 1) * r < 4294967296)]
    by_cases hw : c + 1 = m
    · rw [hw, if_pos rfl, Nat.mod_self]
    · have hne : (c + 1) * r ≠ m * r := by
        intro h
        exact hw (Nat.eq_of_mul_eq_mul_right (by omega) h)
      rw [if_neg hne, Nat.mod_eq_of_lt (by omega)]
  · unfold refresh_row_s
    rw [e1]
    exact toI32_of_small _ (by omega)

theorem refresh_index_lt (cfg : Config) (cmd : Command)
    (hch : 0 ≤ cmd.Channel ∧ cmd.Channel < cfg.channels)
    (hrk : 0 ≤ cmd.Rank ∧ cmd.Rank < cfg.ranks)
    (hprod : cfg.channels * cfg.ranks < 2147483648) :
    refresh_index cfg cmd < (cfg.channels * cfg.ranks).toNat := by
  have hcr : cmd.Channel * cfg.ranks + cmd.Rank < cfg.channels * cfg.ranks := by nlinarith
  have h0 : 0 ≤ cmd.Channel * cfg.ranks := by nlinarith
  have hr : cfg.ranks ≤ cfg.channels * cfg.ranks := by nlinarith
  have hc : cfg.channels ≤ cfg.channels * cfg.ranks := by nlinarith
  have e1 : toU32 cmd.Channel = cmd.Channel.toNat := by
    unfold toU32
    omega
  have e2 : toU32 cfg.ranks = cfg.ranks.toNat := by
    unfold toU32
    omega
  have e3 : toU32 cmd.Rank = cmd.Rank.toNat := by
    unfold toU32
    omega
  have e4 : ((cmd.Channel.toNat * cfg.ranks.toNat + cmd.Rank.toNat : Nat) : Int)
      = cmd.Channel * cfg.ranks + cmd.Rank := by
    push_cast
    rw [Int.toNat_of_nonneg hch.1, Int.toNat_of_nonneg (by omega), Int.toNat_of_nonneg hrk.1]
  unfold refresh_index
  rw [e1, e2, e3]
  have : cmd.Channel.toNat * cfg.ranks.toNat + cmd.Rank.toNat < 4294967296 := by
    have : ((cmd.Channel.toNat * cfg.ranks.toNat + cmd.Rank.toNat : Nat) : Int)
        < 4294967296 := by
      rw [e4]
      omega
    exact_mod_cast this
  rw [Nat.mod_eq_of_lt this]
  have : ((cmd.Channel.toNat * cfg.ranks.toNat + cmd.Rank.toNat : Nat) : Int)
      < cfg.channels * cfg.ranks := by
    rw [e4]
    exact hcr
  omega

theorem run_refresh_count (cfg : Config) (env : ThermalEnv) (calls : List Call)
    (tc : ThermalCalculator) :
    (run cfg env tc calls).refresh_count
      = calls.foldl (fun T c => refresh_table_step cfg c.cmd T) tc.refresh_count := by
  induction calls generalizing tc with
  | nil => rfl
  | cons a r ih =>
    simp only [run, List.foldl_cons] at ih ⊢
    rw [ih, (UpdatePower_spec cfg env a.stats_ tc a.cmd a.clk).2.2.2.1]

theorem cursorRow_step (cfg : Config) (idx : Nat) (T : List (List Nat)) (c c2 : Nat)
    (hnext : refresh_count_next cfg c = c2) (hinv : CursorRow cfg idx T c) (cmd2 : Command)
    (hnb : cmd2.cmd_type_ = CommandType.REFRESH_BANK → refresh_index cfg cmd2 ≠ idx) :
    CursorRow cfg idx (refresh_table_step cfg cmd2 T)
      (if cmd2.cmd_type_ = CommandType.REFRESH ∧ refresh_index cfg cmd2 = idx then c2
        else c) := by
  obtain ⟨i1, i2, i3⟩ := hinv
  unfold refresh_table_step
  by_cases h1 : cmd2.cmd_type_ = CommandType.REFRESH
  · rw [if_pos h1]
    obtain ⟨f1, f2⟩ := fold_modify_row
      (fun ib row => vmodify row ib (refresh_count_next cfg)) (refresh_index cfg cmd2)
      (upto cfg.banks) T idx
    by_cases h2 : refresh_index cfg cmd2 = idx
    · rw [if_pos ⟨h1, h2⟩]
      rw [h2] at f1 f2 ⊢
      rw [if_pos ⟨rfl, i1⟩] at f1
      obtain ⟨g1, g2⟩ : (∀ i : Nat, ((upto cfg.banks).foldl
            (fun r j => vmodify r j (refresh_count_next cfg)) (T.getD idx [])).getD i 0
            = if (i : Int) ∈ upto cfg.banks ∧ i < (T.getD idx []).length
              then refresh_count_next cfg ((T.getD idx []).getD i 0)
              else (T.getD idx []).getD i 0) ∧
          ((upto cfg.banks).foldl
            (fun r j => vmodify r j (refresh_count_next cfg)) (T.getD idx [])).length
            = (T.getD idx []).length :=
        ⟨fun i => (fold_vmodify_getD (refresh_count_next cfg) (upto cfg.banks)
            (nodup_upto cfg.banks) (T.getD idx []) i 0).1,
          (fold_vmodify_getD (refresh_count_next cfg) (upto cfg.banks)
            (nodup_upto cfg.banks) (T.getD idx []) 0 0).2⟩
      refine ⟨f2 ▸ i1, ?_, ?_⟩
      · rw [f1]
        exact g2.trans i2
      · intro i hi
        rw [f1]
        have hmem : (i : Int) ∈ upto cfg.banks := (mem_upto _ _).mpr (by omega)
        show ((upto cfg.banks).foldl
            (fun r j => vmodify r j (refresh_count_next cfg)) (T.getD idx [])).getD i 0 = c2
        rw [g1 i, if_pos ⟨hmem, by omega⟩, i3 i hi, hnext]
    · have hne : ¬ (cmd2.cmd_type_ = CommandType.REFRESH ∧ refresh_index cfg cmd2 = idx) :=
        fun h => h2 h.2
      rw [if_neg hne]
      have hne2 : ¬ (idx = refresh_index cfg cmd2 ∧ refresh_index cfg cmd2 < T.length) :=
        fun h => h2 h.1.symm
      rw [if_neg hne2] at f1
      refine ⟨f2 ▸ i1, ?_, ?_⟩
      · rw [f1]
        exact i2
      · intro i hi
        rw [f1]
        exact i3 i hi
  · have hne : ¬ (cmd2.cmd_type_ = CommandType.REFRESH ∧ refresh_index cfg cmd2 = idx) :=
      fun h => h1 h.1
    rw [if_neg h1, if_neg hne]
    by_cases h2 : cmd2.cmd_type_ = CommandType.REFRESH_BANK
    · rw [if_pos h2]
      have hi : ¬ (idx = refresh_index cfg cmd2 ∧ refresh_index cfg cmd2 < T.length) :=
        fun h => hnb h2 h.1.symm
      have hrow : (T.modify (fun row => vmodify row cmd2.Bank (refresh_count_next cfg))
          (refresh_index cfg cmd2)).getD idx [] = T.getD idx [] := by
        rw [getD_modify, if_neg hi]
      refine ⟨by rw [List.length_modify]; exact i1, ?_, ?_⟩
      · rw [hrow]
        exact i2
      · intro i hi2
        rw [hrow]
        exact i3 i hi2
    · rw [if_neg h2]
      exact ⟨i1, i2, i3⟩

theorem refreshCalls_cons (cfg : Config) (cmd : Command) (a : Call) (r : List Call) :
    refreshCalls cfg cmd (a :: r)
      = (if a.cmd.cmd_type_ = CommandType.REFRESH ∧
            refresh_index cfg a.cmd = refresh_index cfg cmd then 1 else 0)
        + refreshCalls cfg cmd r := by
  unfold refreshCalls
  by_cases h : a.cmd.cmd_type_ = CommandType.REFRESH ∧
      refresh_index cfg a.cmd = refresh_index cfg cmd
  · rw [List.filter_cons_of_pos (by simpa using h), if_pos h, List.length_cons]
    omega
  · rw [List.filter_cons_of_neg (by simpa using h), if_neg h]
    omega

/-- The cursors of a table row after a run: every `REFRESH` addressed to the row advances
all its cursors by one step modulo `m`. -/
theorem cursorRow_run (cfg : Config) (cmd : Command) (m : Nat) (hm : 1 ≤ m)
    (hnext : ∀ c, c < m → refresh_count_next cfg c = (c + 1) % m)
    (calls : List Call) (T : List (List Nat)) (k0 : Nat)
    (hinv : CursorRow cfg (refresh_index cfg cmd) T (k0 % m))
    (hnb : ∀ c ∈ calls, c.cmd.cmd_type_ = CommandType.REFRESH_BANK →
      refresh_index cfg c.cmd ≠ refresh_index cfg cmd) :
    CursorRow cfg (refresh_index cfg cmd)
      (calls.foldl (fun T c => refresh_table_step cfg c.cmd T) T)
      ((k0 + refreshCalls cfg cmd calls) % m) := by
  induction calls generalizing T k0 with
  | nil => simpa [refreshCalls] using hinv
  | cons a r ih =>
    simp only [List.foldl_cons]
    rw [refreshCalls_cons]
    have hlt : k0 % m < m := Nat.mod_lt _ (by omega)
    have hstep := cursorRow_step cfg (refresh_index cfg cmd) T (k0 % m) ((k0 % m + 1) % m)
      (hnext _ hlt) hinv a.cmd (hnb a (List.mem_cons_self a r))
    have hr := fun c hc => hnb c (List.mem_cons_of_mem a hc)
    by_cases h : a.cmd.cmd_type_ = CommandType.REFRESH ∧
        refresh_index cfg a.cmd = refresh_index cfg cmd
    · rw [if_pos h] at hstep ⊢
      have e : (k0 % m + 1) % m = (k0 + 1) % m := by
        rw [Nat.add_mod, Nat.mod_mod, ← Nat.add_mod]
      rw [e] at hstep
      have := ih _ (k0 + 1) hstep hr
      rw [show k0 + (1 + refreshCalls cfg cmd r) = k0 + 1 + refreshCalls cfg cmd r by omega]
      exact this
    · rw [if_neg h] at hstep ⊢
      have := ih _ k0 hstep hr
      rw [show k0 + (0 + refreshCalls cfg cmd r) = k0 + refreshCalls cfg cmd r by omega]
      exact this

/-! ## The deposits of a refresh -/

theorem flatMap_congr_mem {α β : Type} (l : List α) (f g : α → List β)
    (h : ∀ x ∈ l, f x = g x) : l.flatMap f = l.flatMap g := by
  induction l with
  | nil => rfl
  | cons a t ih =>
    simp only [List.flatMap_cons]
    rw [h a (List.mem_cons_self a t), ih (fun x hx => h x (List.mem_cons_of_mem a hx))]

theorem applyDeposits_flatMap_cons {α : Type} (m : List (List ℚ)) (a : α) (t : List α)
    (f : α → List (Int × Int × ℚ)) :
    applyDeposits m ((a :: t).flatMap f) = applyDeposits (applyDeposits m (f a)) (t.flatMap f) := by
  rw [List.flatMap_cons, applyDeposits_append]

/-- The loop over the rows of one bank, from any state with the geometry of `tc`. -/
theorem refresh_rows_fold (cfg : Config) (tc : ThermalCalculator) (cmd : Command)
    (ib c : Int) (e : ℚ) (rows : List Int) (t : ThermalCalculator)
    (hg : t.toGeometry = tc.toGeometry) (hp : t.GetPhyAddress = tc.GetPhyAddress) :
    (rows.foldl (fun t ir => LocationMappingANDaddEnergy_RF cfg t cmd ib ir c e) t).accu_Pmap
      = applyDeposits t.accu_Pmap (rows.flatMap (fun ir =>
          (LocationMapping_RF cfg tc cmd ib ir).map (fun idx => (c, idx, e)))) ∧
    (rows.foldl (fun t ir => LocationMappingANDaddEnergy_RF cfg t cmd ib ir c e) t).cur_Pmap
      = applyDeposits t.cur_Pmap (rows.flatMap (fun ir =>
          (LocationMapping_RF cfg tc cmd ib ir).map (fun idx => (c, idx, e)))) := by
  induction rows generalizing t with
  | nil => exact ⟨rfl, rfl⟩
  | cons a r ih =>
    simp only [List.foldl_cons]
    have hd := LocationMappingANDaddEnergy_RF_isDeposit cfg t cmd ib a c e
    obtain ⟨d1, d2, d3, d4, -⟩ := hd
    obtain ⟨h1, h2⟩ := ih (LocationMappingANDaddEnergy_RF cfg t cmd ib a c e)
      (d3.trans hg) (d4.trans hp)
    rw [h1, h2, d1, d2, LocationMapping_RF_congr cfg t tc cmd ib a hg hp,
      applyDeposits_flatMap_cons, applyDeposits_flatMap_cons]
    exact ⟨rfl, rfl⟩

theorem UpdatePower_refresh_bank_eq (cfg : Config) (cmd : Command) (c : Int) (e : ℚ)
    (tc : ThermalCalculator) (ib : Int) :
    (UpdatePower_refresh_bank cfg cmd c e tc ib).accu_Pmap
      = applyDeposits tc.accu_Pmap (refreshDeposits cfg tc cmd c e
          (refresh_cursor cfg tc cmd) [ib]) ∧
    (UpdatePower_refresh_bank cfg cmd c e tc ib).cur_Pmap
      = applyDeposits tc.cur_Pmap (refreshDeposits cfg tc cmd c e
          (refresh_cursor cfg tc cmd) [ib]) := by
  have h := refresh_rows_fold cfg tc cmd ib c e
    (refresh_rows cfg (refresh_cursor cfg tc cmd ib))
    { tc with
      refresh_count :=
        (tc.refresh_count.modify (fun row => vmodify row ib (refresh_count_next cfg))
          (refresh_index cfg cmd)) } rfl rfl
  unfold refreshDeposits
  simp only [List.flatMap_cons, List.flatMap_nil, List.append_nil]
  exact h

theorem refresh_cursor_other (cfg : Config) (cmd : Command) (c : Int) (e : ℚ)
    (tc : ThermalCalculator) (a ib : Int) (hne : ib ≠ a) :
    refresh_cursor cfg (UpdatePower_refresh_bank cfg cmd c e tc a) cmd ib
      = refresh_cursor cfg tc cmd ib := by
  unfold refresh_cursor
  rw [(UpdatePower_refresh_bank_refresh_count cfg cmd c e tc a).1, getD_modify]
  unfold vget
  by_cases h0 : 0 ≤ ib
  · simp only [h0, if_true]
    split
    · rw [vmodify_getD]
      have : ¬ (0 ≤ a ∧ ib.toNat = a.toNat ∧
          ib.toNat < (tc.refresh_count.getD (refresh_index cfg cmd) []).length) := by
        rintro ⟨h1, h2, -⟩
        exact hne (by omega)
      rw [if_neg this]
    · rfl
  · simp only [h0, if_false]

/-- The loop over the banks of a `REFRESH`: every bank is refreshed from the cursor it had
before the loop. -/
theorem refresh_banks_fold (cfg : Config) (cmd : Command) (c : Int) (e : ℚ) (bs : List Int)
    (hnd : bs.Nodup) (tc t : ThermalCalculator)
    (hg : t.toGeometry = tc.toGeometry) (hp : t.GetPhyAddress = tc.GetPhyAddress)
    (hcur : ∀ ib ∈ bs, refresh_cursor cfg t cmd ib = refresh_cursor cfg tc cmd ib) :
    (bs.foldl (UpdatePower_refresh_bank cfg cmd c e) t).accu_Pmap
      = applyDeposits t.accu_Pmap (refreshDeposits cfg tc cmd c e
          (refresh_cursor cfg tc cmd) bs) ∧
    (bs.foldl (UpdatePower_refresh_bank cfg cmd c e) t).cur_Pmap
      = applyDeposits t.cur_Pmap (refreshDeposits cfg tc cmd c e
          (refresh_cursor cfg tc cmd) bs) := by
  induction bs generalizing t with
  | nil => exact ⟨rfl, rfl⟩
  | cons a r ih =>
    simp only [List.foldl_cons]
    obtain ⟨har, hr⟩ := List.nodup_cons.mp hnd
    obtain ⟨ds, hd, -⟩ := UpdatePower_refresh_bank_isDeposit cfg cmd c e t a
    obtain ⟨-, -, d3, d4, -⟩ := hd
    obtain ⟨h1, h2⟩ := ih hr (UpdatePower_refresh_bank cfg cmd c e t a)
      (d3.trans hg) (d4.trans hp)
      (by
        intro ib hib
        have hne : ib ≠ a := fun h => har (h ▸ hib)
        rw [refresh_cursor_other cfg cmd c e t a ib hne]
        exact hcur ib (List.mem_cons_of_mem a hib))
    obtain ⟨b1, b2⟩ := UpdatePower_refresh_bank_eq cfg cmd c e t a
    have hsame : refreshDeposits cfg t cmd c e (refresh_cursor cfg t cmd) [a]
        = refreshDeposits cfg tc cmd c e (refresh_cursor cfg tc cmd) [a] := by
      unfold refreshDeposits
      simp only [List.flatMap_cons, List.flatMap_nil, List.append_nil]
      rw [hcur a (List.mem_cons_self a r)]
      exact flatMap_congr_mem _ _ _
        (fun ir _ => by rw [LocationMapping_RF_congr cfg t tc cmd a ir hg hp])
    rw [h1, h2, b1, b2, hsame]
    unfold refreshDeposits
    simp only [List.flatMap_cons, List.flatMap_nil, List.append_nil, applyDeposits_append,
      and_self]

/-- The deposits of a `REFRESH` call, in terms of the cursors before the call. -/
theorem UpdatePower_deposit_refresh (cfg : Config) (tc : ThermalCalculator) (cmd : Command)
    (clk : Nat) (h : cmd.cmd_type_ = CommandType.REFRESH) :
    (UpdatePower_deposit cfg tc cmd clk).accu_Pmap
      = applyDeposits tc.accu_Pmap (refreshDeposits cfg tc cmd (UpdatePower_case cfg cmd).1
          (cfg.ref_energy_inc / (cfg.numRowRefresh : ℚ) / (cfg.banks : ℚ)
            / (cfg.numYgrids : ℚ) / 1000 / (UpdatePower_case cfg cmd).2)
          (refresh_cursor cfg tc cmd) (upto cfg.banks)) ∧
    (UpdatePower_deposit cfg tc cmd clk).cur_Pmap
      = applyDeposits tc.cur_Pmap (refreshDeposits cfg tc cmd (UpdatePower_case cfg cmd).1
          (cfg.ref_energy_inc / (cfg.numRowRefresh : ℚ) / (cfg.banks : ℚ)
            / (cfg.numYgrids : ℚ) / 1000 / (UpdatePower_case cfg cmd).2)
          (refresh_cursor cfg tc cmd) (upto cfg.banks)) := by
  unfold UpdatePower_deposit
  rw [if_pos h]
  exact refresh_banks_fold cfg cmd _ _ (upto cfg.banks) (nodup_upto cfg.banks) tc
    { tc with save_clk := clk } rfl rfl (fun ib _ => rfl)

/-! ## C9: refresh-progress wraparound -/

theorem cursorRow_init (cfg : Config) (env : ThermalEnv) (phy : Address → Address)
    (vx0 vy0 : Int) (idx : Nat) (h : idx < (cfg.channels * cfg.ranks).toNat) :
    CursorRow cfg idx (ThermalCalculator.init cfg env phy vx0 vy0).refresh_count 0 := by
  have hrow : (List.replicate (cfg.channels * cfg.ranks).toNat
      (List.replicate cfg.banks.toNat (0 : Nat))).getD idx []
      = List.replicate cfg.banks.toNat 0 := by
    simp [List.getD_eq_getElem?_getD, List.getElem?_replicate, h]
  refine ⟨?_, ?_, ?_⟩
  · show idx < (List.replicate _ _).length
    rw [List.length_replicate]
    exact h
  · show ((List.replicate _ _).getD idx []).length = _
    rw [hrow, List.length_replicate]
  · intro i hi
    show ((List.replicate _ _).getD idx []).getD i 0 = 0
    rw [hrow]
    simp [List.getD_eq_getElem?_getD, List.getElem?_replicate, hi]

/-- The cursors and the start row before the next `REFRESH`, when `numRowRefresh` divides
`rows`. -/
theorem refresh_cursor_run (cfg : Config) (env : ThermalEnv) (phy : Address → Address)
    (vx0 vy0 : Int) (calls : List Call) (cmd : Command)
    (hn : 1 ≤ cfg.numRowRefresh) (hdvd : cfg.numRowRefresh ∣ cfg.rows) (hrows : 1 ≤ cfg.rows)
    (hmax : cfg.rows < 2147483648)
    (hch : 0 ≤ cmd.Channel ∧ cmd.Channel < cfg.channels)
    (hrk : 0 ≤ cmd.Rank ∧ cmd.Rank < cfg.ranks)
    (hprod : cfg.channels * cfg.ranks < 2147483648)
    (hnb : ∀ c ∈ calls, c.cmd.cmd_type_ = CommandType.REFRESH_BANK →
      refresh_index cfg c.cmd ≠ refresh_index cfg cmd)
    (ib : Int) (h0 : 0 ≤ ib) (h1 : ib < cfg.banks) :
    refresh_cursor cfg (run cfg env (ThermalCalculator.init cfg env phy vx0 vy0) calls) cmd ib
        = refreshCalls cfg cmd calls % (cfg.rows / cfg.numRowRefresh).toNat ∧
    refresh_row_s cfg
        (refreshCalls cfg cmd calls % (cfg.rows / cfg.numRowRefresh).toNat)
      = refresh_start cfg (refreshCalls cfg cmd calls) := by
  obtain ⟨q, hq⟩ := hdvd
  have hqpos : 1 ≤ q := by
    by_contra hc
    have : cfg.numRowRefresh * q ≤ 0 := by nlinarith
    omega
  have hdiv : cfg.rows / cfg.numRowRefresh = q := by
    rw [hq]
    exact Int.mul_ediv_cancel_left q (by omega)
  have e1 : cfg.numRowRefresh = ((cfg.numRowRefresh.toNat : Nat) : Int) :=
    (Int.toNat_of_nonneg (by omega)).symm
  have eq : q = ((q.toNat : Nat) : Int) := (Int.toNat_of_nonneg (by omega)).symm
  have e2 : cfg.rows = ((q.toNat * cfg.numRowRefresh.toNat : Nat) : Int) := by
    push_cast
    rw [← e1, ← eq, hq]
    ring
  have hmaxn : q.toNat * cfg.numRowRefresh.toNat < 2147483648 := by
    have : ((q.toNat * cfg.numRowRefresh.toNat : Nat) : Int) < 2147483648 := by
      rw [← e2]
      exact hmax
    exact_mod_cast this
  have hnext : ∀ c, c < q.toNat →
      refresh_count_next cfg c = (c + 1) % q.toNat ∧
      refresh_row_s cfg c = ((c * cfg.numRowRefresh.toNat : Nat) : Int) :=
    fun c hc => refresh_count_next_mod cfg cfg.numRowRefresh.toNat q.toNat c (by omega) e1 e2
      hmaxn hc
  have hidx := refresh_index_lt cfg cmd hch hrk hprod
  have hinv := cursorRow_run cfg cmd q.toNat (by omega) (fun c hc => (hnext c hc).1) calls
    (ThermalCalculator.init cfg env phy vx0 vy0).refresh_count 0
    (by
      rw [Nat.zero_mod]
      exact cursorRow_init cfg env phy vx0 vy0 _ hidx)
    hnb
  rw [← run_refresh_count, Nat.zero_add] at hinv
  obtain ⟨-, -, i3⟩ := hinv
  rw [hdiv]
  constructor
  · unfold refresh_cursor vget
    rw [if_pos h0]
    exact i3 ib.toNat (by omega)
  · rw [(hnext _ (Nat.mod_lt _ (by omega))).2]
    unfold refresh_start
    rw [hdiv]
    push_cast
    rw [← e1]

/-- C9 (as amended). Refresh-progress wraparound: when `numRowRefresh >= 1` divides `rows`,
then after any run from the constructor state in which `k` `REFRESH` commands and no
`REFRESH_BANK` command were addressed to a channel and rank, the next `REFRESH` to that
channel and rank refreshes in every bank the rows `s, ..., s + numRowRefresh - 1` with
`s = (k mod (rows / numRowRefresh)) * numRowRefresh`: these are the rows of its inner loop,
and its deposits go to the cells of exactly these rows, bank after bank.  The channel and
rank lie inside the configured counts, and `rows` and `channels * ranks` are below `2^31`. -/
theorem C9_refresh_wraparound (cfg : Config) (env : ThermalEnv) (phy : Address → Address)
    (vx0 vy0 : Int) (calls : List Call) (cmd : Command) (clk : Nat)
    (hn : 1 ≤ cfg.numRowRefresh) (hdvd : cfg.numRowRefresh ∣ cfg.rows) (hrows : 1 ≤ cfg.rows)
    (hmax : cfg.rows < 2147483648)
    (hch : 0 ≤ cmd.Channel ∧ cmd.Channel < cfg.channels)
    (hrk : 0 ≤ cmd.Rank ∧ cmd.Rank < cfg.ranks)
    (hprod : cfg.channels * cfg.ranks < 2147483648)
    (hcmd : cmd.cmd_type_ = CommandType.REFRESH)
    (hnb : ∀ c ∈ calls, c.cmd.cmd_type_ = CommandType.REFRESH_BANK →
      refresh_index cfg c.cmd ≠ refresh_index cfg cmd) :
    (∀ ib : Int, 0 ≤ ib → ib < cfg.banks →
      refresh_rows cfg (refresh_cursor cfg
          (run cfg env (ThermalCalculator.init cfg env phy vx0 vy0) calls) cmd ib)
        = (upto cfg.numRowRefresh).map
            (fun j => refresh_start cfg (refreshCalls cfg cmd calls) + j)) ∧
    (UpdatePower_deposit cfg (run cfg env (ThermalCalculator.init cfg env phy vx0 vy0) calls)
        cmd clk).accu_Pmap
      = applyDeposits (run cfg env (ThermalCalculator.init cfg env phy vx0 vy0) calls).accu_Pmap
          ((upto cfg.banks).flatMap (fun ib =>
            ((upto cfg.numRowRefresh).map
              (fun j => refresh_start cfg (refreshCalls cfg cmd calls) + j)).flatMap
              (fun ir =>
                (LocationMapping_RF cfg
                  (run cfg env (ThermalCalculator.init cfg env phy vx0 vy0) calls)
                  cmd ib ir).map
                  (fun idx => ((UpdatePower_case cfg cmd).1, idx,
                    cfg.ref_energy_inc / (cfg.numRowRefresh : ℚ) / (cfg.banks : ℚ)
                      / (cfg.numYgrids : ℚ) / 1000 / (UpdatePower_case cfg cmd).2))))) := by
  have hrs : ∀ ib : Int, 0 ≤ ib → ib < cfg.banks →
      refresh_rows cfg (refresh_cursor cfg
          (run cfg env (ThermalCalculator.init cfg env phy vx0 vy0) calls) cmd ib)
        = (upto cfg.numRowRefresh).map
            (fun j => refresh_start cfg (refreshCalls cfg cmd calls) + j) := by
    intro ib h0 h1
    obtain ⟨c1, c2⟩ := refresh_cursor_run cfg env phy vx0 vy0 calls cmd hn hdvd hrows hmax
      hch hrk hprod hnb ib h0 h1
    unfold refresh_rows
    rw [c1, c2]
  refine ⟨hrs, ?_⟩
  rw [(UpdatePower_deposit_refresh cfg _ cmd clk hcmd).1]
  unfold refreshDeposits
  congr 1
  apply flatMap_congr_mem
  intro ib hib
  obtain ⟨h0, h1⟩ := (mem_upto _ _).mp hib
  rw [hrs ib h0 h1]

/-- C9 at the scenario (`rows = 16`, `numRowRefresh = 4`): the start rows of five
consecutive `REFRESH` calls are 0, 4, 8, 12, 0. -/
theorem C9_refresh_wraparound_witness :
    refresh_rows scenarioConfig (refresh_cursor scenarioConfig
      (run scenarioConfig scenarioEnv scenarioInit []) refreshAll 3) = [0, 1, 2, 3] ∧
    refresh_rows scenarioConfig (refresh_cursor scenarioConfig
      (run scenarioConfig scenarioEnv scenarioInit [refreshCall]) refreshAll 3)
      = [4, 5, 6, 7] ∧
    refresh_rows scenarioConfig (refresh_cursor scenarioConfig
      (run scenarioConfig scenarioEnv scenarioInit [refreshCall, refreshCall]) refreshAll 3)
      = [8, 9, 10, 11] ∧
    refresh_rows scenarioConfig (refresh_cursor scenarioConfig
      (run scenarioConfig scenarioEnv scenarioInit
        [refreshCall, refreshCall, refreshCall]) refreshAll 3) = [12, 13, 14, 15] ∧
    refresh_rows scenarioConfig (refresh_cursor scenarioConfig
      (run scenarioConfig scenarioEnv scenarioInit
        [refreshCall, refreshCall, refreshCall, refreshCall]) refreshAll 3)
      = [0, 1, 2, 3] :=
  have h := fun (calls : List Call)
      (hnb : ∀ c ∈ calls, c.cmd.cmd_type_ = CommandType.REFRESH_BANK →
        refresh_index scenarioConfig c.cmd ≠ refresh_index scenarioConfig refreshAll) =>
    (C9_refresh_wraparound scenarioConfig scenarioEnv (fun a => a) 0 0 calls refreshAll 0
      (by decide) (by decide) (by decide) (by decide) (by decide) (by decide) (by decide)
      rfl hnb).1 3 (by decide) (by decide)
  ⟨h [] (by decide), h [refreshCall] (by decide), h [refreshCall, refreshCall] (by decide),
    h [refreshCall, refreshCall, refreshCall] (by decide),
    h [refreshCall, refreshCall, refreshCall, refreshCall] (by decide)⟩

/-- C9 as stated fails when a `REFRESH_BANK` precedes the `REFRESH`: in the scenario
(`rows = 16`, `numRowRefresh = 4`), after one `REFRESH_BANK` to bank 0 the run holds no
`REFRESH` yet, so the next `REFRESH` is the one with `k = 0` and start row `s = 0`; it
refreshes the rows 0 to 3 in bank 1 but the rows 4 to 7 in bank 0, whose cursor the
`REFRESH_BANK` has advanced. -/
theorem C9_counterexample :
    refreshCalls scenarioConfig refreshAll [refreshBankCall] = 0 ∧
    refresh_start scenarioConfig 0 = 0 ∧
    refresh_rows scenarioConfig (refresh_cursor scenarioConfig
      (run scenarioConfig scenarioEnv scenarioInit [refreshBankCall]) refreshAll 1)
      = [0, 1, 2, 3] ∧
    refresh_rows scenarioConfig (refresh_cursor scenarioConfig
      (run scenarioConfig scenarioEnv scenarioInit [refreshBankCall]) refreshAll 0)
      = [4, 5, 6, 7] := by
  unfold refresh_cursor
  rw [run_refresh_count]
  decide

/-! ## C10: the cursor when `numRowRefresh` does not divide `rows` -/

/-- C10 at `rows = 10`, `numRowRefresh = 4`: the third `REFRESH` to channel 0, rank 0
refreshes the rows 8 to 11 of bank 0, of which 10 and 11 are not rows of the bank; the
counter then is 3, and since `3 * 4 = 12` is not equal to `rows` it is not reset: the
fourth `REFRESH` refreshes the rows 12 to 15. -/
theorem C10_refresh_overrun :
    refresh_rows oddRowsConfig (refresh_cursor oddRowsConfig
      (run oddRowsConfig scenarioEnv
        (ThermalCalculator.init oddRowsConfig scenarioEnv (fun a => a) 0 0)
        [refreshCall, refreshCall]) refreshAll 0) = [8, 9, 10, 11] ∧
    oddRowsConfig.rows = 10 ∧
    refresh_rows oddRowsConfig (refresh_cursor oddRowsConfig
      (run oddRowsConfig scenarioEnv
        (ThermalCalculator.init oddRowsConfig scenarioEnv (fun a => a) 0 0)
        [refreshCall, refreshCall, refreshCall]) refreshAll 0) = [12, 13, 14, 15] := by
  unfold refresh_cursor
  rw [run_refresh_count, run_refresh_count]
  decide

/-! ## The scenario state -/

theorem scenario_geometry :
    ThermalCalculator_geometry scenarioConfig 0 0
      = { bank_x := 4, bank_y := 2, vault_x := 0, vault_y := 0, dimX := 8, dimY := 4,
          numP := 1, num_case := 1 } := by
  unfold ThermalCalculator_geometry
  rw [if_neg (by decide), if_neg (by decide)]
  have h : determineXY scenarioConfig.bank_asr 1 scenarioConfig.banks = 4 :=
    determineXY_8_ratio_1
  simp only [h]
  rfl

/-- The written-out scenario state is the state the constructor builds. -/
theorem scenarioInit_eq : scenarioInit = scenarioState := by
  unfold scenarioInit ThermalCalculator.init
  simp only [scenario_geometry]
  unfold scenarioState
  congr 1
  · norm_num [scenarioConfig, scenarioEnv]
  · have h1 : upto 1 = [0] := by decide
    rw [h1]
    norm_num [scenarioConfig, scenarioEnv]

/-! ## C11: the energy of a refresh -/

theorem map_flatMap_triple {α : Type} (l : List α) (f : α → List Int) (c : Int) (e : ℚ) :
    l.flatMap (fun a => (f a).map (fun idx => (c, idx, e)))
      = (l.flatMap f).map (fun idx => (c, idx, e)) := by
  induction l with
  | nil => rfl
  | cons a t ih => simp only [List.flatMap_cons, List.map_append, ih]

theorem refreshDeposits_eq_map (cfg : Config) (tc : ThermalCalculator) (cmd : Command)
    (c : Int) (e : ℚ) (counts : Int → Nat) (bs : List Int) :
    refreshDeposits cfg tc cmd c e counts bs
      = (refreshCells cfg tc cmd counts bs).map (fun idx => (c, idx, e)) := by
  unfold refreshDeposits refreshCells
  rw [← map_flatMap_triple]
  apply flatMap_congr_mem
  intro ib _
  rw [← map_flatMap_triple]

theorem length_LocationMapping_RF (cfg : Config) (tc : ThermalCalculator) (cmd : Command)
    (ib ir : Int) : (LocationMapping_RF cfg tc cmd ib ir).length = cfg.numYgrids.toNat := by
  unfold LocationMapping_RF
  simp only [List.length_map, length_upto]

theorem length_refresh_rows (cfg : Config) (count : Nat) :
    (refresh_rows cfg count).length = cfg.numRowRefresh.toNat := by
  unfold refresh_rows
  rw [List.length_map, length_upto]

theorem length_flatMap_const {α β : Type} (l : List α) (f : α → List β) (n : Nat)
    (h : ∀ a, (f a).length = n) : (l.flatMap f).length = l.length * n := by
  induction l with
  | nil => simp
  | cons a t ih =>
    simp only [List.flatMap_cons, List.length_append, h a, ih, List.length_cons]
    ring

theorem length_refreshCells (cfg : Config) (tc : ThermalCalculator) (cmd : Command)
    (counts : Int → Nat) (bs : List Int) :
    (refreshCells cfg tc cmd counts bs).length
      = bs.length * (cfg.numRowRefresh.toNat * cfg.numYgrids.toNat) := by
  unfold refreshCells
  apply length_flatMap_const
  intro ib
  rw [length_flatMap_const _ _ cfg.numYgrids.toNat
    (fun ir => length_LocationMapping_RF cfg tc cmd ib ir), length_refresh_rows]

/-- The deposits of a `REFRESH_BANK` call, in terms of the cursor before the call. -/
theorem UpdatePower_deposit_refresh_bank (cfg : Config) (tc : ThermalCalculator)
    (cmd : Command) (clk : Nat) (h : cmd.cmd_type_ = CommandType.REFRESH_BANK) :
    (UpdatePower_deposit cfg tc cmd clk).accu_Pmap
      = applyDeposits tc.accu_Pmap (refreshDeposits cfg tc cmd (UpdatePower_case cfg cmd).1
          (cfg.refb_energy_inc / (cfg.numRowRefresh : ℚ) / (cfg.numYgrids : ℚ) / 1000
            / (UpdatePower_case cfg cmd).2)
          (refresh_cursor cfg tc cmd) [cmd.Bank]) ∧
    (UpdatePower_deposit cfg tc cmd clk).cur_Pmap
      = applyDeposits tc.cur_Pmap (refreshDeposits cfg tc cmd (UpdatePower_case cfg cmd).1
          (cfg.refb_energy_inc / (cfg.numRowRefresh : ℚ) / (cfg.numYgrids : ℚ) / 1000
            / (UpdatePower_case cfg cmd).2)
          (refresh_cursor cfg tc cmd) [cmd.Bank]) := by
  have hne : ¬ (cmd.cmd_type_ = CommandType.REFRESH) := by
    rw [h]
    decide
  unfold UpdatePower_deposit
  rw [if_neg hne, if_pos h]
  exact UpdatePower_refresh_bank_eq cfg cmd _ _ { tc with save_clk := clk } cmd.Bank

/-- C11. Refresh energy: one `REFRESH` command deposits
`ref_energy_inc / numRowRefresh / banks / numYgrids / 1000 / device_scale` into each of
the `numYgrids` cells of each of the `numRowRefresh` rows advanced in each bank, so with
all touched cells inside the maps the total added to `accu_Pmap[case_id]` (and to
`cur_Pmap[case_id]`) is `ref_energy_inc / 1000 / device_scale`; one `REFRESH_BANK` deposits
`refb_energy_inc / numRowRefresh / numYgrids / 1000 / device_scale` in the same way for its
single bank, in total `refb_energy_inc / 1000 / device_scale`. -/
theorem C11_refresh_energy (cfg : Config) (tc : ThermalCalculator) (cmd : Command) (clk : Nat)
    (hb : 1 ≤ cfg.banks) (hn : 1 ≤ cfg.numRowRefresh) (hy : 1 ≤ cfg.numYgrids) :
    (cmd.cmd_type_ = CommandType.REFRESH →
      (UpdatePower_deposit cfg tc cmd clk).accu_Pmap
        = applyDeposits tc.accu_Pmap
            ((refreshCells cfg tc cmd (refresh_cursor cfg tc cmd) (upto cfg.banks)).map
              (fun idx => ((UpdatePower_case cfg cmd).1, idx,
                cfg.ref_energy_inc / (cfg.numRowRefresh : ℚ) / (cfg.banks : ℚ)
                  / (cfg.numYgrids : ℚ) / 1000 / (UpdatePower_case cfg cmd).2))) ∧
      ((refreshCells cfg tc cmd (refresh_cursor cfg tc cmd) (upto cfg.banks)).length : Int)
        = cfg.banks * (cfg.numRowRefresh * cfg.numYgrids) ∧
      ((∀ idx ∈ refreshCells cfg tc cmd (refresh_cursor cfg tc cmd) (upto cfg.banks),
          inMap tc.accu_Pmap (UpdatePower_case cfg cmd).1 idx ∧
          inMap tc.cur_Pmap (UpdatePower_case cfg cmd).1 idx) →
        caseSum (UpdatePower_deposit cfg tc cmd clk).accu_Pmap (UpdatePower_case cfg cmd).1
          = caseSum tc.accu_Pmap (UpdatePower_case cfg cmd).1
            + cfg.ref_energy_inc / 1000 / (UpdatePower_case cfg cmd).2 ∧
        caseSum (UpdatePower_deposit cfg tc cmd clk).cur_Pmap (UpdatePower_case cfg cmd).1
          = caseSum tc.cur_Pmap (UpdatePower_case cfg cmd).1
            + cfg.ref_energy_inc / 1000 / (UpdatePower_case cfg cmd).2)) ∧
    (cmd.cmd_type_ = CommandType.REFRESH_BANK →
      (UpdatePower_deposit cfg tc cmd clk).accu_Pmap
        = applyDeposits tc.accu_Pmap
            ((refreshCells cfg tc cmd (refresh_cursor cfg tc cmd) [cmd.Bank]).map
              (fun idx => ((UpdatePower_case cfg cmd).1, idx,
                cfg.refb_energy_inc / (cfg.numRowRefresh : ℚ) / (cfg.numYgrids : ℚ)
                  / 1000 / (UpdatePower_case cfg cmd).2))) ∧
      ((refreshCells cfg tc cmd (refresh_cursor cfg tc cmd) [cmd.Bank]).length : Int)
        = cfg.numRowRefresh * cfg.numYgrids ∧
      ((∀ idx ∈ refreshCells cfg tc cmd (refresh_cursor cfg tc cmd) [cmd.Bank],
          inMap tc.accu_Pmap (UpdatePower_case cfg cmd).1 idx ∧
          inMap tc.cur_Pmap (UpdatePower_case cfg cmd).1 idx) →
        caseSum (UpdatePower_deposit cfg tc cmd clk).accu_Pmap (UpdatePower_case cfg cmd).1
          = caseSum tc.accu_Pmap (UpdatePower_case cfg cmd).1
            + cfg.refb_energy_inc / 1000 / (UpdatePower_case cfg cmd).2 ∧
        caseSum (UpdatePower_deposit cfg tc cmd clk).cur_Pmap (UpdatePower_case cfg cmd).1
          = caseSum tc.cur_Pmap (UpdatePower_case cfg cmd).1
            + cfg.refb_energy_inc / 1000 / (UpdatePower_case cfg cmd).2)) := by
  have hbq : (cfg.banks : ℚ) ≠ 0 := by
    have : (1 : ℚ) ≤ (cfg.banks : ℚ) := by exact_mod_cast hb
    linarith
  have hnq : (cfg.numRowRefresh : ℚ) ≠ 0 := by
    have : (1 : ℚ) ≤ (cfg.numRowRefresh : ℚ) := by exact_mod_cast hn
    linarith
  have hyq : (cfg.numYgrids : ℚ) ≠ 0 := by
    have : (1 : ℚ) ≤ (cfg.numYgrids : ℚ) := by exact_mod_cast hy
    linarith
  have hlen : ∀ bs : List Int,
      (((refreshCells cfg tc cmd (refresh_cursor cfg tc cmd) bs).length : Nat) : ℚ)
        = (bs.length : ℚ) * ((cfg.numRowRefresh : ℚ) * (cfg.numYgrids : ℚ)) := by
    intro bs
    rw [length_refreshCells]
    push_cast
    rw [toNat_cast_rat _ (by omega), toNat_cast_rat _ (by omega)]
  have hlenZ : ∀ bs : List Int,
      (((refreshCells cfg tc cmd (refresh_cursor cfg tc cmd) bs).length : Nat) : Int)
        = (bs.length : Int) * (cfg.numRowRefresh * cfg.numYgrids) := by
    intro bs
    rw [length_refreshCells]
    push_cast
    rw [Int.toNat_of_nonneg (by omega), Int.toNat_of_nonneg (by omega)]
  constructor
  · intro h
    obtain ⟨ha, hc⟩ := UpdatePower_deposit_refresh cfg tc cmd clk h
    rw [refreshDeposits_eq_map] at ha hc
    refine ⟨ha, ?_, ?_⟩
    · rw [hlenZ, length_upto, Int.toNat_of_nonneg (by omega)]
    · intro hin
      have key : ∀ E s : ℚ, ((upto cfg.banks).length : ℚ)
          * ((cfg.numRowRefresh : ℚ) * (cfg.numYgrids : ℚ))
          * (E / (cfg.numRowRefresh : ℚ) / (cfg.banks : ℚ) / (cfg.numYgrids : ℚ) / 1000 / s)
          = E / 1000 / s := by
        intro E s
        rw [length_upto, toNat_cast_rat _ (by omega)]
        have h1 : (cfg.banks : ℚ) * ((cfg.numRowRefresh : ℚ) * (cfg.numYgrids : ℚ))
            * (E / (cfg.numRowRefresh : ℚ) / (cfg.banks : ℚ) / (cfg.numYgrids : ℚ) / 1000 / s)
            = (E / 1000 / s) * ((cfg.banks : ℚ) * (cfg.banks : ℚ)⁻¹)
              * ((cfg.numRowRefresh : ℚ) * (cfg.numRowRefresh : ℚ)⁻¹)
              * ((cfg.numYgrids : ℚ) * (cfg.numYgrids : ℚ)⁻¹) := by ring
        rw [h1, mul_inv_cancel₀ hbq, mul_inv_cancel₀ hnq, mul_inv_cancel₀ hyq]
        ring
      rw [ha, hc, caseSum_applyDeposits_const _ _ _ _ (fun idx hi => (hin idx hi).1),
        caseSum_applyDeposits_const _ _ _ _ (fun idx hi => (hin idx hi).2), hlen, key]
      exact ⟨rfl, rfl⟩
  · intro h
    obtain ⟨ha, hc⟩ := UpdatePower_deposit_refresh_bank cfg tc cmd clk h
    rw [refreshDeposits_eq_map] at ha hc
    refine ⟨ha, ?_, ?_⟩
    · rw [hlenZ]
      simp
    · intro hin
      have key : ∀ E s : ℚ, (([cmd.Bank] : List Int).length : ℚ)
          * ((cfg.numRowRefresh : ℚ) * (cfg.numYgrids : ℚ))
          * (E / (cfg.numRowRefresh : ℚ) / (cfg.numYgrids : ℚ) / 1000 / s)
          = E / 1000 / s := by
        intro E s
        have h1 : (([cmd.Bank] : List Int).length : ℚ)
            * ((cfg.numRowRefresh : ℚ) * (cfg.numYgrids : ℚ))
            * (E / (cfg.numRowRefresh : ℚ) / (cfg.numYgrids : ℚ) / 1000 / s)
            = (E / 1000 / s)
              * ((cfg.numRowRefresh : ℚ) * (cfg.numRowRefresh : ℚ)⁻¹)
              * ((cfg.numYgrids : ℚ) * (cfg.numYgrids : ℚ)⁻¹) := by
          simp only [List.length_singleton, Nat.cast_one]
          ring
        rw [h1, mul_inv_cancel₀ hnq, mul_inv_cancel₀ hyq]
        ring
      rw [ha, hc, caseSum_applyDeposits_const _ _ _ _ (fun idx hi => (hin idx hi).1),
        caseSum_applyDeposits_const _ _ _ _ (fun idx hi => (hin idx hi).2), hlen, key]
      exact ⟨rfl, rfl⟩

/-- C11 at the scenario: a `REFRESH` adds `16 / 1000 / 8` and a `REFRESH_BANK` to bank 2
adds `4 / 1000 / 8` to the cumulative map of case 0. -/
theorem C11_refresh_energy_witness :
    caseSum (UpdatePower_deposit scenarioConfig scenarioState refreshAll 0).accu_Pmap 0
      = caseSum scenarioState.accu_Pmap 0 + 16 / 1000 / 8 ∧
    caseSum (UpdatePower_deposit scenarioConfig scenarioState (refreshBank 2) 0).accu_Pmap 0
      = caseSum scenarioState.accu_Pmap 0 + 4 / 1000 / 8 := by
  have h1 := ((C11_refresh_energy scenarioConfig scenarioState refreshAll 0
    (by decide) (by decide) (by decide)).1 rfl).2.2 (by decide)
  have h2 := ((C11_refresh_energy scenarioConfig scenarioState (refreshBank 2) 0
    (by decide) (by decide) (by decide)).2 rfl).2.2 (by decide)
  have hc1 : (UpdatePower_case scenarioConfig refreshAll).1 = 0 := by decide
  have hs1 : (UpdatePower_case scenarioConfig refreshAll).2 = 8 := by
    norm_num [UpdatePower_case, scenarioConfig]
  have hc2 : (UpdatePower_case scenarioConfig (refreshBank 2)).1 = 0 := by decide
  have hs2 : (UpdatePower_case scenarioConfig (refreshBank 2)).2 = 8 := by
    norm_num [UpdatePower_case, scenarioConfig]
  have e1 : scenarioConfig.ref_energy_inc = 16 := rfl
  have e2 : scenarioConfig.refb_energy_inc = 4 := rfl
  rw [hc1, hs1, e1] at h1
  rw [hc2, hs2, e2] at h2
  exact ⟨h1.1, h2.1⟩

/-! ## C12: the thermal case of a command -/

theorem UpdatePower_case_planar (cfg : Config) (cmd : Command) (hmc : cfg.IsHMC = false)
    (hbm : cfg.IsHBM = false)
    (hch : 0 ≤ cmd.Channel ∧ cmd.Channel < cfg.channels)
    (hrk : 0 ≤ cmd.Rank ∧ cmd.Rank < cfg.ranks)
    (hprod : cfg.channels * cfg.ranks < 2147483648) :
    (UpdatePower_case cfg cmd).1 = cmd.Channel * cfg.ranks + cmd.Rank := by
  have hcr : cmd.Channel * cfg.ranks + cmd.Rank < cfg.channels * cfg.ranks := by nlinarith
  have h0 : 0 ≤ cmd.Channel * cfg.ranks := by nlinarith
  have hr : cfg.ranks ≤ cfg.channels * cfg.ranks := by nlinarith
  have hc : cfg.channels ≤ cfg.channels * cfg.ranks := by nlinarith
  have e1 : toU32 cmd.Channel = cmd.Channel.toNat := by
    unfold toU32
    omega
  have e2 : toU32 cfg.ranks = cfg.ranks.toNat := by
    unfold toU32
    omega
  have e3 : toU32 cmd.Rank = cmd.Rank.toNat := by
    unfold toU32
    omega
  have e4 : ((cmd.Channel.toNat * cfg.ranks.toNat + cmd.Rank.toNat : Nat) : Int)
      = cmd.Channel * cfg.ranks + cmd.Rank := by
    push_cast
    rw [Int.toNat_of_nonneg hch.1, Int.toNat_of_nonneg (by omega), Int.toNat_of_nonneg hrk.1]
  have hlt : cmd.Channel.toNat * cfg.ranks.toNat + cmd.Rank.toNat < 2147483648 := by
    have : ((cmd.Channel.toNat * cfg.ranks.toNat + cmd.Rank.toNat : Nat) : Int)
        < 2147483648 := by
      rw [e4]
      omega
    exact_mod_cast this
  unfold UpdatePower_case
  simp only [hmc, hbm, Bool.or_self, Bool.false_eq_true, if_false]
  rw [e1, e2, e3, toI32_of_small _ hlt, e4]

theorem cell_applyDeposits_other (m : List (List ℚ)) (ds : List (Int × Int × ℚ)) (c2 i : Int)
    (h : ∀ d ∈ ds, d.1 ≠ c2) : cell (applyDeposits m ds) c2 i = cell m c2 i := by
  induction ds generalizing m with
  | nil => rfl
  | cons d t ih =>
    simp only [applyDeposits, List.foldl_cons] at ih ⊢
    rw [ih _ (fun x hx => h x (List.mem_cons_of_mem d hx)), cell_addAt]
    have hne : ¬ (c2 = d.1 ∧ i = d.2.1 ∧ inMap m d.1 d.2.1) :=
      fun hc => h d (List.mem_cons_self d t) hc.1.symm
    rw [if_neg hne, add_zero]

theorem pair_of_case_eq (r c1 k1 c2 k2 : Int) (h1 : 0 ≤ k1 ∧ k1 < r) (h2 : 0 ≤ k2 ∧ k2 < r)
    (h : c1 * r + k1 = c2 * r + k2) : c1 = c2 ∧ k1 = k2 := by
  have hc : c1 = c2 := by
    rcases lt_trichotomy c1 c2 with hlt | heq | hgt
    · have : (c1 + 1) * r ≤ c2 * r := by nlinarith
      nlinarith
    · exact heq
    · have : (c2 + 1) * r ≤ c1 * r := by nlinarith
      nlinarith
  subst hc
  exact ⟨rfl, by omega⟩

/-- C12. Thermal case selection: for stacked topologies `UpdatePower` uses case 0 and
device scale 1; for planar topologies the scale is `devices_per_rank` and, for a channel
and a rank inside the configured counts, the case id is `channel * ranks + rank`, lies in
`[0, num_case)` with `num_case = channels * ranks`, and is different for different
(channel, rank) pairs.  The deposits of a call change no power-map entry of another case,
and so does the whole call when it crosses no epoch boundary. -/
theorem C12_case_selection (cfg : Config) (env : ThermalEnv) (stats_ : Statistics)
    (phy : Address → Address) (vx0 vy0 : Int) (tc : ThermalCalculator) (cmd : Command)
    (clk : Nat) :
    ((cfg.IsHMC = true ∨ cfg.IsHBM = true) → UpdatePower_case cfg cmd = (0, 1)) ∧
    (cfg.IsHMC = false → cfg.IsHBM = false →
      (UpdatePower_case cfg cmd).2 = (cfg.devices_per_rank : ℚ) ∧
      (ThermalCalculator.init cfg env phy vx0 vy0).num_case = cfg.channels * cfg.ranks ∧
      (0 ≤ cmd.Channel → cmd.Channel < cfg.channels → 0 ≤ cmd.Rank → cmd.Rank < cfg.ranks →
        cfg.channels * cfg.ranks < 2147483648 →
        (UpdatePower_case cfg cmd).1 = cmd.Channel * cfg.ranks + cmd.Rank ∧
        0 ≤ (UpdatePower_case cfg cmd).1 ∧
        (UpdatePower_case cfg cmd).1 < (ThermalCalculator.init cfg env phy vx0 vy0).num_case ∧
        ∀ cmd2 : Command, 0 ≤ cmd2.Channel → cmd2.Channel < cfg.channels →
          0 ≤ cmd2.Rank → cmd2.Rank < cfg.ranks →
          (UpdatePower_case cfg cmd2).1 = (UpdatePower_case cfg cmd).1 →
          cmd2.Channel = cmd.Channel ∧ cmd2.Rank = cmd.Rank)) ∧
    (∀ c2 i : Int, c2 ≠ (UpdatePower_case cfg cmd).1 →
      cell (UpdatePower_deposit cfg tc cmd clk).accu_Pmap c2 i = cell tc.accu_Pmap c2 i ∧
      cell (UpdatePower_deposit cfg tc cmd clk).cur_Pmap c2 i = cell tc.cur_Pmap c2 i) ∧
    (epochCrossed cfg tc clk = false → ∀ c2 i : Int, c2 ≠ (UpdatePower_case cfg cmd).1 →
      cell (UpdatePower cfg env stats_ tc cmd clk).accu_Pmap c2 i = cell tc.accu_Pmap c2 i ∧
      cell (UpdatePower cfg env stats_ tc cmd clk).cur_Pmap c2 i = cell tc.cur_Pmap c2 i) := by
  have hframe : ∀ c2 i : Int, c2 ≠ (UpdatePower_case cfg cmd).1 →
      cell (UpdatePower_deposit cfg tc cmd clk).accu_Pmap c2 i = cell tc.accu_Pmap c2 i ∧
      cell (UpdatePower_deposit cfg tc cmd clk).cur_Pmap c2 i = cell tc.cur_Pmap c2 i := by
    intro c2 i hne
    obtain ⟨ds, hd, hq⟩ := UpdatePower_deposit_isDeposit cfg tc cmd clk
    have hx : ∀ d ∈ ds, d.1 ≠ c2 := fun d hdm h => hne (h.symm.trans (hq d hdm).1)
    rw [hd.1, hd.2.1]
    exact ⟨cell_applyDeposits_other _ _ _ _ hx, cell_applyDeposits_other _ _ _ _ hx⟩
  refine ⟨?_, ?_, hframe, ?_⟩
  · intro h
    unfold UpdatePower_case
    rcases h with h | h <;> simp [h]
  · intro hmc hbm
    have hnum : (ThermalCalculator.init cfg env phy vx0 vy0).num_case
        = cfg.channels * cfg.ranks := by
      show (ThermalCalculator_geometry cfg vx0 vy0).num_case = _
      unfold ThermalCalculator_geometry
      rw [if_neg (by simp [hmc]), if_neg (by simp [hbm])]
      show cfg.ranks * cfg.channels = _
      ring
    refine ⟨?_, hnum, ?_⟩
    · unfold UpdatePower_case
      simp [hmc, hbm]
    · intro c0 c1 r0 r1 hprod
      have hcase := UpdatePower_case_planar cfg cmd hmc hbm ⟨c0, c1⟩ ⟨r0, r1⟩ hprod
      rw [hcase, hnum]
      refine ⟨rfl, by nlinarith, by nlinarith, ?_⟩
      intro cmd2 d0 d1 s0 s1 heq
      rw [UpdatePower_case_planar cfg cmd2 hmc hbm ⟨d0, d1⟩ ⟨s0, s1⟩ hprod] at heq
      exact pair_of_case_eq cfg.ranks _ _ _ _ ⟨s0, s1⟩ ⟨r0, r1⟩ heq
  · intro hx c2 i hne
    obtain ⟨-, -, ua, -, -, -, uc, -⟩ := UpdatePower_spec cfg env stats_ tc cmd clk
    rw [ua, uc, hx]
    exact hframe c2 i hne

/-- C12 at 2 channels of 2 ranks: channel 1, rank 1 is case 3 of 4. -/
theorem C12_case_selection_witness :
    (UpdatePower_case fourCaseConfig (activateAt 1 1)).1 = 1 * 2 + 1 ∧
    (UpdatePower_case fourCaseConfig (activateAt 1 1)).1
      < (ThermalCalculator.init fourCaseConfig scenarioEnv (fun a => a) 0 0).num_case :=
  have h := ((C12_case_selection fourCaseConfig scenarioEnv emptyStats (fun a => a) 0 0
    scenarioState (activateAt 1 1) 0).2.1 rfl rfl).2.2
    (by decide) (by decide) (by decide) (by decide) (by decide)
  ⟨h.1, h.2.2.1⟩

/-! ## C13: the energy table of the command kinds -/

/-- C13. Command-kind energy table: `ACTIVATE` maps to `act_energy_inc`, `READ` and
`READ_PRECHARGE` to `read_energy_inc`, `WRITE` and `WRITE_PRECHARGE` to `write_energy_inc`,
every other kind to 0; a call with a non-refresh command whose increment is not positive
(so also one of any other non-refresh kind, such as `PRECHARGE`) deposits nothing, and when
it crosses no epoch boundary it leaves `accu_Pmap` and `cur_Pmap` unchanged. -/
theorem C13_energy_table (cfg : Config) (env : ThermalEnv) (stats_ : Statistics)
    (tc : ThermalCalculator) (cmd : Command) (clk : Nat) :
    (UpdatePower_energy cfg CommandType.ACTIVATE = cfg.act_energy_inc ∧
      UpdatePower_energy cfg CommandType.READ = cfg.read_energy_inc ∧
      UpdatePower_energy cfg CommandType.READ_PRECHARGE = cfg.read_energy_inc ∧
      UpdatePower_energy cfg CommandType.WRITE = cfg.write_energy_inc ∧
      UpdatePower_energy cfg CommandType.WRITE_PRECHARGE = cfg.write_energy_inc ∧
      UpdatePower_energy cfg CommandType.PRECHARGE = 0 ∧
      UpdatePower_energy cfg CommandType.SREF_ENTER = 0 ∧
      UpdatePower_energy cfg CommandType.SREF_EXIT = 0) ∧
    (cmd.IsRefresh = false → ¬ (0 < UpdatePower_energy cfg cmd.cmd_type_) →
      (UpdatePower_deposit cfg tc cmd clk).accu_Pmap = tc.accu_Pmap ∧
      (UpdatePower_deposit cfg tc cmd clk).cur_Pmap = tc.cur_Pmap ∧
      (UpdatePower cfg env stats_ tc cmd clk).accu_Pmap = tc.accu_Pmap ∧
      (epochCrossed cfg tc clk = false →
        (UpdatePower cfg env stats_ tc cmd clk).cur_Pmap = tc.cur_Pmap)) := by
  refine ⟨⟨rfl, rfl, rfl, rfl, rfl, rfl, rfl, rfl⟩, ?_⟩
  intro hr hE
  have hd : (UpdatePower_deposit cfg tc cmd clk).accu_Pmap = tc.accu_Pmap ∧
      (UpdatePower_deposit cfg tc cmd clk).cur_Pmap = tc.cur_Pmap := by
    simp only [Command.IsRefresh, Bool.or_eq_false_iff, decide_eq_false_iff_not] at hr
    unfold UpdatePower_deposit
    rw [if_neg hr.1, if_neg hr.2, if_neg hE]
    exact ⟨rfl, rfl⟩
  obtain ⟨-, -, ua, -, -, -, uc, -⟩ := UpdatePower_spec cfg env stats_ tc cmd clk
  refine ⟨hd.1, hd.2, ua.trans hd.1, ?_⟩
  intro hx
  rw [uc, hx]
  exact hd.2

/-- C13 at the scenario: a `PRECHARGE` at clock 5 changes neither map. -/
theorem C13_energy_table_witness :
    (UpdatePower scenarioConfig scenarioEnv emptyStats scenarioState prechargeCmd 5).accu_Pmap
      = scenarioState.accu_Pmap ∧
    (UpdatePower scenarioConfig scenarioEnv emptyStats scenarioState prechargeCmd 5).cur_Pmap
      = scenarioState.cur_Pmap :=
  have h := (C13_energy_table scenarioConfig scenarioEnv emptyStats scenarioState
    prechargeCmd 5).2 rfl (by norm_num [UpdatePower_energy, prechargeCmd])
  ⟨h.2.2.1, h.2.2.2 (by decide)⟩

/-! ## C20: the layer of a command -/

theorem layer_quotient_range (bank banks dies : Int) (hd : 1 ≤ dies) (hdvd : dies ∣ banks)
    (h0 : 0 ≤ bank) (h1 : bank < banks) :
    0 ≤ bank.tdiv (banks.tdiv dies) ∧ bank.tdiv (banks.tdiv dies) < dies := by
  obtain ⟨m, hm⟩ := hdvd
  have hmpos : 1 ≤ m := by
    by_contra hc
    have : dies * m ≤ 0 := by nlinarith
    omega
  have e1 : banks.tdiv dies = m := by
    rw [hm]
    exact Int.mul_tdiv_cancel_left m (by omega)
  rw [e1, Int.tdiv_eq_ediv h0 (by omega)]
  constructor
  · exact Int.ediv_nonneg h0 (by omega)
  · apply Int.ediv_lt_of_lt_mul (by omega)
    rw [← hm]
    exact h1

/-- C20. `MapToZ` returns 0 for planar topologies; for the 3D-stacked topology it returns
`q = bank / (banks / num_dies)` when the layer-order flag is 0 and `numP - 1 - q`
otherwise; for the wide-I/O-stacked topology it returns `channel / 2`.  In the 3D-stacked
topology `numP` is `num_dies`, and for every bank in `[0, banks)` with `num_dies` dividing
`banks` the result lies in `[0, numP)` under both flag values. -/
theorem C20_MapToZ (cfg : Config) (env : ThermalEnv) (phy : Address → Address)
    (vx0 vy0 : Int) (tc : ThermalCalculator) (cmd : Command) :
    (cfg.IsHMC = false → cfg.IsHBM = false → MapToZ cfg tc cmd = 0) ∧
    (cfg.IsHMC = true → cfg.bank_layer_order = 0 →
      MapToZ cfg tc cmd = cmd.Bank.tdiv (cfg.banks.tdiv cfg.num_dies)) ∧
    (cfg.IsHMC = true → cfg.bank_layer_order ≠ 0 →
      MapToZ cfg tc cmd = tc.numP - 1 - cmd.Bank.tdiv (cfg.banks.tdiv cfg.num_dies)) ∧
    (cfg.IsHMC = false → cfg.IsHBM = true → MapToZ cfg tc cmd = cmd.Channel.tdiv 2) ∧
    (cfg.IsHMC = true → (ThermalCalculator.init cfg env phy vx0 vy0).numP = cfg.num_dies) ∧
    (cfg.IsHMC = true → tc.numP = cfg.num_dies → 1 ≤ cfg.num_dies →
      cfg.num_dies ∣ cfg.banks → 0 ≤ cmd.Bank → cmd.Bank < cfg.banks →
      0 ≤ MapToZ cfg tc cmd ∧ MapToZ cfg tc cmd < tc.numP) := by
  refine ⟨?_, ?_, ?_, ?_, ?_, ?_⟩
  · intro hmc hbm
    unfold MapToZ
    rw [if_neg (by simp [hmc]), if_neg (by simp [hbm])]
  · intro hmc hfl
    unfold MapToZ
    rw [if_pos hmc]
    simp only [hfl, if_true]
  · intro hmc hfl
    unfold MapToZ
    rw [if_pos hmc]
    simp only [hfl, if_false]
    ring
  · intro hmc hbm
    unfold MapToZ
    rw [if_neg (by simp [hmc]), if_pos hbm]
  · intro hmc
    show (ThermalCalculator_geometry cfg vx0 vy0).numP = cfg.num_dies
    unfold ThermalCalculator_geometry
    rw [if_pos hmc]
  · intro hmc hnp hd hdvd h0 h1
    obtain ⟨q0, q1⟩ := layer_quotient_range cmd.Bank cfg.banks cfg.num_dies hd hdvd h0 h1
    unfold MapToZ
    rw [if_pos hmc, hnp]
    show 0 ≤ (if cfg.bank_layer_order = 0 then cmd.Bank.tdiv (cfg.banks.tdiv cfg.num_dies)
        else cfg.num_dies - cmd.Bank.tdiv (cfg.banks.tdiv cfg.num_dies) - 1) ∧
      (if cfg.bank_layer_order = 0 then cmd.Bank.tdiv (cfg.banks.tdiv cfg.num_dies)
        else cfg.num_dies - cmd.Bank.tdiv (cfg.banks.tdiv cfg.num_dies) - 1) < cfg.num_dies
    split <;> constructor <;> omega

/-- C20 at the 3D-stacked configuration with 16 banks on 4 dies: bank 9 is on layer 2. -/
theorem C20_MapToZ_witness :
    0 ≤ MapToZ stackedConfig (ThermalCalculator.init stackedConfig scenarioEnv (fun a => a) 0 0)
      (stackedBank 9) ∧
    MapToZ stackedConfig (ThermalCalculator.init stackedConfig scenarioEnv (fun a => a) 0 0)
      (stackedBank 9)
      < (ThermalCalculator.init stackedConfig scenarioEnv (fun a => a) 0 0).numP ∧
    MapToZ stackedConfig (ThermalCalculator.init stackedConfig scenarioEnv (fun a => a) 0 0)
      (stackedBank 9) = 2 :=
  have h := C20_MapToZ stackedConfig scenarioEnv (fun a => a) 0 0
    (ThermalCalculator.init stackedConfig scenarioEnv (fun a => a) 0 0) (stackedBank 9)
  have hr := h.2.2.2.2.2 rfl (h.2.2.2.2.1 rfl) (by decide) (by decide) (by decide) (by decide)
  ⟨hr.1, hr.2, (h.2.1 rfl rfl).trans (by decide)⟩

/-! ## Remap specification: parsing -/

theorem countUp_eq (a : Int) (n : Nat) :
    countUp a n = (List.range n).map (fun t => a + Int.ofNat t) := by
  induction n generalizing a with
  | zero => rfl
  | succ n ih =>
    rw [countUp, ih, List.range_succ_eq_map, List.map_cons, List.map_map]
    congr 1
    · simp
    · apply List.map_congr_left
      intro t _
      simp only [Function.comp, Int.ofNat_eq_coe, Nat.cast_succ]
      ring

theorem countDown_eq (a : Int) (n : Nat) :
    countDown a n = (List.range n).map (fun t => a - Int.ofNat t) := by
  induction n generalizing a with
  | zero => rfl
  | succ n ih =>
    rw [countDown, ih, List.range_succ_eq_map, List.map_cons, List.map_map]
    congr 1
    · simp
    · apply List.map_congr_left
      intro t _
      simp only [Function.comp, Int.ofNat_eq_coe, Nat.cast_succ]
      ring

theorem length_countUp (a : Int) (n : Nat) : (countUp a n).length = n := by
  rw [countUp_eq, List.length_map, List.length_range]

theorem length_countDown (a : Int) (n : Nat) : (countDown a n).length = n := by
  rw [countDown_eq, List.length_map, List.length_range]

theorem getD_countUp (a : Int) (n k : Nat) (h : k < n) :
    (countUp a n).getD k 0 = a + (k : Int) := by
  rw [countUp_eq, List.getD_eq_getElem?_getD, List.getElem?_map, List.getElem?_range h]
  rfl

theorem getD_countDown (a : Int) (n k : Nat) (h : k < n) :
    (countDown a n).getD k 0 = a - (k : Int) := by
  rw [countDown_eq, List.getD_eq_getElem?_getD, List.getElem?_map, List.getElem?_range h]
  rfl

/-- A well-formed token is expanded into the indices it stands for. -/
theorem token_of_ok (ops : StringOps) (tok : List Char) (h : TokenOK ops tok) :
    SetPhyAddressMapping_token ops tok = Except.ok (tokenPositions ops tok) := by
  unfold TokenOK at h
  unfold SetPhyAddressMapping_token tokenPositions
  cases hc : findChar ':' tok with
  | none =>
    rw [hc] at h
    obtain ⟨n, hn⟩ := Option.isSome_iff_exists.mp h
    simp only [hn, Option.getD_some]
  | some c =>
    rw [hc] at h
    obtain ⟨a, ha⟩ := Option.isSome_iff_exists.mp h.1
    obtain ⟨b, hb⟩ := Option.isSome_iff_exists.mp h.2
    simp only [ha, hb, Option.getD_some, inclusiveRun, countUp_eq, countDown_eq]
    by_cases hab : a ≤ b
    · rw [if_neg (by omega), if_pos hab]
    · rw [if_pos (by omega), if_neg hab]

/-- A token that is not well formed makes `std::stoi` throw. -/
theorem token_of_not_ok (ops : StringOps) (tok : List Char) (h : ¬ TokenOK ops tok) :
    SetPhyAddressMapping_token ops tok = Except.error SetupError.stoi_exception := by
  unfold TokenOK at h
  unfold SetPhyAddressMapping_token
  cases hc : findChar ':' tok with
  | none =>
    rw [hc] at h
    cases hn : ops.stoi tok with
    | none => rfl
    | some n => exact absurd (by rw [hn]; rfl) h
  | some c =>
    rw [hc] at h
    cases ha : ops.stoi (tok.take c) with
    | none => simp only [ha]
    | some a =>
      cases hb : ops.stoi (tok.drop (c + 1)) with
      | none => simp only [ha, hb]
      | some b => exact absurd ⟨by rw [ha]; rfl, by rw [hb]; rfl⟩ h

theorem isEmpty_eq_false_of_ne {α : Type} (l : List α) (h : l ≠ []) : l.isEmpty = false := by
  cases l with
  | nil => exact absurd rfl h
  | cons _ _ => rfl

theorem field_of_ok (ops : StringOps) (toks : List (List Char))
    (h : ∀ tok ∈ toks, tok ≠ [] → TokenOK ops tok) :
    SetPhyAddressMapping_field ops toks
      = Except.ok ((toks.filter (fun tok => !tok.isEmpty)).flatMap (tokenPositions ops)) := by
  induction toks with
  | nil => rfl
  | cons tok rest ih =>
    have ih2 := ih (fun t ht hne => h t (List.mem_cons_of_mem _ ht) hne)
    unfold SetPhyAddressMapping_field
    by_cases he : tok = []
    · subst he
      simpa using ih2
    · have hE : tok.isEmpty = false := isEmpty_eq_false_of_ne tok he
      rw [if_neg (by simp [hE]), token_of_ok ops tok (h tok (List.mem_cons_self _ _) he), ih2]
      simp [List.filter_cons, hE]

theorem field_of_not_ok (ops : StringOps) (toks : List (List Char))
    (h : ¬ ∀ tok ∈ toks, tok ≠ [] → TokenOK ops tok) :
    SetPhyAddressMapping_field ops toks = Except.error SetupError.stoi_exception := by
  induction toks with
  | nil => exact absurd (fun _ hm => absurd hm (List.not_mem_nil _)) h
  | cons tok rest ih =>
    unfold SetPhyAddressMapping_field
    by_cases he : tok = []
    · subst he
      have : ¬ ∀ t ∈ rest, t ≠ [] → TokenOK ops t := by
        intro hr
        apply h
        intro t ht hne
        rcases List.mem_cons.mp ht with rfl | ht
        · exact absurd rfl hne
        · exact hr t ht hne
      simpa using ih this
    · have hE : tok.isEmpty = false := isEmpty_eq_false_of_ne tok he
      rw [if_neg (by simp [hE])]
      by_cases hk : TokenOK ops tok
      · have : ¬ ∀ t ∈ rest, t ≠ [] → TokenOK ops t := by
          intro hr
          apply h
          intro t ht hne
          rcases List.mem_cons.mp ht with rfl | ht
          · exact hk
          · exact hr t ht hne
        rw [token_of_ok ops tok hk, ih this]
      · rw [token_of_not_ok ops tok hk]

theorem fields_of_ok (ops : StringOps) (fs : List (List Char))
    (h : ∀ f ∈ fs, FieldOK ops f) :
    SetPhyAddressMapping_fields ops fs = Except.ok (fs.map (fieldPositions ops)) := by
  induction fs with
  | nil => rfl
  | cons f rest ih =>
    unfold SetPhyAddressMapping_fields
    rw [field_of_ok ops _ (h f (List.mem_cons_self _ _)),
      ih (fun g hg => h g (List.mem_cons_of_mem _ hg))]
    rfl

theorem fields_of_not_ok (ops : StringOps) (fs : List (List Char))
    (h : ¬ ∀ f ∈ fs, FieldOK ops f) :
    SetPhyAddressMapping_fields ops fs = Except.error SetupError.stoi_exception := by
  induction fs with
  | nil => exact absurd (fun _ hm => absurd hm (List.not_mem_nil _)) h
  | cons f rest ih =>
    unfold SetPhyAddressMapping_fields
    by_cases hk : FieldOK ops f
    · have : ¬ ∀ g ∈ rest, FieldOK ops g := by
        intro hr
        apply h
        intro g hg
        rcases List.mem_cons.mp hg with rfl | hg
        · exact hk
        · exact hr g hg
      rw [field_of_ok ops _ hk, ih this]
    · rw [field_of_not_ok ops _ hk]

/-- The four outcomes of `SetPhyAddressMapping`. -/
theorem SetPhyAddressMapping_cases (ops : StringOps) (s : List Char) :
    (s = [] → SetPhyAddressMapping ops s = Except.ok (fun addr => addr)) ∧
    (s ≠ [] → (ops.StringSplit s ',').length ≠ 6 →
      SetPhyAddressMapping ops s = Except.error SetupError.fatal_exit) ∧
    (s ≠ [] → (ops.StringSplit s ',').length = 6 →
      (∀ f ∈ ops.StringSplit s ',', FieldOK ops f) →
      SetPhyAddressMapping ops s
        = Except.ok (GetPhyAddress_lambda ((ops.StringSplit s ',').map (fieldPositions ops)))) ∧
    (s ≠ [] → (ops.StringSplit s ',').length = 6 →
      (¬ ∀ f ∈ ops.StringSplit s ',', FieldOK ops f) →
      SetPhyAddressMapping ops s = Except.error SetupError.stoi_exception) := by
  refine ⟨?_, ?_, ?_, ?_⟩
  · intro h
    subst h
    rfl
  · intro h hl
    unfold SetPhyAddressMapping
    rw [if_neg (by simp [isEmpty_eq_false_of_ne s h])]
    simp only [hl, ne_eq, not_false_eq_true, if_true]
  · intro h hl hok
    unfold SetPhyAddressMapping
    rw [if_neg (by simp [isEmpty_eq_false_of_ne s h])]
    simp only [hl, ne_eq, not_true_eq_false, if_false, fields_of_ok ops _ hok]
  · intro h hl hok
    unfold SetPhyAddressMapping
    rw [if_neg (by simp [isEmpty_eq_false_of_ne s h])]
    simp only [hl, ne_eq, not_true_eq_false, if_false, fields_of_not_ok ops _ hok]

/-- The `GetPhyAddress` lambda for six position lists: each new field is cut out of the
packed integer at the offset that the widths of the later fields add up to. -/
theorem GetPhyAddress_lambda_six (m0 m1 m2 m3 m4 m5 : List Int) (a : Address) :
    GetPhyAddress_lambda [m0, m1, m2, m3, m4, m5] a =
      { channel_ := ModuloWidth (GetPhyAddress_new_hex [m0, m1, m2, m3, m4, m5] a) m0.length
          (3 + m5.length + m4.length + m3.length + m2.length + m1.length),
        rank_ := ModuloWidth (GetPhyAddress_new_hex [m0, m1, m2, m3, m4, m5] a) m1.length
          (3 + m5.length + m4.length + m3.length + m2.length),
        bankgroup_ := ModuloWidth (GetPhyAddress_new_hex [m0, m1, m2, m3, m4, m5] a) m2.length
          (3 + m5.length + m4.length + m3.length),
        bank_ := ModuloWidth (GetPhyAddress_new_hex [m0, m1, m2, m3, m4, m5] a) m3.length
          (3 + m5.length + m4.length),
        row_ := ModuloWidth (GetPhyAddress_new_hex [m0, m1, m2, m3, m4, m5] a) m4.length
          (3 + m5.length),
        column_ := ModuloWidth (GetPhyAddress_new_hex [m0, m1, m2, m3, m4, m5] a) m5.length 3 } :=
  rfl

theorem GetPhyAddress_new_hex_six (m0 m1 m2 m3 m4 m5 : List Int) (a : Address) :
    GetPhyAddress_new_hex [m0, m1, m2, m3, m4, m5] a =
      GetPhyAddress_field a.column_ m5 (GetPhyAddress_field a.row_ m4
        (GetPhyAddress_field a.bank_ m3 (GetPhyAddress_field a.bankgroup_ m2
          (GetPhyAddress_field a.rank_ m1 (GetPhyAddress_field a.channel_ m0 0))))) :=
  rfl

theorem ModuloWidth_zero_width (x pos : Nat) : ModuloWidth x 0 pos = 0 := by
  unfold ModuloWidth
  rw [pow_zero, Nat.mod_one]
  rfl

theorem exists_six {α : Type} (l : List α) (h : l.length = 6) :
    ∃ a b c d e f, l = [a, b, c, d, e, f] := by
  match l, h with
  | [a, b, c, d, e, f], _ => exact ⟨a, b, c, d, e, f, rfl⟩

/-- C14: with an empty remap specification string `SetPhyAddressMapping` installs a function
that returns every address unchanged, in all six fields; the calculator constructed from a
configuration with an empty `loc_mapping` carries that function. -/
theorem C14_remap_identity (ops : StringOps) (cfg : Config) (env : ThermalEnv) (vx0 vy0 : Int)
    (addr : Address) :
    (∃ f, SetPhyAddressMapping ops [] = Except.ok f ∧ f addr = addr ∧
      (f addr).channel_ = addr.channel_ ∧ (f addr).rank_ = addr.rank_ ∧
      (f addr).bankgroup_ = addr.bankgroup_ ∧ (f addr).bank_ = addr.bank_ ∧
      (f addr).row_ = addr.row_ ∧ (f addr).column_ = addr.column_) ∧
    (cfg.loc_mapping = [] →
      ∃ tc, ThermalCalculator.construct ops cfg env vx0 vy0 = Except.ok tc ∧
        tc.GetPhyAddress addr = addr) := by
  refine ⟨⟨fun a => a, rfl, rfl, rfl, rfl, rfl, rfl, rfl, rfl⟩, ?_⟩
  intro h
  refine ⟨ThermalCalculator.init cfg env (fun a => a) vx0 vy0, ?_, rfl⟩
  unfold ThermalCalculator.construct
  rw [h]
  rfl

theorem C14_remap_identity_witness :
    scenarioConfig.loc_mapping = [] ∧
    ∃ tc, ThermalCalculator.construct plainOps scenarioConfig scenarioEnv 0 0 = Except.ok tc ∧
      tc.GetPhyAddress sampleAddress = sampleAddress :=
  ⟨rfl, (C14_remap_identity plainOps scenarioConfig scenarioEnv 0 0 sampleAddress).2 rfl⟩

/-- C17: `SetPhyAddressMapping` ends in the fatal exit whenever the specification string is
not empty and does not split into exactly six comma-separated fields, and only then; it
installs a mapping when the string is empty and when the string has exactly six fields
that are all well formed.  The constructor fails and succeeds with it. -/
theorem C17_remap_validation (ops : StringOps) (s : List Char) (cfg : Config)
    (env : ThermalEnv) (vx0 vy0 : Int) :
    (s ≠ [] → (ops.StringSplit s ',').length ≠ 6 →
      SetPhyAddressMapping ops s = Except.error SetupError.fatal_exit) ∧
    (SetPhyAddressMapping ops s = Except.error SetupError.fatal_exit →
      s ≠ [] ∧ (ops.StringSplit s ',').length ≠ 6) ∧
    (s = [] → ∃ f, SetPhyAddressMapping ops s = Except.ok f) ∧
    (s ≠ [] → (ops.StringSplit s ',').length = 6 →
      (∀ f ∈ ops.StringSplit s ',', FieldOK ops f) →
      ∃ f, SetPhyAddressMapping ops s = Except.ok f) ∧
    (cfg.loc_mapping = s → s ≠ [] → (ops.StringSplit s ',').length ≠ 6 →
      ThermalCalculator.construct ops cfg env vx0 vy0 = Except.error SetupError.fatal_exit) ∧
    (cfg.loc_mapping = s →
      (s = [] ∨ ((ops.StringSplit s ',').length = 6 ∧ ∀ f ∈ ops.StringSplit s ',', FieldOK ops f)) →
      ∃ tc, ThermalCalculator.construct ops cfg env vx0 vy0 = Except.ok tc) := by
  obtain ⟨h1, h2, h3, h4⟩ := SetPhyAddressMapping_cases ops s
  have hok : (s = [] ∨ ((ops.StringSplit s ',').length = 6 ∧
      ∀ f ∈ ops.StringSplit s ',', FieldOK ops f)) →
      ∃ f, SetPhyAddressMapping ops s = Except.ok f := by
    intro h
    by_cases hs : s = []
    · exact ⟨_, h1 hs⟩
    · rcases h with h | ⟨hl, hf⟩
      · exact absurd h hs
      · exact ⟨_, h3 hs hl hf⟩
  refine ⟨h2, ?_, fun hs => ⟨_, h1 hs⟩, fun hs hl hf => ⟨_, h3 hs hl hf⟩, ?_, ?_⟩
  · intro he
    by_cases hs : s = []
    · rw [h1 hs] at he
      cases he
    · refine ⟨hs, ?_⟩
      intro hl
      by_cases hf : ∀ f ∈ ops.StringSplit s ',', FieldOK ops f
      · rw [h3 hs hl hf] at he
        cases he
      · rw [h4 hs hl hf] at he
        cases he
  · intro hc hs hl
    unfold ThermalCalculator.construct
    rw [hc, h2 hs hl]
  · intro hc h
    obtain ⟨f, hf⟩ := hok h
    unfold ThermalCalculator.construct
    rw [hc, hf]
    exact ⟨_, rfl⟩

theorem C17_remap_validation_witness :
    SetPhyAddressMapping plainOps "13,12,11:9,8:5,4:3".toList
      = Except.error SetupError.fatal_exit ∧
    (∃ f, SetPhyAddressMapping plainOps "14,13,12,11:9,8:5,4:3".toList = Except.ok f) ∧
    (∃ f, SetPhyAddressMapping plainOps [] = Except.ok f) :=
  ⟨(C17_remap_validation plainOps "13,12,11:9,8:5,4:3".toList scenarioConfig scenarioEnv 0 0).1
      (by decide) (by decide),
    (C17_remap_validation plainOps "14,13,12,11:9,8:5,4:3".toList scenarioConfig scenarioEnv 0
      0).2.2.2.1 (by decide) (by decide) (by decide),
    (C17_remap_validation plainOps [] scenarioConfig scenarioEnv 0 0).2.2.1 rfl⟩

/-- C18: a token without a colon stands for its index and a token `a:b` for the inclusive
run from `a` to `b`, upwards when `a ≤ b` and downwards when `a > b`; the position list of
a field is the in-order concatenation of the indices of its non-empty dash-separated
tokens, and the installed mapping is the lambda over the six lists.  A field without
tokens is accepted with the empty list, puts no bit into the packed integer and its
remapped value is 0. -/
theorem C18_remap_parsing (ops : StringOps) :
    (∀ tok n, findChar ':' tok = none → ops.stoi tok = some n →
      SetPhyAddressMapping_token ops tok = Except.ok [n]) ∧
    (∀ tok c a b, findChar ':' tok = some c → ops.stoi (tok.take c) = some a →
      ops.stoi (tok.drop (c + 1)) = some b →
      SetPhyAddressMapping_token ops tok = Except.ok (inclusiveRun a b)) ∧
    (∀ a b : Int, a ≤ b → (inclusiveRun a b).length = (b - a + 1).toNat ∧
      ∀ k : Nat, k < (b - a + 1).toNat → (inclusiveRun a b).getD k 0 = a + (k : Int)) ∧
    (∀ a b : Int, a > b → (inclusiveRun a b).length = (a - b + 1).toNat ∧
      ∀ k : Nat, k < (a - b + 1).toNat → (inclusiveRun a b).getD k 0 = a - (k : Int)) ∧
    (∀ field, FieldOK ops field →
      SetPhyAddressMapping_field ops (ops.StringSplit field '-')
        = Except.ok (((ops.StringSplit field '-').filter (fun tok => !tok.isEmpty)).flatMap
            (tokenPositions ops))) ∧
    (∀ s, s ≠ [] → (ops.StringSplit s ',').length = 6 →
      (∀ f ∈ ops.StringSplit s ',', FieldOK ops f) →
      SetPhyAddressMapping ops s
        = Except.ok (GetPhyAddress_lambda ((ops.StringSplit s ',').map (fieldPositions ops)))) ∧
    (∀ field, (∀ tok ∈ ops.StringSplit field '-', tok = []) →
      FieldOK ops field ∧ fieldPositions ops field = [] ∧
      SetPhyAddressMapping_field ops (ops.StringSplit field '-') = Except.ok []) ∧
    (∀ (origin : Int) (hex : Nat), GetPhyAddress_field origin [] hex = hex) ∧
    (∀ (mapped_pos : List (List Int)) (addr : Address) (i : Nat), mapped_pos.length = 6 →
      i < 6 → mapped_pos.getD i [] = [] →
      (GetPhyAddress_lambda mapped_pos addr).fields.getD i 7 = 0) := by
  refine ⟨?_, ?_, ?_, ?_, ?_, ?_, ?_, ?_, ?_⟩
  · intro tok n hc hn
    have h := token_of_ok ops tok (by unfold TokenOK; simp only [hc, hn]; rfl)
    rw [h]
    unfold tokenPositions
    simp only [hc, hn, Option.getD_some]
  · intro tok c a b hc ha hb
    have h := token_of_ok ops tok (by unfold TokenOK; simp only [hc, ha, hb]; exact ⟨rfl, rfl⟩)
    rw [h]
    unfold tokenPositions
    simp only [hc, ha, hb, Option.getD_some]
  · intro a b hab
    unfold inclusiveRun
    rw [if_pos hab]
    exact ⟨length_countUp _ _, fun k hk => getD_countUp _ _ _ hk⟩
  · intro a b hab
    unfold inclusiveRun
    rw [if_neg (by omega)]
    exact ⟨length_countDown _ _, fun k hk => getD_countDown _ _ _ hk⟩
  · intro field hf
    exact field_of_ok ops _ hf
  · intro s hs hl hf
    exact (SetPhyAddressMapping_cases ops s).2.2.1 hs hl hf
  · intro field he
    have hok : FieldOK ops field := fun tok ht hne => absurd (he tok ht) hne
    have hfilter : (ops.StringSplit field '-').filter (fun tok => !tok.isEmpty) = [] := by
      rw [List.filter_eq_nil_iff]
      intro tok ht
      rw [he tok ht]
      simp
    refine ⟨hok, ?_, ?_⟩
    · unfold fieldPositions
      rw [hfilter]
      rfl
    · rw [field_of_ok ops _ hok, hfilter]
      rfl
  · intro origin hex
    rfl
  · intro mapped_pos addr i hl hi he
    obtain ⟨m0, m1, m2, m3, m4, m5, rfl⟩ := exists_six mapped_pos hl
    rw [GetPhyAddress_lambda_six]
    unfold Address.fields
    interval_cases i
    all_goals
      simp only [List.getD_cons_zero, List.getD_cons_succ] at he
      subst he
      simp only [List.getD_cons_zero, List.getD_cons_succ, List.length_nil,
        ModuloWidth_zero_width]

theorem C18_remap_parsing_witness :
    SetPhyAddressMapping_token plainOps "7".toList = Except.ok [7] ∧
    SetPhyAddressMapping_token plainOps "4:6".toList = Except.ok (inclusiveRun 4 6) ∧
    SetPhyAddressMapping_token plainOps "11:9".toList = Except.ok (inclusiveRun 11 9) ∧
    inclusiveRun 4 6 = [4, 5, 6] ∧ inclusiveRun 11 9 = [11, 10, 9] ∧
    fieldPositions plainOps "11:9-2-4:6".toList = [11, 10, 9, 2, 4, 5, 6] ∧
    SetPhyAddressMapping_field plainOps (plainOps.StringSplit "11:9-2-4:6".toList '-')
      = Except.ok [11, 10, 9, 2, 4, 5, 6] ∧
    (GetPhyAddress_lambda [[], [], [], [11, 10, 9], [8, 7, 6, 5], [4, 3]]
      sampleAddress).fields.getD 2 7 = 0 ∧
    fieldPositions plainOps [] = [] :=
  ⟨(C18_remap_parsing plainOps).1 _ 7 (by decide) (by decide),
    (C18_remap_parsing plainOps).2.1 _ 1 4 6 (by decide) (by decide) (by decide),
    (C18_remap_parsing plainOps).2.1 _ 2 11 9 (by decide) (by decide) (by decide),
    by decide, by decide, by decide,
    ((C18_remap_parsing plainOps).2.2.2.2.1 "11:9-2-4:6".toList (by decide)).trans rfl,
    (C18_remap_parsing plainOps).2.2.2.2.2.2.2.2 _ _ 2 rfl (by decide) rfl,
    ((C18_remap_parsing plainOps).2.2.2.2.2.2.1 [] (by decide)).2.1⟩

/-! ## The remap lambda, bit by bit -/

theorem testBit_GetBitInPos (bits q k : Nat) :
    ((bits / 2 ^ q) % 2).testBit k = (decide (k = 0) && bits.testBit q) := by
  have h : (bits / 2 ^ q) % 2 = (bits >>> q) % 2 ^ 1 := by
    rw [Nat.shiftRight_eq_div_pow, pow_one]
  rw [h, Nat.testBit_mod_two_pow, Nat.testBit_shiftRight]
  by_cases hk : k = 0
  · subst hk
    simp
  · have h1 : ¬ k < 1 := by omega
    simp [hk, h1]

/-- The bit that one step of the inner loop or-s in. -/
theorem testBit_new_bit (bits q s p : Nat) :
    ((((bits / 2 ^ q) % 2) <<< s) % 2 ^ 64).testBit p = true
      ↔ p < 64 ∧ s = p ∧ bits.testBit q = true := by
  rw [Nat.testBit_mod_two_pow, Nat.testBit_shiftLeft, testBit_GetBitInPos]
  simp only [Bool.and_eq_true, decide_eq_true_eq, ge_iff_le]
  constructor
  · rintro ⟨h1, h2, h3, h4⟩
    exact ⟨h1, by omega, h4⟩
  · rintro ⟨h1, h2, h3⟩
    exact ⟨h1, by omega, by omega, h3⟩

theorem testBit_field_aux (origin : Int) (ps : List Int) (hex p m : Nat) :
    ((List.range m).foldl (fun (hex : Nat) (j : Nat) =>
        hex ||| ((GetBitInPos (toU64 origin) (Int.ofNat ps.length - Int.ofNat j - 1)
          <<< (ps.getD j 0).toNat) % 2 ^ 64)) hex).testBit p = true
      ↔ hex.testBit p = true ∨ (p < 64 ∧ ∃ j, j < m ∧ (ps.getD j 0).toNat = p ∧
          (toU64 origin).testBit (Int.ofNat ps.length - Int.ofNat j - 1).toNat = true) := by
  induction m with
  | zero => simp
  | succ m ih =>
    rw [List.range_succ, List.foldl_append]
    simp only [List.foldl_cons, List.foldl_nil, Nat.testBit_lor, Bool.or_eq_true, ih]
    unfold GetBitInPos
    rw [testBit_new_bit]
    constructor
    · rintro ((h | ⟨h1, j, hj, h2, h3⟩) | ⟨h1, h2, h3⟩)
      · exact Or.inl h
      · exact Or.inr ⟨h1, j, by omega, h2, h3⟩
      · exact Or.inr ⟨h1, m, by omega, h2, h3⟩
    · rintro (h | ⟨h1, j, hj, h2, h3⟩)
      · exact Or.inl (Or.inl h)
      · by_cases hjm : j = m
        · subst hjm
          exact Or.inr ⟨h1, h2, h3⟩
        · exact Or.inl (Or.inr ⟨h1, j, by omega, h2, h3⟩)

/-- The bits of the packed integer after the inner loop for one field: the bits before,
and bit `width - 1 - j` of the field value at the position `mapped_pos[i][j]`. -/
theorem testBit_field (origin : Int) (ps : List Int) (hex p : Nat) :
    (GetPhyAddress_field origin ps hex).testBit p = true
      ↔ hex.testBit p = true ∨ (p < 64 ∧ ∃ j, j < ps.length ∧ (ps.getD j 0).toNat = p ∧
          (toU64 origin).testBit (ps.length - 1 - j) = true) := by
  unfold GetPhyAddress_field
  rw [testBit_field_aux]
  have hk : ∀ j, j < ps.length →
      (Int.ofNat ps.length - Int.ofNat j - 1).toNat = ps.length - 1 - j := by
    intro j hj
    simp only [Int.ofNat_eq_coe]
    omega
  constructor
  · rintro (h | ⟨h1, j, hj, h2, h3⟩)
    · exact Or.inl h
    · exact Or.inr ⟨h1, j, hj, h2, by rw [← hk j hj]; exact h3⟩
  · rintro (h | ⟨h1, j, hj, h2, h3⟩)
    · exact Or.inl h
    · exact Or.inr ⟨h1, j, hj, h2, by rw [hk j hj]; exact h3⟩

theorem testBit_new_hex_aux (orig : List Int) (mp : List (List Int)) (p m : Nat) :
    ((List.range m).foldl (fun (hex : Nat) (i : Nat) =>
        GetPhyAddress_field (orig.getD i 0) (mp.getD i []) hex) 0).testBit p = true
      ↔ p < 64 ∧ ∃ i, i < m ∧ ∃ j, j < (mp.getD i []).length ∧
          ((mp.getD i []).getD j 0).toNat = p ∧
          (toU64 (orig.getD i 0)).testBit ((mp.getD i []).length - 1 - j) = true := by
  induction m with
  | zero => simp
  | succ m ih =>
    rw [List.range_succ, List.foldl_append]
    simp only [List.foldl_cons, List.foldl_nil]
    rw [testBit_field, ih]
    constructor
    · rintro (⟨h1, i, hi, h⟩ | ⟨h1, h⟩)
      · exact ⟨h1, i, by omega, h⟩
      · exact ⟨h1, m, by omega, h⟩
    · rintro ⟨h1, i, hi, h⟩
      by_cases him : i = m
      · subst him
        exact Or.inr ⟨h1, h⟩
      · exact Or.inl ⟨h1, i, by omega, h⟩

/-- The bits of the packed integer `new_hex`: bit `p` is set exactly when some field `i`
has `p` at an index `j` of its position list and bit `width - 1 - j` of its value set. -/
theorem testBit_new_hex (mp : List (List Int)) (a : Address) (p : Nat) :
    (GetPhyAddress_new_hex mp a).testBit p = true
      ↔ p < 64 ∧ ∃ i, i < mp.length ∧ ∃ j, j < (mp.getD i []).length ∧
          ((mp.getD i []).getD j 0).toNat = p ∧
          (toU64 (a.fields.getD i 0)).testBit ((mp.getD i []).length - 1 - j) = true :=
  testBit_new_hex_aux a.fields mp p mp.length

/-- The bits of a slice of the packed integer. -/
theorem testBit_slice (hex w off k : Nat) :
    ((hex / 2 ^ off) % 2 ^ w).testBit k = true ↔ k < w ∧ hex.testBit (off + k) = true := by
  rw [Nat.testBit_mod_two_pow, ← Nat.shiftRight_eq_div_pow, Nat.testBit_shiftRight]
  simp

theorem slice_lt (hex w off : Nat) : (hex / 2 ^ off) % 2 ^ w < 2 ^ w :=
  Nat.mod_lt _ (by positivity)

/-- A slice of at most 31 bits is returned by `ModuloWidth` as it is. -/
theorem ModuloWidth_of_le_31 (hex w off : Nat) (hw : w ≤ 31) :
    ModuloWidth hex w off = (((hex / 2 ^ off) % 2 ^ w : Nat) : Int) := by
  unfold ModuloWidth
  apply toI32_of_small
  have h1 := slice_lt hex w off
  have h2 : 2 ^ w ≤ 2 ^ 31 := Nat.pow_le_pow_right (by decide) hw
  omega

/-- A slice without a set bit makes `ModuloWidth` return 0. -/
theorem ModuloWidth_eq_zero (hex w off : Nat)
    (h : ∀ k, k < w → hex.testBit (off + k) = false) : ModuloWidth hex w off = 0 := by
  have hz : (hex / 2 ^ off) % 2 ^ w = 0 := by
    apply Nat.eq_of_testBit_eq
    intro k
    rw [Nat.zero_testBit]
    by_contra hk
    rw [Bool.not_eq_false] at hk
    obtain ⟨h1, h2⟩ := (testBit_slice hex w off k).mp hk
    rw [h k h1] at h2
    cases h2
  unfold ModuloWidth
  rw [hz]
  rfl

theorem getD_mem_of_lt {α : Type} (l : List α) (j : Nat) (d : α) (h : j < l.length) :
    l.getD j d ∈ l := by
  rw [List.getD_eq_getElem l d h]
  exact List.getElem_mem h

theorem toU64_zero_testBit (k : Nat) : (toU64 0).testBit k = false := by
  show (0 : Nat).testBit k = false
  exact Nat.zero_testBit k

/-- With a source address that is zero outside the row, every set bit of the packed integer
sits at a position of the row list. -/
theorem testBit_new_hex_rowOnly (m0 m1 m2 m3 m4 m5 : List Int) (row : Int) (p : Nat)
    (h : (GetPhyAddress_new_hex [m0, m1, m2, m3, m4, m5] (rowOnly row)).testBit p = true) :
    p < 64 ∧ ∃ j, j < m4.length ∧ (m4.getD j 0).toNat = p ∧
      (toU64 row).testBit (m4.length - 1 - j) = true := by
  obtain ⟨h64, i, hi, j, hj, hp, hb⟩ := (testBit_new_hex _ _ p).mp h
  have hi6 : i < 6 := hi
  interval_cases i
  · exact absurd hb (by rw [show (rowOnly row).fields.getD 0 0 = 0 from rfl, toU64_zero_testBit]; simp)
  · exact absurd hb (by rw [show (rowOnly row).fields.getD 1 0 = 0 from rfl, toU64_zero_testBit]; simp)
  · exact absurd hb (by rw [show (rowOnly row).fields.getD 2 0 = 0 from rfl, toU64_zero_testBit]; simp)
  · exact absurd hb (by rw [show (rowOnly row).fields.getD 3 0 = 0 from rfl, toU64_zero_testBit]; simp)
  · exact ⟨h64, j, hj, hp, hb⟩
  · exact absurd hb (by rw [show (rowOnly row).fields.getD 5 0 = 0 from rfl, toU64_zero_testBit]; simp)

/-- C15: when the remap specification puts every bit of the row field at a position inside
the destination column field (the bits `[3, 3 + width of the column list)` of the packed
integer) and the source address is zero in every field except the row, the remapped
address is zero in channel, rank, bank group, bank and row.  When the row list is the
descending run that ends at bit 3, the least-significant end of the column field, the
column receives the low bits of the row value. -/
theorem C15_row_into_column (m0 m1 m2 m3 m4 m5 : List Int) (row : Int) :
    ((∀ p ∈ m4, 3 ≤ p ∧ p < 3 + (m5.length : Int)) →
      (GetPhyAddress_lambda [m0, m1, m2, m3, m4, m5] (rowOnly row)).channel_ = 0 ∧
      (GetPhyAddress_lambda [m0, m1, m2, m3, m4, m5] (rowOnly row)).rank_ = 0 ∧
      (GetPhyAddress_lambda [m0, m1, m2, m3, m4, m5] (rowOnly row)).bankgroup_ = 0 ∧
      (GetPhyAddress_lambda [m0, m1, m2, m3, m4, m5] (rowOnly row)).bank_ = 0 ∧
      (GetPhyAddress_lambda [m0, m1, m2, m3, m4, m5] (rowOnly row)).row_ = 0) ∧
    (∀ w : Nat, m4 = countDown (2 + (w : Int)) w → w ≤ m5.length → 3 + m5.length ≤ 64 →
      (GetPhyAddress_lambda [m0, m1, m2, m3, m4, m5] (rowOnly row)).column_
        = toI32 (toU64 row % 2 ^ w)) := by
  constructor
  · intro hrow
    have key : ∀ (w off : Nat), 3 + m5.length ≤ off →
        ModuloWidth (GetPhyAddress_new_hex [m0, m1, m2, m3, m4, m5] (rowOnly row)) w off = 0 := by
      intro w off hoff
      apply ModuloWidth_eq_zero
      intro k _
      by_contra hk
      rw [Bool.not_eq_false] at hk
      obtain ⟨-, j, hj, hp, -⟩ := testBit_new_hex_rowOnly m0 m1 m2 m3 m4 m5 row _ hk
      have := hrow _ (getD_mem_of_lt m4 j 0 hj)
      omega
    rw [GetPhyAddress_lambda_six]
    exact ⟨key _ _ (by omega), key _ _ (by omega), key _ _ (by omega), key _ _ (by omega),
      key _ _ (by omega)⟩
  · intro w hm hw h64
    have hlen : m4.length = w := by rw [hm, length_countDown]
    rw [GetPhyAddress_lambda_six]
    show ModuloWidth _ m5.length 3 = _
    unfold ModuloWidth
    congr 1
    apply Nat.eq_of_testBit_eq
    intro k
    rw [Bool.eq_iff_iff, testBit_slice, Nat.testBit_mod_two_pow, Bool.and_eq_true,
      decide_eq_true_eq]
    constructor
    · rintro ⟨-, hb⟩
      obtain ⟨-, j, hj, hp, hbit⟩ := testBit_new_hex_rowOnly m0 m1 m2 m3 m4 m5 row _ hb
      rw [hlen] at hj hbit
      rw [hm, getD_countDown _ _ _ hj] at hp
      have hk : w - 1 - j = k := by omega
      rw [hk] at hbit
      exact ⟨by omega, hbit⟩
    · rintro ⟨hk, hbit⟩
      refine ⟨by omega, ?_⟩
      rw [testBit_new_hex]
      refine ⟨by omega, 4, by simp, w - 1 - k, ?_, ?_, ?_⟩
      · show w - 1 - k < m4.length
        omega
      · show (m4.getD (w - 1 - k) 0).toNat = 3 + k
        rw [hm, getD_countDown _ _ _ (by omega)]
        omega
      · show (toU64 row).testBit (m4.length - 1 - (w - 1 - k)) = true
        have : m4.length - 1 - (w - 1 - k) = k := by omega
        rw [this]
        exact hbit

/-- C15 at the specification `18,17,16,15:13,5:3,12:6`: the three row bits go to bits 5, 4,
3, the low end of the seven-bit column field; row 5 becomes column 5 and everything else
is 0. -/
theorem C15_row_into_column_witness :
    SetPhyAddressMapping plainOps "18,17,16,15:13,5:3,12:6".toList
      = Except.ok (GetPhyAddress_lambda
          [[18], [17], [16], [15, 14, 13], [5, 4, 3], [12, 11, 10, 9, 8, 7, 6]]) ∧
    (∀ p ∈ ([5, 4, 3] : List Int),
      3 ≤ p ∧ p < 3 + ((([12, 11, 10, 9, 8, 7, 6] : List Int).length : Nat) : Int)) ∧
    ([5, 4, 3] : List Int) = countDown (2 + ((3 : Nat) : Int)) 3 ∧
    GetPhyAddress_lambda [[18], [17], [16], [15, 14, 13], [5, 4, 3], [12, 11, 10, 9, 8, 7, 6]]
        (rowOnly 5)
      = { channel_ := 0, rank_ := 0, bankgroup_ := 0, bank_ := 0, row_ := 0, column_ := 5 } := by
  have h := C15_row_into_column [18] [17] [16] [15, 14, 13] [5, 4, 3]
    [12, 11, 10, 9, 8, 7, 6] 5
  have h1 := h.1 (by decide)
  have h2 := h.2 3 (by decide) (by decide) (by decide)
  refine ⟨rfl, by decide, by decide, ?_⟩
  have e : ∀ a b : Address, a.channel_ = b.channel_ → a.rank_ = b.rank_ →
      a.bankgroup_ = b.bankgroup_ → a.bank_ = b.bank_ → a.row_ = b.row_ →
      a.column_ = b.column_ → a = b := by
    intro a b c1 c2 c3 c4 c5 c6
    cases a
    cases b
    simp only [Address.mk.injEq]
    exact ⟨c1, c2, c3, c4, c5, c6⟩
  exact e _ _ h1.1 h1.2.1 h1.2.2.1 h1.2.2.2.1 h1.2.2.2.2 (h2.trans (by decide))

/-! ## C19: the mapper and the remapped command -/

theorem remap_geometry :
    ThermalCalculator_geometry remapConfig 0 0
      = { bank_x := 4, bank_y := 2, vault_x := 0, vault_y := 0, dimX := 8, dimY := 4,
          numP := 1, num_case := 1 } :=
  scenario_geometry

/-- The written-out state of the remap scenario is the state the constructor builds from
the specification string. -/
theorem remapConstruct_eq :
    ThermalCalculator.construct plainOps remapConfig scenarioEnv 0 0 = Except.ok remapState := by
  have hp : SetPhyAddressMapping plainOps remapConfig.loc_mapping
      = Except.ok (GetPhyAddress_lambda remapPositions) := rfl
  unfold ThermalCalculator.construct
  rw [hp]
  show Except.ok (ThermalCalculator.init remapConfig scenarioEnv _ 0 0) = _
  congr 1
  unfold ThermalCalculator.init
  simp only [remap_geometry]
  unfold remapState scenarioState
  congr 1
  · norm_num [remapConfig, scenarioConfig, scenarioEnv]
  · have h1 : upto 1 = [0] := by decide
    rw [h1]
    norm_num [remapConfig, scenarioConfig, scenarioEnv]

set_option maxRecDepth 8000 in
/-- The address that the remap of the scenario makes of bank 5, row 0, column 0. -/
theorem remap_bank5 :
    remapState.GetPhyAddress (activateBank 5).addr_
      = { channel_ := 0, rank_ := 0, bankgroup_ := 0, bank_ := 0, row_ := 5, column_ := 0 } := by
  decide

set_option maxRecDepth 8000 in
theorem remap_code_cells :
    LocationMapping remapConfig remapState (activateBank 5)
      = [20, 20, 20, 20, 20, 20, 20, 20] := by
  decide

theorem remap_code_cells_plain :
    LocationMapping remapConfig scenarioState (activateBank 5)
      = [20, 20, 20, 20, 20, 20, 20, 20] := by
  decide

set_option maxRecDepth 8000 in
theorem remap_post_cells :
    LocationMapping_postRemap remapConfig remapState (activateBank 5)
      = [0, 0, 0, 0, 0, 0, 0, 0] := by
  decide

set_option maxRecDepth 8000 in
theorem remap_refresh_cells :
    LocationMapping_RF remapConfig remapState (activateBank 5) 5 0 = [0, 8] := by
  decide

/-- C19, the code at the failing input.  With the remap specification
`14,13,12,7:5,11:8,4:3` the
address bank 5, row 0 is remapped to bank 0, row 5.  For an `ACTIVATE` to bank 5, row 0
`LocationMappingANDaddEnergy` deposits into cell 20, inside the tile of bank 5: the same
cells as without any remap, because only the column is taken from the remapped address.
A mapper that works on the remapped command deposits into cell 0, inside the tile of
bank 0, and that is where the refresh path `LocationMappingANDaddEnergy_RF` puts the energy
of bank 5, row 0. -/
theorem C19_mapper_raw_fields :
    ThermalCalculator.construct plainOps remapConfig scenarioEnv 0 0 = Except.ok remapState ∧
    remapState.GetPhyAddress (activateBank 5).addr_
      = { channel_ := 0, rank_ := 0, bankgroup_ := 0, bank_ := 0, row_ := 5, column_ := 0 } ∧
    LocationMapping remapConfig remapState (activateBank 5) = [20, 20, 20, 20, 20, 20, 20, 20] ∧
    LocationMapping remapConfig remapState (activateBank 5)
      = LocationMapping remapConfig scenarioState (activateBank 5) ∧
    LocationMapping_postRemap remapConfig remapState (activateBank 5)
      = [0, 0, 0, 0, 0, 0, 0, 0] ∧
    LocationMapping_RF remapConfig remapState (activateBank 5) 5 0 = [0, 8] ∧
    LocationMapping remapConfig remapState (activateBank 5)
      ≠ LocationMapping_postRemap remapConfig remapState (activateBank 5) :=
  ⟨remapConstruct_eq, remap_bank5, remap_code_cells,
    remap_code_cells.trans remap_code_cells_plain.symm, remap_post_cells, remap_refresh_cells,
    by rw [remap_code_cells, remap_post_cells]; decide⟩

/-! ## C16: the remap as a permutation of bits -/

/-- In a list of lists whose concatenation has no duplicate, an entry determines the list
it is in and its index there. -/
theorem flatten_index_inj (L : List (List Int)) (h : L.flatten.Nodup) :
    ∀ i i' j j' : Nat, i < L.length → i' < L.length → j < (L.getD i []).length →
      j' < (L.getD i' []).length → (L.getD i []).getD j 0 = (L.getD i' []).getD j' 0 →
      i = i' ∧ j = j' := by
  induction L with
  | nil => intro i i' j j' hi; exact absurd hi (Nat.not_lt_zero _)
  | cons l L ih =>
    rw [List.flatten_cons, List.nodup_append] at h
    obtain ⟨hl, hL, hd⟩ := h
    have cross : ∀ (j k j' : Nat), j < l.length → k < L.length → j' < (L.getD k []).length →
        l.getD j 0 = (L.getD k []).getD j' 0 → False := by
      intro j k j' hj hk hj' he
      have h1 : l.getD j 0 ∈ l := getD_mem_of_lt l j 0 hj
      have h2 : (L.getD k []).getD j' 0 ∈ L.flatten :=
        List.mem_flatten.mpr ⟨L.getD k [], getD_mem_of_lt L k [] hk,
          getD_mem_of_lt _ j' 0 hj'⟩
      exact hd h1 (he ▸ h2)
    intro i i' j j' hi hi' hj hj' he
    cases i with
    | zero =>
      cases i' with
      | zero =>
        simp only [List.getD_cons_zero] at hj hj' he
        rw [List.getD_eq_getElem l 0 hj, List.getD_eq_getElem l 0 hj'] at he
        exact ⟨rfl, (hl.getElem_inj_iff).mp he⟩
      | succ k =>
        simp only [List.getD_cons_zero, List.getD_cons_succ] at hj hj' he
        exact absurd (cross j k j' hj (by simpa using hi') hj' he) id
    | succ k =>
      cases i' with
      | zero =>
        simp only [List.getD_cons_zero, List.getD_cons_succ] at hj hj' he
        exact absurd (cross j' k j hj' (by simpa using hi) hj he.symm) id
      | succ k' =>
        simp only [List.getD_cons_succ] at hj hj' he
        obtain ⟨e1, e2⟩ := ih hL k k' j j' (by simpa using hi) (by simpa using hi') hj hj' he
        exact ⟨by rw [e1], e2⟩

theorem countP_flip_index (f : Nat → Bool) (w : Nat) :
    (List.range w).countP (fun j => f (w - 1 - j)) = (List.range w).countP f := by
  have h : (List.range w).reverse = (List.range w).map (fun j => w - 1 - j) := by
    have h0 := List.reverse_range' 0 w
    rw [← List.range_eq_range'] at h0
    rw [h0]
    apply List.map_congr_left
    intro x _
    omega
  rw [← List.countP_reverse f (List.range w), h, List.countP_map]
  rfl

theorem countP_by_index (f : Int → Bool) (l : List Int) :
    l.countP f = (List.range l.length).countP (fun j => f (l.getD j 0)) := by
  have h : l = (List.range l.length).map (fun j => l.getD j 0) := by
    apply List.ext_getElem
    · simp
    · intro n h1 h2
      simp [List.getElem?_eq_getElem h1]
  conv_lhs => rw [h]
  rw [List.countP_map]
  rfl

theorem countP_range_shift (f : Nat → Bool) (off w : Nat) :
    (List.range w).countP (fun k => f (off + k)) = (List.range' off w).countP f := by
  rw [List.range'_eq_map_range, List.countP_map]
  rfl

/-- The set bits of a value below `2 ^ w` are among its lowest `w` bits. -/
theorem countP_testBit_of_lt (n w : Nat) (hn : n < 2 ^ w) (hw : w ≤ 64) :
    (List.range 64).countP (fun k => n.testBit k) = (List.range w).countP (fun k => n.testBit k) := by
  have h : List.range 64 = List.range w ++ List.range' w (64 - w) := by
    have h0 := List.range'_append_1 0 w (64 - w)
    rw [Nat.zero_add] at h0
    rw [List.range_eq_range', List.range_eq_range', h0]
    congr 1
    omega
  rw [h, List.countP_append]
  have hz : (List.range' w (64 - w)).countP (fun k => n.testBit k) = 0 := by
    rw [List.countP_eq_zero]
    intro k hk
    rw [List.mem_range'_1] at hk
    have : n < 2 ^ k := lt_of_lt_of_le hn (Nat.pow_le_pow_right (by decide) hk.1)
    rw [Nat.testBit_lt_two_pow this]
    simp
  rw [hz, Nat.add_zero]

theorem enumerates_nodup (mp : List (List Int)) (henum : EnumeratesPositions mp) :
    mp.flatten.Nodup := by
  refine (List.Perm.nodup_iff henum).mpr ?_
  apply List.Nodup.map
  · intro x y h
    exact Int.ofNat.inj h
  · exact List.nodup_range' 3 _

/-- Under the enumeration every listed position lies in `[3, 3 + N)`. -/
theorem entry_range (mp : List (List Int)) (henum : EnumeratesPositions mp) (i j : Nat)
    (hi : i < mp.length) (hj : j < (mp.getD i []).length) :
    3 ≤ (mp.getD i []).getD j 0 ∧ (mp.getD i []).getD j 0 < 3 + (mp.flatten.length : Int) := by
  have hm : (mp.getD i []).getD j 0 ∈ mp.flatten :=
    List.mem_flatten.mpr ⟨mp.getD i [], getD_mem_of_lt mp i [] hi, getD_mem_of_lt _ j 0 hj⟩
  rw [List.Perm.mem_iff henum, List.mem_map] at hm
  obtain ⟨k, hk, he⟩ := hm
  rw [List.mem_range'_1] at hk
  rw [← he]
  simp only [Int.ofNat_eq_coe]
  omega

/-- Under the enumeration every set bit of the packed integer lies in `[3, 3 + N)`. -/
theorem testBit_new_hex_range (mp : List (List Int)) (a : Address)
    (henum : EnumeratesPositions mp) (p : Nat)
    (h : (GetPhyAddress_new_hex mp a).testBit p = true) :
    3 ≤ p ∧ p < 3 + mp.flatten.length := by
  obtain ⟨-, i, hi, j, hj, hp, -⟩ := (testBit_new_hex mp a p).mp h
  have := entry_range mp henum i j hi hj
  omega

/-- Under the enumeration the bit of the packed integer at a listed position is the bit of
the field value that the list sends there. -/
theorem testBit_at_entry (mp : List (List Int)) (a : Address) (henum : EnumeratesPositions mp)
    (h64 : 3 + mp.flatten.length ≤ 64) (i j : Nat) (hi : i < mp.length)
    (hj : j < (mp.getD i []).length) :
    (GetPhyAddress_new_hex mp a).testBit ((mp.getD i []).getD j 0).toNat
      = (toU64 (a.fields.getD i 0)).testBit ((mp.getD i []).length - 1 - j) := by
  have hr := entry_range mp henum i j hi hj
  rw [Bool.eq_iff_iff, testBit_new_hex]
  constructor
  · rintro ⟨-, i', hi', j', hj', hp, hb⟩
    have hr' := entry_range mp henum i' j' hi' hj'
    have he : (mp.getD i' []).getD j' 0 = (mp.getD i []).getD j 0 := by omega
    obtain ⟨e1, e2⟩ := flatten_index_inj mp (enumerates_nodup mp henum) i' i j' j hi' hi hj' hj he
    subst e1
    subst e2
    exact hb
  · intro hb
    exact ⟨by omega, i, hi, j, hj, rfl, hb⟩

theorem lambda_field (mp : List (List Int)) (hlen : mp.length = 6) (a : Address) (i : Nat)
    (hi : i < 6) :
    (GetPhyAddress_lambda mp a).fields.getD i 0
      = ModuloWidth (GetPhyAddress_new_hex mp a) (mp.getD i []).length (fieldOffset mp i) := by
  obtain ⟨m0, m1, m2, m3, m4, m5, rfl⟩ := exists_six mp hlen
  rw [GetPhyAddress_lambda_six]
  interval_cases i
  all_goals
    simp only [Address.fields, fieldOffset, List.getD_cons_zero, List.getD_cons_succ,
      List.drop_succ_cons, List.drop_zero, List.drop_nil, List.map_cons, List.map_nil,
      List.sum_cons, List.sum_nil]
    congr 1 <;> omega

/-- The fields of the second loop tile the positions `[3, 3 + N)`. -/
theorem slot_of_position (mp : List (List Int)) (hlen : mp.length = 6) (p : Nat) (h3 : 3 ≤ p)
    (hN : p < 3 + mp.flatten.length) :
    ∃ i, i < 6 ∧ ∃ k, k < (mp.getD i []).length ∧ p = fieldOffset mp i + k := by
  obtain ⟨m0, m1, m2, m3, m4, m5, rfl⟩ := exists_six mp hlen
  have hf : ([m0, m1, m2, m3, m4, m5] : List (List Int)).flatten.length
      = m0.length + (m1.length + (m2.length + (m3.length + (m4.length + m5.length)))) := by
    simp [List.length_flatten]
  rw [hf] at hN
  have o5 : fieldOffset [m0, m1, m2, m3, m4, m5] 5 = 3 := rfl
  have o4 : fieldOffset [m0, m1, m2, m3, m4, m5] 4 = 3 + (m5.length + 0) := rfl
  have o3 : fieldOffset [m0, m1, m2, m3, m4, m5] 3 = 3 + (m4.length + (m5.length + 0)) := rfl
  have o2 : fieldOffset [m0, m1, m2, m3, m4, m5] 2
      = 3 + (m3.length + (m4.length + (m5.length + 0))) := rfl
  have o1 : fieldOffset [m0, m1, m2, m3, m4, m5] 1
      = 3 + (m2.length + (m3.length + (m4.length + (m5.length + 0)))) := rfl
  have o0 : fieldOffset [m0, m1, m2, m3, m4, m5] 0
      = 3 + (m1.length + (m2.length + (m3.length + (m4.length + (m5.length + 0))))) := rfl
  by_cases c5 : p < 3 + m5.length
  · exact ⟨5, by decide, p - 3, by show p - 3 < m5.length; omega, by rw [o5]; omega⟩
  by_cases c4 : p < 3 + m5.length + m4.length
  · exact ⟨4, by decide, p - (3 + m5.length), by show _ < m4.length; omega, by rw [o4]; omega⟩
  by_cases c3 : p < 3 + m5.length + m4.length + m3.length
  · exact ⟨3, by decide, p - (3 + m5.length + m4.length), by show _ < m3.length; omega,
      by rw [o3]; omega⟩
  by_cases c2 : p < 3 + m5.length + m4.length + m3.length + m2.length
  · exact ⟨2, by decide, p - (3 + m5.length + m4.length + m3.length),
      by show _ < m2.length; omega, by rw [o2]; omega⟩
  by_cases c1 : p < 3 + m5.length + m4.length + m3.length + m2.length + m1.length
  · exact ⟨1, by decide, p - (3 + m5.length + m4.length + m3.length + m2.length),
      by show _ < m1.length; omega, by rw [o1]; omega⟩
  · exact ⟨0, by decide, p - (3 + m5.length + m4.length + m3.length + m2.length + m1.length),
      by show _ < m0.length; omega, by rw [o0]; omega⟩

theorem Address.ext_fields (a b : Address)
    (h : ∀ i, i < 6 → a.fields.getD i 0 = b.fields.getD i 0) : a = b := by
  have h0 := h 0 (by decide)
  have h1 := h 1 (by decide)
  have h2 := h 2 (by decide)
  have h3 := h 3 (by decide)
  have h4 := h 4 (by decide)
  have h5 := h 5 (by decide)
  cases a
  cases b
  simp only [Address.fields, List.getD_cons_zero, List.getD_cons_succ] at h0 h1 h2 h3 h4 h5
  simp only [Address.mk.injEq]
  exact ⟨h0, h1, h2, h3, h4, h5⟩

theorem toU64_of_nat (n : Nat) (h : n < 2 ^ 64) : toU64 (n : Int) = n := by
  unfold toU64
  have : ((n : Int) % 2 ^ 64) = (n : Int) := Int.emod_eq_of_lt (by omega) (by exact_mod_cast h)
  rw [this]
  simp

/-- A field value in `[0, 2 ^ w)` with `w ≤ 64` is read by the lambda as itself. -/
theorem toU64_of_fits (v : Int) (w : Nat) (h0 : 0 ≤ v) (h1 : v < 2 ^ w) (hw : w ≤ 64) :
    ((toU64 v : Nat) : Int) = v ∧ toU64 v < 2 ^ w := by
  obtain ⟨n, rfl⟩ := Int.eq_ofNat_of_zero_le h0
  have hn : n < 2 ^ w := by exact_mod_cast h1
  have h64 : n < 2 ^ 64 := lt_of_lt_of_le hn (Nat.pow_le_pow_right (by decide) hw)
  rw [toU64_of_nat n h64]
  exact ⟨rfl, hn⟩

theorem width_le_31 (mp : List (List Int)) (hlen : mp.length = 6)
    (h31 : ∀ m ∈ mp, m.length ≤ 31) (i : Nat) (hi : i < 6) : (mp.getD i []).length ≤ 31 :=
  h31 _ (getD_mem_of_lt mp i [] (by omega))

/-- The remapped address has every field inside the width of its position list. -/
theorem remap_fits (mp : List (List Int)) (hlen : mp.length = 6)
    (h31 : ∀ m ∈ mp, m.length ≤ 31) (a : Address) :
    FitsWidths mp (GetPhyAddress_lambda mp a) := by
  intro i hi
  rw [lambda_field mp hlen a i hi, ModuloWidth_of_le_31 _ _ _ (width_le_31 mp hlen h31 i hi)]
  constructor
  · exact Int.ofNat_nonneg _
  · exact_mod_cast slice_lt _ _ _

/-- Two addresses with the same remapped address have packed integers with the same
slices. -/
theorem slices_eq (mp : List (List Int)) (hlen : mp.length = 6)
    (h31 : ∀ m ∈ mp, m.length ≤ 31) (a b : Address)
    (hab : GetPhyAddress_lambda mp a = GetPhyAddress_lambda mp b) (i : Nat) (hi : i < 6) :
    (GetPhyAddress_new_hex mp a / 2 ^ fieldOffset mp i) % 2 ^ (mp.getD i []).length
      = (GetPhyAddress_new_hex mp b / 2 ^ fieldOffset mp i) % 2 ^ (mp.getD i []).length := by
  have e : (GetPhyAddress_lambda mp a).fields.getD i 0
      = (GetPhyAddress_lambda mp b).fields.getD i 0 := by rw [hab]
  rw [lambda_field mp hlen a i hi, lambda_field mp hlen b i hi,
    ModuloWidth_of_le_31 _ _ _ (width_le_31 mp hlen h31 i hi),
    ModuloWidth_of_le_31 _ _ _ (width_le_31 mp hlen h31 i hi)] at e
  exact_mod_cast e

theorem new_hex_bits_transfer (mp : List (List Int)) (hlen : mp.length = 6)
    (henum : EnumeratesPositions mp) (a b : Address)
    (hs : ∀ i, i < 6 →
      (GetPhyAddress_new_hex mp a / 2 ^ fieldOffset mp i) % 2 ^ (mp.getD i []).length
        = (GetPhyAddress_new_hex mp b / 2 ^ fieldOffset mp i) % 2 ^ (mp.getD i []).length)
    (p : Nat) (hp : (GetPhyAddress_new_hex mp a).testBit p = true) :
    (GetPhyAddress_new_hex mp b).testBit p = true := by
  obtain ⟨h3, hN⟩ := testBit_new_hex_range mp a henum p hp
  obtain ⟨i, hi, k, hk, rfl⟩ := slot_of_position mp hlen p h3 hN
  have h1 := (testBit_slice (GetPhyAddress_new_hex mp a) _ _ k).mpr ⟨hk, hp⟩
  rw [hs i hi] at h1
  exact ((testBit_slice _ _ _ k).mp h1).2

/-- Under the enumeration the remap is injective on the addresses that fit the widths. -/
theorem remap_injective (mp : List (List Int)) (hlen : mp.length = 6)
    (henum : EnumeratesPositions mp) (h64 : 3 + mp.flatten.length ≤ 64)
    (h31 : ∀ m ∈ mp, m.length ≤ 31) (a b : Address) (ha : FitsWidths mp a)
    (hb : FitsWidths mp b) (hab : GetPhyAddress_lambda mp a = GetPhyAddress_lambda mp b) :
    a = b := by
  have hhex : GetPhyAddress_new_hex mp a = GetPhyAddress_new_hex mp b := by
    apply Nat.eq_of_testBit_eq
    intro p
    rw [Bool.eq_iff_iff]
    exact ⟨new_hex_bits_transfer mp hlen henum a b (slices_eq mp hlen h31 a b hab) p,
      new_hex_bits_transfer mp hlen henum b a (slices_eq mp hlen h31 b a hab.symm) p⟩
  apply Address.ext_fields
  intro i hi
  have hw := width_le_31 mp hlen h31 i hi
  obtain ⟨a0, a1⟩ := ha i hi
  obtain ⟨b0, b1⟩ := hb i hi
  obtain ⟨ea, la⟩ := toU64_of_fits _ _ a0 a1 (by omega)
  obtain ⟨eb, lb⟩ := toU64_of_fits _ _ b0 b1 (by omega)
  have hu : toU64 (a.fields.getD i 0) = toU64 (b.fields.getD i 0) := by
    apply Nat.eq_of_testBit_eq
    intro k
    by_cases hk : k < (mp.getD i []).length
    · have xa := testBit_at_entry mp a henum h64 i ((mp.getD i []).length - 1 - k)
        (by omega) (by omega)
      have xb := testBit_at_entry mp b henum h64 i ((mp.getD i []).length - 1 - k)
        (by omega) (by omega)
      have hkk : (mp.getD i []).length - 1 - ((mp.getD i []).length - 1 - k) = k := by omega
      rw [hkk] at xa xb
      rw [← xa, ← xb, hhex]
    · have h2 : 2 ^ (mp.getD i []).length ≤ 2 ^ k :=
        Nat.pow_le_pow_right (by decide) (by omega)
      rw [Nat.testBit_lt_two_pow (lt_of_lt_of_le la h2),
        Nat.testBit_lt_two_pow (lt_of_lt_of_le lb h2)]
  rw [← ea, ← eb, hu]

/-- The addresses that fit the widths are finitely many. -/
theorem fits_finite (mp : List (List Int)) : {a : Address | FitsWidths mp a}.Finite := by
  let g : Address → Int × Int × Int × Int × Int × Int :=
    fun a => (a.channel_, a.rank_, a.bankgroup_, a.bank_, a.row_, a.column_)
  have hg : Function.Injective g := by
    intro a b h
    cases a
    cases b
    simp only [g, Prod.mk.injEq] at h
    simp only [Address.mk.injEq]
    exact h
  let W : Nat → Set Int := fun i => Set.Icc 0 (2 ^ (mp.getD i []).length)
  have hW : ∀ i, (W i).Finite := fun i => Set.finite_Icc _ _
  have hS : (W 0 ×ˢ (W 1 ×ˢ (W 2 ×ˢ (W 3 ×ˢ (W 4 ×ˢ W 5))))).Finite :=
    (hW 0).prod ((hW 1).prod ((hW 2).prod ((hW 3).prod ((hW 4).prod (hW 5)))))
  refine (hS.preimage hg.injOn).subset ?_
  intro a ha
  have h0 := ha 0 (by decide)
  have h1 := ha 1 (by decide)
  have h2 := ha 2 (by decide)
  have h3 := ha 3 (by decide)
  have h4 := ha 4 (by decide)
  have h5 := ha 5 (by decide)
  simp only [Address.fields, List.getD_cons_zero, List.getD_cons_succ] at h0 h1 h2 h3 h4 h5
  simp only [Set.mem_preimage, Set.mem_prod, Set.mem_Icc, g, W]
  exact ⟨⟨h0.1, h0.2.le⟩, ⟨h1.1, h1.2.le⟩, ⟨h2.1, h2.2.le⟩, ⟨h3.1, h3.2.le⟩, ⟨h4.1, h4.2.le⟩,
    ⟨h5.1, h5.2.le⟩⟩

/-- The set bits of the remapped fields and of the source fields are both counted by the
set bits of the packed integer. -/
theorem bitCount_source (mp : List (List Int)) (hlen : mp.length = 6)
    (henum : EnumeratesPositions mp) (h64 : 3 + mp.flatten.length ≤ 64)
    (h31 : ∀ m ∈ mp, m.length ≤ 31) (a : Address) (ha : FitsWidths mp a) (i : Nat)
    (hi : i < 6) :
    bitCount (a.fields.getD i 0)
      = (mp.getD i []).countP (fun q => (GetPhyAddress_new_hex mp a).testBit q.toNat) := by
  have hw := width_le_31 mp hlen h31 i hi
  obtain ⟨a0, a1⟩ := ha i hi
  obtain ⟨-, la⟩ := toU64_of_fits _ _ a0 a1 (by omega)
  unfold bitCount
  rw [countP_testBit_of_lt _ _ la (by omega), countP_by_index,
    ← countP_flip_index (fun k => (toU64 (a.fields.getD i 0)).testBit k)]
  apply List.countP_congr
  intro j hj
  rw [List.mem_range] at hj
  rw [testBit_at_entry mp a henum h64 i j (by omega) hj]

theorem bitCount_remapped (mp : List (List Int)) (hlen : mp.length = 6)
    (h31 : ∀ m ∈ mp, m.length ≤ 31) (a : Address) (i : Nat) (hi : i < 6) :
    bitCount ((GetPhyAddress_lambda mp a).fields.getD i 0)
      = (List.range' (fieldOffset mp i) (mp.getD i []).length).countP
          (fun p => (GetPhyAddress_new_hex mp a).testBit p) := by
  have hw := width_le_31 mp hlen h31 i hi
  rw [lambda_field mp hlen a i hi, ModuloWidth_of_le_31 _ _ _ hw]
  unfold bitCount
  have hlt := slice_lt (GetPhyAddress_new_hex mp a) (mp.getD i []).length (fieldOffset mp i)
  have h64 : (GetPhyAddress_new_hex mp a / 2 ^ fieldOffset mp i) % 2 ^ (mp.getD i []).length
      < 2 ^ 64 := lt_of_lt_of_le hlt (Nat.pow_le_pow_right (by decide) (by omega))
  rw [toU64_of_nat _ h64, countP_testBit_of_lt _ _ hlt (by omega), ← countP_range_shift]
  apply List.countP_congr
  intro k hk
  rw [List.mem_range] at hk
  rw [testBit_slice]
  exact ⟨fun h => h.2, fun h => ⟨hk, h⟩⟩

theorem setBitCount_eq (a : Address) :
    a.setBitCount = bitCount (a.fields.getD 0 0) + (bitCount (a.fields.getD 1 0)
      + (bitCount (a.fields.getD 2 0) + (bitCount (a.fields.getD 3 0)
      + (bitCount (a.fields.getD 4 0) + bitCount (a.fields.getD 5 0))))) :=
  rfl

theorem countP_range'_add (T : Nat → Bool) (s m n : Nat) :
    (List.range' s (m + n)).countP T
      = (List.range' s m).countP T + (List.range' (s + m) n).countP T := by
  rw [← List.countP_append, List.range'_append_1, Nat.add_comm n m]

/-- Under the enumeration the remap keeps the number of set bits. -/
theorem remap_setBitCount (mp : List (List Int)) (hlen : mp.length = 6)
    (henum : EnumeratesPositions mp) (h64 : 3 + mp.flatten.length ≤ 64)
    (h31 : ∀ m ∈ mp, m.length ≤ 31) (a : Address) (ha : FitsWidths mp a) :
    (GetPhyAddress_lambda mp a).setBitCount = a.setBitCount := by
  have hR := fun i hi => bitCount_remapped mp hlen h31 a i hi
  have hS := fun i hi => bitCount_source mp hlen henum h64 h31 a ha i hi
  rw [setBitCount_eq, setBitCount_eq, hR 0 (by decide), hR 1 (by decide), hR 2 (by decide),
    hR 3 (by decide), hR 4 (by decide), hR 5 (by decide), hS 0 (by decide), hS 1 (by decide),
    hS 2 (by decide), hS 3 (by decide), hS 4 (by decide), hS 5 (by decide)]
  have hperm := List.Perm.countP_eq
    (fun q : Int => (GetPhyAddress_new_hex mp a).testBit q.toNat) henum
  rw [List.countP_map] at hperm
  have hT : (List.range' 3 mp.flatten.length).countP
      ((fun q : Int => (GetPhyAddress_new_hex mp a).testBit q.toNat) ∘ Int.ofNat)
      = (List.range' 3 mp.flatten.length).countP
          (fun p => (GetPhyAddress_new_hex mp a).testBit p) := by
    apply List.countP_congr
    intro p _
    simp
  rw [hT] at hperm
  generalize GetPhyAddress_new_hex mp a = hex at hperm ⊢
  obtain ⟨m0, m1, m2, m3, m4, m5, rfl⟩ := exists_six mp hlen
  have hf : ([m0, m1, m2, m3, m4, m5] : List (List Int)).flatten.length
      = m5.length + m4.length + m3.length + m2.length + m1.length + m0.length := by
    simp [List.length_flatten]
    omega
  have o5 : fieldOffset [m0, m1, m2, m3, m4, m5] 5 = 3 := rfl
  have o4 : fieldOffset [m0, m1, m2, m3, m4, m5] 4 = 3 + m5.length := rfl
  have o3 : fieldOffset [m0, m1, m2, m3, m4, m5] 3 = 3 + (m5.length + m4.length) := by
    simp [fieldOffset]
    omega
  have o2 : fieldOffset [m0, m1, m2, m3, m4, m5] 2
      = 3 + (m5.length + m4.length + m3.length) := by
    simp [fieldOffset]
    omega
  have o1 : fieldOffset [m0, m1, m2, m3, m4, m5] 1
      = 3 + (m5.length + m4.length + m3.length + m2.length) := by
    simp [fieldOffset]
    omega
  have o0 : fieldOffset [m0, m1, m2, m3, m4, m5] 0
      = 3 + (m5.length + m4.length + m3.length + m2.length + m1.length) := by
    simp [fieldOffset]
    omega
  rw [hf, countP_range'_add, countP_range'_add, countP_range'_add, countP_range'_add,
    countP_range'_add] at hperm
  simp only [List.flatten_cons, List.flatten_nil, List.append_nil, List.countP_append] at hperm
  simp only [List.getD_cons_zero, List.getD_cons_succ, o0, o1, o2, o3, o4, o5]
  omega

set_option maxRecDepth 20000 in
theorem wideRow_collision :
    GetPhyAddress_lambda wideRowPositions (rowOnly 0)
      = GetPhyAddress_lambda wideRowPositions (rowOnly 1) := by
  decide

theorem wideRow_enumerates : EnumeratesPositions wideRowPositions := by
  unfold EnumeratesPositions
  decide

theorem remapPositions_enumerates : EnumeratesPositions remapPositions := by
  unfold EnumeratesPositions
  decide

/-- C16, the claim as stated fails for a position list longer than an `int`.  The
specification `42,41,40,39,6:38,5:3` enumerates the positions 3..42 exactly once, with 33 positions
in the row list; rows 0 and 1 both lie below `2^33` and both are remapped to the all-zero
address, because bit 32 of the row field does not fit the `int` that receives it.  With
"below" read on the signed value, column -1 and column 1 are both below `2^1` and the
specification `8,7,6,5,4,3` sends both to column 1. -/
theorem C16_counterexample :
    SetPhyAddressMapping plainOps "42,41,40,39,6:38,5:3".toList
      = Except.ok (GetPhyAddress_lambda wideRowPositions) ∧
    wideRowPositions.length = 6 ∧ EnumeratesPositions wideRowPositions ∧
    3 + wideRowPositions.flatten.length ≤ 64 ∧
    FitsWidths wideRowPositions (rowOnly 0) ∧ FitsWidths wideRowPositions (rowOnly 1) ∧
    rowOnly 0 ≠ rowOnly 1 ∧
    GetPhyAddress_lambda wideRowPositions (rowOnly 0)
      = GetPhyAddress_lambda wideRowPositions (rowOnly 1) ∧
    ¬ Set.BijOn (GetPhyAddress_lambda wideRowPositions) {a | FitsWidths wideRowPositions a}
      {a | FitsWidths wideRowPositions a} ∧
    EnumeratesPositions oneBitPositions ∧
    BelowWidths oneBitPositions (columnOnly (-1)) ∧ BelowWidths oneBitPositions (columnOnly 1) ∧
    columnOnly (-1) ≠ columnOnly 1 ∧
    GetPhyAddress_lambda oneBitPositions (columnOnly (-1))
      = GetPhyAddress_lambda oneBitPositions (columnOnly 1) := by
  refine ⟨rfl, rfl, wideRow_enumerates, by decide, by decide, by decide, by decide,
    wideRow_collision, ?_, ?_, by decide, by decide, by decide, by decide⟩
  · intro hb
    have h := hb.injOn (show rowOnly 0 ∈ {a | FitsWidths wideRowPositions a} by decide)
      (show rowOnly 1 ∈ {a | FitsWidths wideRowPositions a} by decide) wideRow_collision
    exact absurd h (by decide)
  · unfold EnumeratesPositions
    decide

/-- C16 (amended): when the six position lists together enumerate each bit position
`3, 4, ..., 3 + N - 1` exactly once, all positions are below 64 (`3 + N ≤ 64`) and no list
has more than 31 entries, `GetPhyAddress` is a bijection on the set of addresses whose
every field value lies in `[0, 2 ^ (length of that field's list))`, and it keeps the
number of set bits of the six fields. -/
theorem C16_remap_bijection (mapped_pos : List (List Int)) (hlen : mapped_pos.length = 6)
    (henum : EnumeratesPositions mapped_pos) (h64 : 3 + mapped_pos.flatten.length ≤ 64)
    (h31 : ∀ m ∈ mapped_pos, m.length ≤ 31) :
    Set.BijOn (GetPhyAddress_lambda mapped_pos) {a | FitsWidths mapped_pos a}
      {a | FitsWidths mapped_pos a} ∧
    ∀ a, FitsWidths mapped_pos a →
      (GetPhyAddress_lambda mapped_pos a).setBitCount = a.setBitCount := by
  have hmaps : Set.MapsTo (GetPhyAddress_lambda mapped_pos) {a | FitsWidths mapped_pos a}
      {a | FitsWidths mapped_pos a} := fun a _ => remap_fits mapped_pos hlen h31 a
  have hinj : Set.InjOn (GetPhyAddress_lambda mapped_pos) {a | FitsWidths mapped_pos a} :=
    fun a ha b hb hab => remap_injective mapped_pos hlen henum h64 h31 a b ha hb hab
  exact ⟨((fits_finite mapped_pos).injOn_iff_bijOn_of_mapsTo hmaps).mp hinj,
    fun a ha => remap_setBitCount mapped_pos hlen henum h64 h31 a ha⟩

/-- C16 at the specification `14,13,12,7:5,11:8,4:3`, which enumerates the positions 3..14: the
remap is a bijection of the addresses with a 3-bit bank, a 4-bit row and a 2-bit column,
and bank 5, row 9, column 2 keeps its five set bits. -/
theorem C16_remap_bijection_witness :
    remapPositions.length = 6 ∧ EnumeratesPositions remapPositions ∧
    3 + remapPositions.flatten.length ≤ 64 ∧ (∀ m ∈ remapPositions, m.length ≤ 31) ∧
    FitsWidths remapPositions remapSample ∧
    Set.BijOn (GetPhyAddress_lambda remapPositions) {a | FitsWidths remapPositions a}
      {a | FitsWidths remapPositions a} ∧
    (GetPhyAddress_lambda remapPositions remapSample).setBitCount = 5 :=
  have h := C16_remap_bijection remapPositions rfl remapPositions_enumerates (by decide)
    (by decide)
  ⟨rfl, remapPositions_enumerates, by decide, by decide, by decide, h.1,
    (h.2 remapSample (by decide)).trans (by decide)⟩

/-! ## C21 to C23: vault and bank coordinates -/

theorem tdiv_tmod_nonneg (c a : Int) (hc : 0 ≤ c) (ha : 0 ≤ a) :
    c.tdiv a = c / a ∧ c.tmod a = c % a :=
  ⟨Int.tdiv_eq_ediv hc ha, Int.tmod_eq_emod hc ha⟩

/-- Quotient and remainder by `a` map `[0, a * b)` one-to-one onto `[0, a) x [0, b)`,
remainder first. -/
theorem bijOn_mod_div (a b n : Int) (ha : 1 ≤ a) (h : a * b = n) :
    Set.BijOn (fun c : Int => (c % a, c / a)) (Set.Ico 0 n) (Set.Ico 0 a ×ˢ Set.Ico 0 b) := by
  have ha0 : 0 < a := by omega
  refine ⟨?_, ?_, ?_⟩
  · rintro c ⟨c0, c1⟩
    refine ⟨⟨Int.emod_nonneg c (by omega), Int.emod_lt_of_pos c ha0⟩,
      ⟨Int.ediv_nonneg c0 (by omega), ?_⟩⟩
    apply Int.ediv_lt_of_lt_mul ha0
    rw [mul_comm, h]
    exact c1
  · rintro c1 - c2 - heq
    simp only [Prod.mk.injEq] at heq
    have e1 := Int.emod_add_ediv c1 a
    have e2 := Int.emod_add_ediv c2 a
    rw [heq.1, heq.2] at e1
    omega
  · rintro ⟨x, y⟩ ⟨⟨x0, x1⟩, ⟨y0, y1⟩⟩
    refine ⟨x + y * a, ⟨by nlinarith, ?_⟩, ?_⟩
    · rw [← h]
      nlinarith
    · simp only [Prod.mk.injEq]
      constructor
      · rw [Int.add_mul_emod_self, Int.emod_eq_of_lt x0 x1]
      · rw [Int.add_mul_ediv_right _ _ (by omega), Int.ediv_eq_zero_of_lt x0 x1]
        omega

/-- Quotient and remainder by `b` map `[0, a * b)` one-to-one onto `[0, a) x [0, b)`,
quotient first. -/
theorem bijOn_div_mod (a b n : Int) (hb : 1 ≤ b) (h : a * b = n) :
    Set.BijOn (fun c : Int => (c / b, c % b)) (Set.Ico 0 n) (Set.Ico 0 a ×ˢ Set.Ico 0 b) := by
  have hb0 : 0 < b := by omega
  refine ⟨?_, ?_, ?_⟩
  · rintro c ⟨c0, c1⟩
    refine ⟨⟨Int.ediv_nonneg c0 (by omega), ?_⟩,
      ⟨Int.emod_nonneg c (by omega), Int.emod_lt_of_pos c hb0⟩⟩
    apply Int.ediv_lt_of_lt_mul hb0
    rw [h]
    exact c1
  · rintro c1 - c2 - heq
    simp only [Prod.mk.injEq] at heq
    have e1 := Int.emod_add_ediv c1 b
    have e2 := Int.emod_add_ediv c2 b
    rw [heq.1, heq.2] at e1
    omega
  · rintro ⟨x, y⟩ ⟨⟨x0, x1⟩, ⟨y0, y1⟩⟩
    refine ⟨y + x * b, ⟨by nlinarith, ?_⟩, ?_⟩
    · rw [← h]
      nlinarith
    · simp only [Prod.mk.injEq]
      constructor
      · rw [Int.add_mul_ediv_right _ _ (by omega), Int.ediv_eq_zero_of_lt y0 y1]
        omega
      · rw [Int.add_mul_emod_self, Int.emod_eq_of_lt y0 y1]

theorem bijOn_congr_on {α β : Type} (f g : α → β) (s : Set α) (t : Set β)
    (h : ∀ x ∈ s, f x = g x) (hg : Set.BijOn g s t) : Set.BijOn f s t :=
  hg.congr (fun x hx => (h x hx).symm)

/-- The vault layout built by the constructor for the 3D-stacked topology. -/
theorem init_stacked_vaults (cfg : Config) (env : ThermalEnv) (phy : Address → Address)
    (vx0 vy0 : Int) (hmc : cfg.IsHMC = true) (h1 : 1 ≤ cfg.channels) :
    1 ≤ (ThermalCalculator.init cfg env phy vx0 vy0).vault_x ∧
    1 ≤ (ThermalCalculator.init cfg env phy vx0 vy0).vault_y ∧
    (ThermalCalculator.init cfg env phy vx0 vy0).vault_x
      * (ThermalCalculator.init cfg env phy vx0 vy0).vault_y = cfg.channels := by
  have e1 : (ThermalCalculator.init cfg env phy vx0 vy0).vault_x
      = (ThermalCalculator_geometry cfg vx0 vy0).vault_x := rfl
  have e2 : (ThermalCalculator.init cfg env phy vx0 vy0).vault_y
      = (ThermalCalculator_geometry cfg vx0 vy0).vault_y := rfl
  rw [e1, e2]
  unfold ThermalCalculator_geometry
  rw [if_pos hmc]
  exact determineXY_pos_dvd _ _ cfg.channels h1

theorem MapToVault_stacked (cfg : Config) (tc : ThermalCalculator) (cmd : Command)
    (hmc : cfg.IsHMC = true) :
    MapToVault cfg tc cmd
      = (if cfg.bank_order = 0 then (cmd.Channel.tmod tc.vault_x, cmd.Channel.tdiv tc.vault_x)
          else (cmd.Channel.tdiv tc.vault_y, cmd.Channel.tmod tc.vault_y)) := by
  unfold MapToVault
  rw [if_pos hmc]
  by_cases h : cfg.bank_order = 0
  · simp only [h, if_true]
  · simp only [h, if_false]

/-- C22. `MapToVault` in the 3D-stacked topology: with a vault layout of positive factors
whose product is the channel count (the layout the constructor builds), row-major priority
(`bank_order = 0`) sends channel `c` to `(c mod vault_x, c div vault_x)`, column-major
priority sends it to `(c div vault_y, c mod vault_y)`, and under both priorities the
channels `0 <= c < channels` are mapped one-to-one onto `[0, vault_x) x [0, vault_y)`.  In
a planar topology the result is `(0, 0)`. -/
theorem C22_MapToVault_stacked (cfg : Config) (env : ThermalEnv) (phy : Address → Address)
    (vx0 vy0 : Int) (tc : ThermalCalculator) (cmd : Command) :
    (cfg.IsHMC = true → 1 ≤ tc.vault_x → 1 ≤ tc.vault_y →
      tc.vault_x * tc.vault_y = cfg.channels →
      Set.BijOn (fun c : Int => MapToVault cfg tc (channelCommand cmd c))
        (Set.Ico 0 cfg.channels) (Set.Ico 0 tc.vault_x ×ˢ Set.Ico 0 tc.vault_y) ∧
      (cfg.bank_order = 0 → ∀ c : Int, 0 ≤ c →
        MapToVault cfg tc (channelCommand cmd c) = (c % tc.vault_x, c / tc.vault_x)) ∧
      (cfg.bank_order ≠ 0 → ∀ c : Int, 0 ≤ c →
        MapToVault cfg tc (channelCommand cmd c) = (c / tc.vault_y, c % tc.vault_y))) ∧
    (cfg.IsHMC = true → 1 ≤ cfg.channels →
      1 ≤ (ThermalCalculator.init cfg env phy vx0 vy0).vault_x ∧
      1 ≤ (ThermalCalculator.init cfg env phy vx0 vy0).vault_y ∧
      (ThermalCalculator.init cfg env phy vx0 vy0).vault_x
        * (ThermalCalculator.init cfg env phy vx0 vy0).vault_y = cfg.channels) ∧
    (cfg.IsHMC = false → cfg.IsHBM = false → MapToVault cfg tc cmd = (0, 0)) := by
  refine ⟨?_, init_stacked_vaults cfg env phy vx0 vy0, ?_⟩
  · intro hmc hx hy hxy
    have hrow : cfg.bank_order = 0 → ∀ c : Int, 0 ≤ c →
        MapToVault cfg tc (channelCommand cmd c) = (c % tc.vault_x, c / tc.vault_x) := by
      intro ho c hc
      rw [MapToVault_stacked cfg tc _ hmc, if_pos ho]
      show ((c.tmod tc.vault_x, c.tdiv tc.vault_x) : Int × Int) = _
      rw [(tdiv_tmod_nonneg c tc.vault_x hc (by omega)).1,
        (tdiv_tmod_nonneg c tc.vault_x hc (by omega)).2]
    have hcol : cfg.bank_order ≠ 0 → ∀ c : Int, 0 ≤ c →
        MapToVault cfg tc (channelCommand cmd c) = (c / tc.vault_y, c % tc.vault_y) := by
      intro ho c hc
      rw [MapToVault_stacked cfg tc _ hmc, if_neg ho]
      show ((c.tdiv tc.vault_y, c.tmod tc.vault_y) : Int × Int) = _
      rw [(tdiv_tmod_nonneg c tc.vault_y hc (by omega)).1,
        (tdiv_tmod_nonneg c tc.vault_y hc (by omega)).2]
    refine ⟨?_, hrow, hcol⟩
    by_cases ho : cfg.bank_order = 0
    · exact bijOn_congr_on _ _ _ _ (fun c hc => hrow ho c hc.1)
        (bijOn_mod_div tc.vault_x tc.vault_y cfg.channels hx hxy)
    · exact bijOn_congr_on _ _ _ _ (fun c hc => hcol ho c hc.1)
        (bijOn_div_mod tc.vault_x tc.vault_y cfg.channels hy hxy)
  · intro hmc hbm
    unfold MapToVault
    rw [hmc, hbm]
    rfl

/-- C22 at the 3D-stacked configuration with 16 channels. -/
theorem C22_MapToVault_stacked_witness :
    stackedConfig.IsHMC = true ∧ 1 ≤ stackedConfig.channels ∧
    Set.BijOn
      (fun c : Int => MapToVault stackedConfig
        (ThermalCalculator.init stackedConfig scenarioEnv (fun a => a) 0 0)
        (channelCommand (stackedBank 0) c))
      (Set.Ico 0 stackedConfig.channels)
      (Set.Ico 0 (ThermalCalculator.init stackedConfig scenarioEnv (fun a => a) 0 0).vault_x
        ×ˢ Set.Ico 0
          (ThermalCalculator.init stackedConfig scenarioEnv (fun a => a) 0 0).vault_y) :=
  have h := C22_MapToVault_stacked stackedConfig scenarioEnv (fun a => a) 0 0
    (ThermalCalculator.init stackedConfig scenarioEnv (fun a => a) 0 0) (stackedBank 0)
  have hv := h.2.1 rfl (by decide)
  ⟨rfl, by decide, (h.1 rfl hv.1 hv.2.1 hv.2.2).1⟩

/-- The bank id that `MapToBank` decomposes. -/
theorem MapToBank_congr (cfg : Config) (tc : ThermalCalculator) (c1 c2 : Command)
    (h : (if cfg.bankgroups > 1 ∧ c1.IsRefresh = false then
            c1.Bank + c1.Bankgroup * cfg.banks_per_group else c1.Bank)
        = (if cfg.bankgroups > 1 ∧ c2.IsRefresh = false then
            c2.Bank + c2.Bankgroup * cfg.banks_per_group else c2.Bank)) :
    MapToBank cfg tc c1 = MapToBank cfg tc c2 := by
  unfold MapToBank
  simp only [h]

/-- C21. Bank-group folding in `MapToBank`: when `bankgroups > 1`, a non-refresh command
with bank group `g` and bank `b` gets the bank coordinates of a refresh command that
carries the raw bank id `g * banks_per_group + b`; for a refresh command the bank-group
field is never added to the bank id, so its coordinates do not depend on that field. -/
theorem C21_bank_group_folding (cfg : Config) (tc : ThermalCalculator) (cmd rf : Command) :
    (cfg.bankgroups > 1 → cmd.IsRefresh = false → rf.IsRefresh = true →
      rf.Bank = cmd.Bankgroup * cfg.banks_per_group + cmd.Bank →
      MapToBank cfg tc cmd = MapToBank cfg tc rf) ∧
    (rf.IsRefresh = true → ∀ g : Int,
      MapToBank cfg tc (bankCommand rf g rf.Bank) = MapToBank cfg tc rf) := by
  constructor
  · intro hg hc hr hb
    apply MapToBank_congr
    rw [if_pos ⟨hg, hc⟩, if_neg (by rw [hr]; simp), hb]
    ring
  · intro hr g
    apply MapToBank_congr
    have h2 : (bankCommand rf g rf.Bank).IsRefresh = true := hr
    rw [if_neg (by rw [h2]; simp), if_neg (by rw [hr]; simp)]
    rfl

/-- C21 at two bank groups of four banks: a `READ` to group 1, bank 2 and a refresh of the
raw bank 6 have the same bank coordinates. -/
theorem C21_bank_group_folding_witness :
    groupedConfig.bankgroups > 1 ∧ (readBank 1 2).IsRefresh = false ∧
    (refreshBank 6).IsRefresh = true ∧
    (refreshBank 6).Bank = (readBank 1 2).Bankgroup * groupedConfig.banks_per_group
      + (readBank 1 2).Bank ∧
    MapToBank groupedConfig scenarioState (readBank 1 2)
      = MapToBank groupedConfig scenarioState (refreshBank 6) :=
  ⟨by decide, rfl, rfl, by decide,
    (C21_bank_group_folding groupedConfig scenarioState (readBank 1 2) (refreshBank 6)).1
      (by decide) rfl rfl (by decide)⟩

/-- The bank coordinates of a non-refresh command in the wide-I/O-stacked topology with 4
bank groups of 4 banks. -/
theorem MapToBank_wide (cfg : Config) (tc : ThermalCalculator) (cmd : Command) (g b : Int)
    (hmc : cfg.IsHMC = false) (hbm : cfg.IsHBM = true) (hg : cfg.bankgroups = 4)
    (hp : cfg.banks_per_group = 4) (hr : cmd.IsRefresh = false) (g0 : 0 ≤ g) (b0 : 0 ≤ b)
    (b1 : b < 4) :
    MapToBank cfg tc (bankCommand cmd g b) = (g * 2 + b / 2, b % 2) := by
  have hr2 : (bankCommand cmd g b).IsRefresh = false := hr
  have e1 : (bankCommand cmd g b).Bank = b := rfl
  have e2 : (bankCommand cmd g b).Bankgroup = g := rfl
  unfold MapToBank
  rw [hmc, hbm, hg, hp, hr2, e1, e2]
  simp only [Bool.false_eq_true, if_false, if_true, gt_iff_lt, and_true]
  rw [if_pos (by decide)]
  have h0 : 0 ≤ b + g * 4 := by omega
  rw [(tdiv_tmod_nonneg (b + g * 4) 4 h0 (by decide)).1,
    (tdiv_tmod_nonneg (b + g * 4) 4 h0 (by decide)).2]
  have h1 : 0 ≤ (b + g * 4) % 4 := Int.emod_nonneg _ (by decide)
  rw [(tdiv_tmod_nonneg ((b + g * 4) % 4) 2 h1 (by decide)).1,
    (tdiv_tmod_nonneg ((b + g * 4) % 4) 2 h1 (by decide)).2]
  simp only [Prod.mk.injEq]
  constructor <;> omega

/-- C23. Wide-I/O-stacked layout: with 4 bank groups of 4 banks `MapToBank` maps the 16
(bank group, bank) pairs of a non-refresh command one-to-one onto the 8 x 2 bank layout
`[0, 8) x [0, 2)`, and `MapToVault` maps channel `c` to `(0, c mod 2)`, inside the 1 x 2
vault layout; `bank_order` is not looked at.  The constructor sets the bank layout to
8 x 2 and the vault layout to 1 x 2. -/
theorem C23_wide_io_layout (cfg : Config) (env : ThermalEnv) (phy : Address → Address)
    (vx0 vy0 : Int) (tc : ThermalCalculator) (cmd : Command) :
    (cfg.IsHMC = false → cfg.IsHBM = true → cfg.bankgroups = 4 → cfg.banks_per_group = 4 →
      cmd.IsRefresh = false →
      Set.BijOn (fun p : Int × Int => MapToBank cfg tc (bankCommand cmd p.1 p.2))
        (Set.Ico 0 4 ×ˢ Set.Ico 0 4) (Set.Ico 0 8 ×ˢ Set.Ico 0 2)) ∧
    (cfg.IsHMC = false → cfg.IsHBM = true → ∀ c : Int,
      MapToVault cfg tc (channelCommand cmd c) = (0, c.tmod 2) ∧
      (0 ≤ c → MapToVault cfg tc (channelCommand cmd c) = (0, c % 2) ∧
        MapToVault cfg tc (channelCommand cmd c) ∈ Set.Ico (0 : Int) 1 ×ˢ Set.Ico (0 : Int) 2)) ∧
    (cfg.IsHMC = false → cfg.IsHBM = true →
      (ThermalCalculator.init cfg env phy vx0 vy0).bank_x = 8 ∧
      (ThermalCalculator.init cfg env phy vx0 vy0).bank_y = 2 ∧
      (ThermalCalculator.init cfg env phy vx0 vy0).vault_x = 1 ∧
      (ThermalCalculator.init cfg env phy vx0 vy0).vault_y = 2) := by
  refine ⟨?_, ?_, ?_⟩
  · intro hmc hbm hg hp hr
    have hf : ∀ p ∈ (Set.Ico (0 : Int) 4 ×ˢ Set.Ico (0 : Int) 4),
        MapToBank cfg tc (bankCommand cmd p.1 p.2) = (p.1 * 2 + p.2 / 2, p.2 % 2) := by
      rintro ⟨g, b⟩ ⟨⟨g0, -⟩, ⟨b0, b1⟩⟩
      exact MapToBank_wide cfg tc cmd g b hmc hbm hg hp hr g0 b0 b1
    apply bijOn_congr_on _ _ _ _ hf
    refine ⟨?_, ?_, ?_⟩
    · rintro ⟨g, b⟩ ⟨⟨g0, g1⟩, ⟨b0, b1⟩⟩
      simp only [Set.mem_prod, Set.mem_Ico] at *
      omega
    · rintro ⟨g, b⟩ ⟨⟨g0, g1⟩, ⟨b0, b1⟩⟩ ⟨g', b'⟩ ⟨⟨g0', g1'⟩, ⟨b0', b1'⟩⟩ heq
      simp only [Prod.mk.injEq] at heq
      simp only [Set.mem_Ico] at *
      simp only [Prod.mk.injEq]
      omega
    · rintro ⟨x, y⟩ ⟨⟨x0, x1⟩, ⟨y0, y1⟩⟩
      simp only [Set.mem_Ico] at *
      refine ⟨(x / 2, 2 * (x % 2) + y), ?_, ?_⟩
      · simp only [Set.mem_prod, Set.mem_Ico]
        omega
      · simp only [Prod.mk.injEq]
        omega
  · intro hmc hbm c
    have e : MapToVault cfg tc (channelCommand cmd c) = (0, c.tmod 2) := by
      unfold MapToVault
      rw [hmc, hbm]
      rfl
    refine ⟨e, ?_⟩
    intro hc
    rw [e, (tdiv_tmod_nonneg c 2 hc (by decide)).2]
    refine ⟨rfl, ?_⟩
    simp only [Set.mem_prod, Set.mem_Ico]
    omega
  · intro hmc hbm
    show (ThermalCalculator_geometry cfg vx0 vy0).bank_x = 8 ∧
      (ThermalCalculator_geometry cfg vx0 vy0).bank_y = 2 ∧
      (ThermalCalculator_geometry cfg vx0 vy0).vault_x = 1 ∧
      (ThermalCalculator_geometry cfg vx0 vy0).vault_y = 2
    unfold ThermalCalculator_geometry
    rw [hmc, hbm]
    exact ⟨rfl, rfl, rfl, rfl⟩

/-- C23 at the wide-I/O-stacked configuration with 8 channels: the 16 banks of a `READ`
fill the 8 x 2 layout and channel 5 is in vault `(0, 1)`. -/
theorem C23_wide_io_layout_witness :
    wideConfig.IsHMC = false ∧ wideConfig.IsHBM = true ∧ wideConfig.bankgroups = 4 ∧
    wideConfig.banks_per_group = 4 ∧ (readBank 0 0).IsRefresh = false ∧
    Set.BijOn (fun p : Int × Int => MapToBank wideConfig scenarioState
        (bankCommand (readBank 0 0) p.1 p.2))
      (Set.Ico 0 4 ×ˢ Set.Ico 0 4) (Set.Ico 0 8 ×ˢ Set.Ico 0 2) ∧
    MapToVault wideConfig scenarioState (channelCommand (readBank 0 0) 5) = (0, 1) :=
  have h := C23_wide_io_layout wideConfig scenarioEnv (fun a => a) 0 0 scenarioState
    (readBank 0 0)
  ⟨rfl, rfl, rfl, rfl, rfl, h.1 rfl rfl rfl rfl rfl,
    ((h.2.1 rfl rfl 5).2 (by decide)).1.trans (by decide)⟩

/-! ## C24: the iteration count of the transient solver -/

/-- The loop of `calculate_time_step` ends at `k + d` when the stability test fails for the
`d` values from `k` on and holds at `k + d`, given at least `d + 1` evaluations. -/
theorem calculate_time_step_loop_run (T dt : ℚ) (d : Nat) :
    ∀ (k : Int) (fuel : Nat), d + 1 ≤ fuel →
      T / ((k + (d : Int) : Int) : ℚ) < dt →
      (∀ j : Nat, j < d → T / ((k + (j : Int) : Int) : ℚ) ≥ dt) →
      calculate_time_step_loop T dt fuel k = some (k + (d : Int)) := by
  induction d with
  | zero =>
    intro k fuel hf hlt _
    obtain ⟨f, rfl⟩ : ∃ f, fuel = f + 1 := ⟨fuel - 1, by omega⟩
    have hk : k + ((0 : Nat) : Int) = k := by simp
    rw [hk] at hlt
    rw [hk, calculate_time_step_loop, if_neg (not_le.mpr hlt)]
  | succ d ih =>
    intro k fuel hf hlt hge
    obtain ⟨f, rfl⟩ : ∃ f, fuel = f + 1 := ⟨fuel - 1, by omega⟩
    have h0 := hge 0 (Nat.succ_pos d)
    have hk : k + ((0 : Nat) : Int) = k := by simp
    rw [hk] at h0
    rw [calculate_time_step_loop, if_pos h0]
    have e : k + ((d + 1 : Nat) : Int) = k + 1 + (d : Int) := by push_cast; ring
    rw [e] at hlt ⊢
    apply ih (k + 1) f (by omega) hlt
    intro j hj
    have := hge (j + 1) (by omega)
    have e2 : k + ((j + 1 : Nat) : Int) = k + 1 + (j : Int) := by push_cast; ring
    rw [e2] at this
    exact this

/-- For a positive step some iteration count from 10 on meets the stability condition. -/
theorem exists_stable_count (T dt : ℚ) (hdt : 0 < dt) :
    ∃ d : Nat, T / (((10 : Int) + (d : Int) : Int) : ℚ) < dt := by
  obtain ⟨d, hd⟩ := exists_nat_gt (T / dt)
  refine ⟨d, ?_⟩
  have hpos : (0 : ℚ) < (((10 : Int) + (d : Int) : Int) : ℚ) := by
    push_cast
    positivity
  rw [div_lt_iff₀ hpos]
  have h1 : T < dt * (d : ℚ) := by
    have := (div_lt_iff₀ hdt).mp hd
    linarith [mul_comm (d : ℚ) dt]
  push_cast
  nlinarith

/-- C24. Transient iteration count: for every maximum stable step `dt > 0` and every epoch
time `T` (so for every `T >= 0`) the loop of `calculate_time_step` ends, and it sets
`time_iter` to the least integer `n >= 10` with `T / n < dt`; so `T / time_iter < dt` and
`time_iter >= 10`, in exact rational arithmetic.  This is the value `calculate_time_step` computes whenever its
first loop yields `dt` and the epoch time `power_epoch_period * tCK * 1e-9` is `T`. -/
theorem C24_time_iter (T dt : ℚ) (hdt : 0 < dt) :
    ∃ n : Int,
      (∃ fuel0 : Nat, ∀ fuel, fuel0 ≤ fuel →
        calculate_time_step_loop T dt fuel 10 = some n) ∧
      10 ≤ n ∧ T / (n : ℚ) < dt ∧
      (∀ m : Int, 10 ≤ m → T / (m : ℚ) < dt → n ≤ m) ∧
      (∀ (cfg : Config) (env : ThermalEnv) (tc : ThermalCalculator) (Midx : List (List ℚ))
        (MidxSize : Int) (Cap : List ℚ), power_epoch_time cfg = T →
        calculate_time_step_dt env tc Midx MidxSize Cap = dt →
        ∃ fuel0 : Nat, ∀ fuel, fuel0 ≤ fuel →
          calculate_time_step cfg env tc Midx MidxSize Cap fuel = some n) := by
  classical
  have hex := exists_stable_count T dt hdt
  have hspec := Nat.find_spec hex
  have hrun : ∀ fuel, Nat.find hex + 1 ≤ fuel →
      calculate_time_step_loop T dt fuel 10 = some (10 + (Nat.find hex : Int)) := by
    intro fuel hf
    apply calculate_time_step_loop_run T dt (Nat.find hex) 10 fuel hf hspec
    intro j hj
    exact not_lt.mp (Nat.find_min hex hj)
  refine ⟨10 + (Nat.find hex : Int), ⟨Nat.find hex + 1, hrun⟩, by omega, hspec, ?_, ?_⟩
  · intro m hm hlt
    obtain ⟨j, hj⟩ : ∃ j : Nat, m = 10 + (j : Int) := ⟨(m - 10).toNat, by omega⟩
    rw [hj] at hlt
    have := Nat.find_min' hex hlt
    omega
  · intro cfg env tc Midx MidxSize Cap h1 h2
    refine ⟨Nat.find hex + 1, ?_⟩
    intro fuel hf
    unfold calculate_time_step
    rw [h1, h2]
    exact hrun fuel hf

/-- C24 at an epoch time of 1 s and a stable step of 50 ms: 21 iterations. -/
theorem C24_time_iter_witness :
    (0 : ℚ) < 1 / 20 ∧
    ∃ n : Int,
      (∃ fuel0 : Nat, ∀ fuel, fuel0 ≤ fuel →
        calculate_time_step_loop 1 (1 / 20) fuel 10 = some n) ∧
      10 ≤ n ∧ (1 : ℚ) / (n : ℚ) < 1 / 20 ∧ n = 21 := by
  obtain ⟨n, hrun, h10, hlt, hmin, -⟩ := C24_time_iter 1 (1 / 20) (by norm_num)
  refine ⟨by norm_num, n, hrun, h10, hlt, ?_⟩
  have h21 := hmin 21 (by norm_num) (by norm_num)
  have hpos : (0 : ℚ) < (n : ℚ) := by
    have : (10 : ℚ) ≤ (n : ℚ) := by exact_mod_cast h10
    linarith
  have h20 : (20 : ℚ) < (n : ℚ) := by
    by_contra hc
    have h1 : (1 : ℚ) / 20 ≤ 1 / (n : ℚ) := one_div_le_one_div_of_le hpos (not_lt.mp hc)
    linarith
  have : (20 : Int) < n := by exact_mod_cast h20
  omega

/-! ## C26: the maximum temperature -/

/-- The running maximum of `GetMaxT` from the value `m` over the indices `l`. -/
theorem GetMaxT_fold (s : Int → ℚ) (l : List Int) :
    ∀ m : ℚ,
      m ≤ l.foldl (fun maxT i => if s i > maxT then s i else maxT) m ∧
      (∀ i ∈ l, s i ≤ l.foldl (fun maxT i => if s i > maxT then s i else maxT) m) ∧
      (l.foldl (fun maxT i => if s i > maxT then s i else maxT) m = m ∨
        ∃ i ∈ l, l.foldl (fun maxT i => if s i > maxT then s i else maxT) m = s i) := by
  induction l with
  | nil =>
    intro m
    exact ⟨le_refl _, fun i hi => absurd hi (List.not_mem_nil _), Or.inl rfl⟩
  | cons a r ih =>
    intro m
    simp only [List.foldl_cons]
    obtain ⟨h1, h2, h3⟩ := ih (if s a > m then s a else m)
    have hm : m ≤ (if s a > m then s a else m) := by
      split
      · linarith
      · exact le_refl _
    have ha : s a ≤ (if s a > m then s a else m) := by
      split
      · exact le_refl _
      · linarith
    refine ⟨le_trans hm h1, ?_, ?_⟩
    · intro i hi
      rcases List.mem_cons.mp hi with rfl | hi
      · exact le_trans ha h1
      · exact h2 i hi
    · rcases h3 with h3 | ⟨i, hi, h3⟩
      · by_cases hc : s a > m
        · rw [if_pos hc] at h3
          exact Or.inr ⟨a, List.mem_cons_self _ _, by rw [if_pos hc]; exact h3⟩
        · rw [if_neg hc] at h3
          exact Or.inl (by rw [if_neg hc]; exact h3)
      · exact Or.inr ⟨i, List.mem_cons_of_mem _ hi, h3⟩

/-- C26, the claim as stated fails for a field below zero: with the single sample -1 the
result of `GetMaxT` is 0, which is not one of the samples. -/
theorem C26_counterexample :
    GetMaxT oneSampleState coldField 0 = 0 ∧
    ¬ ∃ i : Int, 0 ≤ i ∧ i < oneSampleState.T_size ∧
      GetMaxT oneSampleState coldField 0 = vget (vget coldField 0 []) i 0 := by
  have h : GetMaxT oneSampleState coldField 0 = 0 := by
    have hu : upto oneSampleState.T_size = [0] := by decide
    unfold GetMaxT
    rw [hu]
    simp only [List.foldl_cons, List.foldl_nil]
    norm_num [vget, coldField, warmField]
  refine ⟨h, ?_⟩
  rintro ⟨i, i0, i1, hi⟩
  have hi0 : i = 0 := by
    have : oneSampleState.T_size = 1 := rfl
    omega
  rw [h, hi0] at hi
  norm_num [vget, coldField, warmField] at hi

/-- C26 (amended). `GetMaxT(T, case_id)` returns the maximum of 0 and the `T_size`
temperature samples of that case, guard-border samples included: the result is at least
every sample and at least 0, it is 0 or one of the samples, and it is one of the samples
whenever at least one sample is not negative; for every temperature field, in exact
arithmetic. -/
theorem C26_GetMaxT (tc : ThermalCalculator) (T_ : List (List ℚ)) (case_id : Int) :
    (∀ i : Int, 0 ≤ i → i < tc.T_size →
      vget (vget T_ case_id []) i 0 ≤ GetMaxT tc T_ case_id) ∧
    0 ≤ GetMaxT tc T_ case_id ∧
    (GetMaxT tc T_ case_id = 0 ∨
      ∃ i : Int, 0 ≤ i ∧ i < tc.T_size ∧
        GetMaxT tc T_ case_id = vget (vget T_ case_id []) i 0) ∧
    ((∃ i : Int, 0 ≤ i ∧ i < tc.T_size ∧ 0 ≤ vget (vget T_ case_id []) i 0) →
      ∃ i : Int, 0 ≤ i ∧ i < tc.T_size ∧
        GetMaxT tc T_ case_id = vget (vget T_ case_id []) i 0) := by
  obtain ⟨h1, h2, h3⟩ := GetMaxT_fold (fun i => vget (vget T_ case_id []) i 0)
    (upto tc.T_size) 0
  have hmem : ∀ i : Int, i ∈ upto tc.T_size ↔ 0 ≤ i ∧ i < tc.T_size := mem_upto tc.T_size
  have hsome : GetMaxT tc T_ case_id = 0 ∨
      ∃ i : Int, 0 ≤ i ∧ i < tc.T_size ∧
        GetMaxT tc T_ case_id = vget (vget T_ case_id []) i 0 := by
    rcases h3 with h3 | ⟨i, hi, h3⟩
    · exact Or.inl h3
    · exact Or.inr ⟨i, ((hmem i).mp hi).1, ((hmem i).mp hi).2, h3⟩
  refine ⟨fun i i0 i1 => h2 i ((hmem i).mpr ⟨i0, i1⟩), h1, hsome, ?_⟩
  rintro ⟨i, i0, i1, hs⟩
  rcases hsome with h0 | h
  · refine ⟨i, i0, i1, ?_⟩
    have := h2 i ((hmem i).mpr ⟨i0, i1⟩)
    have hle : vget (vget T_ case_id []) i 0 ≤ GetMaxT tc T_ case_id := this
    rw [h0] at hle ⊢
    linarith
  · exact h

/-- C26 at a field with the single sample 300. -/
theorem C26_GetMaxT_witness :
    (∃ i : Int, 0 ≤ i ∧ i < oneSampleState.T_size ∧ 0 ≤ vget (vget warmField 0 []) i 0) ∧
    ∃ i : Int, 0 ≤ i ∧ i < oneSampleState.T_size ∧
      GetMaxT oneSampleState warmField 0 = vget (vget warmField 0 []) i 0 :=
  have hs : ∃ i : Int, 0 ≤ i ∧ i < oneSampleState.T_size ∧
      0 ≤ vget (vget warmField 0 []) i 0 :=
    ⟨0, le_refl _, by decide, by norm_num [vget, coldField, warmField]⟩
  ⟨hs, (C26_GetMaxT oneSampleState warmField 0).2.2.2 hs⟩

/-! ## C27: the final dump -/

theorem filter_range_window (a b : Nat) :
    ∀ N : Nat, (List.range N).filter (fun k => decide (a ≤ k ∧ k < b))
      = List.range' a (min b N - a) := by
  intro N
  induction N with
  | zero => simp
  | succ N ih =>
    rw [List.range_succ, List.filter_append, ih]
    by_cases h : a ≤ N ∧ N < b
    · have e1 : min b N = N := by omega
      have e2 : min b (N + 1) = N + 1 := by omega
      have e3 : N + 1 - a = (N - a) + 1 := by omega
      rw [e1, e2, e3, List.range'_concat]
      simp only [List.filter_cons, List.filter_nil, h, and_self, decide_True, if_true,
        Nat.one_mul]
      congr 2
      omega
    · have e1 : min b (N + 1) - a = min b N - a := by omega
      rw [e1]
      simp [h]

/-- The indices that the guard test of the dump loops lets through are the `n` indices from
`num_dummy / 2` on. -/
theorem filter_upto_guard (n nd : Int) (hnd : 0 ≤ nd) :
    (upto (n + nd)).filter
        (fun j => !(decide (j < nd.tdiv 2) || decide (j ≥ n + nd.tdiv 2)))
      = (upto n).map (fun y => y + nd.tdiv 2) := by
  have hh : nd.tdiv 2 = nd / 2 := Int.tdiv_eq_ediv hnd (by decide)
  have h0 : 0 ≤ nd / 2 := Int.ediv_nonneg hnd (by decide)
  have h1 : nd / 2 ≤ nd := by omega
  rw [hh]
  unfold upto
  rw [List.filter_map]
  have hp : (List.range (n + nd).toNat).filter
        ((fun j : Int => !(decide (j < nd / 2) || decide (j ≥ n + nd / 2))) ∘ Int.ofNat)
      = (List.range (n + nd).toNat).filter
          (fun k => decide ((nd / 2).toNat ≤ k ∧ k < (n + nd / 2).toNat)) := by
    apply List.filter_congr
    intro k _
    simp only [Function.comp, Int.ofNat_eq_coe, ge_iff_le, Bool.not_or, Bool.and_eq_true,
      Bool.not_eq_true', decide_eq_false_iff_not, not_lt, not_le]
    rw [Bool.eq_iff_iff]
    simp only [Bool.and_eq_true, Bool.not_eq_true', decide_eq_false_iff_not, not_lt, not_le,
      decide_eq_true_eq]
    constructor <;> intro h <;> omega
  rw [hp, filter_range_window, List.map_map]
  have hlen : min (n + nd / 2).toNat (n + nd).toNat - (nd / 2).toNat = n.toNat := by omega
  rw [hlen, List.range'_eq_map_range, List.map_map]
  apply List.map_congr_left
  intro k _
  simp only [Function.comp, Int.ofNat_eq_coe]
  omega

/-- The rows of `PrintCSV_final` are the rows of the non-guard cells, layer by layer, row by
row. -/
theorem PrintCSV_final_eq (env : ThermalEnv) (tc : ThermalCalculator) (P_ T_ : List (List ℚ))
    (id : Int) (scale : Nat) (hnd : 0 ≤ env.num_dummy) :
    PrintCSV_final env tc P_ T_ id scale
      = (upto tc.numP).flatMap (fun l =>
          (upto tc.dimY).flatMap (fun y =>
            (upto tc.dimX).map (fun x => finalRow env tc P_ T_ id scale x y l))) := by
  unfold PrintCSV_final
  simp only [filter_upto_guard tc.dimY env.num_dummy hnd,
    filter_upto_guard tc.dimX env.num_dummy hnd, List.flatMap_map, List.map_map]
  apply List.flatMap_congr
  intro l _
  apply List.flatMap_congr
  intro y _
  apply List.map_congr_left
  intro x _
  simp only [Function.comp, finalRow, cell, FinalRow.mk.injEq, add_sub_cancel_right, true_and]
  congr 1
  ring

/-- The sample index of a non-guard cell lies inside a field of
`(3*numP + 1) * (dimX + num_dummy) * (dimY + num_dummy)` samples. -/
theorem sampleIndex_range (env : ThermalEnv) (tc : ThermalCalculator) (x y l : Int)
    (hnd : 0 ≤ env.num_dummy) (x0 : 0 ≤ x) (x1 : x < tc.dimX) (y0 : 0 ≤ y) (y1 : y < tc.dimY)
    (l0 : 0 ≤ l) (l1 : l < tc.numP) :
    0 ≤ sampleIndex env tc x y l ∧
    sampleIndex env tc x y l
      < (tc.numP * 3 + 1) * (tc.dimX + env.num_dummy) * (tc.dimY + env.num_dummy) := by
  have hh : env.num_dummy.tdiv 2 = env.num_dummy / 2 := Int.tdiv_eq_ediv hnd (by decide)
  have h0 : 0 ≤ env.num_dummy / 2 := Int.ediv_nonneg hnd (by decide)
  have h1 : env.num_dummy / 2 ≤ env.num_dummy := by omega
  unfold sampleIndex
  rw [hh]
  generalize env.num_dummy / 2 = h at h0 h1
  generalize env.num_dummy = nd at hnd h1
  have hA : 1 ≤ tc.dimX + nd := by omega
  have hB : 1 ≤ tc.dimY + nd := by omega
  have hAB : 1 ≤ (tc.dimX + nd) * (tc.dimY + nd) := by nlinarith
  have hy : (y + h) * (tc.dimX + nd) ≤ (tc.dimY + nd - 1) * (tc.dimX + nd) := by
    apply mul_le_mul_of_nonneg_right (by omega) (by omega)
  have hl : (3 * l + 1) * ((tc.dimX + nd) * (tc.dimY + nd))
      ≤ (3 * tc.numP - 2) * ((tc.dimX + nd) * (tc.dimY + nd)) := by
    apply mul_le_mul_of_nonneg_right (by omega) (by omega)
  constructor
  · have a1 : 0 ≤ (3 * l + 1) * ((tc.dimX + nd) * (tc.dimY + nd)) :=
      mul_nonneg (by omega) (by omega)
    have a2 : 0 ≤ (y + h) * (tc.dimX + nd) := mul_nonneg (by omega) (by omega)
    omega
  · nlinarith

theorem mem_nested_upto {β : Type} (a b c : Int) (f : Int → Int → Int → β) (r : β) :
    r ∈ (upto a).flatMap (fun l => (upto b).flatMap (fun y => (upto c).map (fun x => f x y l)))
      ↔ ∃ x y l : Int, 0 ≤ x ∧ x < c ∧ 0 ≤ y ∧ y < b ∧ 0 ≤ l ∧ l < a ∧ r = f x y l := by
  simp only [List.mem_flatMap, List.mem_map, mem_upto]
  constructor
  · rintro ⟨l, ⟨l0, l1⟩, y, ⟨y0, y1⟩, x, ⟨x0, x1⟩, rfl⟩
    exact ⟨x, y, l, x0, x1, y0, y1, l0, l1, rfl⟩
  · rintro ⟨x, y, l, x0, x1, y0, y1, l0, l1, rfl⟩
    exact ⟨l, ⟨l0, l1⟩, y, ⟨y0, y1⟩, x, ⟨x0, x1⟩, rfl⟩

theorem length_nested_upto {β : Type} (a b c : Int) (f : Int → Int → Int → β) (ha : 0 ≤ a)
    (hb : 0 ≤ b) (hc : 0 ≤ c) :
    (((upto a).flatMap (fun l => (upto b).flatMap (fun y =>
      (upto c).map (fun x => f x y l)))).length : Int) = a * c * b := by
  rw [length_flatMap_const _ _ (b.toNat * c.toNat)]
  · rw [length_upto]
    push_cast
    rw [Int.toNat_of_nonneg ha, Int.toNat_of_nonneg hb, Int.toNat_of_nonneg hc]
    ring
  · intro l
    rw [length_flatMap_const _ _ c.toNat]
    · rw [length_upto]
    · intro y
      rw [List.length_map, length_upto]

/-- C27. Final dump: with a guard border of `num_dummy >= 0` cells, `PrintCSV_final` writes
for a case exactly the rows of the non-guard cells `(x, y, l)` with `0 <= x < dimX`,
`0 <= y < dimY`, `0 <= l < numP`, each once, layer by layer and row by row, that is
`numP * dimX * dimY` rows, and none for a guard cell.  The row for `(x, y, l)` carries the
power `P_[id][l*dimX*dimY + y*dimX + x] / scale` and the temperature sample at the index
`(3l+1)*(dimX+num_dummy)*(dimY+num_dummy) + (y + num_dummy/2)*(dimX+num_dummy)
+ (x + num_dummy/2)`, which lies in `[0, T_size)`; `PrintFinalPT` calls it for every case
with `P_ = accu_Pmap` and `scale = clk`. -/
theorem C27_final_dump (cfg : Config) (env : ThermalEnv) (tc : ThermalCalculator)
    (P_ T_ : List (List ℚ)) (id : Int) (scale : Nat) (hnd : 0 ≤ env.num_dummy) :
    PrintCSV_final env tc P_ T_ id scale
      = (upto tc.numP).flatMap (fun l =>
          (upto tc.dimY).flatMap (fun y =>
            (upto tc.dimX).map (fun x => finalRow env tc P_ T_ id scale x y l))) ∧
    (0 ≤ tc.numP → 0 ≤ tc.dimX → 0 ≤ tc.dimY →
      ((PrintCSV_final env tc P_ T_ id scale).length : Int) = tc.numP * tc.dimX * tc.dimY) ∧
    (∀ r : FinalRow, r ∈ PrintCSV_final env tc P_ T_ id scale ↔
      ∃ x y l : Int, 0 ≤ x ∧ x < tc.dimX ∧ 0 ≤ y ∧ y < tc.dimY ∧ 0 ≤ l ∧ l < tc.numP ∧
        r = finalRow env tc P_ T_ id scale x y l) ∧
    (∀ x y l : Int, 0 ≤ x → x < tc.dimX → 0 ≤ y → y < tc.dimY → 0 ≤ l → l < tc.numP →
      (finalRow env tc P_ T_ id scale x y l).power
        = cell P_ id (l * (tc.dimX * tc.dimY) + y * tc.dimX + x) / (scale : ℚ) ∧
      (finalRow env tc P_ T_ id scale x y l).temperature
        = cell T_ id (sampleIndex env tc x y l) ∧
      0 ≤ sampleIndex env tc x y l ∧
      sampleIndex env tc x y l
        < (tc.numP * 3 + 1) * (tc.dimX + env.num_dummy) * (tc.dimY + env.num_dummy) ∧
      (tc.T_size = (tc.numP * 3 + 1) * (tc.dimX + env.num_dummy) * (tc.dimY + env.num_dummy) →
        sampleIndex env tc x y l < tc.T_size)) ∧
    (∀ (phy : Address → Address) (vx0 vy0 : Int),
      (ThermalCalculator.init cfg env phy vx0 vy0).T_size
        = ((ThermalCalculator.init cfg env phy vx0 vy0).numP * 3 + 1)
          * ((ThermalCalculator.init cfg env phy vx0 vy0).dimX + env.num_dummy)
          * ((ThermalCalculator.init cfg env phy vx0 vy0).dimY + env.num_dummy)) ∧
    (∀ (steady : List (List (List ℚ)) → List ℚ) (clk : Nat) (r : FinalReport) (ir : Int),
      (PrintFinalPT_case cfg env steady tc clk r ir).final_temperature_file_csv_
        = r.final_temperature_file_csv_ ++
          PrintCSV_final env tc tc.accu_Pmap
            (PrintFinalPT_case cfg env steady tc clk r ir).T_final ir clk) := by
  have heq := PrintCSV_final_eq env tc P_ T_ id scale hnd
  refine ⟨heq, ?_, ?_, ?_, fun _ _ _ => rfl, fun _ _ _ _ => rfl⟩
  · intro h1 h2 h3
    rw [heq]
    exact length_nested_upto tc.numP tc.dimY tc.dimX _ h1 h3 h2
  · intro r
    rw [heq]
    exact mem_nested_upto tc.numP tc.dimY tc.dimX _ r
  · intro x y l x0 x1 y0 y1 l0 l1
    obtain ⟨s0, s1⟩ := sampleIndex_range env tc x y l hnd x0 x1 y0 y1 l0 l1
    exact ⟨rfl, rfl, s0, s1, fun h => h ▸ s1⟩

/-- C27 at the scenario (8 x 4 grid, one layer, guard border 2): 32 rows, and the cell
`(7, 3, 0)` has the sample index 108, inside the field of 240 samples. -/
theorem C27_final_dump_witness :
    0 ≤ scenarioEnv.num_dummy ∧
    ((PrintCSV_final scenarioEnv scenarioState scenarioState.accu_Pmap warmField 0 1000).length
      : Int) = 32 ∧
    sampleIndex scenarioEnv scenarioState 7 3 0 = 108 ∧
    sampleIndex scenarioEnv scenarioState 7 3 0 < scenarioState.T_size :=
  have h := C27_final_dump scenarioConfig scenarioEnv scenarioState scenarioState.accu_Pmap
    warmField 0 1000 (by decide)
  ⟨by decide, (h.2.1 (by decide) (by decide) (by decide)).trans (by decide), by decide,
    (h.2.2.2.1 7 3 0 (by decide) (by decide) (by decide) (by decide) (by decide)
      (by decide)).2.2.2.2 (by decide)⟩

/-! ## C25: the padded power array -/

theorem vget_vmodify {α : Type} (r : List α) (j : Int) (f : α → α) (i : Int) (d : α) :
    vget (vmodify r j f) i d
      = if i = j ∧ 0 ≤ j ∧ j.toNat < r.length then f (vget r i d) else vget r i d := by
  unfold vget
  by_cases hi : 0 ≤ i
  · simp only [hi, if_true, vmodify_getD]
    by_cases h : i = j
    · subst h
      simp [hi]
    · have : i.toNat ≠ j.toNat ∨ ¬ 0 ≤ j := by omega
      rcases this with h1 | h1
      · simp [h, h1]
      · simp [h, h1]
  · have : ¬ (i = j ∧ 0 ≤ j ∧ j.toNat < r.length) := by omega
    simp [hi, this]

theorem map_modify_invariant {α β : Type} (g : α → β) (f : α → α) (h : ∀ x, g (f x) = g x)
    (l : List α) (n : Nat) : (l.modify f n).map g = l.map g := by
  induction l generalizing n with
  | nil => simp
  | cons a t ih =>
    cases n with
    | zero => simp [h]
    | succ n => simp [ih]

theorem map_vmodify_invariant {α β : Type} (g : α → β) (f : α → α) (h : ∀ x, g (f x) = g x)
    (l : List α) (j : Int) : (vmodify l j f).map g = l.map g := by
  unfold vmodify
  split
  · exact map_modify_invariant g f h l _
  · rfl

theorem boxShape_setPowerM (pm : List (List (List ℚ))) (a b c : Int) (v : ℚ) :
    boxShape (setPowerM pm a b c v) = boxShape pm := by
  unfold boxShape setPowerM
  apply map_vmodify_invariant
  intro p
  apply map_vmodify_invariant
  intro q
  exact vmodify_length q c _

theorem vget_map_length (pm : List (List (List ℚ))) (a : Int) :
    (vget pm a []).map List.length = vget (boxShape pm) a [] := by
  unfold vget boxShape
  split
  · rw [List.getD_eq_getElem?_getD, List.getD_eq_getElem?_getD, List.getElem?_map]
    cases pm[a.toNat]? <;> rfl
  · rfl

theorem vget_length (p : List (List ℚ)) (b : Int) :
    (vget p b []).length = vget (p.map List.length) b 0 := by
  unfold vget
  split
  · rw [List.getD_eq_getElem?_getD, List.getD_eq_getElem?_getD, List.getElem?_map]
    cases p[b.toNat]? <;> rfl
  · rfl

/-- Whether an access is inside a padded array depends on the extents only. -/
theorem inBox_of_boxShape (pm pm2 : List (List (List ℚ))) (h : boxShape pm = boxShape pm2)
    (a b c : Int) : inBox pm a b c ↔ inBox pm2 a b c := by
  have hl : pm.length = pm2.length := by
    have := congrArg List.length h
    simpa [boxShape] using this
  have h1 : (vget pm a []).length = (vget pm2 a []).length := by
    have := congrArg List.length (vget_map_length pm a)
    have h2 := congrArg List.length (vget_map_length pm2 a)
    rw [List.length_map] at this h2
    rw [this, h2, h]
  have h2 : (vget (vget pm a []) b []).length = (vget (vget pm2 a []) b []).length := by
    rw [vget_length, vget_length, vget_map_length, vget_map_length, h]
  unfold inBox
  rw [hl, h1, h2]

/-- The entries of a padded array after one assignment. -/
theorem powerAt_setPowerM (pm : List (List (List ℚ))) (a b c : Int) (v : ℚ) (a2 b2 c2 : Int) :
    powerAt (setPowerM pm a b c v) a2 b2 c2
      = if a2 = a ∧ b2 = b ∧ c2 = c ∧ inBox pm a b c then v else powerAt pm a2 b2 c2 := by
  unfold powerAt setPowerM
  rw [vget_vmodify]
  by_cases ha : a2 = a ∧ 0 ≤ a ∧ a.toNat < pm.length
  · rw [if_pos ha, vget_vmodify]
    obtain ⟨rfl, ha0, ha1⟩ := ha
    by_cases hb : b2 = b ∧ 0 ≤ b ∧ b.toNat < (vget pm a2 []).length
    · rw [if_pos hb, vget_vmodify]
      obtain ⟨rfl, hb0, hb1⟩ := hb
      by_cases hc : c2 = c ∧ 0 ≤ c ∧ c.toNat < (vget (vget pm a2 []) b2 []).length
      · rw [if_pos hc]
        obtain ⟨rfl, hc0, hc1⟩ := hc
        rw [if_pos ⟨rfl, rfl, rfl, by unfold inBox; exact ⟨ha0, ha1, hb0, hb1, hc0, hc1⟩⟩]
      · rw [if_neg hc, if_neg]
        rintro ⟨-, -, h1, hbox⟩
        unfold inBox at hbox
        exact hc ⟨h1, hbox.2.2.2.2.1, hbox.2.2.2.2.2⟩
    · rw [if_neg hb, if_neg]
      rintro ⟨-, h1, -, hbox⟩
      unfold inBox at hbox
      exact hb ⟨h1, hbox.2.2.1, hbox.2.2.2.1⟩
  · rw [if_neg ha, if_neg]
    rintro ⟨h1, -, -, hbox⟩
    unfold inBox at hbox
    exact ha ⟨h1, hbox.1, hbox.2.1⟩

/-- The entries of a padded array after a sequence of assignments whose value is a
function of the position. -/
theorem powerAt_fold (g : Int × Int × Int → ℚ) (ks : List (Int × Int × Int)) :
    ∀ pm : List (List (List ℚ)),
      boxShape (ks.foldl (fun pm k => setPowerM pm k.1 k.2.1 k.2.2 (g k)) pm) = boxShape pm ∧
      ∀ a b c : Int,
        powerAt (ks.foldl (fun pm k => setPowerM pm k.1 k.2.1 k.2.2 (g k)) pm) a b c
          = if (a, b, c) ∈ ks ∧ inBox pm a b c then g (a, b, c) else powerAt pm a b c := by
  induction ks with
  | nil =>
    intro pm
    exact ⟨rfl, fun a b c => by simp⟩
  | cons k rest ih =>
    intro pm
    simp only [List.foldl_cons]
    obtain ⟨s1, p1⟩ := ih (setPowerM pm k.1 k.2.1 k.2.2 (g k))
    have hs := boxShape_setPowerM pm k.1 k.2.1 k.2.2 (g k)
    refine ⟨s1.trans hs, ?_⟩
    intro a b c
    have hbx := inBox_of_boxShape _ _ hs a b c
    rw [p1, powerAt_setPowerM]
    obtain ⟨k1, k2, k3⟩ := k
    by_cases hin : inBox pm a b c
    · by_cases hr : (a, b, c) ∈ rest
      · rw [if_pos ⟨hr, hbx.mpr hin⟩, if_pos ⟨List.mem_cons_of_mem _ hr, hin⟩]
      · rw [if_neg (fun h => hr h.1)]
        by_cases hk : (a, b, c) = (k1, k2, k3)
        · have hk' := hk
          simp only [Prod.mk.injEq] at hk'
          obtain ⟨rfl, rfl, rfl⟩ := hk'
          rw [if_pos ⟨rfl, rfl, rfl, hin⟩, if_pos ⟨List.mem_cons_self _ _, hin⟩]
        · rw [if_neg, if_neg]
          · rintro ⟨h, -⟩
            rcases List.mem_cons.mp h with h | h
            · exact hk h
            · exact hr h
          · rintro ⟨h1, h2, h3, -⟩
            exact hk (by rw [h1, h2, h3])
    · have hK : ¬ (a = k1 ∧ b = k2 ∧ c = k3 ∧ inBox pm k1 k2 k3) := by
        rintro ⟨rfl, rfl, rfl, h⟩
        exact hin h
      have hB : ¬ ((a, b, c) ∈ (k1, k2, k3) :: rest ∧ inBox pm a b c) := fun h => hin h.2
      rw [if_neg (fun h => hin (hbx.mp h.2)), if_neg hK, if_neg hB]

theorem foldl_flatMap_eq {α β σ : Type} (l : List α) (f : α → List β) (G : σ → β → σ)
    (init : σ) :
    (l.flatMap f).foldl G init = l.foldl (fun acc x => (f x).foldl G acc) init := by
  induction l generalizing init with
  | nil => rfl
  | cons a t ih => simp only [List.flatMap_cons, List.foldl_append, List.foldl_cons, ih]

/-- The zero-filled array that `InitPowerM` starts from. -/
theorem zero_box (nx ny nz : Nat) (a b c : Int) :
    powerAt (List.replicate nx (List.replicate ny (List.replicate nz (0 : ℚ)))) a b c = 0 ∧
    (inBox (List.replicate nx (List.replicate ny (List.replicate nz (0 : ℚ)))) a b c
      ↔ 0 ≤ a ∧ a.toNat < nx ∧ 0 ≤ b ∧ b.toNat < ny ∧ 0 ≤ c ∧ c.toNat < nz) := by
  have hrep : ∀ {α : Type} (n : Nat) (x d : α) (i : Int), 0 ≤ i → i.toNat < n →
      vget (List.replicate n x) i d = x := by
    intro α n x d i hi hlt
    unfold vget
    rw [if_pos hi, List.getD_eq_getElem?_getD, List.getElem?_replicate, if_pos hlt]
    rfl
  have hout : ∀ {α : Type} (n : Nat) (x d : α) (i : Int), ¬ (0 ≤ i ∧ i.toNat < n) →
      vget (List.replicate n x) i d = d := by
    intro α n x d i hi
    unfold vget
    by_cases h0 : 0 ≤ i
    · rw [if_pos h0, List.getD_eq_getElem?_getD, List.getElem?_replicate,
        if_neg (fun h => hi ⟨h0, h⟩)]
      rfl
    · rw [if_neg h0]
  constructor
  · unfold powerAt
    by_cases ha : 0 ≤ a ∧ a.toNat < nx
    · rw [hrep nx _ _ a ha.1 ha.2]
      by_cases hb : 0 ≤ b ∧ b.toNat < ny
      · rw [hrep ny _ _ b hb.1 hb.2]
        by_cases hc : 0 ≤ c ∧ c.toNat < nz
        · rw [hrep nz _ _ c hc.1 hc.2]
        · rw [hout nz _ _ c hc]
      · rw [hout ny _ _ b hb]
        unfold vget
        split <;> simp
    · rw [hout nx _ _ a ha]
      unfold vget
      split <;> simp
  · unfold inBox
    rw [List.length_replicate]
    constructor
    · rintro ⟨a0, a1, b0, b1, c0, c1⟩
      rw [hrep nx _ _ a a0 a1, List.length_replicate] at b1
      rw [hrep nx _ _ a a0 a1, hrep ny _ _ b b0 b1, List.length_replicate] at c1
      exact ⟨a0, a1, b0, b1, c0, c1⟩
    · rintro ⟨a0, a1, b0, b1, c0, c1⟩
      rw [hrep nx _ _ a a0 a1, hrep ny _ _ b b0 b1, List.length_replicate,
        List.length_replicate]
      exact ⟨a0, a1, b0, b1, c0, c1⟩

/-- The array of `InitPowerM` as one sequence of assignments from the zero-filled array. -/
theorem InitPowerM_eq_fold (cfg : Config) (env : ThermalEnv) (tc : ThermalCalculator)
    (case_id : Int) (clk : Nat) :
    InitPowerM cfg env tc case_id clk
      = ((upto tc.dimX).flatMap (fun i => (upto tc.dimY).flatMap (fun j =>
          (upto tc.numP).map (fun l =>
            (i + env.num_dummy.tdiv 2, j + env.num_dummy.tdiv 2, l))))).foldl
          (fun pm k => setPowerM pm k.1 k.2.1 k.2.2
            (cell (InitPowerM_source cfg tc clk).1 case_id
              (k.2.2 * (tc.dimX * tc.dimY) + (k.2.1 - env.num_dummy.tdiv 2) * tc.dimX
                + (k.1 - env.num_dummy.tdiv 2))
              / (InitPowerM_source cfg tc clk).2))
          (List.replicate (tc.dimX + env.num_dummy).toNat
            (List.replicate (tc.dimY + env.num_dummy).toNat
              (List.replicate tc.numP.toNat 0))) := by
  rw [foldl_flatMap_eq]
  simp only [foldl_flatMap_eq, List.foldl_map, add_sub_cancel_right]
  unfold InitPowerM InitPowerM_source cell
  by_cases h : clk = 0
  · simp only [h, if_true]
  · simp only [h, if_false]

/-- Every entry of the array of `InitPowerM`: the scaled power of the cell for a position
inside the grid shifted by `num_dummy / 2`, and 0 elsewhere. -/
theorem InitPowerM_entry (cfg : Config) (env : ThermalEnv) (tc : ThermalCalculator)
    (case_id : Int) (clk : Nat) (hnd : 0 ≤ env.num_dummy) :
    boxShape (InitPowerM cfg env tc case_id clk)
      = List.replicate (tc.dimX + env.num_dummy).toNat
          (List.replicate (tc.dimY + env.num_dummy).toNat tc.numP.toNat) ∧
    (∀ i j l : Int, 0 ≤ i → i < tc.dimX → 0 ≤ j → j < tc.dimY → 0 ≤ l → l < tc.numP →
      powerAt (InitPowerM cfg env tc case_id clk) (i + env.num_dummy.tdiv 2)
          (j + env.num_dummy.tdiv 2) l
        = cell (InitPowerM_source cfg tc clk).1 case_id
            (l * (tc.dimX * tc.dimY) + j * tc.dimX + i) / (InitPowerM_source cfg tc clk).2) ∧
    (∀ a b c : Int,
      (¬ ∃ i j l : Int, 0 ≤ i ∧ i < tc.dimX ∧ 0 ≤ j ∧ j < tc.dimY ∧ 0 ≤ l ∧ l < tc.numP ∧
        a = i + env.num_dummy.tdiv 2 ∧ b = j + env.num_dummy.tdiv 2 ∧ c = l) →
      powerAt (InitPowerM cfg env tc case_id clk) a b c = 0) := by
  have hh : env.num_dummy.tdiv 2 = env.num_dummy / 2 := Int.tdiv_eq_ediv hnd (by decide)
  have h0 : 0 ≤ env.num_dummy / 2 := Int.ediv_nonneg hnd (by decide)
  have h1 : env.num_dummy / 2 ≤ env.num_dummy := by omega
  rw [InitPowerM_eq_fold]
  obtain ⟨hs, hp⟩ := powerAt_fold
    (fun k => cell (InitPowerM_source cfg tc clk).1 case_id
      (k.2.2 * (tc.dimX * tc.dimY) + (k.2.1 - env.num_dummy.tdiv 2) * tc.dimX
        + (k.1 - env.num_dummy.tdiv 2)) / (InitPowerM_source cfg tc clk).2)
    ((upto tc.dimX).flatMap (fun i => (upto tc.dimY).flatMap (fun j =>
      (upto tc.numP).map (fun l => (i + env.num_dummy.tdiv 2, j + env.num_dummy.tdiv 2, l)))))
    (List.replicate (tc.dimX + env.num_dummy).toNat
      (List.replicate (tc.dimY + env.num_dummy).toNat (List.replicate tc.numP.toNat 0)))
  have hmem : ∀ a b c : Int,
      (a, b, c) ∈ (upto tc.dimX).flatMap (fun i => (upto tc.dimY).flatMap (fun j =>
        (upto tc.numP).map (fun l =>
          (i + env.num_dummy.tdiv 2, j + env.num_dummy.tdiv 2, l))))
      ↔ ∃ i j l : Int, 0 ≤ i ∧ i < tc.dimX ∧ 0 ≤ j ∧ j < tc.dimY ∧ 0 ≤ l ∧ l < tc.numP ∧
          a = i + env.num_dummy.tdiv 2 ∧ b = j + env.num_dummy.tdiv 2 ∧ c = l := by
    intro a b c
    rw [mem_nested_upto tc.dimX tc.dimY tc.numP
      (fun x y l => (l + env.num_dummy.tdiv 2, y + env.num_dummy.tdiv 2, x)) (a, b, c)]
    constructor
    · rintro ⟨x, y, l, x0, x1, y0, y1, l0, l1, he⟩
      simp only [Prod.mk.injEq] at he
      exact ⟨l, y, x, l0, l1, y0, y1, x0, x1, he.1, he.2.1, he.2.2⟩
    · rintro ⟨i, j, l, i0, i1, j0, j1, l0, l1, rfl, rfl, rfl⟩
      exact ⟨c, j, i, l0, l1, j0, j1, i0, i1, rfl⟩
  refine ⟨?_, ?_, ?_⟩
  · rw [hs]
    simp [boxShape]
  · intro i j l i0 i1 j0 j1 l0 l1
    rw [hp, if_pos]
    · simp only [add_sub_cancel_right]
    · refine ⟨(hmem _ _ _).mpr ⟨i, j, l, i0, i1, j0, j1, l0, l1, rfl, rfl, rfl⟩, ?_⟩
      rw [(zero_box _ _ _ _ _ _).2, hh]
      omega
  · intro a b c hno
    rw [hp, if_neg (fun h => hno ((hmem a b c).mp h.1))]
    exact (zero_box _ _ _ a b c).1

/-- C25, the claim as stated fails at a total elapsed clock of 0: there `CalcFinalT` hands
`InitPowerM` the clock 0, which selects the current map and the epoch length.  With 5 in
cell 0 of the lifetime map, 1000 in cell 0 of the current map and an epoch length of 1000
the entry for cell 0 of the final solve is 1000/1000 = 1 and not 5 divided by the clock. -/
theorem C25_counterexample :
    (∀ steady : List (List (List ℚ)) → List ℚ,
      CalcFinalT scenarioConfig scenarioEnv steady mixedState 0 0
        = steady (InitPowerM scenarioConfig scenarioEnv mixedState 0 0)) ∧
    powerAt (InitPowerM scenarioConfig scenarioEnv mixedState 0 0)
      (0 + scenarioEnv.num_dummy.tdiv 2) (0 + scenarioEnv.num_dummy.tdiv 2) 0 = 1 ∧
    cell mixedState.accu_Pmap 0 (0 * (mixedState.dimX * mixedState.dimY)
      + 0 * mixedState.dimX + 0) = 5 ∧
    powerAt (InitPowerM scenarioConfig scenarioEnv mixedState 0 0)
      (0 + scenarioEnv.num_dummy.tdiv 2) (0 + scenarioEnv.num_dummy.tdiv 2) 0
      ≠ cell mixedState.accu_Pmap 0 (0 * (mixedState.dimX * mixedState.dimY)
          + 0 * mixedState.dimX + 0) / ((0 : Nat) : ℚ) := by
  have hc : cell mixedState.cur_Pmap 0 0 = 1000 := by
    show cell (addAt scenarioState.cur_Pmap 0 0 1000) 0 0 = 1000
    rw [cell_addAt, if_pos ⟨rfl, rfl, by decide⟩]
    show cell (zeroMap 1 32) 0 0 + 1000 = 1000
    rw [cell_zeroMap]
    norm_num
  have ha : cell mixedState.accu_Pmap 0 0 = 5 := by
    show cell (addAt scenarioState.accu_Pmap 0 0 5) 0 0 = 5
    rw [cell_addAt, if_pos ⟨rfl, rfl, by decide⟩]
    show cell (zeroMap 1 32) 0 0 + 5 = 5
    rw [cell_zeroMap]
    norm_num
  have he := (InitPowerM_entry scenarioConfig scenarioEnv mixedState 0 0 (by decide)).2.1
    0 0 0 (by decide) (by decide) (by decide) (by decide) (by decide) (by decide)
  have hsrc : InitPowerM_source scenarioConfig mixedState 0
      = (mixedState.cur_Pmap, ((1000 : Nat) : ℚ)) := rfl
  have hidx : (0 : Int) * (mixedState.dimX * mixedState.dimY) + 0 * mixedState.dimX + 0 = 0 := by
    decide
  rw [hsrc, hidx] at he
  simp only [] at he
  rw [hc] at he
  have h1 : powerAt (InitPowerM scenarioConfig scenarioEnv mixedState 0 0)
      (0 + scenarioEnv.num_dummy.tdiv 2) (0 + scenarioEnv.num_dummy.tdiv 2) 0 = 1 := by
    rw [he]
    norm_num
  refine ⟨fun _ => rfl, h1, by rw [hidx]; exact ha, ?_⟩
  rw [h1, hidx, ha]
  norm_num

/-- C25 (amended). Padded power array: with a guard border of `num_dummy >= 0` cells
`InitPowerM` returns a `(dimX+num_dummy) x (dimY+num_dummy) x numP` array whose entry
`[i + num_dummy/2][j + num_dummy/2][l]`, for `0 <= i < dimX`, `0 <= j < dimY`,
`0 <= l < numP`, is `map[case][l*dimX*dimY + j*dimX + i] / div` and whose every other
entry (the guard border) is 0.  Here `(map, div)` is `(cur_Pmap, power_epoch_period)` when
the clock argument is 0 and `(accu_Pmap, clk)` when it is positive; the transient solve
passes 0 and the final solve passes the total elapsed clock, so the final solve uses
`(accu_Pmap, clk)` at every `clk > 0` and the transient pair at `clk = 0`. -/
theorem C25_padded_power (cfg : Config) (env : ThermalEnv) (tc : ThermalCalculator)
    (case_id : Int) (clk : Nat) (hnd : 0 ≤ env.num_dummy) :
    boxShape (InitPowerM cfg env tc case_id clk)
      = List.replicate (tc.dimX + env.num_dummy).toNat
          (List.replicate (tc.dimY + env.num_dummy).toNat tc.numP.toNat) ∧
    (∀ i j l : Int, 0 ≤ i → i < tc.dimX → 0 ≤ j → j < tc.dimY → 0 ≤ l → l < tc.numP →
      powerAt (InitPowerM cfg env tc case_id clk) (i + env.num_dummy.tdiv 2)
          (j + env.num_dummy.tdiv 2) l
        = cell (InitPowerM_source cfg tc clk).1 case_id
            (l * (tc.dimX * tc.dimY) + j * tc.dimX + i) / (InitPowerM_source cfg tc clk).2) ∧
    (∀ a b c : Int,
      (¬ ∃ i j l : Int, 0 ≤ i ∧ i < tc.dimX ∧ 0 ≤ j ∧ j < tc.dimY ∧ 0 ≤ l ∧ l < tc.numP ∧
        a = i + env.num_dummy.tdiv 2 ∧ b = j + env.num_dummy.tdiv 2 ∧ c = l) →
      powerAt (InitPowerM cfg env tc case_id clk) a b c = 0) ∧
    InitPowerM_source cfg tc 0 = (tc.cur_Pmap, (cfg.power_epoch_period : ℚ)) ∧
    (0 < clk → InitPowerM_source cfg tc clk = (tc.accu_Pmap, (clk : ℚ))) ∧
    (CalcTransT cfg env tc case_id).T_trans
      = vmodify tc.T_trans case_id
          (env.transient_thermal_solver (InitPowerM cfg env tc case_id 0)) ∧
    (∀ steady : List (List (List ℚ)) → List ℚ,
      CalcFinalT cfg env steady tc case_id clk
        = steady (InitPowerM cfg env tc case_id clk)) := by
  obtain ⟨h1, h2, h3⟩ := InitPowerM_entry cfg env tc case_id clk hnd
  refine ⟨h1, h2, h3, rfl, ?_, rfl, fun _ => rfl⟩
  intro hclk
  unfold InitPowerM_source
  rw [if_neg (by omega)]

/-- C25 at the scenario, for a final solve at clock 2000: the entry for cell 0 is the
lifetime energy 5 of that cell divided by 2000. -/
theorem C25_padded_power_witness :
    0 ≤ scenarioEnv.num_dummy ∧ 0 < 2000 ∧
    powerAt (InitPowerM scenarioConfig scenarioEnv mixedState 0 2000) 1 1 0
      = cell mixedState.accu_Pmap 0 0 / 2000 := by
  have h := C25_padded_power scenarioConfig scenarioEnv mixedState 0 2000 (by decide)
  have he := h.2.1 0 0 0 (by decide) (by decide) (by decide) (by decide) (by decide)
    (by decide)
  rw [h.2.2.2.2.1 (by decide)] at he
  refine ⟨by decide, by decide, ?_⟩
  have hidx : (0 : Int) * (mixedState.dimX * mixedState.dimY) + 0 * mixedState.dimX + 0 = 0 := by
    decide
  rw [hidx] at he
  have e1 : (0 : Int) + scenarioEnv.num_dummy.tdiv 2 = 1 := by decide
  rw [e1] at he
  rw [he]
  norm_num

/-! ## C29: the background energy -/

theorem addBackground_eq (tc : ThermalCalculator) (c : Int) (e : ℚ) :
    addBackground tc c e
      = { tc with
          cur_Pmap := applyDeposits tc.cur_Pmap
            ((upto (tc.dimX * tc.dimY * tc.numP)).map (fun i => (c, i, e))) } := by
  unfold addBackground
  generalize upto (tc.dimX * tc.dimY * tc.numP) = l
  induction l generalizing tc with
  | nil => rfl
  | cons a t ih =>
    simp only [List.foldl_cons, List.map_cons]
    rw [ih]
    rfl

/-- The planar branch of the background energy is the nested loop of its step. -/
theorem UpdatePower_background_planar (cfg : Config) (stats_ : Statistics)
    (tc : ThermalCalculator) (device_scale : ℚ) (hmc : cfg.IsHMC = false)
    (hbm : cfg.IsHBM = false) :
    UpdatePower_background cfg stats_ tc device_scale
      = UpdatePower_background_loop cfg stats_ device_scale (channelRanks cfg) tc := by
  unfold UpdatePower_background UpdatePower_background_loop channelRanks
  rw [hmc, hbm, foldl_flatMap_eq]
  simp only [List.foldl_map]
  rfl

theorem mem_channelRanks (cfg : Config) (p : Int × Int) :
    p ∈ channelRanks cfg
      ↔ (0 ≤ p.1 ∧ p.1 < cfg.channels) ∧ (0 ≤ p.2 ∧ p.2 < cfg.ranks) := by
  unfold channelRanks
  simp only [List.mem_flatMap, List.mem_map, mem_upto]
  constructor
  · rintro ⟨a, ha, b, hb, rfl⟩
    exact ⟨ha, hb⟩
  · rintro ⟨ha, hb⟩
    exact ⟨p.1, ha, p.2, hb, rfl⟩

theorem channelRanks_keys_nodup (cfg : Config) :
    ((channelRanks cfg).map (fun p : Int × Int => p.1 * cfg.ranks + p.2)).Nodup := by
  unfold channelRanks
  apply List.Nodup.map_on
  · intro x hx y hy hxy
    simp only [List.mem_flatMap, List.mem_map, mem_upto] at hx hy
    obtain ⟨a, -, b, hb, rfl⟩ := hx
    obtain ⟨a2, -, b2, hb2, rfl⟩ := hy
    obtain ⟨e1, e2⟩ := pair_of_case_eq cfg.ranks a b a2 b2 hb hb2 hxy
    rw [e1, e2]
  · rw [List.nodup_flatMap]
    refine ⟨fun x _ => (nodup_upto cfg.ranks).map (fun a b h => (Prod.mk.inj h).2), ?_⟩
    refine List.Pairwise.imp ?_ (nodup_upto cfg.channels)
    intro a b hab x hx hy
    simp only [List.mem_map] at hx hy
    obtain ⟨u, -, rfl⟩ := hx
    obtain ⟨v, -, hv⟩ := hy
    exact hab (Prod.mk.inj hv).1.symm

theorem cell_applyDeposits_const (m : List (List ℚ)) (c : Int) (e : ℚ) (l : List Int)
    (hnd : l.Nodup) (c2 i2 : Int) :
    cell (applyDeposits m (l.map (fun idx => (c, idx, e)))) c2 i2
      = cell m c2 i2 + if c2 = c ∧ i2 ∈ l ∧ inMap m c i2 then e else 0 := by
  induction l generalizing m with
  | nil => simp [applyDeposits]
  | cons a t ih =>
    obtain ⟨hat, ht⟩ := List.nodup_cons.mp hnd
    simp only [applyDeposits, List.map_cons, List.foldl_cons] at ih ⊢
    rw [ih _ ht, cell_addAt]
    have hin : inMap (addAt m c a e) c i2 ↔ inMap m c i2 :=
      inMap_iff_shape _ _ (shape_addAt m c a e) c i2
    by_cases h1 : c2 = c
    · by_cases h2 : i2 = a
      · subst h2
        by_cases h3 : inMap m c i2
        · simp [h1, hat, h3]
        · simp [h1, hat, h3, hin]
      · simp [h1, h2, hin]
    · simp [h1]

theorem caseSum_applyDeposits_other (m : List (List ℚ)) (ds : List (Int × Int × ℚ))
    (c2 : Int) (h : ∀ d ∈ ds, d.1 ≠ c2) : caseSum (applyDeposits m ds) c2 = caseSum m c2 := by
  induction ds generalizing m with
  | nil => rfl
  | cons d t ih =>
    simp only [applyDeposits, List.foldl_cons] at ih ⊢
    rw [ih _ (fun x hx => h x (List.mem_cons_of_mem d hx)), caseSum_addAt]
    have hne : ¬ (c2 = d.1 ∧ inMap m d.1 d.2.1) :=
      fun hc => h d (List.mem_cons_self d t) hc.1.symm
    rw [if_neg hne, add_zero]

theorem UpdatePower_background_step_eq (cfg : Config) (stats_ : Statistics)
    (device_scale : ℚ) (t : ThermalCalculator) (jch jrk : Int) :
    UpdatePower_background_step cfg stats_ device_scale t jch jrk
      = { t with
          sref_energy_prev := vset t.sref_energy_prev (jch * cfg.ranks + jrk)
            (cumulative_value stats_.sref_energy jch jrk)
          pre_stb_energy_prev := vset t.pre_stb_energy_prev (jch * cfg.ranks + jrk)
            (cumulative_value stats_.pre_stb_energy jch jrk)
          act_stb_energy_prev := vset t.act_stb_energy_prev (jch * cfg.ranks + jrk)
            (cumulative_value stats_.act_stb_energy jch jrk)
          pre_pd_energy_prev := vset t.pre_pd_energy_prev (jch * cfg.ranks + jrk)
            (cumulative_value stats_.pre_pd_energy jch jrk)
          cur_Pmap := applyDeposits t.cur_Pmap
            ((upto (t.dimX * t.dimY * t.numP)).map (fun i =>
              (jch * cfg.ranks + jrk, i,
                backgroundCell cfg stats_ device_scale t jch jrk))) } := by
  unfold UpdatePower_background_step
  simp only []
  rw [addBackground_eq]
  have he : cumulative_value stats_.sref_energy jch jrk
        + cumulative_value stats_.pre_stb_energy jch jrk
        + cumulative_value stats_.act_stb_energy jch jrk
        + cumulative_value stats_.pre_pd_energy jch jrk
        - vget t.sref_energy_prev (jch * cfg.ranks + jrk) 0
        - vget t.pre_stb_energy_prev (jch * cfg.ranks + jrk) 0
        - vget t.act_stb_energy_prev (jch * cfg.ranks + jrk) 0
        - vget t.pre_pd_energy_prev (jch * cfg.ranks + jrk) 0
      = cumSum stats_ jch jrk - prevSum t (jch * cfg.ranks + jrk) := by
    unfold cumSum prevSum
    ring
  rw [he]
  rfl

theorem prevSum_of_prevAt (a b : ThermalCalculator) (c : Int) (h : prevAt a c = prevAt b c) :
    prevSum a c = prevSum b c := by
  unfold prevAt at h
  obtain ⟨h1, h2, h3, h4⟩ := Prod.mk.inj h |>.imp id (fun h => Prod.mk.inj h |>.imp id
    (fun h => Prod.mk.inj h))
  unfold prevSum
  rw [h1, h2, h3, h4]

theorem prevSum_of_cumAt (a : ThermalCalculator) (c : Int) (stats_ : Statistics)
    (jch jrk : Int) (h : prevAt a c = cumAt stats_ jch jrk) :
    prevSum a c = cumSum stats_ jch jrk := by
  unfold prevAt cumAt at h
  obtain ⟨h1, h2, h3, h4⟩ := Prod.mk.inj h |>.imp id (fun h => Prod.mk.inj h |>.imp id
    (fun h => Prod.mk.inj h))
  unfold prevSum cumSum
  rw [h1, h2, h3, h4]

/-- The effect of one step of the planar background loop. -/
theorem UpdatePower_background_step_spec (cfg : Config) (stats_ : Statistics)
    (device_scale : ℚ) (t : ThermalCalculator) (jch jrk : Int) :
    (UpdatePower_background_step cfg stats_ device_scale t jch jrk).toGeometry = t.toGeometry ∧
    (UpdatePower_background_step cfg stats_ device_scale t jch jrk).T_trans = t.T_trans ∧
    shape (UpdatePower_background_step cfg stats_ device_scale t jch jrk).cur_Pmap
      = shape t.cur_Pmap ∧
    prevLengths (UpdatePower_background_step cfg stats_ device_scale t jch jrk)
      = prevLengths t ∧
    (∀ c i, cell (UpdatePower_background_step cfg stats_ device_scale t jch jrk).cur_Pmap c i
      = cell t.cur_Pmap c i
        + if c = jch * cfg.ranks + jrk ∧ (0 ≤ i ∧ i < t.dimX * t.dimY * t.numP) ∧
            inMap t.cur_Pmap (jch * cfg.ranks + jrk) i
          then backgroundCell cfg stats_ device_scale t jch jrk else 0) ∧
    (∀ c, c ≠ jch * cfg.ranks + jrk →
      caseSum (UpdatePower_background_step cfg stats_ device_scale t jch jrk).cur_Pmap c
        = caseSum t.cur_Pmap c) ∧
    ((∀ i, 0 ≤ i → i < t.dimX * t.dimY * t.numP →
        inMap t.cur_Pmap (jch * cfg.ranks + jrk) i) →
      caseSum (UpdatePower_background_step cfg stats_ device_scale t jch jrk).cur_Pmap
          (jch * cfg.ranks + jrk)
        = caseSum t.cur_Pmap (jch * cfg.ranks + jrk)
          + ((t.dimX * t.dimY * t.numP).toNat : ℚ)
            * backgroundCell cfg stats_ device_scale t jch jrk) ∧
    (∀ c, c ≠ jch * cfg.ranks + jrk →
      prevAt (UpdatePower_background_step cfg stats_ device_scale t jch jrk) c = prevAt t c) ∧
    (prevInRange t (jch * cfg.ranks + jrk) →
      prevAt (UpdatePower_background_step cfg stats_ device_scale t jch jrk)
          (jch * cfg.ranks + jrk)
        = cumAt stats_ jch jrk) := by
  rw [UpdatePower_background_step_eq]
  refine ⟨rfl, rfl, shape_applyDeposits _ _, ?_, ?_, ?_, ?_, ?_, ?_⟩
  · simp only [prevLengths, vset, vmodify_length]
  · intro c i
    show cell (applyDeposits _ _) c i = _
    rw [cell_applyDeposits_const _ _ _ _ (nodup_upto _)]
    simp only [mem_upto]
  · intro c hc
    show caseSum (applyDeposits _ _) c = _
    apply caseSum_applyDeposits_other
    intro d hd
    simp only [List.mem_map] at hd
    obtain ⟨i, -, rfl⟩ := hd
    exact fun h => hc h.symm
  · intro h
    show caseSum (applyDeposits _ _) _ = _
    rw [caseSum_applyDeposits_const, length_upto]
    intro idx hidx
    rw [mem_upto] at hidx
    exact h idx hidx.1 hidx.2
  · intro c hc
    simp only [prevAt, vset, vget_vmodify, hc, false_and, if_false]
  · rintro ⟨h0, h1, h2, h3, h4⟩
    simp only [prevLengths] at h1 h2 h3 h4
    simp only [prevAt, cumAt, vset, vget_vmodify, h0, h1, h2, h3, h4, and_self, if_true]

/-- What the planar background loop leaves unchanged: the geometry, the temperatures, the
shape of the map, and every case that is not the case of a pair of the list. -/
theorem UpdatePower_background_loop_other (cfg : Config) (stats_ : Statistics)
    (device_scale : ℚ) (ps : List (Int × Int)) (t : ThermalCalculator) :
    (UpdatePower_background_loop cfg stats_ device_scale ps t).toGeometry = t.toGeometry ∧
    (UpdatePower_background_loop cfg stats_ device_scale ps t).T_trans = t.T_trans ∧
    shape (UpdatePower_background_loop cfg stats_ device_scale ps t).cur_Pmap
      = shape t.cur_Pmap ∧
    prevLengths (UpdatePower_background_loop cfg stats_ device_scale ps t) = prevLengths t ∧
    (∀ c, (∀ p ∈ ps, p.1 * cfg.ranks + p.2 ≠ c) →
      (∀ i, cell (UpdatePower_background_loop cfg stats_ device_scale ps t).cur_Pmap c i
        = cell t.cur_Pmap c i) ∧
      caseSum (UpdatePower_background_loop cfg stats_ device_scale ps t).cur_Pmap c
        = caseSum t.cur_Pmap c ∧
      prevAt (UpdatePower_background_loop cfg stats_ device_scale ps t) c = prevAt t c) := by
  induction ps generalizing t with
  | nil => exact ⟨rfl, rfl, rfl, rfl, fun c _ => ⟨fun _ => rfl, rfl, rfl⟩⟩
  | cons q rest ih =>
    obtain ⟨sg, st, ss, sl, sc, so, -, sp, -⟩ :=
      UpdatePower_background_step_spec cfg stats_ device_scale t q.1 q.2
    obtain ⟨ig, it, is, il, io⟩ :=
      ih (UpdatePower_background_step cfg stats_ device_scale t q.1 q.2)
    refine ⟨ig.trans sg, it.trans st, is.trans ss, il.trans sl, ?_⟩
    intro c hc
    have hq : c ≠ q.1 * cfg.ranks + q.2 := fun h => hc q (List.mem_cons_self q rest) h.symm
    obtain ⟨o1, o2, o3⟩ := io c (fun p hp => hc p (List.mem_cons_of_mem q hp))
    refine ⟨?_, o2.trans (so c hq), o3.trans (sp c hq)⟩
    intro i
    have h1 := o1 i
    have h2 := sc c i
    rw [if_neg (fun h => hq h.1), add_zero] at h2
    exact h1.trans h2

/-- What the planar background loop does to the case of a pair of its list, when different
pairs of the list have different cases. -/
theorem UpdatePower_background_loop_at (cfg : Config) (stats_ : Statistics)
    (device_scale : ℚ) (ps : List (Int × Int))
    (hnd : (ps.map (fun p : Int × Int => p.1 * cfg.ranks + p.2)).Nodup)
    (t : ThermalCalculator) (p : Int × Int) (hp : p ∈ ps) :
    (∀ i, cell (UpdatePower_background_loop cfg stats_ device_scale ps t).cur_Pmap
          (p.1 * cfg.ranks + p.2) i
        = cell t.cur_Pmap (p.1 * cfg.ranks + p.2) i
          + if (0 ≤ i ∧ i < t.dimX * t.dimY * t.numP) ∧
              inMap t.cur_Pmap (p.1 * cfg.ranks + p.2) i
            then backgroundCell cfg stats_ device_scale t p.1 p.2 else 0) ∧
    ((∀ i, 0 ≤ i → i < t.dimX * t.dimY * t.numP →
        inMap t.cur_Pmap (p.1 * cfg.ranks + p.2) i) →
      caseSum (UpdatePower_background_loop cfg stats_ device_scale ps t).cur_Pmap
          (p.1 * cfg.ranks + p.2)
        = caseSum t.cur_Pmap (p.1 * cfg.ranks + p.2)
          + ((t.dimX * t.dimY * t.numP).toNat : ℚ)
            * backgroundCell cfg stats_ device_scale t p.1 p.2) ∧
    (prevInRange t (p.1 * cfg.ranks + p.2) →
      prevAt (UpdatePower_background_loop cfg stats_ device_scale ps t)
          (p.1 * cfg.ranks + p.2)
        = cumAt stats_ p.1 p.2) := by
  induction ps generalizing t with
  | nil => exact absurd hp (List.not_mem_nil p)
  | cons q rest ih =>
    obtain ⟨hq, hrest⟩ := List.nodup_cons.mp hnd
    obtain ⟨sg, -, ss, sl, sc, so, s1, sp, s2⟩ :=
      UpdatePower_background_step_spec cfg stats_ device_scale t q.1 q.2
    obtain ⟨g1, g2, g3, g4⟩ := geometry_fields _ _ sg
    rcases List.mem_cons.mp hp with rfl | hin
    · have hne : ∀ r ∈ rest, r.1 * cfg.ranks + r.2 ≠ p.1 * cfg.ranks + p.2 := by
        intro r hr h
        exact hq (List.mem_map.mpr ⟨r, hr, h⟩)
      obtain ⟨-, -, -, -, io⟩ := UpdatePower_background_loop_other cfg stats_ device_scale rest
        (UpdatePower_background_step cfg stats_ device_scale t p.1 p.2)
      obtain ⟨o1, o2, o3⟩ := io _ hne
      refine ⟨?_, ?_, ?_⟩
      · intro i
        have h2 := sc (p.1 * cfg.ranks + p.2) i
        simp only [true_and] at h2
        exact (o1 i).trans h2
      · intro h
        exact o2.trans (s1 h)
      · intro h
        exact o3.trans (s2 h)
    · have hne : p.1 * cfg.ranks + p.2 ≠ q.1 * cfg.ranks + q.2 := by
        intro h
        exact hq (List.mem_map.mpr ⟨p, hin, h⟩)
      obtain ⟨i1, i2, i3⟩ :=
        ih hrest (UpdatePower_background_step cfg stats_ device_scale t q.1 q.2) hin
      have hE : backgroundCell cfg stats_ device_scale
            (UpdatePower_background_step cfg stats_ device_scale t q.1 q.2) p.1 p.2
          = backgroundCell cfg stats_ device_scale t p.1 p.2 := by
        unfold backgroundCell
        rw [prevSum_of_prevAt _ _ _ (sp _ hne), g2, g3, g4]
      have hM : ∀ i, inMap (UpdatePower_background_step cfg stats_ device_scale t q.1
            q.2).cur_Pmap (p.1 * cfg.ranks + p.2) i
          ↔ inMap t.cur_Pmap (p.1 * cfg.ranks + p.2) i :=
        fun i => inMap_iff_shape _ _ ss _ i
      rw [hE, g2, g3, g4] at i1 i2
      refine ⟨?_, ?_, ?_⟩
      · intro i
        have h1 := i1 i
        have h2 := sc (p.1 * cfg.ranks + p.2) i
        rw [if_neg (fun h => hne h.1), add_zero] at h2
        rw [h2] at h1
        simp only [hM] at h1
        exact h1
      · intro h
        have h3 := i2 (fun i a b => (hM i).mpr (h i a b))
        rw [so _ hne] at h3
        exact h3
      · intro h
        apply i3
        unfold prevInRange at h ⊢
        rw [sl]
        exact h

/-! ### The previous-sample vectors outside the background loop -/

theorem prev_of_prevVectors (a b : ThermalCalculator) (h : prevVectors a = prevVectors b) :
    prevLengths a = prevLengths b ∧ ∀ c, prevAt a c = prevAt b c := by
  unfold prevVectors at h
  obtain ⟨h1, h⟩ := Prod.mk.inj h
  obtain ⟨h2, h⟩ := Prod.mk.inj h
  obtain ⟨h3, h4⟩ := Prod.mk.inj h
  unfold prevLengths prevAt
  rw [h1, h2, h3, h4]
  exact ⟨rfl, fun _ => rfl⟩

theorem UpdatePower_refresh_bank_prevVectors (cfg : Config) (cmd : Command) (c : Int)
    (e : ℚ) (tc : ThermalCalculator) (ib : Int) :
    prevVectors (UpdatePower_refresh_bank cfg cmd c e tc ib) = prevVectors tc := by
  unfold UpdatePower_refresh_bank
  refine foldl_inv (fun (t : ThermalCalculator) => prevVectors t = prevVectors tc) _ _ _
    rfl ?_
  intro t ir _ ht
  rw [LocationMappingANDaddEnergy_RF_eq]
  exact ht

theorem UpdatePower_deposit_prevVectors (cfg : Config) (tc : ThermalCalculator)
    (cmd : Command) (clk : Nat) :
    prevVectors (UpdatePower_deposit cfg tc cmd clk) = prevVectors tc := by
  unfold UpdatePower_deposit
  by_cases h1 : cmd.cmd_type_ = CommandType.REFRESH
  · simp only [h1, if_true]
    refine foldl_inv (fun (t : ThermalCalculator) => prevVectors t = prevVectors tc) _ _ _
      rfl ?_
    intro t ib _ ht
    exact (UpdatePower_refresh_bank_prevVectors cfg cmd _ _ t ib).trans ht
  · by_cases h2 : cmd.cmd_type_ = CommandType.REFRESH_BANK
    · simp only [h1, h2, if_true, if_false]
      exact UpdatePower_refresh_bank_prevVectors cfg cmd _ _ _ _
    · simp only [h1, h2, if_false]
      split
      · rw [LocationMappingANDaddEnergy_eq]
        rfl
      · rfl

theorem PrintTransPT_case_keeps (cfg : Config) (env : ThermalEnv) (tc : ThermalCalculator)
    (ir : Int) :
    prevVectors (PrintTransPT_case cfg env tc ir) = prevVectors tc ∧
    (PrintTransPT_case cfg env tc ir).cur_Pmap = tc.cur_Pmap ∧
    (PrintTransPT_case cfg env tc ir).accu_Pmap = tc.accu_Pmap ∧
    (PrintTransPT_case cfg env tc ir).toGeometry = tc.toGeometry := by
  unfold PrintTransPT_case CalcTransT
  split <;> exact ⟨rfl, rfl, rfl, rfl⟩

theorem InitPowerM_congr (cfg : Config) (env : ThermalEnv) (a b : ThermalCalculator)
    (hg : a.toGeometry = b.toGeometry) (hc : a.cur_Pmap = b.cur_Pmap)
    (ha : a.accu_Pmap = b.accu_Pmap) (case_id : Int) (clk : Nat) :
    InitPowerM cfg env a case_id clk = InitPowerM cfg env b case_id clk := by
  obtain ⟨-, g2, g3, g4⟩ := geometry_fields _ _ hg
  unfold InitPowerM
  rw [g2, g3, g4, hc, ha]

/-- The loop of `PrintTransPT` hands the power maps of its entry state to the transient
solver, case after case, and keeps the previous-sample vectors. -/
theorem PrintTransPT_fold_solver (cfg : Config) (env : ThermalEnv) (tc : ThermalCalculator)
    (l : List Int) (t : ThermalCalculator) (hg : t.toGeometry = tc.toGeometry)
    (hc : t.cur_Pmap = tc.cur_Pmap) (ha : t.accu_Pmap = tc.accu_Pmap) :
    (l.foldl (PrintTransPT_case cfg env) t).T_trans
      = l.foldl (fun T ir => vmodify T ir
          (env.transient_thermal_solver (InitPowerM cfg env tc ir 0))) t.T_trans ∧
    prevVectors (l.foldl (PrintTransPT_case cfg env) t) = prevVectors t := by
  induction l generalizing t with
  | nil => exact ⟨rfl, rfl⟩
  | cons a r ih =>
    obtain ⟨k1, k2, k3, k4⟩ := PrintTransPT_case_keeps cfg env t a
    obtain ⟨i1, i2⟩ := ih (PrintTransPT_case cfg env t a) (k4.trans hg) (k2.trans hc)
      (k3.trans ha)
    simp only [List.foldl_cons]
    refine ⟨?_, i2.trans k1⟩
    rw [i1, PrintTransPT_case_T_trans, InitPowerM_congr cfg env t tc hg hc ha]

/-- One call that crosses an epoch boundary: the temperatures are the result of the
transient solves on the power maps of the state after the background energy, and the
previous-sample energies are those of that state. -/
theorem UpdatePower_crossing (cfg : Config) (env : ThermalEnv) (stats_ : Statistics)
    (tc : ThermalCalculator) (cmd : Command) (clk : Nat)
    (hcross : epochCrossed cfg tc clk = true) :
    (UpdatePower cfg env stats_ tc cmd clk).T_trans
      = (upto tc.num_case).foldl (fun T ir => vmodify T ir
          (env.transient_thermal_solver
            (InitPowerM cfg env
              (UpdatePower_background cfg stats_ (UpdatePower_deposit cfg tc cmd clk)
                (UpdatePower_case cfg cmd).2) ir 0))) tc.T_trans ∧
    prevVectors (UpdatePower cfg env stats_ tc cmd clk)
      = prevVectors (UpdatePower_background cfg stats_ (UpdatePower_deposit cfg tc cmd clk)
          (UpdatePower_case cfg cmd).2) := by
  obtain ⟨ds, hd, -⟩ := UpdatePower_deposit_isDeposit cfg tc cmd clk
  obtain ⟨-, -, dg, -, -, -, dT, -, -⟩ := hd
  have hB := (UpdatePower_background_frame cfg stats_ (UpdatePower_deposit cfg tc cmd clk)
    (UpdatePower_case cfg cmd).2).1.1
  have hBT := UpdatePower_background_T_trans cfg stats_ (UpdatePower_deposit cfg tc cmd clk)
    (UpdatePower_case cfg cmd).2
  have hn : (UpdatePower_background cfg stats_ (UpdatePower_deposit cfg tc cmd clk)
      (UpdatePower_case cfg cmd).2).num_case = tc.num_case :=
    (geometry_fields _ _ (hB.trans dg)).1
  obtain ⟨f1, f2⟩ := PrintTransPT_fold_solver cfg env
    (UpdatePower_background cfg stats_ (UpdatePower_deposit cfg tc cmd clk)
      (UpdatePower_case cfg cmd).2) (upto tc.num_case)
    (UpdatePower_background cfg stats_ (UpdatePower_deposit cfg tc cmd clk)
      (UpdatePower_case cfg cmd).2) rfl rfl rfl
  have hc2 : epochCrossed cfg (UpdatePower_deposit cfg tc cmd clk) clk = true := by
    rw [epochCrossed_deposit]
    exact hcross
  unfold UpdatePower UpdatePower_epoch
  rw [if_pos hc2]
  unfold PrintTransPT
  simp only [hn]
  refine ⟨?_, ?_⟩
  · show (List.foldl (PrintTransPT_case cfg env) _ (upto tc.num_case)).T_trans = _
    rw [f1, hBT, dT]
  · exact f2

theorem UpdatePower_not_crossing (cfg : Config) (env : ThermalEnv) (stats_ : Statistics)
    (tc : ThermalCalculator) (cmd : Command) (clk : Nat)
    (hcross : epochCrossed cfg tc clk = false) :
    prevVectors (UpdatePower cfg env stats_ tc cmd clk) = prevVectors tc := by
  have hc2 : epochCrossed cfg (UpdatePower_deposit cfg tc cmd clk) clk = false := by
    rw [epochCrossed_deposit]
    exact hcross
  unfold UpdatePower UpdatePower_epoch
  rw [hc2]
  exact UpdatePower_deposit_prevVectors cfg tc cmd clk

/-! ### Ready states -/

theorem inMap_zeroMap (n m c i : Int) (hc : 0 ≤ c ∧ c < n) (hi : 0 ≤ i ∧ i < m) :
    inMap (zeroMap n m) c i := by
  unfold inMap zeroMap
  refine ⟨hc.1, hi.1, ?_⟩
  have h1 : c.toNat < n.toNat := by omega
  rw [List.getD_eq_getElem?_getD, List.getElem?_replicate, if_pos h1]
  simp only [Option.getD_some, List.length_replicate]
  omega

theorem case_in_range (channels ranks jch jrk : Int) (hch : 0 ≤ jch ∧ jch < channels)
    (hrk : 0 ≤ jrk ∧ jrk < ranks) :
    0 ≤ jch * ranks + jrk ∧ jch * ranks + jrk < ranks * channels := by
  obtain ⟨a0, a1⟩ := hch
  obtain ⟨b0, b1⟩ := hrk
  have h1 : 0 ≤ jch * ranks := mul_nonneg a0 (by omega)
  have h2 : (jch + 1) * ranks ≤ channels * ranks :=
    mul_le_mul_of_nonneg_right (by omega) (by omega)
  constructor
  · omega
  · nlinarith

theorem backgroundReady_uses (cfg : Config) (tc : ThermalCalculator) (jch jrk : Int)
    (h : BackgroundReady cfg tc) (hch : 0 ≤ jch ∧ jch < cfg.channels)
    (hrk : 0 ≤ jrk ∧ jrk < cfg.ranks) :
    prevInRange tc (jch * cfg.ranks + jrk) ∧
    ∀ i, 0 ≤ i → i < tc.dimX * tc.dimY * tc.numP →
      inMap tc.cur_Pmap (jch * cfg.ranks + jrk) i := by
  obtain ⟨h1, h2, h3⟩ := h
  obtain ⟨k0, k1⟩ := case_in_range cfg.channels cfg.ranks jch jrk hch hrk
  rw [← h1] at k1
  constructor
  · unfold prevInRange
    rw [h3]
    have : (jch * cfg.ranks + jrk).toNat < tc.num_case.toNat := by omega
    exact ⟨k0, this, this, this, this⟩
  · intro i i0 i1
    rw [inMap_iff_shape _ _ h2]
    apply inMap_zeroMap _ _ _ _ ⟨k0, k1⟩ ⟨i0, ?_⟩
    have : tc.numP * tc.dimX * tc.dimY = tc.dimX * tc.dimY * tc.numP := by ring
    omega

theorem init_backgroundReady (cfg : Config) (env : ThermalEnv) (phy : Address → Address)
    (vx0 vy0 : Int) (hmc : cfg.IsHMC = false) (hbm : cfg.IsHBM = false) :
    BackgroundReady cfg (ThermalCalculator.init cfg env phy vx0 vy0) ∧
    ∀ c, prevAt (ThermalCalculator.init cfg env phy vx0 vy0) c = (0, 0, 0, 0) := by
  refine ⟨⟨?_, rfl, ?_⟩, ?_⟩
  · show (ThermalCalculator_geometry cfg vx0 vy0).num_case = _
    unfold ThermalCalculator_geometry
    simp [hmc, hbm]
  · simp only [prevLengths, ThermalCalculator.init, List.length_replicate]
  · intro c
    have hz : ∀ n : Nat, vget (List.replicate n (0 : ℚ)) c 0 = 0 := by
      intro n
      unfold vget
      split
      · rw [List.getD_eq_getElem?_getD, List.getElem?_replicate]
        split <;> rfl
      · rfl
    simp only [prevAt, ThermalCalculator.init, hz]

theorem UpdatePower_backgroundReady (cfg : Config) (env : ThermalEnv) (stats_ : Statistics)
    (tc : ThermalCalculator) (cmd : Command) (clk : Nat) (hmc : cfg.IsHMC = false)
    (hbm : cfg.IsHBM = false) (h : BackgroundReady cfg tc) :
    BackgroundReady cfg (UpdatePower cfg env stats_ tc cmd clk) := by
  obtain ⟨h1, h2, h3⟩ := h
  obtain ⟨ds, hd, -⟩ := UpdatePower_deposit_isDeposit cfg tc cmd clk
  obtain ⟨ug, -, -, -, -, -, uc, -⟩ := UpdatePower_spec cfg env stats_ tc cmd clk
  obtain ⟨g1, g2, g3, g4⟩ := geometry_fields _ _ ug
  have hl : prevLengths (UpdatePower cfg env stats_ tc cmd clk) = prevLengths tc := by
    by_cases hc : epochCrossed cfg tc clk = true
    · rw [(prev_of_prevVectors _ _ (UpdatePower_crossing cfg env stats_ tc cmd clk hc).2).1,
        UpdatePower_background_planar _ _ _ _ hmc hbm,
        (UpdatePower_background_loop_other cfg stats_ _ _ _).2.2.2.1,
        (prev_of_prevVectors _ _ (UpdatePower_deposit_prevVectors cfg tc cmd clk)).1]
    · rw [(prev_of_prevVectors _ _ (UpdatePower_not_crossing cfg env stats_ tc cmd clk
        (by simpa using hc))).1]
  refine ⟨g1.trans h1, ?_, ?_⟩
  · rw [g1, g2, g3, g4, uc]
    split
    · rfl
    · rw [hd.2.1, shape_applyDeposits, h2]
  · rw [hl, g1, h3]

theorem run_backgroundReady (cfg : Config) (env : ThermalEnv) (calls : List Call)
    (tc : ThermalCalculator) (hmc : cfg.IsHMC = false) (hbm : cfg.IsHBM = false)
    (h : BackgroundReady cfg tc) : BackgroundReady cfg (run cfg env tc calls) := by
  induction calls generalizing tc with
  | nil => exact h
  | cons a r ih =>
    exact ih _ (UpdatePower_backgroundReady cfg env a.stats_ tc a.cmd a.clk hmc hbm h)

/-! ### One call and a run of calls -/

theorem UpdatePower_prevAt (cfg : Config) (env : ThermalEnv) (stats_ : Statistics)
    (tc : ThermalCalculator) (cmd : Command) (clk : Nat) (jch jrk : Int)
    (hmc : cfg.IsHMC = false) (hbm : cfg.IsHBM = false) (h : BackgroundReady cfg tc)
    (hch : 0 ≤ jch ∧ jch < cfg.channels) (hrk : 0 ≤ jrk ∧ jrk < cfg.ranks) :
    prevAt (UpdatePower cfg env stats_ tc cmd clk) (jch * cfg.ranks + jrk)
      = if epochCrossed cfg tc clk then cumAt stats_ jch jrk
        else prevAt tc (jch * cfg.ranks + jrk) := by
  by_cases hc : epochCrossed cfg tc clk = true
  · rw [if_pos hc, (prev_of_prevVectors _ _
      (UpdatePower_crossing cfg env stats_ tc cmd clk hc).2).2,
      UpdatePower_background_planar _ _ _ _ hmc hbm]
    have hin : prevInRange (UpdatePower_deposit cfg tc cmd clk) (jch * cfg.ranks + jrk) := by
      have := (backgroundReady_uses cfg tc jch jrk h hch hrk).1
      unfold prevInRange at this ⊢
      rw [(prev_of_prevVectors _ _ (UpdatePower_deposit_prevVectors cfg tc cmd clk)).1]
      exact this
    exact (UpdatePower_background_loop_at cfg stats_ (UpdatePower_case cfg cmd).2
      (channelRanks cfg) (channelRanks_keys_nodup cfg) (UpdatePower_deposit cfg tc cmd clk)
      (jch, jrk) ((mem_channelRanks cfg (jch, jrk)).mpr ⟨hch, hrk⟩)).2.2 hin
  · rw [if_neg hc, (prev_of_prevVectors _ _ (UpdatePower_not_crossing cfg env stats_ tc cmd clk
      (by simpa using hc))).2]

theorem foldedTotal_telescopes (cfg : Config) (env : ThermalEnv) (jch jrk : Int)
    (hmc : cfg.IsHMC = false) (hbm : cfg.IsHBM = false)
    (hch : 0 ≤ jch ∧ jch < cfg.channels) (hrk : 0 ≤ jrk ∧ jrk < cfg.ranks)
    (calls : List Call) (tc : ThermalCalculator) (h : BackgroundReady cfg tc) :
    foldedTotal cfg env jch jrk tc calls
      = prevSum (run cfg env tc calls) (jch * cfg.ranks + jrk)
        - prevSum tc (jch * cfg.ranks + jrk) := by
  induction calls generalizing tc with
  | nil => simp [foldedTotal, run]
  | cons a r ih =>
    have hp := UpdatePower_prevAt cfg env a.stats_ tc a.cmd a.clk jch jrk hmc hbm h hch hrk
    have hstep : foldedBackground cfg tc a jch jrk
        = prevSum (UpdatePower cfg env a.stats_ tc a.cmd a.clk) (jch * cfg.ranks + jrk)
          - prevSum tc (jch * cfg.ranks + jrk) := by
      unfold foldedBackground
      by_cases hc : epochCrossed cfg tc a.clk = true
      · rw [if_pos hc] at hp ⊢
        rw [prevSum_of_cumAt _ _ _ _ _ hp]
      · rw [if_neg hc] at hp ⊢
        rw [prevSum_of_prevAt _ _ _ hp, sub_self]
    have h2 := ih (UpdatePower cfg env a.stats_ tc a.cmd a.clk)
      (UpdatePower_backgroundReady cfg env a.stats_ tc a.cmd a.clk hmc hbm h)
    show foldedBackground cfg tc a jch jrk
        + foldedTotal cfg env jch jrk (UpdatePower cfg env a.stats_ tc a.cmd a.clk) r
      = prevSum (run cfg env (UpdatePower cfg env a.stats_ tc a.cmd a.clk) r) _ - _
    rw [hstep, h2]
    ring

/-- C29 (as amended). Background energy fold, in exact rational arithmetic: in a planar
topology, on a state with one case per (channel, rank) pair, a call of `UpdatePower` that crosses an epoch boundary hands to the
transient solver, for every case, the array `InitPowerM` builds from the current map of
the state after the background energy (`backgroundState`).  In that map every one of the
`dimX*dimY*numP` cells of the case `c = channel*ranks + rank` is raised by
`D_c/(dimX*dimY*numP)/1000/device_scale` over the deposits of the call, where `D_c` is the
sum of the four cumulative energies of the channel-rank minus the sum of the stored
previous values and `device_scale = devices_per_rank`; the total added to the case is
`D_c/1000/device_scale`; after the call the stored previous values are the cumulative
values and the state is again of that kind.  Over a run of calls the folded amounts add
up to the stored sum at the end minus the stored sum at the start, and from the state built
by the constructor to the cumulative sum of the latest crossing call. -/
theorem C29_background_fold (cfg : Config) (env : ThermalEnv) (stats_ : Statistics)
    (tc : ThermalCalculator) (cmd : Command) (clk : Nat) (jch jrk : Int)
    (hmc : cfg.IsHMC = false) (hbm : cfg.IsHBM = false) (hready : BackgroundReady cfg tc)
    (hcross : epochCrossed cfg tc clk = true)
    (hch : 0 ≤ jch ∧ jch < cfg.channels) (hrk : 0 ≤ jrk ∧ jrk < cfg.ranks) :
    (UpdatePower_case cfg cmd).2 = (cfg.devices_per_rank : ℚ) ∧
    (UpdatePower cfg env stats_ tc cmd clk).T_trans
      = (upto tc.num_case).foldl (fun T ir => vmodify T ir
          (env.transient_thermal_solver
            (InitPowerM cfg env (backgroundState cfg stats_ tc cmd clk) ir 0))) tc.T_trans ∧
    InitPowerM_source cfg (backgroundState cfg stats_ tc cmd clk) 0
      = ((backgroundState cfg stats_ tc cmd clk).cur_Pmap, (cfg.power_epoch_period : ℚ)) ∧
    (∀ i, 0 ≤ i → i < tc.dimX * tc.dimY * tc.numP →
      inMap (backgroundState cfg stats_ tc cmd clk).cur_Pmap (jch * cfg.ranks + jrk) i ∧
      cell (backgroundState cfg stats_ tc cmd clk).cur_Pmap (jch * cfg.ranks + jrk) i
        = cell (UpdatePower_deposit cfg tc cmd clk).cur_Pmap (jch * cfg.ranks + jrk) i
          + (cumSum stats_ jch jrk - prevSum tc (jch * cfg.ranks + jrk))
            / ((tc.dimX * tc.dimY * tc.numP : Int) : ℚ) / 1000 / (cfg.devices_per_rank : ℚ)) ∧
    (0 < tc.dimX * tc.dimY * tc.numP →
      caseSum (backgroundState cfg stats_ tc cmd clk).cur_Pmap (jch * cfg.ranks + jrk)
        = caseSum (UpdatePower_deposit cfg tc cmd clk).cur_Pmap (jch * cfg.ranks + jrk)
          + (cumSum stats_ jch jrk - prevSum tc (jch * cfg.ranks + jrk))
            / 1000 / (cfg.devices_per_rank : ℚ)) ∧
    prevAt (UpdatePower cfg env stats_ tc cmd clk) (jch * cfg.ranks + jrk)
      = cumAt stats_ jch jrk ∧
    BackgroundReady cfg (UpdatePower cfg env stats_ tc cmd clk) ∧
    (∀ calls : List Call,
      foldedTotal cfg env jch jrk tc calls
        = prevSum (run cfg env tc calls) (jch * cfg.ranks + jrk)
          - prevSum tc (jch * cfg.ranks + jrk)) ∧
    (∀ (phy : Address → Address) (vx0 vy0 : Int) (calls : List Call) (last : Call),
      epochCrossed cfg (run cfg env (ThermalCalculator.init cfg env phy vx0 vy0) calls)
          last.clk = true →
      foldedTotal cfg env jch jrk (ThermalCalculator.init cfg env phy vx0 vy0)
          (calls ++ [last])
        = cumSum last.stats_ jch jrk) := by
  have hscale : (UpdatePower_case cfg cmd).2 = (cfg.devices_per_rank : ℚ) := by
    unfold UpdatePower_case
    simp [hmc, hbm]
  obtain ⟨ds, hd, -⟩ := UpdatePower_deposit_isDeposit cfg tc cmd clk
  obtain ⟨-, dc, dg, -⟩ := hd
  obtain ⟨-, g2, g3, g4⟩ := geometry_fields _ _ dg
  obtain ⟨hin, hmap⟩ := backgroundReady_uses cfg tc jch jrk hready hch hrk
  have hpD := prev_of_prevVectors _ _ (UpdatePower_deposit_prevVectors cfg tc cmd clk)
  have hmapD : ∀ i, 0 ≤ i → i < tc.dimX * tc.dimY * tc.numP →
      inMap (UpdatePower_deposit cfg tc cmd clk).cur_Pmap (jch * cfg.ranks + jrk) i := by
    intro i i0 i1
    rw [dc]
    exact (inMap_iff_shape _ _ (shape_applyDeposits _ _) _ i).mpr (hmap i i0 i1)
  obtain ⟨l1, l2, -⟩ := UpdatePower_background_loop_at cfg stats_ (UpdatePower_case cfg cmd).2
    (channelRanks cfg) (channelRanks_keys_nodup cfg) (UpdatePower_deposit cfg tc cmd clk)
    (jch, jrk) ((mem_channelRanks cfg (jch, jrk)).mpr ⟨hch, hrk⟩)
  have hsh := (UpdatePower_background_loop_other cfg stats_ (UpdatePower_case cfg cmd).2
    (channelRanks cfg) (UpdatePower_deposit cfg tc cmd clk)).2.2.1
  rw [← UpdatePower_background_planar _ _ _ _ hmc hbm] at l1 l2 hsh
  have hE : backgroundCell cfg stats_ (UpdatePower_case cfg cmd).2
        (UpdatePower_deposit cfg tc cmd clk) jch jrk
      = (cumSum stats_ jch jrk - prevSum tc (jch * cfg.ranks + jrk))
        / ((tc.dimX * tc.dimY * tc.numP : Int) : ℚ) / 1000 / (cfg.devices_per_rank : ℚ) := by
    unfold backgroundCell
    rw [prevSum_of_prevAt _ _ _ (hpD.2 _), g2, g3, g4, hscale]
  simp only [g2, g3, g4, hE] at l1 l2
  have hp := UpdatePower_prevAt cfg env stats_ tc cmd clk jch jrk hmc hbm hready hch hrk
  rw [if_pos hcross] at hp
  refine ⟨hscale, (UpdatePower_crossing cfg env stats_ tc cmd clk hcross).1, rfl, ?_, ?_, hp,
    UpdatePower_backgroundReady cfg env stats_ tc cmd clk hmc hbm hready,
    fun calls => foldedTotal_telescopes cfg env jch jrk hmc hbm hch hrk calls tc hready, ?_⟩
  · intro i i0 i1
    refine ⟨(inMap_iff_shape _ _ hsh _ i).mpr (hmapD i i0 i1), ?_⟩
    have h := l1 i
    rw [if_pos ⟨⟨i0, i1⟩, hmapD i i0 i1⟩] at h
    exact h
  · intro hN
    have h := l2 hmapD
    unfold backgroundState
    rw [h, toNat_cast_rat _ (le_of_lt hN)]
    have hne : ((tc.dimX * tc.dimY * tc.numP : Int) : ℚ) ≠ 0 := by
      exact_mod_cast (ne_of_gt hN)
    congr 1
    rw [← mul_div_assoc, ← mul_div_assoc, ← mul_div_assoc, mul_div_cancel_left₀ _ hne]
  · intro phy vx0 vy0 calls last hlast
    obtain ⟨hr0, hz⟩ := init_backgroundReady cfg env phy vx0 vy0 hmc hbm
    rw [foldedTotal_telescopes cfg env jch jrk hmc hbm hch hrk _ _ hr0, run_append]
    have hr1 := run_backgroundReady cfg env calls _ hmc hbm hr0
    have hq := UpdatePower_prevAt cfg env last.stats_
      (run cfg env (ThermalCalculator.init cfg env phy vx0 vy0) calls) last.cmd last.clk
      jch jrk hmc hbm hr1 hch hrk
    rw [if_pos hlast] at hq
    have h0 : prevSum (ThermalCalculator.init cfg env phy vx0 vy0) (jch * cfg.ranks + jrk)
        = 0 := by
      have := hz (jch * cfg.ranks + jrk)
      unfold prevAt at this
      obtain ⟨e1, this⟩ := Prod.mk.inj this
      obtain ⟨e2, this⟩ := Prod.mk.inj this
      obtain ⟨e3, e4⟩ := Prod.mk.inj this
      unfold prevSum
      rw [e1, e2, e3, e4]
      norm_num
    rw [h0, sub_zero]
    show prevSum (UpdatePower cfg env last.stats_ _ last.cmd last.clk) _ = _
    exact prevSum_of_cumAt _ _ _ _ _ hq

/-- C29 at the scenario: the call at clock 1001 with the cumulative energies 1, 2, 3, 4
crosses the first epoch boundary of the state built by the constructor. -/
theorem C29_background_fold_witness :
    BackgroundReady scenarioConfig scenarioState ∧
    epochCrossed scenarioConfig scenarioState 1001 = true ∧
    prevAt (UpdatePower scenarioConfig scenarioEnv busyStats scenarioState (activateBank 1)
        1001) (0 * scenarioConfig.ranks + 0)
      = cumAt busyStats 0 0 ∧
    cumAt busyStats 0 0 = (1, 2, 3, 4) := by
  have hr : BackgroundReady scenarioConfig scenarioState := ⟨by decide, by decide, by decide⟩
  have h := C29_background_fold scenarioConfig scenarioEnv busyStats scenarioState
    (activateBank 1) 1001 0 0 rfl rfl hr (by decide) (by decide) (by decide)
  exact ⟨hr, by decide, h.2.2.2.2.2.1, by norm_num [cumAt, busyStats, cumulative_value, vget]⟩

/-- C29 as stated fails in double precision.  In the scenario (32 cells, 8 devices per
rank) the `ACTIVATE` to bank 1 at clock 1001 crosses the first epoch boundary with the
cumulative energies 1, 2, 3 and 4, so `D_c = 10`.  The program adds the double
`5764607523034235 / 2^67` that it computes for `D_c/32/1000/8` to every cell; this is not
the rational `1/25600`, so the cells without a deposit are not raised by the exact amount.
Cell 16 holds the deposit of the call and is raised by `720575940379279 / 2^64`, which is
neither the exact amount nor the computed double; and the total added to the case is not
`D_c/1000/8 = 1/800`. -/
theorem C29_counterexample :
    epochCrossed scenarioConfig scenarioState 1001 = true ∧
    cumSum busyStats 0 0 - prevSum scenarioState (0 * scenarioConfig.ranks + 0) = 10 ∧
    scenarioState.dimX * scenarioState.dimY * scenarioState.numP = 32 ∧
    cell (UpdatePower_deposit_fl roundToDouble scenarioConfig scenarioState (activateBank 1)
        1001).cur_Pmap 0 0 = 0 ∧
    cell (backgroundState_fl roundToDouble scenarioConfig busyStats scenarioState
        (activateBank 1) 1001).cur_Pmap 0 0 = 5764607523034235 / 147573952589676412928 ∧
    cell (backgroundState_fl roundToDouble scenarioConfig busyStats scenarioState
        (activateBank 1) 1001).cur_Pmap 0 0
      ≠ cell (UpdatePower_deposit_fl roundToDouble scenarioConfig scenarioState
          (activateBank 1) 1001).cur_Pmap 0 0
        + (cumSum busyStats 0 0 - prevSum scenarioState (0 * scenarioConfig.ranks + 0))
          / ((scenarioState.dimX * scenarioState.dimY * scenarioState.numP : Int) : ℚ)
          / 1000 / (scenarioConfig.devices_per_rank : ℚ) ∧
    cell (UpdatePower_deposit_fl roundToDouble scenarioConfig scenarioState (activateBank 1)
        1001).cur_Pmap 0 16 = 6917529027641081 / 18446744073709551616 ∧
    cell (backgroundState_fl roundToDouble scenarioConfig busyStats scenarioState
        (activateBank 1) 1001).cur_Pmap 0 16
      - cell (UpdatePower_deposit_fl roundToDouble scenarioConfig scenarioState
          (activateBank 1) 1001).cur_Pmap 0 16 = 720575940379279 / 18446744073709551616 ∧
    cell (backgroundState_fl roundToDouble scenarioConfig busyStats scenarioState
        (activateBank 1) 1001).cur_Pmap 0 16
      ≠ cell (UpdatePower_deposit_fl roundToDouble scenarioConfig scenarioState
          (activateBank 1) 1001).cur_Pmap 0 16
        + (cumSum busyStats 0 0 - prevSum scenarioState (0 * scenarioConfig.ranks + 0))
          / ((scenarioState.dimX * scenarioState.dimY * scenarioState.numP : Int) : ℚ)
          / 1000 / (scenarioConfig.devices_per_rank : ℚ) ∧
    cell (backgroundState_fl roundToDouble scenarioConfig busyStats scenarioState
        (activateBank 1) 1001).cur_Pmap 0 16
      ≠ cell (UpdatePower_deposit_fl roundToDouble scenarioConfig scenarioState
          (activateBank 1) 1001).cur_Pmap 0 16
        + roundToDouble (roundToDouble (roundToDouble
            ((cumSum busyStats 0 0 - prevSum scenarioState (0 * scenarioConfig.ranks + 0))
              / ((scenarioState.dimX * scenarioState.dimY * scenarioState.numP : Int) : ℚ))
            / 1000) / (scenarioConfig.devices_per_rank : ℚ)) ∧
    caseSum (backgroundState_fl roundToDouble scenarioConfig busyStats scenarioState
        (activateBank 1) 1001).cur_Pmap 0
      ≠ caseSum (UpdatePower_deposit_fl roundToDouble scenarioConfig scenarioState
          (activateBank 1) 1001).cur_Pmap 0
        + (cumSum busyStats 0 0 - prevSum scenarioState (0 * scenarioConfig.ranks + 0))
          / 1000 / (scenarioConfig.devices_per_rank : ℚ) := by
  decide!

/-! ## C28: the bank-position file and the mapper -/

theorem flagTwoInit_eq :
    ThermalCalculator.init flagTwoConfig scenarioEnv (fun a => a) 0 0 = scenarioState :=
  scenarioInit_eq

/-- The cells of the refresh loop are its pairs `(x, y)` in the layer of the bank. -/
theorem LocationMapping_RF_of_cells (cfg : Config) (tc : ThermalCalculator) (cmd : Command)
    (bank0 row0 : Int) :
    LocationMapping_RF cfg tc cmd bank0 row0
      = (LocationMapping_RF_cells cfg tc cmd bank0 row0).map (fun p =>
          MapToZ cfg tc
              { cmd_type_ := cmd.cmd_type_,
                addr_ := tc.GetPhyAddress { cmd.addr_ with row_ := row0, bank_ := bank0 } }
            * (tc.dimX * tc.dimY) + p.2 * tc.dimX + p.1) := by
  unfold LocationMapping_RF LocationMapping_RF_cells
  simp only [List.map_map]
  rfl

theorem tiled_geometry :
    ThermalCalculator_geometry tiledConfig 0 0
      = { bank_x := 4, bank_y := 2, vault_x := 0, vault_y := 0, dimX := 4, dimY := 8,
          numP := 1, num_case := 1 } := by
  unfold ThermalCalculator_geometry
  rw [if_neg (by decide), if_neg (by decide)]
  have h : determineXY tiledConfig.bank_asr 1 tiledConfig.banks = 4 :=
    determineXY_8_ratio_1
  simp only [h]
  rfl

theorem tiledInit_eq :
    ThermalCalculator.init tiledConfig scenarioEnv (fun a => a) 0 0 = tiledState := by
  unfold ThermalCalculator.init
  simp only [tiled_geometry]
  unfold tiledState scenarioState
  congr 1
  · norm_num [tiledConfig, scenarioConfig, scenarioEnv]
  · have h1 : upto 1 = [0] := by decide
    rw [h1]
    norm_num [tiledConfig, scenarioConfig, scenarioEnv]

/-- C28 on the code, two divergences.  With the placement-priority flag 2 in the scenario
the file places bank 1 at the start corner `(2, 0)` while the mapper places a command to
bank 1 at `(0, 2)`: `PrintCSV_bank` tests `bank_order == 1`, the mapper `bank_order == 0`.
In a 3D-stacked configuration with 2 bank groups of 4 banks on 4 dies the file puts the
flat bank `1 * 4 + 1 = 5` on layer 2 while `MapToZ` puts a command to group 1, bank 1 on
layer 0: `MapToZ` divides the bank of the group, not the flat bank id. -/
theorem C28_bank_dump_mismatch :
    ThermalCalculator.init flagTwoConfig scenarioEnv (fun a => a) 0 0 = scenarioState ∧
    (PrintCSV_bank_find flagTwoConfig scenarioState 0 1).map dumpStart = some (2, 0, 0) ∧
    mapperStart flagTwoConfig scenarioState (readBank 0 1) = (0, 2, 0) ∧
    (readBank 1 1).Bankgroup * stackedGroups.banks_per_group + (readBank 1 1).Bank = 5 ∧
    (PrintCSV_bank_find stackedGroups stackedGroupsInit 0 5).map BankRow.z = some 2 ∧
    MapToZ stackedGroups stackedGroupsInit (readBank 1 1) = 0 :=
  ⟨flagTwoInit_eq, by decide, by decide, by decide, by decide, by decide⟩

/-! ## C30: the cells of a refresh under row tiling -/

/-- C30 on the code: in the scenario with 2 column tiles of 8 rows, row 8 is refreshed by
the third `REFRESH` of a bank; for bank 0 the loop of `LocationMappingANDaddEnergy_RF`
visits `y = 2, 3, 4, 5` while the rectangle of bank 0 is `y = 0 .. 3`, and for bank 1 it
visits the cells 24, 28, 32 and 36 of a map of 32 cells. -/
theorem C30_refresh_tile_overrun :
    ThermalCalculator.init tiledConfig scenarioEnv (fun a => a) 0 0 = tiledState ∧
    refresh_rows tiledConfig 2 = [8, 9, 10, 11] ∧
    LocationMapping_RF_cells tiledConfig tiledState refreshAll 0 8
      = [(0, 2), (0, 3), (0, 4), (0, 5)] ∧
    (PrintCSV_bank_find tiledConfig tiledState 0 0).map (fun r => (r.start_y, r.end_y))
      = some (0, 3) ∧
    (PrintCSV_bank_find tiledConfig tiledState 0 1).map (fun r => (r.start_y, r.end_y))
      = some (4, 7) ∧
    LocationMapping_RF tiledConfig tiledState refreshAll 0 8 = [8, 12, 16, 20] ∧
    LocationMapping_RF tiledConfig tiledState refreshAll 1 8 = [24, 28, 32, 36] ∧
    (inMap tiledState.cur_Pmap 0 28 ∧ ¬ inMap tiledState.cur_Pmap 0 32) :=
  ⟨tiledInit_eq, by decide, by decide, by decide, by decide, by decide, by decide,
    by decide⟩

/-! ## C31: `determineXY` returns a positive divisor -/

theorem determineXY_nonpos (xd yd : ℚ) (n : Int) (hn : n ≤ 0) : determineXY xd yd n = 1 := by
  unfold determineXY upto
  have h : n.toNat = 0 := Int.toNat_eq_zero.mpr hn
  rw [h]
  rfl

/-- C31. `determineXY` always returns a positive divisor: the embedding is a total function
(the loop runs over the candidates `y = 1, ..., n`), and for every `xd`, `yd` and `n` the
result `x` satisfies `x >= 1`, `x` divides `n` and `x * (n / x) = n` with the truncating
division; it is 1 when `n <= 0` and when no candidate is accepted.  For `n >= 1` the
cofactor `n / x` is at least 1.  So in the constructor `bank_x * bank_y = banks` with
`bank_x` dividing `banks` in planar topologies and `vault_x * vault_y = channels` in the
3D-stacked topology. -/
theorem C31_determineXY_divisor (xd yd : ℚ) (n : Int) :
    1 ≤ determineXY xd yd n ∧ determineXY xd yd n ∣ n ∧
    determineXY xd yd n * n.tdiv (determineXY xd yd n) = n ∧
    (n ≤ 0 → determineXY xd yd n = 1) ∧
    ((∀ y : Int, 1 ≤ y → y ≤ n → n.tdiv y * y = n →
        1000 ≤ determineXY_asr xd yd (n.tdiv y) y) → determineXY xd yd n = 1) ∧
    (1 ≤ n → 1 ≤ n.tdiv (determineXY xd yd n)) ∧
    (∀ (cfg : Config) (env : ThermalEnv) (phy : Address → Address) (vx0 vy0 : Int),
      (cfg.IsHMC = false → cfg.IsHBM = false →
        (ThermalCalculator.init cfg env phy vx0 vy0).bank_x ∣ cfg.banks ∧
        (ThermalCalculator.init cfg env phy vx0 vy0).bank_y
          = cfg.banks.tdiv (ThermalCalculator.init cfg env phy vx0 vy0).bank_x ∧
        (ThermalCalculator.init cfg env phy vx0 vy0).bank_x
          * (ThermalCalculator.init cfg env phy vx0 vy0).bank_y = cfg.banks) ∧
      (cfg.IsHMC = true →
        (ThermalCalculator.init cfg env phy vx0 vy0).vault_x ∣ cfg.channels ∧
        (ThermalCalculator.init cfg env phy vx0 vy0).vault_y
          = cfg.channels.tdiv (ThermalCalculator.init cfg env phy vx0 vy0).vault_x ∧
        (ThermalCalculator.init cfg env phy vx0 vy0).vault_x
          * (ThermalCalculator.init cfg env phy vx0 vy0).vault_y = cfg.channels)) := by
  have hall : ∀ (a b : ℚ) (m : Int), 1 ≤ determineXY a b m ∧ determineXY a b m ∣ m ∧
      determineXY a b m * m.tdiv (determineXY a b m) = m := by
    intro a b m
    by_cases hm : 1 ≤ m
    · obtain ⟨h1, -, h3⟩ := determineXY_pos_dvd a b m hm
      exact ⟨h1, ⟨_, h3.symm⟩, h3⟩
    · have h := determineXY_nonpos a b m (by omega)
      rw [h]
      refine ⟨le_refl 1, one_dvd m, ?_⟩
      rw [Int.tdiv_one, one_mul]
  obtain ⟨a1, a2, a3⟩ := hall xd yd n
  refine ⟨a1, a2, a3, determineXY_nonpos xd yd n, ?_, fun hn => (determineXY_pos_dvd xd yd n hn).2.1,
    ?_⟩
  · intro hno
    by_cases hn : 0 ≤ n
    · rcases determineXY_char xd yd n hn with h | ⟨y0, y1, y2, y3, -, y5, -⟩
      · exact h.1
      · have := hno y0 y1 y2 y3
        exact absurd y5 (not_lt.mpr this)
    · exact determineXY_nonpos xd yd n (by omega)
  · intro cfg env phy vx0 vy0
    constructor
    · intro hmc hbm
      have hx : (ThermalCalculator.init cfg env phy vx0 vy0).bank_x
          = determineXY cfg.bank_asr 1 cfg.banks := by
        show (ThermalCalculator_geometry cfg vx0 vy0).bank_x = _
        unfold ThermalCalculator_geometry
        simp [hmc, hbm]
      have hy : (ThermalCalculator.init cfg env phy vx0 vy0).bank_y
          = cfg.banks.tdiv (determineXY cfg.bank_asr 1 cfg.banks) := by
        show (ThermalCalculator_geometry cfg vx0 vy0).bank_y = _
        unfold ThermalCalculator_geometry
        simp [hmc, hbm]
      obtain ⟨b1, b2, b3⟩ := hall cfg.bank_asr 1 cfg.banks
      rw [hx, hy]
      exact ⟨b2, rfl, b3⟩
    · intro hmc
      have hx : (ThermalCalculator.init cfg env phy vx0 vy0).vault_x
          = determineXY ((1 : Int) * cfg.bank_asr) ((2 : Int) * 1) cfg.channels := by
        show (ThermalCalculator_geometry cfg vx0 vy0).vault_x = _
        unfold ThermalCalculator_geometry
        simp [hmc]
      have hy : (ThermalCalculator.init cfg env phy vx0 vy0).vault_y
          = cfg.channels.tdiv
            (determineXY ((1 : Int) * cfg.bank_asr) ((2 : Int) * 1) cfg.channels) := by
        show (ThermalCalculator_geometry cfg vx0 vy0).vault_y = _
        unfold ThermalCalculator_geometry
        simp [hmc]
      obtain ⟨b1, b2, b3⟩ := hall ((1 : Int) * cfg.bank_asr) ((2 : Int) * 1) cfg.channels
      rw [hx, hy]
      exact ⟨b2, rfl, b3⟩

/-- C31 for 8 banks and aspect ratio 1, and for the constructor state of the scenario. -/
theorem C31_determineXY_divisor_witness :
    (1 : Int) ≤ 8 ∧ 1 ≤ (8 : Int).tdiv (determineXY 1 1 8) ∧
    scenarioConfig.IsHMC = false ∧ scenarioConfig.IsHBM = false ∧
    (ThermalCalculator.init scenarioConfig scenarioEnv (fun a => a) 0 0).bank_x
      * (ThermalCalculator.init scenarioConfig scenarioEnv (fun a => a) 0 0).bank_y
      = scenarioConfig.banks :=
  have h := C31_determineXY_divisor 1 1 8
  ⟨by decide, h.2.2.2.2.2.1 (by decide), rfl, rfl,
    ((h.2.2.2.2.2.2 scenarioConfig scenarioEnv (fun a => a) 0 0).1 rfl rfl).2.2⟩

/-! ## C32: planar bank placement without bank groups -/

theorem MapToBank_planar_plain (cfg : Config) (tc : ThermalCalculator) (cmd : Command)
    (hmc : cfg.IsHMC = false) (hbm : cfg.IsHBM = false) (hg : cfg.bankgroups ≤ 1) :
    MapToBank cfg tc cmd
      = if cfg.bank_order = 0 then (cmd.Bank.tmod tc.bank_x, cmd.Bank.tdiv tc.bank_x)
        else (cmd.Bank.tdiv tc.bank_y, cmd.Bank.tmod tc.bank_y) := by
  have hg2 : ¬ cfg.bankgroups > 1 := by omega
  unfold MapToBank
  simp only [hmc, hbm, hg2, false_and, if_false, Bool.false_eq_true]
  by_cases h : cfg.bank_order = 0
  · simp only [h, if_true]
  · simp only [h, if_false]

theorem init_planar_banks (cfg : Config) (env : ThermalEnv) (phy : Address → Address)
    (vx0 vy0 : Int) (hmc : cfg.IsHMC = false) (hbm : cfg.IsHBM = false)
    (h1 : 1 ≤ cfg.banks) :
    1 ≤ (ThermalCalculator.init cfg env phy vx0 vy0).bank_x ∧
    1 ≤ (ThermalCalculator.init cfg env phy vx0 vy0).bank_y ∧
    (ThermalCalculator.init cfg env phy vx0 vy0).bank_x
      * (ThermalCalculator.init cfg env phy vx0 vy0).bank_y = cfg.banks ∧
    (ThermalCalculator.init cfg env phy vx0 vy0).dimX
      = (ThermalCalculator.init cfg env phy vx0 vy0).bank_x * cfg.numXgrids ∧
    (ThermalCalculator.init cfg env phy vx0 vy0).dimY
      = (ThermalCalculator.init cfg env phy vx0 vy0).bank_y * cfg.numYgrids ∧
    (ThermalCalculator.init cfg env phy vx0 vy0).numP = 1 := by
  have hgeo : (ThermalCalculator.init cfg env phy vx0 vy0).toGeometry
      = { bank_x := determineXY cfg.bank_asr 1 cfg.banks,
          bank_y := cfg.banks.tdiv (determineXY cfg.bank_asr 1 cfg.banks),
          vault_x := vx0, vault_y := vy0,
          dimX := determineXY cfg.bank_asr 1 cfg.banks * cfg.numXgrids,
          dimY := cfg.banks.tdiv (determineXY cfg.bank_asr 1 cfg.banks) * cfg.numYgrids,
          numP := 1, num_case := cfg.ranks * cfg.channels } := by
    show ThermalCalculator_geometry cfg vx0 vy0 = _
    unfold ThermalCalculator_geometry
    simp [hmc, hbm]
  obtain ⟨p1, p2, p3⟩ := determineXY_pos_dvd cfg.bank_asr 1 cfg.banks h1
  have e1 : (ThermalCalculator.init cfg env phy vx0 vy0).bank_x
      = (ThermalCalculator.init cfg env phy vx0 vy0).toGeometry.bank_x := rfl
  have e2 : (ThermalCalculator.init cfg env phy vx0 vy0).bank_y
      = (ThermalCalculator.init cfg env phy vx0 vy0).toGeometry.bank_y := rfl
  have e3 : (ThermalCalculator.init cfg env phy vx0 vy0).dimX
      = (ThermalCalculator.init cfg env phy vx0 vy0).toGeometry.dimX := rfl
  have e4 : (ThermalCalculator.init cfg env phy vx0 vy0).dimY
      = (ThermalCalculator.init cfg env phy vx0 vy0).toGeometry.dimY := rfl
  have e5 : (ThermalCalculator.init cfg env phy vx0 vy0).numP
      = (ThermalCalculator.init cfg env phy vx0 vy0).toGeometry.numP := rfl
  rw [e1, e2, e3, e4, e5, hgeo]
  exact ⟨p1, p2, p3, rfl, rfl, rfl⟩

theorem interval_index_unique (a b n x : Int) (h1 : a * n ≤ x) (h2 : x ≤ (a + 1) * n - 1)
    (h3 : b * n ≤ x) (h4 : x ≤ (b + 1) * n - 1) : a = b := by
  have hn : 1 ≤ n := by nlinarith
  rcases lt_trichotomy a b with h | h | h
  · have : (a + 1) * n ≤ b * n := mul_le_mul_of_nonneg_right (by omega) (by omega)
    omega
  · exact h
  · have : (b + 1) * n ≤ a * n := mul_le_mul_of_nonneg_right (by omega) (by omega)
    omega

/-- C32. Planar bank placement without bank groups: when `bankgroups <= 1`, with a bank
layout of positive factors whose product is the bank count (the layout the constructor
builds for `banks >= 1`), `MapToBank` sends bank `b` to `(b mod bank_x, b div bank_x)`
under `bank_order = 0` and to `(b div bank_y, b mod bank_y)` otherwise, whatever the
bank-group field and the command type, and under both priorities the banks
`0 <= b < banks` are mapped one-to-one onto `[0, bank_x) x [0, bank_y)`; the grid
rectangles of two different banks have no cell in common. -/
theorem C32_planar_bank_bijection (cfg : Config) (env : ThermalEnv) (phy : Address → Address)
    (vx0 vy0 : Int) (tc : ThermalCalculator) (cmd : Command) (g : Int) :
    (cfg.IsHMC = false → cfg.IsHBM = false → cfg.bankgroups ≤ 1 → 1 ≤ tc.bank_x →
      1 ≤ tc.bank_y → tc.bank_x * tc.bank_y = cfg.banks →
      Set.BijOn (fun b : Int => MapToBank cfg tc (bankCommand cmd g b))
        (Set.Ico 0 cfg.banks) (Set.Ico 0 tc.bank_x ×ˢ Set.Ico 0 tc.bank_y) ∧
      (cfg.bank_order = 0 → ∀ b : Int, 0 ≤ b →
        MapToBank cfg tc (bankCommand cmd g b) = (b % tc.bank_x, b / tc.bank_x)) ∧
      (cfg.bank_order ≠ 0 → ∀ b : Int, 0 ≤ b →
        MapToBank cfg tc (bankCommand cmd g b) = (b / tc.bank_y, b % tc.bank_y)) ∧
      (∀ b1 b2 : Int, 0 ≤ b1 → b1 < cfg.banks → 0 ≤ b2 → b2 < cfg.banks → b1 ≠ b2 →
        ∀ x y : Int, ¬ ((planarRectangle cfg tc (bankCommand cmd g b1)).covers x y ∧
          (planarRectangle cfg tc (bankCommand cmd g b2)).covers x y))) ∧
    (cfg.IsHMC = false → cfg.IsHBM = false → 1 ≤ cfg.banks →
      1 ≤ (ThermalCalculator.init cfg env phy vx0 vy0).bank_x ∧
      1 ≤ (ThermalCalculator.init cfg env phy vx0 vy0).bank_y ∧
      (ThermalCalculator.init cfg env phy vx0 vy0).bank_x
        * (ThermalCalculator.init cfg env phy vx0 vy0).bank_y = cfg.banks) := by
  refine ⟨?_, fun hmc hbm h1 =>
    ⟨(init_planar_banks cfg env phy vx0 vy0 hmc hbm h1).1,
      (init_planar_banks cfg env phy vx0 vy0 hmc hbm h1).2.1,
      (init_planar_banks cfg env phy vx0 vy0 hmc hbm h1).2.2.1⟩⟩
  intro hmc hbm hg hx hy hxy
  have hrow : cfg.bank_order = 0 → ∀ b : Int, 0 ≤ b →
      MapToBank cfg tc (bankCommand cmd g b) = (b % tc.bank_x, b / tc.bank_x) := by
    intro ho b hb
    rw [MapToBank_planar_plain cfg tc _ hmc hbm hg, if_pos ho]
    show ((b.tmod tc.bank_x, b.tdiv tc.bank_x) : Int × Int) = _
    rw [(tdiv_tmod_nonneg b tc.bank_x hb (by omega)).1,
      (tdiv_tmod_nonneg b tc.bank_x hb (by omega)).2]
  have hcol : cfg.bank_order ≠ 0 → ∀ b : Int, 0 ≤ b →
      MapToBank cfg tc (bankCommand cmd g b) = (b / tc.bank_y, b % tc.bank_y) := by
    intro ho b hb
    rw [MapToBank_planar_plain cfg tc _ hmc hbm hg, if_neg ho]
    show ((b.tdiv tc.bank_y, b.tmod tc.bank_y) : Int × Int) = _
    rw [(tdiv_tmod_nonneg b tc.bank_y hb (by omega)).1,
      (tdiv_tmod_nonneg b tc.bank_y hb (by omega)).2]
  have hbij : Set.BijOn (fun b : Int => MapToBank cfg tc (bankCommand cmd g b))
      (Set.Ico 0 cfg.banks) (Set.Ico 0 tc.bank_x ×ˢ Set.Ico 0 tc.bank_y) := by
    by_cases ho : cfg.bank_order = 0
    · exact bijOn_congr_on _ _ _ _ (fun c hc => hrow ho c hc.1)
        (bijOn_mod_div tc.bank_x tc.bank_y cfg.banks hx hxy)
    · exact bijOn_congr_on _ _ _ _ (fun c hc => hcol ho c hc.1)
        (bijOn_div_mod tc.bank_x tc.bank_y cfg.banks hy hxy)
  refine ⟨hbij, hrow, hcol, ?_⟩
  intro b1 b2 b10 b11 b20 b21 hne x y
  rintro ⟨⟨a1, a2, a3, a4⟩, ⟨c1, c2, c3, c4⟩⟩
  have ex := interval_index_unique _ _ _ _ a1 a2 c1 c2
  have ey := interval_index_unique _ _ _ _ a3 a4 c3 c4
  exact hne (hbij.injOn ⟨b10, b11⟩ ⟨b20, b21⟩ (Prod.ext ex ey))

/-- C32 at the scenario: the 8 banks of the 4 x 2 layout. -/
theorem C32_planar_bank_bijection_witness :
    scenarioConfig.bankgroups ≤ 1 ∧ scenarioState.bank_x * scenarioState.bank_y
      = scenarioConfig.banks ∧
    Set.BijOn (fun b : Int => MapToBank scenarioConfig scenarioState
        (bankCommand (activateBank 0) 0 b))
      (Set.Ico 0 scenarioConfig.banks)
      (Set.Ico 0 scenarioState.bank_x ×ˢ Set.Ico 0 scenarioState.bank_y) :=
  have h := (C32_planar_bank_bijection scenarioConfig scenarioEnv (fun a => a) 0 0
    scenarioState (activateBank 0) 0).1 rfl rfl (by decide) (by decide) (by decide)
    (by decide)
  ⟨by decide, by decide, h.1⟩

/-! ## C33: planar bank placement with bank groups -/

theorem upto_16 : upto 16 = [0, 1, 2, 3, 4, 5, 6, 7, 8, 9, 10, 11, 12, 13, 14, 15] := by
  decide

theorem determineXY_16_ratio_1 : determineXY 1 1 16 = 4 := by
  unfold determineXY
  rw [upto_16]
  simp only [determineXY_loop, List.foldl, determineXY_step, determineXY_asr, List.map]
  norm_num [Int.tdiv]

theorem sixteen_geometry :
    ThermalCalculator_geometry sixteenBanks 0 0
      = { bank_x := 4, bank_y := 4, vault_x := 0, vault_y := 0, dimX := 8, dimY := 8,
          numP := 1, num_case := 1 } := by
  unfold ThermalCalculator_geometry
  rw [if_neg (by decide), if_neg (by decide)]
  have h : determineXY sixteenBanks.bank_asr 1 sixteenBanks.banks = 4 :=
    determineXY_16_ratio_1
  simp only [h]
  rfl

theorem sixteenInit_eq :
    ThermalCalculator.init sixteenBanks scenarioEnv (fun a => a) 0 0 = sixteenState := by
  unfold ThermalCalculator.init
  simp only [sixteen_geometry]
  unfold sixteenState
  congr 1
  · norm_num [sixteenBanks, scenarioConfig, scenarioEnv]
  · have h1 : upto 1 = [0] := by decide
    rw [h1]
    norm_num [sixteenBanks, scenarioConfig, scenarioEnv]

/-- C33 on the code: for 4 bank groups of 4 banks and bank aspect ratio 1 the constructor
builds a 4 x 4 bank layout on an 8 x 8 grid, while `MapToBank` lines the groups up along
`y`: the command to bank group 2, bank 0 gets `(0, 4)` and the one to bank group 3, bank 3
gets `(1, 7)`, both with `y >= bank_y = 4`.  The cells of the latter command all have the
index 114 in a map of 64 cells. -/
theorem C33_bank_group_overrun :
    ThermalCalculator.init sixteenBanks scenarioEnv (fun a => a) 0 0 = sixteenState ∧
    (sixteenState.bank_x = 4 ∧ sixteenState.bank_y = 4) ∧
    sixteenBanks.banks = sixteenBanks.bankgroups * sixteenBanks.banks_per_group ∧
    MapToBank sixteenBanks sixteenState (readBank 2 0) = (0, 4) ∧
    MapToBank sixteenBanks sixteenState (readBank 3 3) = (1, 7) ∧
    LocationMapping sixteenBanks sixteenState (readBank 3 3)
      = [114, 114, 114, 114, 114, 114, 114, 114] ∧
    ¬ inMap sixteenState.cur_Pmap 0 114 ∧
    (PrintCSV_bank_find sixteenBanks sixteenState 0 15).map (fun r => (r.start_y, r.end_y))
      = some (14, 15) :=
  ⟨sixteenInit_eq, by decide, by decide, by decide, by decide, by decide, by decide,
    by decide⟩

/-! ## C34: in-range commands write in-range cells -/

theorem zip_fst_snd {α β : Type} (l : List (α × β)) :
    List.zip (l.map Prod.fst) (l.map Prod.snd) = l := by
  induction l with
  | nil => rfl
  | cons a t ih => simp only [List.map_cons, List.zip_cons_cons, ih]

/-- The cells of `LocationMappingANDaddEnergy`, one per column of the burst and per lane,
in terms of the vault and bank coordinates, the layer and the sub-grid indices. -/
theorem LocationMapping_eq (cfg : Config) (tc : ThermalCalculator) (cmd : Command) :
    LocationMapping cfg tc cmd
      = (upto cfg.BL).flatMap (fun i => (upto cfg.device_width).map (fun j =>
          MapToZ cfg tc cmd * tc.dimX * tc.dimY
            + ((MapToVault cfg tc cmd).2 * (tc.bank_y * cfg.numYgrids)
              + (MapToBank cfg tc cmd).2 * cfg.numYgrids + MapToXY_grid_id_y cfg tc cmd i j)
              * tc.dimX
            + ((MapToVault cfg tc cmd).1 * (tc.bank_x * cfg.numXgrids)
              + (MapToBank cfg tc cmd).1 * cfg.numXgrids + MapToXY_grid_id_x cfg cmd))) := by
  unfold LocationMapping MapToXY
  dsimp only
  rw [zip_fst_snd]
  simp only [List.map_flatMap, List.map_map]
  rfl

theorem tdiv_lt_of_lt_mul (c a b : Int) (ha : 1 ≤ a) (hb : 1 ≤ b) (h : c < a * b) :
    c.tdiv a < b := by
  by_cases hc : 0 ≤ c
  · rw [(tdiv_tmod_nonneg c a hc (by omega)).1]
    exact Int.ediv_lt_of_lt_mul (by omega) (by rw [mul_comm]; exact h)
  · have h1 : c.tdiv a = -((-c).tdiv a) := by rw [Int.neg_tdiv, neg_neg]
    have h2 : 0 ≤ (-c).tdiv a := Int.tdiv_nonneg (by omega) (by omega)
    omega

/-- The bank coordinates of a planar command without bank groups stay below the bank
layout, and are not negative for a bank that is not negative. -/
theorem MapToBank_planar_range (cfg : Config) (tc : ThermalCalculator) (cmd : Command)
    (hmc : cfg.IsHMC = false) (hbm : cfg.IsHBM = false) (hg : cfg.bankgroups ≤ 1)
    (hx : 1 ≤ tc.bank_x) (hy : 1 ≤ tc.bank_y) (hxy : tc.bank_x * tc.bank_y = cfg.banks)
    (hb : cmd.Bank < cfg.banks) :
    ((MapToBank cfg tc cmd).1 < tc.bank_x ∧ (MapToBank cfg tc cmd).2 < tc.bank_y) ∧
    (0 ≤ cmd.Bank → 0 ≤ (MapToBank cfg tc cmd).1 ∧ 0 ≤ (MapToBank cfg tc cmd).2) := by
  rw [MapToBank_planar_plain cfg tc cmd hmc hbm hg]
  by_cases ho : cfg.bank_order = 0
  · simp only [ho, if_true]
    exact ⟨⟨Int.tmod_lt_of_pos _ (by omega),
      tdiv_lt_of_lt_mul _ _ _ hx hy (by rw [hxy]; exact hb)⟩,
      fun h0 => ⟨Int.tmod_nonneg _ h0, Int.tdiv_nonneg h0 (by omega)⟩⟩
  · simp only [ho, if_false]
    exact ⟨⟨tdiv_lt_of_lt_mul _ _ _ hy hx (by rw [mul_comm, hxy]; exact hb),
      Int.tmod_lt_of_pos _ (by omega)⟩,
      fun h0 => ⟨Int.tdiv_nonneg h0 (by omega), Int.tmod_nonneg _ h0⟩⟩

theorem cell_index_range (bx by_ gx gy X Y nX nY : Int) (hX : 1 ≤ X) (hnX : 0 ≤ nX)
    (hnY : 0 ≤ nY) (h1 : bx < X) (h2 : by_ < Y) (h3 : gx < nX) (h4 : gy < nY) :
    (by_ * nY + gy) * (X * nX) + (bx * nX + gx) < 1 * (X * nX) * (Y * nY) ∧
    (0 ≤ bx → 0 ≤ by_ → 0 ≤ gx → 0 ≤ gy →
      0 ≤ (by_ * nY + gy) * (X * nX) + (bx * nX + gx)) := by
  have hx1 : bx * nX + gx < X * nX := by
    have : bx * nX ≤ (X - 1) * nX := mul_le_mul_of_nonneg_right (by omega) hnX
    nlinarith
  have hy1 : by_ * nY + gy < Y * nY := by
    have : by_ * nY ≤ (Y - 1) * nY := mul_le_mul_of_nonneg_right (by omega) hnY
    nlinarith
  have hD : 0 ≤ X * nX := mul_nonneg (by omega) hnX
  constructor
  · have : (by_ * nY + gy) * (X * nX) ≤ (Y * nY - 1) * (X * nX) :=
      mul_le_mul_of_nonneg_right (by omega) hD
    nlinarith
  · intro a b c d
    have e1 : 0 ≤ bx * nX := mul_nonneg a hnX
    have e2 : 0 ≤ by_ * nY := mul_nonneg b hnY
    have e3 : 0 ≤ (by_ * nY + gy) * (X * nX) := mul_nonneg (by omega) hD
    omega

theorem cell_index_injective (X Y x1 y1 z1 x2 y2 z2 : Int)
    (hx1 : 0 ≤ x1 ∧ x1 < X) (hy1 : 0 ≤ y1 ∧ y1 < Y) (hx2 : 0 ≤ x2 ∧ x2 < X)
    (hy2 : 0 ≤ y2 ∧ y2 < Y)
    (h : z1 * X * Y + y1 * X + x1 = z2 * X * Y + y2 * X + x2) :
    x1 = x2 ∧ y1 = y2 ∧ z1 = z2 := by
  have hr : ∀ x y : Int, 0 ≤ x ∧ x < X → 0 ≤ y ∧ y < Y →
      0 ≤ y * X + x ∧ y * X + x < X * Y := by
    intro x y hx hy
    have a1 : 0 ≤ y * X := mul_nonneg hy.1 (by omega)
    have a2 : y * X ≤ (Y - 1) * X := mul_le_mul_of_nonneg_right (by omega) (by omega)
    constructor
    · omega
    · nlinarith
  have h' : z1 * (X * Y) + (y1 * X + x1) = z2 * (X * Y) + (y2 * X + x2) := by
    linarith [h, mul_assoc z1 X Y, mul_assoc z2 X Y]
  obtain ⟨ez, er⟩ := pair_of_case_eq (X * Y) z1 (y1 * X + x1) z2 (y2 * X + x2)
    (hr x1 y1 hx1 hy1) (hr x2 y2 hx2 hy2) h'
  obtain ⟨ey, ex⟩ := pair_of_case_eq X y1 x1 y2 x2 hx1 hx2 er
  exact ⟨ex, ey, ez⟩

/-- C34. In-range commands write in-range cells: in the state the constructor builds for a
planar topology without bank groups (`banks >= 1`, grid counts not negative), for every
command with `bank < banks` whose row-derived sub-grid index is below `numXgrids` and whose
column-derived sub-grid index is below `numYgrids` for every column of the burst and every
lane, every index `z_offset + y*dimX + x` of `LocationMappingANDaddEnergy` is below
`numP*dimX*dimY`; when the bank and the sub-grid indices are not negative the index is not
negative either and lies inside both power maps for every case.  The index formula
`z*dimX*dimY + y*dimX + x` is injective on `0 <= x < dimX`, `0 <= y < dimY`,
`0 <= z < numP`. -/
theorem C34_cells_in_range (cfg : Config) (env : ThermalEnv) (phy : Address → Address)
    (vx0 vy0 : Int) (tc : ThermalCalculator) (cmd : Command)
    (htc : tc = ThermalCalculator.init cfg env phy vx0 vy0)
    (hmc : cfg.IsHMC = false) (hbm : cfg.IsHBM = false) (hg : cfg.bankgroups ≤ 1)
    (h1 : 1 ≤ cfg.banks) (hnX : 0 ≤ cfg.numXgrids) (hnY : 0 ≤ cfg.numYgrids)
    (hb : cmd.Bank < cfg.banks) (hgx : MapToXY_grid_id_x cfg cmd < cfg.numXgrids)
    (hgy : ∀ i j : Int, 0 ≤ i → i < cfg.BL → 0 ≤ j → j < cfg.device_width →
      MapToXY_grid_id_y cfg tc cmd i j < cfg.numYgrids) :
    (∀ idx ∈ LocationMapping cfg tc cmd, idx < tc.numP * tc.dimX * tc.dimY) ∧
    (0 ≤ cmd.Bank → 0 ≤ MapToXY_grid_id_x cfg cmd →
      (∀ i j : Int, 0 ≤ i → i < cfg.BL → 0 ≤ j → j < cfg.device_width →
        0 ≤ MapToXY_grid_id_y cfg tc cmd i j) →
      ∀ idx ∈ LocationMapping cfg tc cmd, 0 ≤ idx ∧
        ∀ c : Int, 0 ≤ c → c < tc.num_case →
          inMap tc.accu_Pmap c idx ∧ inMap tc.cur_Pmap c idx) ∧
    (∀ x1 y1 z1 x2 y2 z2 : Int, 0 ≤ x1 ∧ x1 < tc.dimX → 0 ≤ y1 ∧ y1 < tc.dimY →
      0 ≤ z1 ∧ z1 < tc.numP → 0 ≤ x2 ∧ x2 < tc.dimX → 0 ≤ y2 ∧ y2 < tc.dimY →
      0 ≤ z2 ∧ z2 < tc.numP →
      z1 * tc.dimX * tc.dimY + y1 * tc.dimX + x1 = z2 * tc.dimX * tc.dimY + y2 * tc.dimX + x2 →
      x1 = x2 ∧ y1 = y2 ∧ z1 = z2) := by
  obtain ⟨gx1, gy1, gxy, gdx, gdy, gp⟩ := init_planar_banks cfg env phy vx0 vy0 hmc hbm h1
  rw [← htc] at gx1 gy1 gxy gdx gdy gp
  obtain ⟨⟨bx1, by1⟩, bnn⟩ := MapToBank_planar_range cfg tc cmd hmc hbm hg gx1 gy1 gxy hb
  have hv : MapToVault cfg tc cmd = (0, 0) := by
    unfold MapToVault
    rw [hmc, hbm]
    rfl
  have hz : MapToZ cfg tc cmd = 0 := by
    unfold MapToZ
    rw [hmc, hbm]
    rfl
  have hidx : ∀ idx ∈ LocationMapping cfg tc cmd, ∃ i j : Int,
      (0 ≤ i ∧ i < cfg.BL) ∧ (0 ≤ j ∧ j < cfg.device_width) ∧
      idx = ((MapToBank cfg tc cmd).2 * cfg.numYgrids + MapToXY_grid_id_y cfg tc cmd i j)
          * (tc.bank_x * cfg.numXgrids)
        + ((MapToBank cfg tc cmd).1 * cfg.numXgrids + MapToXY_grid_id_x cfg cmd) := by
    intro idx hmem
    rw [LocationMapping_eq] at hmem
    simp only [List.mem_flatMap, List.mem_map, mem_upto] at hmem
    obtain ⟨i, hi, j, hj, rfl⟩ := hmem
    refine ⟨i, j, hi, hj, ?_⟩
    rw [hv, hz, gdx]
    ring
  have hN : tc.numP * tc.dimX * tc.dimY
      = 1 * (tc.bank_x * cfg.numXgrids) * (tc.bank_y * cfg.numYgrids) := by
    rw [gp, gdx, gdy]
  refine ⟨?_, ?_, ?_⟩
  · intro idx hmem
    obtain ⟨i, j, hi, hj, rfl⟩ := hidx idx hmem
    rw [hN]
    exact (cell_index_range _ _ _ _ _ _ _ _ gx1 hnX hnY bx1 by1 hgx
      (hgy i j hi.1 hi.2 hj.1 hj.2)).1
  · intro hb0 hgx0 hgy0 idx hmem
    obtain ⟨i, j, hi, hj, rfl⟩ := hidx idx hmem
    obtain ⟨r1, r2⟩ := cell_index_range _ _ _ _ _ _ _ _ gx1 hnX hnY bx1 by1 hgx
      (hgy i j hi.1 hi.2 hj.1 hj.2)
    have r0 := r2 (bnn hb0).1 (bnn hb0).2 hgx0 (hgy0 i j hi.1 hi.2 hj.1 hj.2)
    refine ⟨r0, ?_⟩
    intro c c0 c1
    have hm : tc.accu_Pmap = zeroMap tc.num_case (tc.numP * tc.dimX * tc.dimY) := by
      rw [htc]
      rfl
    have hm2 : tc.cur_Pmap = zeroMap tc.num_case (tc.numP * tc.dimX * tc.dimY) := by
      rw [htc]
      rfl
    rw [hm, hm2, hN]
    exact ⟨inMap_zeroMap _ _ _ _ ⟨c0, c1⟩ ⟨r0, r1⟩, inMap_zeroMap _ _ _ _ ⟨c0, c1⟩ ⟨r0, r1⟩⟩
  · intro x1 y1 z1 x2 y2 z2 hx1 hy1 _ hx2 hy2 _ h
    exact cell_index_injective tc.dimX tc.dimY x1 y1 z1 x2 y2 z2 hx1 hy1 hx2 hy2 h

/-- C34 at the scenario: the `ACTIVATE` to bank 5 writes cells below 32. -/
theorem C34_cells_in_range_witness :
    scenarioState = ThermalCalculator.init scenarioConfig scenarioEnv (fun a => a) 0 0 ∧
    (activateBank 5).Bank < scenarioConfig.banks ∧
    MapToXY_grid_id_x scenarioConfig (activateBank 5) < scenarioConfig.numXgrids ∧
    (∀ i j : Int, 0 ≤ i → i < scenarioConfig.BL → 0 ≤ j → j < scenarioConfig.device_width →
      MapToXY_grid_id_y scenarioConfig scenarioState (activateBank 5) i j
        < scenarioConfig.numYgrids) ∧
    ∀ idx ∈ LocationMapping scenarioConfig scenarioState (activateBank 5),
      idx < scenarioState.numP * scenarioState.dimX * scenarioState.dimY := by
  have hgy : ∀ i j : Int, 0 ≤ i → i < scenarioConfig.BL → 0 ≤ j →
      j < scenarioConfig.device_width →
      MapToXY_grid_id_y scenarioConfig scenarioState (activateBank 5) i j
        < scenarioConfig.numYgrids := by
    intro i j i0 i1 j0 j1
    have hi : i < 2 := i1
    have hj : j < 4 := j1
    interval_cases i <;> interval_cases j <;> decide
  exact ⟨scenarioInit_eq.symm, by decide, by decide, hgy,
    (C34_cells_in_range scenarioConfig scenarioEnv (fun a => a) 0 0 scenarioState
      (activateBank 5) scenarioInit_eq.symm rfl rfl (by decide) (by decide) (by decide)
      (by decide) (by decide) (by decide) hgy).1⟩

/-! ## C35: the frame of the refresh-progress table -/

theorem refresh_index_eq (cfg : Config) (cmd : Command)
    (hch : 0 ≤ cmd.Channel ∧ cmd.Channel < cfg.channels)
    (hrk : 0 ≤ cmd.Rank ∧ cmd.Rank < cfg.ranks)
    (hprod : cfg.channels * cfg.ranks < 2147483648) :
    (refresh_index cfg cmd : Int) = cmd.Channel * cfg.ranks + cmd.Rank := by
  have hcr : cmd.Channel * cfg.ranks + cmd.Rank < cfg.channels * cfg.ranks := by nlinarith
  have h0 : 0 ≤ cmd.Channel * cfg.ranks := by nlinarith
  have hr : cfg.ranks ≤ cfg.channels * cfg.ranks := by nlinarith
  have hc : cfg.channels ≤ cfg.channels * cfg.ranks := by nlinarith
  have e1 : toU32 cmd.Channel = cmd.Channel.toNat := by
    unfold toU32
    omega
  have e2 : toU32 cfg.ranks = cfg.ranks.toNat := by
    unfold toU32
    omega
  have e3 : toU32 cmd.Rank = cmd.Rank.toNat := by
    unfold toU32
    omega
  have e4 : ((cmd.Channel.toNat * cfg.ranks.toNat + cmd.Rank.toNat : Nat) : Int)
      = cmd.Channel * cfg.ranks + cmd.Rank := by
    push_cast
    rw [Int.toNat_of_nonneg hch.1, Int.toNat_of_nonneg (by omega), Int.toNat_of_nonneg hrk.1]
  unfold refresh_index
  rw [e1, e2, e3]
  have : cmd.Channel.toNat * cfg.ranks.toNat + cmd.Rank.toNat < 4294967296 := by
    have : ((cmd.Channel.toNat * cfg.ranks.toNat + cmd.Rank.toNat : Nat) : Int)
        < 4294967296 := by
      rw [e4]
      omega
    exact_mod_cast this
  rw [Nat.mod_eq_of_lt this, e4]

theorem cursor_modify_one (T : List (List Nat)) (idx : Nat) (b : Int) (f : Nat → Nat)
    (k : Nat) (ib : Int) :
    cursorAt (T.modify (fun row => vmodify row b f) idx) k ib
      = if k = idx ∧ ib = b ∧ cursorInTable T k ib then f (cursorAt T k ib)
        else cursorAt T k ib := by
  unfold cursorAt cursorInTable
  rw [getD_modify]
  by_cases hk : k = idx ∧ idx < T.length
  · rw [if_pos hk, vget_vmodify]
    obtain ⟨rfl, hlen⟩ := hk
    by_cases hb : ib = b
    · subst hb
      simp only [hlen, true_and, and_self]
    · simp only [hb, false_and, and_false, if_false]
  · rw [if_neg hk]
    have : ¬ (k = idx ∧ ib = b ∧ k < T.length ∧ 0 ≤ ib ∧ ib.toNat < (T.getD k []).length) := by
      rintro ⟨rfl, -, h, -⟩
      exact hk ⟨rfl, h⟩
    rw [if_neg this]

theorem cursorInTable_modify (T : List (List Nat)) (idx : Nat) (b : Int) (f : Nat → Nat)
    (k : Nat) (ib : Int) :
    cursorInTable (T.modify (fun row => vmodify row b f) idx) k ib ↔ cursorInTable T k ib := by
  unfold cursorInTable
  rw [List.length_modify, getD_modify]
  by_cases hk : k = idx ∧ idx < T.length
  · rw [if_pos hk, vmodify_length]
  · rw [if_neg hk]

theorem cursor_modify_fold (T : List (List Nat)) (idx : Nat) (f : Nat → Nat) (bs : List Int)
    (hnd : bs.Nodup) (k : Nat) (ib : Int) :
    cursorAt (bs.foldl (fun rc b => rc.modify (fun row => vmodify row b f) idx) T) k ib
        = (if k = idx ∧ ib ∈ bs ∧ cursorInTable T k ib then f (cursorAt T k ib)
          else cursorAt T k ib) ∧
    (cursorInTable (bs.foldl (fun rc b => rc.modify (fun row => vmodify row b f) idx) T) k ib
      ↔ cursorInTable T k ib) := by
  induction bs generalizing T with
  | nil => simp
  | cons b rest ih =>
    obtain ⟨hb, hrest⟩ := List.nodup_cons.mp hnd
    simp only [List.foldl_cons]
    obtain ⟨i1, i2⟩ := ih (T.modify (fun row => vmodify row b f) idx) hrest
    refine ⟨?_, i2.trans (cursorInTable_modify T idx b f k ib)⟩
    rw [i1, cursor_modify_one]
    simp only [cursorInTable_modify]
    by_cases h1 : k = idx ∧ cursorInTable T k ib
    · by_cases h2 : ib = b
      · subst h2
        simp [h1, hb]
      · by_cases h3 : ib ∈ rest
        · simp [h1, h2, h3]
        · simp [h1, h2, h3]
    · have n1 : ¬ (k = idx ∧ ib ∈ rest ∧ cursorInTable T k ib) := fun h => h1 ⟨h.1, h.2.2⟩
      have n2 : ¬ (k = idx ∧ ib = b ∧ cursorInTable T k ib) := fun h => h1 ⟨h.1, h.2.2⟩
      have n3 : ¬ (k = idx ∧ ib ∈ b :: rest ∧ cursorInTable T k ib) :=
        fun h => h1 ⟨h.1, h.2.2⟩
      rw [if_neg n1, if_neg n2, if_neg n3]

theorem cursorInTable_init (cfg : Config) (env : ThermalEnv) (phy : Address → Address)
    (vx0 vy0 : Int) (k : Nat) (ib : Int) :
    (cursorInTable (ThermalCalculator.init cfg env phy vx0 vy0).refresh_count k ib
      ↔ k < (cfg.channels * cfg.ranks).toNat ∧ 0 ≤ ib ∧ ib < cfg.banks) ∧
    cursorAt (ThermalCalculator.init cfg env phy vx0 vy0).refresh_count k ib = 0 := by
  have hT : (ThermalCalculator.init cfg env phy vx0 vy0).refresh_count
      = List.replicate (cfg.channels * cfg.ranks).toNat (List.replicate cfg.banks.toNat 0) :=
    rfl
  rw [hT]
  unfold cursorInTable cursorAt vget
  rw [List.length_replicate, List.getD_eq_getElem?_getD, List.getElem?_replicate]
  by_cases hk : k < (cfg.channels * cfg.ranks).toNat
  · simp only [hk, if_true, Option.getD_some, List.length_replicate, true_and]
    constructor
    · constructor
      · rintro ⟨h0, h1⟩
        exact ⟨h0, by omega⟩
      · rintro ⟨h0, h1⟩
        exact ⟨h0, by omega⟩
    · split
      · rw [List.getD_eq_getElem?_getD, List.getElem?_replicate]
        split <;> rfl
      · rfl
  · simp only [hk, if_false, Option.getD_none, false_and, List.length_nil]
    simp

/-- C35. Refresh-progress table frame: an `UpdatePower` call never changes which cursors
the table has; with a non-refresh command it leaves the whole table unchanged; with
`REFRESH_BANK` it changes only the cursor `[channel*ranks + rank][bank]` of the command,
and with `REFRESH` only the cursors `[channel*ranks + rank][ib]`, `0 <= ib < banks`, of
the command.  Every changed cursor `c` becomes `refresh_count_next c`: `c + 1`, or 0 when
`(c + 1) * numRowRefresh` equals `rows` (in 32-bit unsigned arithmetic), the same for
every bank.  For channels and ranks inside the configured counts the table row is
`channel*ranks + rank` and different (channel, rank) pairs have different rows; the
constructor builds the cursors `[k][ib]`, `k < channels*ranks`, `0 <= ib < banks`, all 0. -/
theorem C35_refresh_table_frame (cfg : Config) (env : ThermalEnv) (stats_ : Statistics)
    (tc : ThermalCalculator) (cmd : Command) (clk : Nat) :
    (cmd.IsRefresh = false →
      (UpdatePower cfg env stats_ tc cmd clk).refresh_count = tc.refresh_count) ∧
    (∀ (k : Nat) (ib : Int),
      cursorInTable (UpdatePower cfg env stats_ tc cmd clk).refresh_count k ib
        ↔ cursorInTable tc.refresh_count k ib) ∧
    (cmd.cmd_type_ = CommandType.REFRESH_BANK → ∀ (k : Nat) (ib : Int),
      cursorAt (UpdatePower cfg env stats_ tc cmd clk).refresh_count k ib
        = if k = refresh_index cfg cmd ∧ ib = cmd.Bank ∧ cursorInTable tc.refresh_count k ib
          then refresh_count_next cfg (cursorAt tc.refresh_count k ib)
          else cursorAt tc.refresh_count k ib) ∧
    (cmd.cmd_type_ = CommandType.REFRESH → ∀ (k : Nat) (ib : Int),
      cursorAt (UpdatePower cfg env stats_ tc cmd clk).refresh_count k ib
        = if k = refresh_index cfg cmd ∧ (0 ≤ ib ∧ ib < cfg.banks) ∧
            cursorInTable tc.refresh_count k ib
          then refresh_count_next cfg (cursorAt tc.refresh_count k ib)
          else cursorAt tc.refresh_count k ib) ∧
    (∀ c : Nat, refresh_count_next cfg c
      = if ((c + 1) % 4294967296 * toU32 cfg.numRowRefresh) % 4294967296 = toU32 cfg.rows
        then 0 else (c + 1) % 4294967296) ∧
    (0 ≤ cmd.Channel ∧ cmd.Channel < cfg.channels → 0 ≤ cmd.Rank ∧ cmd.Rank < cfg.ranks →
      cfg.channels * cfg.ranks < 2147483648 →
      (refresh_index cfg cmd : Int) = cmd.Channel * cfg.ranks + cmd.Rank ∧
      ∀ cmd2 : Command, 0 ≤ cmd2.Channel ∧ cmd2.Channel < cfg.channels →
        0 ≤ cmd2.Rank ∧ cmd2.Rank < cfg.ranks →
        refresh_index cfg cmd2 = refresh_index cfg cmd →
        cmd2.Channel = cmd.Channel ∧ cmd2.Rank = cmd.Rank) ∧
    (∀ (phy : Address → Address) (vx0 vy0 : Int) (k : Nat) (ib : Int),
      (cursorInTable (ThermalCalculator.init cfg env phy vx0 vy0).refresh_count k ib
        ↔ k < (cfg.channels * cfg.ranks).toNat ∧ 0 ≤ ib ∧ ib < cfg.banks) ∧
      cursorAt (ThermalCalculator.init cfg env phy vx0 vy0).refresh_count k ib = 0) := by
  have hT := (UpdatePower_spec cfg env stats_ tc cmd clk).2.2.2.1
  rw [hT]
  refine ⟨?_, ?_, ?_, ?_, fun c => rfl, ?_, cursorInTable_init cfg env⟩
  · intro hr
    unfold Command.IsRefresh at hr
    simp only [Bool.or_eq_false_iff, decide_eq_false_iff_not] at hr
    unfold refresh_table_step
    rw [if_neg hr.1, if_neg hr.2]
  · intro k ib
    unfold refresh_table_step
    split
    · exact (cursor_modify_fold _ _ _ _ (nodup_upto _) k ib).2
    · split
      · exact cursorInTable_modify _ _ _ _ k ib
      · exact Iff.rfl
  · intro h k ib
    have hne : cmd.cmd_type_ ≠ CommandType.REFRESH := by
      rw [h]
      decide
    unfold refresh_table_step
    rw [if_neg hne, if_pos h]
    exact cursor_modify_one _ _ _ _ k ib
  · intro h k ib
    unfold refresh_table_step
    rw [if_pos h, (cursor_modify_fold _ _ _ _ (nodup_upto _) k ib).1]
    simp only [mem_upto]
  · intro hch hrk hprod
    have e1 := refresh_index_eq cfg cmd hch hrk hprod
    refine ⟨e1, ?_⟩
    intro cmd2 hch2 hrk2 heq
    have e2 := refresh_index_eq cfg cmd2 hch2 hrk2 hprod
    rw [heq, e1] at e2
    exact pair_of_case_eq cfg.ranks _ _ _ _ hrk2 hrk e2.symm

/-- C35 at the scenario: a `REFRESH` from the constructor state moves the cursor of bank 3
from 0 to 1. -/
theorem C35_refresh_table_frame_witness :
    refreshAll.cmd_type_ = CommandType.REFRESH ∧
    cursorAt (UpdatePower scenarioConfig scenarioEnv emptyStats scenarioState refreshAll
      0).refresh_count 0 3 = 1 := by
  have h := (C35_refresh_table_frame scenarioConfig scenarioEnv emptyStats scenarioState
    refreshAll 0).2.2.2.1 rfl 0 3
  refine ⟨rfl, ?_⟩
  rw [h]
  decide

/-! ## C36: low destination bits are discarded -/

theorem testBit_of_this_bit (x y : Nat) (q : Int)
    (h : GetBitInPos x q = GetBitInPos y q) : x.testBit q.toNat = y.testBit q.toNat := by
  unfold GetBitInPos at h
  have h1 := testBit_GetBitInPos x q.toNat 0
  have h2 := testBit_GetBitInPos y q.toNat 0
  rw [h] at h1
  rw [h1] at h2
  simpa using h2

theorem slice_congr (x y w off : Nat) (h : ∀ p, off ≤ p → x.testBit p = y.testBit p) :
    (x / 2 ^ off) % 2 ^ w = (y / 2 ^ off) % 2 ^ w := by
  apply Nat.eq_of_testBit_eq
  intro k
  rw [Bool.eq_iff_iff, testBit_slice, testBit_slice, h (off + k) (by omega)]

theorem new_hex_high_bits (mp : List (List Int)) (a b : Address) (hlen : mp.length = 6)
    (h : AgreeOffLowBits mp a b) (p : Nat) (hp : 3 ≤ p) :
    (GetPhyAddress_new_hex mp a).testBit p = (GetPhyAddress_new_hex mp b).testBit p := by
  have hgen : ∀ a b : Address, AgreeOffLowBits mp a b →
      (GetPhyAddress_new_hex mp a).testBit p = true →
      (GetPhyAddress_new_hex mp b).testBit p = true := by
    intro a b hab ha
    rw [testBit_new_hex] at ha ⊢
    obtain ⟨p64, i, hi, j, hj, hpos, hbit⟩ := ha
    refine ⟨p64, i, hi, j, hj, hpos, ?_⟩
    have hq := hab i (by omega) j hj (by omega) (by omega) (by omega)
    unfold GetPhyAddress_this_bit at hq
    have ht := testBit_of_this_bit _ _ _ hq
    have hidx : (Int.ofNat (mp.getD i []).length - Int.ofNat j - 1).toNat
        = (mp.getD i []).length - 1 - j := by
      simp only [Int.ofNat_eq_coe]
      omega
    rw [hidx] at ht
    rw [← ht]
    exact hbit
  have hsymm : AgreeOffLowBits mp b a := by
    intro i hi j hj h0 h1 h2
    exact (h i hi j hj h0 h1 h2).symm
  rw [Bool.eq_iff_iff]
  exact ⟨hgen a b h, hgen b a hsymm⟩

/-- C36. Low destination bits are discarded by the remapper: for the lambda installed for
six position lists, two addresses that agree on every source bit the lambda reads whose
configured destination position is not 0, 1 or 2 (so that they may differ in the source
bits sent to the positions 0, 1 and 2, and in bits the lambda never reads) have packed
integers that agree from bit 3 on and equal remapped addresses: the second loop starts
reading at bit `column_offset = 3`.  Every mapping installed for a non-empty
specification string is such a lambda. -/
theorem C36_low_bits_discarded (mp : List (List Int)) (a b : Address)
    (hlen : mp.length = 6) (h : AgreeOffLowBits mp a b) :
    GetPhyAddress_new_hex mp a / 2 ^ 3 = GetPhyAddress_new_hex mp b / 2 ^ 3 ∧
    GetPhyAddress_lambda mp a = GetPhyAddress_lambda mp b ∧
    (∀ (ops : StringOps) (s : List Char) (phy : Address → Address), s ≠ [] →
      SetPhyAddressMapping ops s = Except.ok phy →
      ∃ mp2 : List (List Int), mp2.length = 6 ∧ phy = GetPhyAddress_lambda mp2) := by
  have hb := new_hex_high_bits mp a b hlen h
  refine ⟨?_, ?_, ?_⟩
  · apply Nat.eq_of_testBit_eq
    intro k
    rw [← Nat.shiftRight_eq_div_pow, ← Nat.shiftRight_eq_div_pow, Nat.testBit_shiftRight,
      Nat.testBit_shiftRight]
    exact hb _ (by omega)
  · apply Address.ext_fields
    intro i hi
    rw [lambda_field mp hlen a i hi, lambda_field mp hlen b i hi]
    unfold ModuloWidth
    rw [slice_congr _ _ _ _ (fun p hp => hb p (by unfold fieldOffset at hp; omega))]
  · intro ops s phy hs hok
    obtain ⟨-, c2, c3, c4⟩ := SetPhyAddressMapping_cases ops s
    by_cases h6 : (ops.StringSplit s ',').length = 6
    · by_cases hall : ∀ f ∈ ops.StringSplit s ',', FieldOK ops f
      · rw [c3 hs h6 hall] at hok
        injection hok with hok
        exact ⟨_, by rw [List.length_map, h6], hok.symm⟩
      · rw [c4 hs h6 hall] at hok
        cases hok
    · rw [c2 hs h6] at hok
      cases hok

theorem lowColumn_agree : AgreeOffLowBits lowColumnPositions (columnOnly 7) (columnOnly 0) := by
  decide

/-- C36 for the specification `14,13,12,11:10,9:6,5:0`: the columns 7 and 0 differ in the
three bits sent to the positions 2, 1 and 0 and have the same remapped address. -/
theorem C36_low_bits_discarded_witness :
    lowColumnPositions.length = 6 ∧
    AgreeOffLowBits lowColumnPositions (columnOnly 7) (columnOnly 0) ∧
    columnOnly 7 ≠ columnOnly 0 ∧
    GetPhyAddress_lambda lowColumnPositions (columnOnly 7)
      = GetPhyAddress_lambda lowColumnPositions (columnOnly 0) :=
  ⟨rfl, lowColumn_agree, by decide,
    (C36_low_bits_discarded lowColumnPositions (columnOnly 7) (columnOnly 0) rfl
      lowColumn_agree).2.1⟩

end DRAMsim3
